import Mathlib

/-!
# CatBoost fold-scoring partition engine: a shallow embedding

The definitions below follow `catboost/libs/algo/calc_score_cache.cpp` and
`catboost/libs/algo/fold.cpp`.

Conventions of the embedding.

* A `TVector<T>` is a `List T`.  The member functions of `TCalcScoreFold` take the
  object as their first argument and return the updated object.
* `int`, `size_t` and `TIndexType` (`ui32`) values are natural numbers; every such
  value of the modelled code is a document count, a position below a document count,
  or a leaf code, and the arithmetic done on them (sums of at most one per document,
  `trueCount * 2`, `blockSize * sliceIdx`) is taken without wrap-around.  The one `int`
  that is made from a `double`, the `size` of `SelectTailSize`, is an integer, and the
  conversion has a result only for a value in the range of `int`, from `-2 ^ 31` to
  `2 ^ 31 - 1`.
* A `float` or `double` value is represented by the rational number it denotes.  The code
  moves, compares and negates such values, which is exact, and in one place it computes
  with them: the product `oldSize * multiplier` of `SelectTailSize` (`fold.cpp`, line 30)
  is a `double` operation, whose result is the exact product rounded to the nearest
  double (`RoundToDouble`).
* A parallel region (`ExecRange` with `WAIT_COMPLETE`) runs its tasks in increasing
  index order.  The tasks of every region modelled here write to disjoint places, apart
  from the `AtomicAdd`s, which commute.
* A read outside a vector yields the default value of the element type and a write
  outside a vector is dropped; the theorems about compaction assume the sizes that
  `Create` gives the object, under which the code makes no such access.  The read
  `queryEndInfo[size - 1]` of `SelectTailSize` for a `size` below 1, before the start of
  `queryEndInfo`, has no result instead.
* `Y_ASSERT`s are not modelled; `curDepth > 0`, which `SetSmallestSideControl` asserts,
  is a hypothesis where it matters.
* A loop whose number of iterations the code does not bound takes a `fuel` argument and
  yields `none` when the fuel runs out; the theorems say how much fuel is enough.  The
  loop of `BuildDynamicFold` also yields `none` when an iteration has no defined result.
* A function on `double` that the code only applies (the exponential) is a parameter.
* A stream is the list of the items written to it or still to be read from it.  A call
  that can raise (`LoadApproxes`) returns the object and the stream as they are when it
  ends, together with the exception it ended with, if any.
-/

namespace CatBoost

/-! ## Ranges of the local executor -/

/-- The `CeilDiv(x, y)` of `util`: the quotient rounded up. -/
def CeilDiv (x y : Nat) : Nat := (x + y - 1) / y

/-- The `NPar::TLocalExecutor::TExecRangeParams`: a range of task ids `[FirstId, LastId)`
cut into `BlockCount` blocks of `BlockSize` ids. -/
structure TExecRangeParams where
  FirstId : Nat
  LastId : Nat
  BlockSize : Nat
  BlockCount : Nat
  deriving DecidableEq, Repr

/-- The `TExecRangeParams::SetBlockSize(blockSize)`:
`BlockSize = blockSize; BlockCount = CeilDiv(LastId - FirstId, blockSize)`. -/
def TExecRangeParams.SetBlockSize (p : TExecRangeParams) (blockSize : Nat) : TExecRangeParams :=
  { p with BlockSize := blockSize, BlockCount := CeilDiv (p.LastId - p.FirstId) blockSize }

/-- The constructor `TExecRangeParams(firstId, lastId)`, which ends with `SetBlockSize(1)`. -/
def TExecRangeParams.create (firstId lastId : Nat) : TExecRangeParams :=
  TExecRangeParams.SetBlockSize ⟨firstId, lastId, 0, 0⟩ 1

/-- The `TLocalExecutor::BlockedLoopBody(params, body)(blockId)`: runs `body` on the ids
of block `blockId`, from `FirstId + blockId * BlockSize` up to the block's end clipped at
`LastId`.  The variables `body` captures by reference are the threaded state. -/
def BlockedLoopBody {σ : Type} (params : TExecRangeParams) (body : Nat → σ → σ)
    (blockId : Nat) (s : σ) : σ :=
  let blockFirstId := params.FirstId + blockId * params.BlockSize
  let blockLastId := min params.LastId (blockFirstId + params.BlockSize)
  (List.range' blockFirstId (blockLastId - blockFirstId)).foldl (fun s i => body i s) s

/-- The `ExecRange(exec, firstId, lastId, WAIT_COMPLETE)`: runs `exec` on every id of
`[firstId, lastId)` and waits for all of them. -/
def ExecRange {σ : Type} (exec : Nat → σ → σ) (firstId lastId : Nat) (s : σ) : σ :=
  (List.range' firstId (lastId - firstId)).foldl (fun s i => exec i s) s

/-- The `ExecRange(exec, blockParams, WAIT_COMPLETE)`: one task per block, each running
the blocked loop body. -/
def ExecRangeBlocked {σ : Type} (exec : Nat → σ → σ) (params : TExecRangeParams) (s : σ) : σ :=
  ExecRange (BlockedLoopBody params exec) 0 params.BlockCount s

/-! ## Pointers and array references -/

/-- The leaf-membership code of a document (`ui32` in the source). -/
abbrev TIndexType := Nat

/-- A `const T*` into a vector: `none` is `nullptr`, and `some l` points at the first
element of `l`, the part of the vector from the pointed-to position on. -/
abbrev TPtr (α : Type) := Option (List α)

/-- The read `p[i]`. -/
def TPtr.read {α : Type} [Inhabited α] (p : TPtr α) (i : Nat) : α :=
  match p with
  | some l => l.getD i default
  | none => default

/-- Modelled from the spec: `GetDataPtr(data, offset)` is declared in a helper header that
is not among the sources; it is the null pointer for an empty vector (this is what the
`sourceData != nullptr` test of `SetElements` looks for when it is handed
`TVector<T>()`), and `data.data() + offset` otherwise. -/
def GetDataPtr {α : Type} (data : List α) (offset : Nat) : TPtr α :=
  if data.isEmpty then none else some (data.drop offset)

/-- A `TArrayRef<const T>`: a data pointer and an element count. -/
structure TConstArrayRef (α : Type) where
  data : TPtr α
  size : Nat

/-- A `TArrayRef<T>` that is written through: the vector it points into, the position of
`data()` in that vector, and the element count. -/
structure TArrayRef (α : Type) where
  vec : List α
  offset : Nat
  size : Nat

/-- The store `data()[i] = x`. -/
def TArrayRef.write {α : Type} (r : TArrayRef α) (i : Nat) (x : α) : TArrayRef α :=
  { r with vec := r.vec.set (r.offset + i) x }

/-! ## Block partitioner -/

/-- The `TVectorSlicing::TSlice`: the range `[Offset, Offset + Size)`. -/
structure TSlice where
  Offset : Nat
  Size : Nat
  deriving DecidableEq, Repr, Inhabited

/-- Modelled from the spec: `TSlice::Clip(newSize)` is declared in `calc_score_cache.h`, which
is not among the sources; it keeps the offset and cuts the slice at position `newSize`, as
its use on `BodyFinish` and `TailFinish` ("documents in the corresponding source windows")
requires: `Size = Min(Max(newSize - Offset, 0), Size)`. -/
def TSlice.Clip (s : TSlice) (newSize : Nat) : TSlice :=
  { Offset := s.Offset, Size := min (newSize - s.Offset) s.Size }

/-- Modelled from the spec: `TSlice::GetConstRef(data)` is declared in `calc_score_cache.h`,
which is not among the sources; it is the slice's window of `data`,
`MakeArrayRef(GetDataPtr(data, Offset), Size)`. -/
def TSlice.GetConstRef {α : Type} (s : TSlice) (data : List α) : TConstArrayRef α :=
  { data := GetDataPtr data s.Offset, size := s.Size }

/-- Modelled from the spec: `TSlice::GetRef(data)` is declared in `calc_score_cache.h`, which
is not among the sources; it is the slice's writable window of `data`. -/
def TSlice.GetRef {α : Type} (s : TSlice) (data : List α) : TArrayRef α :=
  { vec := data, offset := s.Offset, size := s.Size }

/-- The `TCalcScoreFold::TVectorSlicing`. -/
structure TVectorSlicing where
  Total : Nat
  Slices : List TSlice
  deriving DecidableEq, Repr

/-- The `TVectorSlicing::Create(blockParams)`. -/
def TVectorSlicing.Create (blockParams : TExecRangeParams) : TVectorSlicing :=
  let Total := blockParams.LastId
  { Total := Total
    Slices := (List.range blockParams.BlockCount).map fun sliceIdx =>
      let Offset := blockParams.BlockSize * sliceIdx
      { Offset := Offset, Size := min blockParams.BlockSize (Total - Offset) } }

/-- The sequential second half of `CreateByControl`: every slice gets the running sum of
the sizes before it as its offset; the result is the slices and the final sum. -/
def TVectorSlicing.assignOffsets (sizes : List Nat) : List TSlice × Nat :=
  sizes.foldl (fun acc size => (acc.1 ++ [{ Offset := acc.2, Size := size }], acc.2 + size)) ([], 0)

/-- The `TVectorSlicing::CreateByControl(blockParams, control, localExecutor)`: one task per
block counts the `true` control entries of its block, then the offsets are the prefix sums
of the counts. -/
def TVectorSlicing.CreateByControl (blockParams : TExecRangeParams) (control : List Bool) :
    TVectorSlicing :=
  let controlData := GetDataPtr control 0
  let sizes : List Nat := (List.range blockParams.BlockCount).map fun sliceIdx =>
    BlockedLoopBody blockParams
      (fun doc (sliceSize : Nat) => sliceSize + (controlData.read doc).toNat) sliceIdx 0
  let r := TVectorSlicing.assignOffsets sizes
  { Total := r.2, Slices := r.1 }

/-! ## Compaction by a control mask -/

/-- The `Copy(sourceData, sourceData + sourceCount, destinationData)`. -/
def Copy {α : Type} [Inhabited α] (sourceData : TPtr α) (sourceCount : Nat)
    (dst : TArrayRef α) : TArrayRef α :=
  (List.range sourceCount).foldl (fun dst i => dst.write i (sourceData.read i)) dst

/-- The loop of `SetElements`, with `remaining = sourceCount - sourceIdx` iterations left:
the loop runs while `sourceIdx < sourceCount && endElementIdx < destinationCount`. -/
def SetElementsLoop {α : Type} [Inhabited α] (controlData : TPtr Bool) (sourceData : TPtr α)
    (GetElementFunc : TPtr α → Nat → α) (destinationCount : Nat) :
    Nat → Nat → Nat → TArrayRef α → TArrayRef α × Nat
  | 0, _, endElementIdx, dst => (dst, endElementIdx)
  | remaining + 1, sourceIdx, endElementIdx, dst =>
    if endElementIdx < destinationCount then
      SetElementsLoop controlData sourceData GetElementFunc destinationCount remaining
        (sourceIdx + 1) (endElementIdx + (controlData.read sourceIdx).toNat)
        (dst.write endElementIdx (GetElementFunc sourceData sourceIdx))
    else (dst, endElementIdx)

/-- The `SetElements(srcControlRef, srcRef, GetElementFunc, dstRef, dstCount)`; the result
is the destination after the call and the value stored to `*dstCount`. -/
def SetElements {α : Type} [Inhabited α] (srcControlRef : TConstArrayRef Bool)
    (srcRef : TConstArrayRef α) (GetElementFunc : TPtr α → Nat → α) (dstRef : TArrayRef α) :
    TArrayRef α × Nat :=
  let sourceData := srcRef.data
  let sourceCount := srcRef.size
  let destinationCount := dstRef.size
  if sourceData.isSome ∧ srcControlRef.size = destinationCount then
    (Copy sourceData sourceCount dstRef, sourceCount)
  else
    let controlData := srcControlRef.data
    SetElementsLoop controlData sourceData GetElementFunc destinationCount sourceCount 0 0 dstRef

/-- The `GetElement<TData>(source, j)`: `source[j]`. -/
def GetElement {α : Type} [Inhabited α] (source : TPtr α) (j : Nat) : α := source.read j

/-! ## The fold and the partition -/

/-- The `TCalcScoreFold::TBodyTail`. -/
structure TCalcScoreFold.TBodyTail where
  Derivatives : List (List ℚ)
  WeightedDer : List (List ℚ)
  BodyFinish : Nat
  TailFinish : Nat
  deriving DecidableEq, Inhabited

/-- Modelled from the spec: `TCompetitor` is declared in a header that is not among the
sources; an entry of a competitor list is an "(opponent-index, signed-weight)" pair. -/
structure TCompetitor where
  Id : Nat
  Weight : ℚ
  deriving DecidableEq, Inhabited

/-- Modelled from the spec: `TFold::TBodyTail` is declared in `fold.h`, which is not among
the sources; the fields are those of the spec's BodyTail (section 3) that
`calc_score_cache.cpp` and `fold.cpp` use. -/
structure TFold.TBodyTail where
  BodyFinish : Nat
  TailFinish : Nat
  Approx : List (List ℚ)
  Derivatives : List (List ℚ)
  WeightedDer : List (List ℚ)
  Competitors : List (List TCompetitor)
  deriving DecidableEq, Inhabited

/-- Modelled from the spec: `FoldPermutationBlockSizeNotSet` is a constant of `fold.h`, which
is not among the sources; it is a value that no block size takes. -/
def FoldPermutationBlockSizeNotSet : Int := -1

/-- Modelled from the spec: `TFold` is declared in `fold.h`, which is not among the sources;
the fields are those of the spec's Fold (section 3) that `calc_score_cache.cpp` reads. -/
structure TFold where
  LearnPermutation : List Nat
  PermutationBlockSize : Int
  LearnWeights : List ℚ
  SampleWeights : List ℚ
  BodyTailArr : List TFold.TBodyTail
  deriving DecidableEq, Inhabited

/-- The members of the template parameter `TFoldType` that `SelectBlockFromFold` reads; both
`TFold` and `TCalcScoreFold` have them. -/
structure TFoldType where
  LearnPermutation : List Nat
  LearnWeights : List ℚ
  SampleWeights : List ℚ
  BodyTailArr : List TCalcScoreFold.TBodyTail

/-- The body-tail members `SelectBlockFromFold` reads from a `TFold::TBodyTail`. -/
def TFold.TBodyTail.asFoldType (bt : TFold.TBodyTail) : TCalcScoreFold.TBodyTail :=
  { Derivatives := bt.Derivatives, WeightedDer := bt.WeightedDer,
    BodyFinish := bt.BodyFinish, TailFinish := bt.TailFinish }

/-- A `TFold` as the `TFoldType` of `SelectBlockFromFold`. -/
def TFold.asFoldType (fold : TFold) : TFoldType :=
  { LearnPermutation := fold.LearnPermutation, LearnWeights := fold.LearnWeights,
    SampleWeights := fold.SampleWeights,
    BodyTailArr := fold.BodyTailArr.map TFold.TBodyTail.asFoldType }

/-- The `TCalcScoreFold`.  Its vectors are `TUnsizedVector`s: they are allocated once, for
the whole fold, and `DocCount` says how many leading slots are in use. -/
structure TCalcScoreFold where
  Indices : List TIndexType
  LearnPermutation : List Nat
  IndexInFold : List Nat
  LearnWeights : List ℚ
  SampleWeights : List ℚ
  BodyTailArr : List TCalcScoreFold.TBodyTail
  SmallestSplitSideValue : Bool
  PermutationBlockSize : Int
  Control : List Bool
  DocCount : Nat
  BodyTailCount : Nat
  ApproxDimension : Nat
  BernoulliSampleRate : ℚ
  deriving DecidableEq, Inhabited

/-- A `TCalcScoreFold` as the `TFoldType` of `SelectBlockFromFold`. -/
def TCalcScoreFold.asFoldType (fold : TCalcScoreFold) : TFoldType :=
  { LearnPermutation := fold.LearnPermutation, LearnWeights := fold.LearnWeights,
    SampleWeights := fold.SampleWeights, BodyTailArr := fold.BodyTailArr }

/-- The random generator `TRestorableFastRng64`, as far as `Sample` uses it: the values its
successive `GenRandReal1()` calls return, and how many of them have been drawn. -/
structure TRestorableFastRng64 where
  stream : Nat → ℚ
  pos : Nat

/-- The `TRestorableFastRng64::GenRandReal1()`: the next draw and the advanced generator. -/
def TRestorableFastRng64.GenRandReal1 (rand : TRestorableFastRng64) :
    ℚ × TRestorableFastRng64 :=
  (rand.stream rand.pos, { rand with pos := rand.pos + 1 })

/-! ## Operations of `TCalcScoreFold` -/

/-- Modelled from the spec: `TCalcScoreFold::ClearBodyTail()` is declared in
`calc_score_cache.h`, which is not among the sources; the counters `BodyFinish` and
`TailFinish` of every body-tail are "recomputed (via atomic accumulation)", so they are
reset to zero before the blocks add their counts. -/
def TCalcScoreFold.ClearBodyTail (self : TCalcScoreFold) : TCalcScoreFold :=
  { self with
    BodyTailArr := self.BodyTailArr.map fun bodyTail =>
      { bodyTail with BodyFinish := 0, TailFinish := 0 } }

/-- The body of the `bodyTailIdx` loop of `SelectBlockFromFold` (lines 122-133): the
derivatives of every dimension are compacted from the clipped source blocks, and the last
counts are added to `BodyFinish` and `TailFinish`. -/
def TCalcScoreFold.SelectBlockBodyTail (ApproxDimension : Nat)
    (srcControlRef : TConstArrayRef Bool) (srcBodyTail dstBodyTail : TCalcScoreFold.TBodyTail)
    (srcBlock dstBlock : TSlice) : TCalcScoreFold.TBodyTail :=
  let srcBodyBlock := srcBlock.Clip srcBodyTail.BodyFinish
  let srcTailBlock := srcBlock.Clip srcBodyTail.TailFinish
  let r := (List.range ApproxDimension).foldl
    (fun (st : TCalcScoreFold.TBodyTail × Nat × Nat) dim =>
      let body := SetElements srcControlRef
        (srcBodyBlock.GetConstRef (srcBodyTail.Derivatives.getD dim [])) GetElement
        (dstBlock.GetRef (st.1.Derivatives.getD dim []))
      let tail := SetElements srcControlRef
        (srcTailBlock.GetConstRef (srcBodyTail.WeightedDer.getD dim [])) GetElement
        (dstBlock.GetRef (st.1.WeightedDer.getD dim []))
      ({ st.1 with
          Derivatives := st.1.Derivatives.set dim body.1.vec,
          WeightedDer := st.1.WeightedDer.set dim tail.1.vec }, body.2, tail.2))
    (dstBodyTail, 0, 0)
  { r.1 with BodyFinish := r.1.BodyFinish + r.2.1, TailFinish := r.1.TailFinish + r.2.2 }

/-- The `TCalcScoreFold::SelectBlockFromFold(fold, srcBlock, dstBlock)`. -/
def TCalcScoreFold.SelectBlockFromFold (self : TCalcScoreFold) (fold : TFoldType)
    (srcBlock dstBlock : TSlice) : TCalcScoreFold :=
  let srcControlRef := srcBlock.GetConstRef self.Control
  let self := { self with
    LearnPermutation := (SetElements srcControlRef (srcBlock.GetConstRef fold.LearnPermutation)
      GetElement (dstBlock.GetRef self.LearnPermutation)).1.vec }
  let self := { self with
    LearnWeights := (SetElements srcControlRef (srcBlock.GetConstRef fold.LearnWeights)
      GetElement (dstBlock.GetRef self.LearnWeights)).1.vec }
  let self := { self with
    SampleWeights := (SetElements srcControlRef (srcBlock.GetConstRef fold.SampleWeights)
      GetElement (dstBlock.GetRef self.SampleWeights)).1.vec }
  { self with
    BodyTailArr := (List.range self.BodyTailCount).foldl
      (fun (arr : List TCalcScoreFold.TBodyTail) bodyTailIdx =>
        arr.set bodyTailIdx
          (TCalcScoreFold.SelectBlockBodyTail self.ApproxDimension srcControlRef
            (fold.BodyTailArr.getD bodyTailIdx default) (arr.getD bodyTailIdx default)
            srcBlock dstBlock))
      self.BodyTailArr }

/-- The `TCalcScoreFold::SetSmallestSideControl(curDepth, indices, localExecutor)`.  The
source asserts `curDepth > 0` in debug builds. -/
def TCalcScoreFold.SetSmallestSideControl (self : TCalcScoreFold) (curDepth : Nat)
    (indices : List TIndexType) : TCalcScoreFold :=
  let docCount := indices.length
  let blockParams := (TExecRangeParams.create 0 docCount).SetBlockSize 4000
  let blockCount := blockParams.BlockCount
  let blockSize : List Nat := List.replicate blockCount 0
  let indicesData := GetDataPtr indices 0
  let blockSize := ExecRange (fun blockIdx (blockSize : List Nat) =>
      let size := BlockedLoopBody blockParams
        (fun docIdx (size : Nat) => size + (indicesData.read docIdx >>> (curDepth - 1)))
        blockIdx 0
      blockSize.set blockIdx size) 0 blockCount blockSize
  let trueCount := blockSize.foldl (fun trueCount size => trueCount + size) 0
  let splitWeight : TIndexType := 1 <<< (curDepth - 1)
  if trueCount * 2 > docCount then
    { self with
      SmallestSplitSideValue := false
      Control := ExecRangeBlocked (fun docIdx (controlData : List Bool) =>
        controlData.set docIdx (decide (indicesData.read docIdx < splitWeight)))
        blockParams self.Control }
  else
    { self with
      SmallestSplitSideValue := true
      Control := ExecRangeBlocked (fun docIdx (controlData : List Bool) =>
        controlData.set docIdx (decide (indicesData.read docIdx > splitWeight - 1)))
        blockParams self.Control }

/-- The `TCalcScoreFold::SetSampledControl(docCount, rand)`; the result is the object and
the generator after the draws. -/
def TCalcScoreFold.SetSampledControl (self : TCalcScoreFold) (docCount : Nat)
    (rand : TRestorableFastRng64) : TCalcScoreFold × TRestorableFastRng64 :=
  if self.BernoulliSampleRate = 1 then
    ({ self with Control := List.replicate self.Control.length true }, rand)
  else
    (List.range docCount).foldl
      (fun (st : TCalcScoreFold × TRestorableFastRng64) docIdx =>
        let draw := st.2.GenRandReal1
        ({ st.1 with
            Control := st.1.Control.set docIdx (decide (draw.1 < st.1.BernoulliSampleRate)) },
          draw.2))
      (self, rand)

/-- The task of block `blockIdx` in `SelectSmallestSplitSide` (lines 152-160). -/
def TCalcScoreFold.SelectSmallestSplitSideBlock (curDepth : Nat) (fold : TCalcScoreFold)
    (srcBlocks dstBlocks : TVectorSlicing) (blockIdx : Nat) (self : TCalcScoreFold) :
    TCalcScoreFold :=
  let srcBlock := srcBlocks.Slices.getD blockIdx default
  let srcControlRef := srcBlock.GetConstRef self.Control
  let srcIndicesRef := srcBlock.GetConstRef fold.Indices
  let dstBlock := dstBlocks.Slices.getD blockIdx default
  let splitWeight : TIndexType := 1 <<< (curDepth - 1)
  let self := { self with
    Indices := (SetElements srcControlRef (srcBlock.GetConstRef ([] : List TIndexType))
      (fun _ i => srcIndicesRef.data.read i ||| splitWeight)
      (dstBlock.GetRef self.Indices)).1.vec }
  let self := { self with
    IndexInFold := (SetElements srcControlRef (srcBlock.GetConstRef fold.IndexInFold)
      GetElement (dstBlock.GetRef self.IndexInFold)).1.vec }
  self.SelectBlockFromFold fold.asFoldType srcBlock dstBlock

/-- The `TCalcScoreFold::SelectSmallestSplitSide(curDepth, fold, localExecutor)`. -/
def TCalcScoreFold.SelectSmallestSplitSide (self : TCalcScoreFold) (curDepth : Nat)
    (fold : TCalcScoreFold) : TCalcScoreFold :=
  let blockParams := (TExecRangeParams.create 0 fold.DocCount).SetBlockSize 2000
  let blockCount := blockParams.BlockCount
  let srcBlocks := TVectorSlicing.Create blockParams
  let self := self.SetSmallestSideControl curDepth fold.Indices
  let dstBlocks := TVectorSlicing.CreateByControl blockParams self.Control
  let self := { self with DocCount := dstBlocks.Total }
  let self := self.ClearBodyTail
  let self := ExecRange
    (TCalcScoreFold.SelectSmallestSplitSideBlock curDepth fold srcBlocks dstBlocks)
    0 blockCount self
  { self with PermutationBlockSize := FoldPermutationBlockSizeNotSet }

/-- The task of block `blockIdx` in `Sample` (lines 179-185). -/
def TCalcScoreFold.SampleBlock (fold : TFold) (indices : List TIndexType)
    (srcBlocks dstBlocks : TVectorSlicing) (blockIdx : Nat) (self : TCalcScoreFold) :
    TCalcScoreFold :=
  let srcBlock := srcBlocks.Slices.getD blockIdx default
  let srcControlRef := srcBlock.GetConstRef self.Control
  let dstBlock := dstBlocks.Slices.getD blockIdx default
  let self := { self with
    Indices := (SetElements srcControlRef (srcBlock.GetConstRef indices) GetElement
      (dstBlock.GetRef self.Indices)).1.vec }
  let self := { self with
    IndexInFold := (SetElements srcControlRef (srcBlock.GetConstRef ([] : List Nat))
      (fun _ j => srcBlock.Offset + j) (dstBlock.GetRef self.IndexInFold)).1.vec }
  self.SelectBlockFromFold fold.asFoldType srcBlock dstBlock

/-- The `TCalcScoreFold::Sample(fold, indices, rand, localExecutor)`; the result is the
object and the generator after the call. -/
def TCalcScoreFold.Sample (self : TCalcScoreFold) (fold : TFold) (indices : List TIndexType)
    (rand : TRestorableFastRng64) : TCalcScoreFold × TRestorableFastRng64 :=
  let blockParams := (TExecRangeParams.create 0 indices.length).SetBlockSize 2000
  let blockCount := blockParams.BlockCount
  let srcBlocks := TVectorSlicing.Create blockParams
  let sampled := self.SetSampledControl indices.length rand
  let self := sampled.1
  let dstBlocks := TVectorSlicing.CreateByControl blockParams self.Control
  let self := { self with DocCount := dstBlocks.Total }
  let self := self.ClearBodyTail
  let self := ExecRange (TCalcScoreFold.SampleBlock fold indices srcBlocks dstBlocks)
    0 blockCount self
  ({ self with
      PermutationBlockSize :=
        if self.BernoulliSampleRate = 1 then fold.PermutationBlockSize
        else FoldPermutationBlockSizeNotSet },
    sampled.2)

/-- The task of block `blockIdx` in `UpdateIndices` (lines 206-210). -/
def TCalcScoreFold.UpdateIndicesBlock (indices : List TIndexType)
    (srcBlocks dstBlocks : TVectorSlicing) (blockIdx : Nat) (self : TCalcScoreFold) :
    TCalcScoreFold :=
  let srcBlock := srcBlocks.Slices.getD blockIdx default
  let dstBlock := dstBlocks.Slices.getD blockIdx default
  let srcControlRef := srcBlock.GetConstRef self.Control
  { self with
    Indices := (SetElements srcControlRef (srcBlock.GetConstRef indices) GetElement
      (dstBlock.GetRef self.Indices)).1.vec }

/-- The `TCalcScoreFold::UpdateIndices(indices, localExecutor)`. -/
def TCalcScoreFold.UpdateIndices (self : TCalcScoreFold) (indices : List TIndexType) :
    TCalcScoreFold :=
  let blockParams := (TExecRangeParams.create 0 indices.length).SetBlockSize 2000
  let blockCount := blockParams.BlockCount
  let srcBlocks := TVectorSlicing.Create blockParams
  let dstBlocks :=
    if self.BernoulliSampleRate < 1 then TVectorSlicing.CreateByControl blockParams self.Control
    else srcBlocks
  let self := { self with DocCount := dstBlocks.Total }
  ExecRange (TCalcScoreFold.UpdateIndicesBlock indices srcBlocks dstBlocks) 0 blockCount self

/-! ## Creation of the object -/

/-- The `yresize(n)` of a vector: the first `n` elements are kept and the new slots, which
the code leaves uninitialised, hold the default value of the element type. -/
def yresize {α : Type} [Inhabited α] (v : List α) (n : Nat) : List α :=
  v.take n ++ List.replicate (n - v.length) default

/-- Modelled from the spec: `TFold::GetApproxDimension()` is declared in `fold.h`, which is
not among the sources; the approximation dimensionality of a fold is the number of
per-dimension rows of the approximations of its first body-tail. -/
def TFold.GetApproxDimension (fold : TFold) : Nat :=
  (fold.BodyTailArr.getD 0 default).Approx.length

/-- The `TCalcScoreFold::Create(fold, sampleRate)` (lines 60-85). -/
def TCalcScoreFold.Create (self : TCalcScoreFold) (fold : TFold) (sampleRate : ℚ) :
    TCalcScoreFold :=
  let DocCount := fold.LearnPermutation.length
  let BodyTailCount := fold.BodyTailArr.length
  let ApproxDimension := fold.GetApproxDimension
  let bodyTailArr := yresize self.BodyTailArr BodyTailCount
  { self with
    BernoulliSampleRate := sampleRate,
    DocCount := DocCount,
    Indices := yresize self.Indices DocCount,
    LearnPermutation := yresize self.LearnPermutation DocCount,
    IndexInFold := yresize self.IndexInFold DocCount,
    LearnWeights := yresize self.LearnWeights DocCount,
    SampleWeights := yresize self.SampleWeights DocCount,
    Control := yresize self.Control DocCount,
    BodyTailCount := BodyTailCount,
    ApproxDimension := ApproxDimension,
    BodyTailArr := (List.range BodyTailCount).map fun bodyTailIdx =>
      let bodyTail := bodyTailArr.getD bodyTailIdx default
      let derivatives := yresize bodyTail.Derivatives ApproxDimension
      let weightedDer := yresize bodyTail.WeightedDer ApproxDimension
      { bodyTail with
        Derivatives := (List.range ApproxDimension).map fun dimIdx =>
          yresize (derivatives.getD dimIdx [])
            (fold.BodyTailArr.getD bodyTailIdx default).BodyFinish,
        WeightedDer := (List.range ApproxDimension).map fun dimIdx =>
          yresize (weightedDer.getD dimIdx [])
            (fold.BodyTailArr.getD bodyTailIdx default).TailFinish } }

/-! ## Vocabulary of the statements -/

/-- The source positions below `n` whose control entry is `true`, in increasing order: the
documents that survive a partition step over `n` source documents. -/
def survivors (control : List Bool) (n : Nat) : List Nat :=
  (List.range n).filter fun j => control.getD j false

/-- The sizes `TCalcScoreFold::Create(fold, sampleRate)` gives the object (lines 63-85): one
slot per document of the fold in every per-document vector and in the control mask, one
body-tail per body-tail of the fold, and in each of them `ApproxDimension > 0` rows of
`Derivatives` and `WeightedDer`, of the fold's `BodyFinish` and `TailFinish` elements. -/
def TCalcScoreFold.CreatedFor (self : TCalcScoreFold) (fold : TFold) : Prop :=
  self.Indices.length = fold.LearnPermutation.length ∧
  self.LearnPermutation.length = fold.LearnPermutation.length ∧
  self.IndexInFold.length = fold.LearnPermutation.length ∧
  self.LearnWeights.length = fold.LearnPermutation.length ∧
  self.SampleWeights.length = fold.LearnPermutation.length ∧
  self.Control.length = fold.LearnPermutation.length ∧
  self.BodyTailCount = fold.BodyTailArr.length ∧
  self.BodyTailArr.length = self.BodyTailCount ∧
  0 < self.ApproxDimension ∧
  ∀ b, b < self.BodyTailCount →
    (self.BodyTailArr.getD b default).Derivatives.length = self.ApproxDimension ∧
    (self.BodyTailArr.getD b default).WeightedDer.length = self.ApproxDimension ∧
    ∀ dim, dim < self.ApproxDimension →
      ((self.BodyTailArr.getD b default).Derivatives.getD dim []).length
        = (fold.BodyTailArr.getD b default).BodyFinish ∧
      ((self.BodyTailArr.getD b default).WeightedDer.getD dim []).length
        = (fold.BodyTailArr.getD b default).TailFinish

/-! ## A fold of ten documents -/

/-- The sampling rate one half. -/
def Example.half : ℚ := ⟨1, 2, by decide, by decide⟩

/-- A draw below one half. -/
def Example.low : ℚ := ⟨1, 10, by decide, by decide⟩

/-- A draw above one half. -/
def Example.high : ℚ := ⟨9, 10, by decide, by decide⟩

/-- A fold of ten documents in reverse order, of dimension one, with the two body-tails
`(3, 6)` and `(6, 10)`. -/
def Example.fold : TFold :=
  { LearnPermutation := [9, 8, 7, 6, 5, 4, 3, 2, 1, 0],
    PermutationBlockSize := 1,
    LearnWeights := [1, 1, 1, 1, 1, 1, 1, 1, 1, 1],
    SampleWeights := [1, 2, 3, 4, 5, 6, 7, 8, 9, 10],
    BodyTailArr :=
      [ { BodyFinish := 3,
          TailFinish := 6,
          Approx := [[0, 0, 0, 0, 0, 0]],
          Derivatives := [[10, 11, 12]],
          WeightedDer := [[20, 21, 22, 23, 24, 25]],
          Competitors := [] },
        { BodyFinish := 6,
          TailFinish := 10,
          Approx := [[0, 0, 0, 0, 0, 0, 0, 0, 0, 0]],
          Derivatives := [[10, 11, 12, 13, 14, 15]],
          WeightedDer := [[20, 21, 22, 23, 24, 25, 26, 27, 28, 29]],
          Competitors := [] } ] }

/-- The leaf codes of the ten documents at depth one. -/
def Example.indices : List TIndexType := [1, 0, 0, 1, 0, 0, 1, 0, 0, 0]

/-- A generator whose draws are below one half at the positions divisible by three. -/
def Example.rand : TRestorableFastRng64 :=
  { stream := fun i => if i % 3 = 0 then Example.low else Example.high, pos := 0 }

/-- The object `Create` makes for the example fold at a sampling rate. -/
def Example.created (sampleRate : ℚ) : TCalcScoreFold :=
  (default : TCalcScoreFold).Create Example.fold sampleRate

/-- The example fold sampled at rate one half: the documents 0, 3, 6 and 9 survive. -/
def Example.sampled : TCalcScoreFold :=
  ((Example.created Example.half).Sample Example.fold Example.indices Example.rand).1

/-- The example fold sampled at rate one: all ten documents survive. -/
def Example.full : TCalcScoreFold :=
  ((Example.created 1).Sample Example.fold Example.indices Example.rand).1

/-- A second generator, three draws further on in a stream that repeats the draws of
`Example.rand` with period three. -/
def Example.later : TRestorableFastRng64 :=
  { stream := fun i => if i % 3 = 0 then Example.low else Example.high, pos := 3 }

/-! ## Split-statistics cache -/

/-- Modelled from the spec: `TSplitCandidate` is declared in a header that is not among the
sources; a split candidate is "a (feature, threshold/bucket) pair", and the cache only
hashes candidates and compares them for equality. -/
structure TSplitCandidate where
  Feature : Nat
  Bucket : Nat
  deriving DecidableEq, Inhabited

/-- Modelled from the spec: `TBucketStats` is declared in a header that is not among the
sources; it holds the "per-bucket accumulators (count, sum of derivative, sum of weight,
etc.)", whose values the cache never looks at. -/
structure TBucketStats where
  Count : ℚ
  SumDelta : ℚ
  SumWeight : ℚ
  deriving DecidableEq, Inhabited

/-- The `TMemoryPool` of `util`, as far as the cache uses it.  `Requests` are the element
counts allocated from the pool since it was created or cleared, and `Waste` is the chunk
policy of the pool: the wasted memory as a function of those requests.  `Waste` is a
member so that the statements hold for every policy. -/
structure TMemoryPool where
  Requests : List Nat
  Waste : List Nat → Nat

/-- The `TMemoryPool::MemoryWaste()`. -/
def TMemoryPool.MemoryWaste (pool : TMemoryPool) : Nat :=
  pool.Waste pool.Requests

/-- An allocation of `count` elements from the pool. -/
def TMemoryPool.Allocate (pool : TMemoryPool) (count : Nat) : TMemoryPool :=
  { pool with Requests := pool.Requests ++ [count] }

/-- The `TMemoryPool::Clear()`. -/
def TMemoryPool.Clear (pool : TMemoryPool) : TMemoryPool :=
  { pool with Requests := [] }

/-- Modelled from the spec: `TBucketStatsCache` is declared in `calc_score_cache.h`, which is
not among the sources; the members are those `GetStats` and `GarbageCollect` name.  `Stats`,
the hash map from split candidates to holders of statistics vectors, is an association list
with one entry per key, and a holder is the address of its vector or `none` (the null
holder).  `Heap` holds the vectors made by `new` so far; the address of a vector is its
position in `Heap`, and a vector that `Stats.clear()` destroys keeps its position, so that
no address is handed out twice. -/
structure TBucketStatsCache where
  Stats : List (TSplitCandidate × Option Nat)
  Heap : List (List TBucketStats)
  MemoryPool : TMemoryPool
  InitialSize : Nat

/-- The `TBucketStatsCache::GetStats(split, statsCount, areStatsDirty)` (lines 9-23).  The
result is the address of the returned vector, the value stored to `*areStatsDirty`, and the
cache after the call.  The first case of the `match` is the condition
`Stats.has(split) && Stats[split] != nullptr`. -/
def TBucketStatsCache.GetStats (self : TBucketStatsCache) (split : TSplitCandidate)
    (statsCount : Nat) : (Nat × Bool) × TBucketStatsCache :=
  match self.Stats.lookup split with
  | some (some splitStats) => ((splitStats, false), self)
  | _ =>
    let splitStats := self.Heap.length
    let vec : List TBucketStats := yresize [] statsCount
    ((splitStats, true),
      { self with
        Heap := self.Heap ++ [vec],
        MemoryPool := self.MemoryPool.Allocate statsCount,
        Stats := (split, some splitStats) :: self.Stats.filter fun entry => entry.1 ≠ split })

/-- The `TBucketStatsCache::GarbageCollect()` (lines 25-30). -/
def TBucketStatsCache.GarbageCollect (self : TBucketStatsCache) : TBucketStatsCache :=
  if self.MemoryPool.MemoryWaste > self.InitialSize then
    { self with Stats := [], MemoryPool := self.MemoryPool.Clear }
  else
    self

/-- What a caller does with the reference `GetStats` returned: it stores statistics in the
vector at the address `splitStats`. -/
def TBucketStatsCache.Write (self : TBucketStatsCache) (splitStats : Nat)
    (stats : List TBucketStats) : TBucketStatsCache :=
  { self with Heap := self.Heap.set splitStats stats }

/-- A use of the cache between two garbage collections: a `GetStats` call, or a caller's
store into a vector it was handed. -/
inductive TCacheRequest where
  | GetStats (split : TSplitCandidate) (statsCount : Nat)
  | Write (splitStats : Nat) (stats : List TBucketStats)

/-- The cache after a request. -/
def TBucketStatsCache.Serve (self : TBucketStatsCache) : TCacheRequest → TBucketStatsCache
  | TCacheRequest.GetStats split statsCount => (self.GetStats split statsCount).2
  | TCacheRequest.Write splitStats stats => self.Write splitStats stats

/-- The cache after a sequence of requests. -/
def TBucketStatsCache.ServeAll (self : TBucketStatsCache) (requests : List TCacheRequest) :
    TBucketStatsCache :=
  requests.foldl TBucketStatsCache.Serve self

/-- A cache with one cached candidate whose vector holds two elements. -/
def Example.cache : TBucketStatsCache :=
  { Stats := [(⟨1, 0⟩, some 0)],
    Heap := [[default, default]],
    MemoryPool := { Requests := [2], Waste := fun requests => requests.sum },
    InitialSize := 2 }

/-! ## Building a fold (`fold.cpp`) -/

/-- The `resize(n, x)` of a vector: the first `n` elements are kept and the new slots hold
`x`. -/
def resize {α : Type} (v : List α) (n : Nat) (x : α) : List α :=
  v.take n ++ List.replicate (n - v.length) x

/-- Modelled from the spec: `TPair` is declared in a header that is not among the sources; a
pairwise comparison names its winner and its loser by their original document indices and
carries a weight. -/
structure TPair where
  WinnerId : Nat
  LoserId : Nat
  Weight : ℚ
  deriving DecidableEq, Inhabited

/-- Modelled from the spec: `TQueryInfo` is declared in a header that is not among the
sources; it holds the "group boundaries" of one query group, the positions
`[Begin, End)`. -/
structure TQueryInfo where
  Begin : Nat
  End : Nat
  deriving DecidableEq, Inhabited

/-- Modelled from the spec: `TQueryEndInfo` is declared in a header that is not among the
sources; for one position it holds the end of the query group the position lies in and the
index of that group. -/
structure TQueryEndInfo where
  QueryEnd : Nat
  QueryIndex : Nat
  deriving DecidableEq, Inhabited

/-- Modelled from the spec: `TTrainData` is declared in `train_data.h`, which is not among
the sources; it is the "loaded dataset exposing document count, [...] target values,
optional weights/query-ids/baseline/pairwise-comparison lists".  The learn documents come
first, `LearnSampleCount` of them, and the test documents follow. -/
structure TTrainData where
  LearnSampleCount : Nat
  LearnQueryCount : Nat
  Target : List ℚ
  Weights : List ℚ
  QueryId : List Nat
  QueryInfo : List TQueryInfo
  Baseline : List (List ℚ)
  Pairs : List TPair

/-- Modelled from the spec: `TTrainData::GetSampleCount()` is declared in `train_data.h`,
which is not among the sources; it is the "document count" of the loaded dataset, learn
and test documents together: the number of target values. -/
def TTrainData.GetSampleCount (data : TTrainData) : Nat :=
  data.Target.length

/-- The `Uniform(n)` of the generator: a value below `n` that the next draw decides, and
the advanced generator.  The value is the integer part of `n` times the draw, reduced below
`n`; a draw of `t / n` yields `t`, so every value below `n` is an outcome. -/
def TRestorableFastRng64.Uniform (rand : TRestorableFastRng64) (n : Nat) :
    Nat × TRestorableFastRng64 :=
  let draw := rand.GenRandReal1
  ((draw.1.num.toNat * n / draw.1.den) % n, draw.2)

/-- The `DoSwap(v[i], v[j])` of `util`. -/
def DoSwap {α : Type} [Inhabited α] (v : List α) (i j : Nat) : List α :=
  (v.set i (v.getD j default)).set j (v.getD i default)

/-- The `Shuffle(begin, end, rand)` of `util`:
`for (i = 1; i < sz; ++i) DoSwap(begin[i], begin[rand.Uniform(i + 1)])`. -/
def Shuffle {α : Type} [Inhabited α] (v : List α) (rand : TRestorableFastRng64) :
    List α × TRestorableFastRng64 :=
  (List.range' 1 (v.length - 1)).foldl
    (fun (st : List α × TRestorableFastRng64) i =>
      let u := st.2.Uniform (i + 1)
      (DoSwap st.1 i u.1, u.2))
    (v, rand)

/-- The query groups of `queryId` over the positions `[0, docCount)`: the start and the size
of every maximal run of equal consecutive ids, in order. -/
def QueryStartAndSize (queryId : List Nat) (docCount : Nat) : List (Nat × Nat) :=
  (List.range docCount).foldl
    (fun (queryStartAndSize : List (Nat × Nat)) docIdx =>
      if docIdx = 0 ∨ queryId.getD docIdx 0 ≠ queryId.getD (docIdx - 1) 0 then
        queryStartAndSize ++ [(docIdx, 1)]
      else
        queryStartAndSize.dropLast ++
          [((queryStartAndSize.getLastD (0, 0)).1, (queryStartAndSize.getLastD (0, 0)).2 + 1)])
    []

/-- Modelled from the spec: the body of the loop over the shuffled query groups in the
overload `Shuffle(queryId, rand, indices)` (declared in
`catboost/libs/helpers/permutation.h`, which is not among the sources): the documents of
the group `query` are written to the next free positions of `indices`, from `resultStart`
on, and shuffled there. -/
def ShuffleQueryGroup (st : (List Nat × TRestorableFastRng64) × Nat) (query : Nat × Nat) :
    (List Nat × TRestorableFastRng64) × Nat :=
  let initialStart := query.1
  let resultStart := st.2
  let size := query.2
  let indices := (List.range size).foldl
    (fun indices doc => indices.set (resultStart + doc) (initialStart + doc)) st.1.1
  let inner := Shuffle ((indices.drop resultStart).take size) st.1.2
  ((indices.take resultStart ++ inner.1 ++ indices.drop (resultStart + size), inner.2),
    resultStart + size)

/-- Modelled from the spec: the overload `Shuffle(queryId, rand, indices)` is declared in
`catboost/libs/helpers/permutation.h`, which is not among the sources.  It is "a full random
shuffle" of `indices`; for grouped data the group boundaries are recomputed "after
permutation", so the documents of a query group stay together: the groups are shuffled, and
the documents of every group are shuffled inside the group. -/
def ShuffleByQueryId (queryId : List Nat) (rand : TRestorableFastRng64) (indices : List Nat) :
    List Nat × TRestorableFastRng64 :=
  if queryId.isEmpty then
    Shuffle indices rand
  else
    let groups := Shuffle (QueryStartAndSize queryId indices.length) rand
    (groups.1.foldl ShuffleQueryGroup ((indices, groups.2), 0)).1

/-- Modelled from the spec: `UpdateQueriesInfo(queriesId, begin, end, queryInfo)` is defined
in `helpers.cpp`, which is not among the sources; it appends to `queryInfo` the "group
boundaries" of the positions `[begin, end)`: one `[Begin, End)` for every maximal run of
equal consecutive query ids. -/
def UpdateQueriesInfo (queriesId : List Nat) (beginIdx endIdx : Nat)
    (queryInfo : List TQueryInfo) : List TQueryInfo :=
  if beginIdx = endIdx then queryInfo
  else
    let r := (List.range' beginIdx (endIdx - beginIdx)).foldl
      (fun (st : List TQueryInfo × Nat) docId =>
        if queriesId.getD docId 0 ≠ queriesId.getD st.2 0 then
          (st.1 ++ [{ Begin := st.2, End := docId }], docId)
        else st)
      (queryInfo, beginIdx)
    r.1 ++ [{ Begin := r.2, End := endIdx }]

/-- Modelled from the spec: `GetQueryEndInfo(queriesInfo, learnSampleCount)` is defined in
`helpers.cpp`, which is not among the sources; for every position of every query group, in
order, it gives the end of the group and the index of the group. -/
def GetQueryEndInfo (queriesInfo : List TQueryInfo) (learnSampleCount : Nat) :
    List TQueryEndInfo :=
  (List.range queriesInfo.length).flatMap fun queryIndex =>
    List.replicate ((queriesInfo.getD queryIndex default).End
        - (queriesInfo.getD queryIndex default).Begin)
      { QueryEnd := (queriesInfo.getD queryIndex default).End, QueryIndex := queryIndex }

/-- Modelled from the spec: `GetNeutralApprox(storeExpApproxes)` is declared in a header that
is not among the sources; the neutral value is "0, or its multiplicative-identity transform
if the trainer represents approximations in exponentiated form". -/
def GetNeutralApprox (storeExpApproxes : Bool) : ℚ :=
  if storeExpApproxes then 1 else 0

/-- Modelled from the spec: `ExpApproxIf(storeExpApproxes, approx)` is declared in a header
that is not among the sources; it puts the approximations in "exponentiated form" when the
trainer stores them so.  The exponential on `double` is the parameter `exp`. -/
def ExpApproxIf (exp : ℚ → ℚ) (storeExpApproxes : Bool) (approx : List ℚ) : List ℚ :=
  if storeExpApproxes then approx.map exp else approx

/-- Modelled from the spec: `TFold::AssignPermuted(source, dest)` is declared in `fold.h`,
which is not among the sources; it gives `dest` one element per learn document, the
`source` values "re-permuted to match `LearnPermutation`":
`dest[z] = source[LearnPermutation[z]]`. -/
def TFold.AssignPermuted {α : Type} [Inhabited α] (self : TFold) (source : List α) : List α :=
  (List.range self.LearnPermutation.length).map fun z =>
    source.getD (self.LearnPermutation.getD z 0) default

/-- The `InvertPermutation(permutation)` (lines 8-14). -/
def InvertPermutation (permutation : List Nat) : List Nat :=
  (List.range permutation.length).foldl
    (fun result i => result.set (permutation.getD i 0) i)
    (List.replicate permutation.length 0)

/-- The `UpdateSize(size, queryEndInfo, learnSampleCount)` (lines 16-22). -/
def UpdateSize (size : Nat) (queryEndInfo : List TQueryEndInfo) (learnSampleCount : Nat) :
    Nat :=
  let size := min size learnSampleCount
  if ¬ queryEndInfo.isEmpty then (queryEndInfo.getD (size - 1) default).QueryEnd else size

/-- The `SelectMinBatchSize(learnSampleCount, queryEndInfo)` (lines 24-27). -/
def SelectMinBatchSize (learnSampleCount : Nat) (queryEndInfo : List TQueryEndInfo) : Nat :=
  let size := if learnSampleCount > 500 then min 100 (learnSampleCount / 50) else 1
  UpdateSize size queryEndInfo learnSampleCount

/-- The integer nearest to `x`, the even one of the two when `x` lies halfway between two
integers: the rounding of the IEEE-754 arithmetic in its default mode. -/
def RoundHalfEven (x : ℚ) : Int :=
  if x - Int.floor x < 1 / 2 then Int.floor x
  else if 1 / 2 < x - Int.floor x then Int.floor x + 1
  else if Int.floor x % 2 = 0 then Int.floor x
  else Int.floor x + 1

/-- The `double` that an arithmetic operation with the exact result `x` delivers (IEEE-754
binary64, round to nearest, ties to even).  The doubles with `2 ^ e <= |x| < 2 ^ (e + 1)`
are the multiples of `2 ^ (e - 52)`, and below `2 ^ (-1022)` they are the multiples of
`2 ^ (-1074)`; `x` is rounded to the nearest of these multiples.  Beyond the largest finite
double, where the operation delivers an infinity, the value stays finite here: the result
is only used where a value of that size has no defined conversion to `int` either. -/
def RoundToDouble (x : ℚ) : ℚ :=
  let e := max (Int.log 2 (abs x)) (-1022)
  (RoundHalfEven (x / 2 ^ (e - 52)) : ℚ) * 2 ^ (e - 52)

/-- The `SelectTailSize(oldSize, multiplier, queryEndInfo, learnSampleCount)` (lines 29-32).
The product `oldSize * multiplier` is a `double`: the exact product of the two numbers,
rounded.  Its `ceil` is an integer, and `int size = ceil(...)` has a result when that
integer is in the range of `int`.  `UpdateSize` leaves a `size` below 1 as it is when
there are no query ends, since it is not above `learnSampleCount`, and reads
`queryEndInfo[size - 1]` before the start of the array when there are.  The result is
`none` where the code has no defined result; the `double` the function returns is the
integer `UpdateSize` yields. -/
def SelectTailSize (oldSize : Nat) (multiplier : ℚ) (queryEndInfo : List TQueryEndInfo)
    (learnSampleCount : Nat) : Option Int :=
  let size := Int.ceil (RoundToDouble ((oldSize : ℚ) * multiplier))
  if size < -2147483648 ∨ 2147483647 < size then none
  else if 1 ≤ size then some (UpdateSize size.toNat queryEndInfo learnSampleCount)
  else if queryEndInfo.isEmpty then some size
  else none

/-- The `InitFromBaseline(beginIdx, endIdx, baseline, learnPermutation, storeExpApproxes,
approx)` (lines 34-55). -/
def InitFromBaseline (exp : ℚ → ℚ) (beginIdx endIdx : Nat) (baseline : List (List ℚ))
    (learnPermutation : List Nat) (storeExpApproxes : Bool) (approx : List (List ℚ)) :
    List (List ℚ) :=
  let learnSampleCount := learnPermutation.length
  let approxDimension := approx.length
  (List.range approxDimension).foldl
    (fun approx dim =>
      let tempBaseline := ExpApproxIf exp storeExpApproxes (baseline.getD dim [])
      (List.range' beginIdx (endIdx - beginIdx)).foldl
        (fun approx docId =>
          let initialIdx := if docId < learnSampleCount then learnPermutation.getD docId 0
            else docId
          approx.set dim ((approx.getD dim []).set docId (tempBaseline.getD initialIdx 0)))
        approx)
    approx

/-- The `ShuffleData(data, permuteBlockSize, rand, fold)` (lines 57-78). -/
def ShuffleData (data : TTrainData) (permuteBlockSize : Nat) (rand : TRestorableFastRng64)
    (fold : TFold) : TFold × TRestorableFastRng64 :=
  if permuteBlockSize = 1 ∨ ¬ data.QueryId.isEmpty then
    let r := ShuffleByQueryId data.QueryId rand fold.LearnPermutation
    ({ fold with LearnPermutation := r.1, PermutationBlockSize := 1 }, r.2)
  else
    let blocksCount := (data.LearnSampleCount + permuteBlockSize - 1) / permuteBlockSize
    let blockedPermute := Shuffle (List.range blocksCount) rand
    let r := (List.range blocksCount).foldl
      (fun (st : List Nat × Nat) i =>
        let blockStartIdx := blockedPermute.1.getD i 0 * permuteBlockSize
        let blockEndIndx := min (blockStartIdx + permuteBlockSize) data.LearnSampleCount
        ((List.range' blockStartIdx (blockEndIndx - blockStartIdx)).foldl
            (fun learnPermutation j => learnPermutation.set (st.2 + j - blockStartIdx) j) st.1,
          st.2 + (blockEndIndx - blockStartIdx)))
      (fold.LearnPermutation, 0)
    ({ fold with LearnPermutation := r.1, PermutationBlockSize := permuteBlockSize },
      blockedPermute.2)

/-- The body of the loop of `AssignCompetitors` (lines 246-264) for one pair. -/
def TFold.AssignCompetitorsPair (learnSampleCount bodyFinish tailFinish : Nat)
    (invertPermutation : List Nat) (competitors : List (List TCompetitor)) (pair : TPair) :
    List (List TCompetitor) :=
  if pair.WinnerId ≥ learnSampleCount ∨ pair.LoserId ≥ learnSampleCount then competitors
  else
    let winnerId := invertPermutation.getD pair.WinnerId 0
    let loserId := invertPermutation.getD pair.LoserId 0
    if winnerId ≥ tailFinish ∨ loserId ≥ tailFinish then competitors
    else
      let weight := pair.Weight
      let competitors :=
        if winnerId < bodyFinish ∨ winnerId > loserId then
          competitors.set winnerId
            (competitors.getD winnerId [] ++ [{ Id := loserId, Weight := weight }])
        else competitors
      if loserId < bodyFinish ∨ loserId > winnerId then
        competitors.set loserId
          (competitors.getD loserId [] ++ [{ Id := winnerId, Weight := -weight }])
      else competitors

/-- The `TFold::AssignCompetitors(pairs, invertPermutation, bt)` (lines 239-266). -/
def TFold.AssignCompetitors (self : TFold) (pairs : List TPair) (invertPermutation : List Nat)
    (bt : TFold.TBodyTail) : TFold.TBodyTail :=
  let learnSampleCount := self.LearnPermutation.length
  let bodyFinish := bt.BodyFinish
  let tailFinish := bt.TailFinish
  let competitors := resize bt.Competitors tailFinish []
  { bt with
    Competitors := pairs.foldl
      (TFold.AssignCompetitorsPair learnSampleCount bodyFinish tailFinish invertPermutation)
      competitors }

/-- The common start of `BuildDynamicFold` (lines 90-105) and `BuildPlainFold` (lines
155-170): the sample weights, the permutation and the permuted weights.  `AssignTarget`
fills members of the fold that are not represented here. -/
def BuildFoldPermutation (data : TTrainData) (shuffle : Bool) (permuteBlockSize : Nat)
    (rand : TRestorableFastRng64) : TFold × TRestorableFastRng64 :=
  let ff : TFold :=
    { LearnPermutation := [],
      PermutationBlockSize := FoldPermutationBlockSizeNotSet,
      LearnWeights := [],
      SampleWeights := [],
      BodyTailArr := [] }
  let ff := { ff with SampleWeights := resize ff.SampleWeights data.LearnSampleCount 1 }
  let ff := { ff with LearnPermutation := List.range data.LearnSampleCount }
  let shuffled :=
    if shuffle then ShuffleData data permuteBlockSize rand ff
    else ({ ff with PermutationBlockSize := (data.LearnSampleCount : Int) }, rand)
  let ff := shuffled.1
  let ff :=
    if ¬ data.Weights.isEmpty then { ff with LearnWeights := ff.AssignPermuted data.Weights }
    else ff
  (ff, shuffled.2)

/-- The `queryEndInfo` of `BuildDynamicFold` (lines 107-117) for the fold `ff`. -/
def BuildDynamicFold.queryEndInfo (data : TTrainData) (shuffle : Bool) (ff : TFold) :
    List TQueryEndInfo :=
  if ¬ data.QueryId.isEmpty then
    let queriesId := ff.AssignPermuted data.QueryId
    let learnQueryInfo :=
      if shuffle then UpdateQueriesInfo queriesId 0 data.LearnSampleCount []
      else data.QueryInfo.take data.LearnQueryCount
    GetQueryEndInfo learnQueryInfo data.LearnSampleCount
  else []

/-- The body of the loop of `BuildDynamicFold` (lines 124-139): the body-tail that starts at
`leftPartLen` and ends at `tailFinish`, the value that `SelectTailSize` returned for it.
The query bounds `BodyQueryFinish` and `TailQueryFinish` are not represented. -/
def BuildDynamicFold.bodyTail (exp : ℚ → ℚ) (data : TTrainData) (approxDimension : Nat)
    (storeExpApproxes : Bool) (invertPermutation : List Nat) (ff : TFold)
    (leftPartLen tailFinish : Nat) : TFold.TBodyTail :=
  let bt : TFold.TBodyTail := default
  let bt := { bt with BodyFinish := leftPartLen }
  let bt := { bt with TailFinish := tailFinish }
  let bt := { bt with
    Approx := resize bt.Approx approxDimension
      (List.replicate bt.TailFinish (GetNeutralApprox storeExpApproxes)) }
  let bt :=
    if ¬ data.Baseline.isEmpty then
      { bt with
        Approx := InitFromBaseline exp leftPartLen bt.TailFinish data.Baseline
          ff.LearnPermutation storeExpApproxes bt.Approx }
    else bt
  let bt := { bt with
    Derivatives := resize bt.Derivatives approxDimension (List.replicate bt.TailFinish 0) }
  let bt := { bt with
    WeightedDer := resize bt.WeightedDer approxDimension (List.replicate bt.TailFinish 0) }
  ff.AssignCompetitors data.Pairs invertPermutation bt

/-- The loop of `BuildDynamicFold` (lines 123-142), run for at most `fuel` iterations.  The
result is `none` when the loop has not ended by then, and when an iteration has no body-tail
to add: `SelectTailSize` has no defined result, or its result is negative, and the rows
`TVector<double>(bt.TailFinish, ...)` of a negative length cannot be made. -/
def BuildDynamicFold.loop (exp : ℚ → ℚ) (data : TTrainData) (approxDimension : Nat)
    (multiplier : ℚ) (storeExpApproxes : Bool) (queryEndInfo : List TQueryEndInfo)
    (invertPermutation : List Nat) : Nat → TFold → Nat → Option TFold
  | 0, ff, leftPartLen =>
    if ff.BodyTailArr.isEmpty ∨ leftPartLen < data.LearnSampleCount then none else some ff
  | fuel + 1, ff, leftPartLen =>
    if ff.BodyTailArr.isEmpty ∨ leftPartLen < data.LearnSampleCount then
      match SelectTailSize leftPartLen multiplier queryEndInfo data.LearnSampleCount with
      | some (Int.ofNat tailFinish) =>
        let bt := BuildDynamicFold.bodyTail exp data approxDimension storeExpApproxes
          invertPermutation ff leftPartLen tailFinish
        BuildDynamicFold.loop exp data approxDimension multiplier storeExpApproxes
          queryEndInfo invertPermutation fuel { ff with BodyTailArr := ff.BodyTailArr ++ [bt] }
          bt.TailFinish
      | _ => none
    else some ff

/-- The `BuildDynamicFold(data, targetClassifiers, shuffle, permuteBlockSize,
approxDimension, multiplier, storeExpApproxes, rand)` (lines 80-144), with the loop run for
at most `fuel` iterations.  The result is the fold and the generator after the call, or
`none` when the loop returns no fold. -/
def BuildDynamicFold (exp : ℚ → ℚ) (fuel : Nat) (data : TTrainData) (shuffle : Bool)
    (permuteBlockSize approxDimension : Nat) (multiplier : ℚ) (storeExpApproxes : Bool)
    (rand : TRestorableFastRng64) : Option (TFold × TRestorableFastRng64) :=
  let start := BuildFoldPermutation data shuffle permuteBlockSize rand
  let ff := start.1
  let queryEndInfo := BuildDynamicFold.queryEndInfo data shuffle ff
  let invertPermutation := InvertPermutation ff.LearnPermutation
  let leftPartLen := SelectMinBatchSize data.LearnSampleCount queryEndInfo
  (BuildDynamicFold.loop exp data approxDimension multiplier storeExpApproxes queryEndInfo
    invertPermutation fuel ff leftPartLen).map fun ff => (ff, start.2)

/-- The `BuildPlainFold(data, targetClassifiers, shuffle, permuteBlockSize, approxDimension,
storeExpApproxes, rand)` (lines 146-203); the query bounds of the body-tail are not
represented. -/
def BuildPlainFold (exp : ℚ → ℚ) (data : TTrainData) (shuffle : Bool)
    (permuteBlockSize approxDimension : Nat) (storeExpApproxes : Bool)
    (rand : TRestorableFastRng64) : TFold × TRestorableFastRng64 :=
  let start := BuildFoldPermutation data shuffle permuteBlockSize rand
  let ff := start.1
  let invertPermutation := InvertPermutation ff.LearnPermutation
  let bt : TFold.TBodyTail := default
  let bt := { bt with BodyFinish := data.LearnSampleCount }
  let bt := { bt with TailFinish := data.LearnSampleCount }
  let bt := { bt with
    Approx := resize bt.Approx approxDimension
      (List.replicate data.GetSampleCount (GetNeutralApprox storeExpApproxes)) }
  let bt := { bt with
    Derivatives := resize bt.Derivatives approxDimension
      (List.replicate data.GetSampleCount 0) }
  let bt := { bt with
    WeightedDer := resize bt.WeightedDer approxDimension
      (List.replicate data.GetSampleCount 0) }
  let bt :=
    if ¬ data.Baseline.isEmpty then
      { bt with
        Approx := InitFromBaseline exp 0 data.GetSampleCount data.Baseline
          ff.LearnPermutation storeExpApproxes bt.Approx }
    else bt
  let bt := ff.AssignCompetitors data.Pairs invertPermutation bt
  ({ ff with BodyTailArr := ff.BodyTailArr ++ [bt] }, start.2)

/-! ## Training data of ten learn documents -/

/-- Ten learn documents followed by two test documents, without weights, query ids and
baseline, with three pairs: one whose endpoints land at the positions 5 and 2 of the
reversed permutation, one whose endpoints land at the positions 9 and 8, and one whose
winner is not a learn document. -/
def Example.data : TTrainData :=
  { LearnSampleCount := 10,
    LearnQueryCount := 0,
    Target := [0, 1, 0, 1, 0, 1, 0, 1, 0, 1, 0, 1],
    Weights := [],
    QueryId := [],
    QueryInfo := [],
    Baseline := [],
    Pairs :=
      [ { WinnerId := 4, LoserId := 7, Weight := 1 },
        { WinnerId := 0, LoserId := 1, Weight := 1 },
        { WinnerId := 12, LoserId := 1, Weight := 1 } ] }

/-- The multiplier two. -/
def Example.two : ℚ := ⟨2, 1, by decide, by decide⟩

/-- A body-tail over the first six positions with a body of three and no competitors
yet. -/
def Example.bodyTail : TFold.TBodyTail :=
  { BodyFinish := 3,
    TailFinish := 6,
    Approx := [],
    Derivatives := [],
    WeightedDer := [],
    Competitors := [] }

/-! ## Saving and loading the approximations -/

/-- Modelled from the spec: the `::Save` and `::Load` of `util/ysaveload.h` are not among
the sources.  A stream holds what the calls wrote, in order; the calls of `SaveApproxes`
write "the BodyTail `Approx` arrays as an ordered sequence preceded by a count": an item is a
`ui64` count or one `TVector<TVector<double>>`. -/
inductive TStreamItem where
  | Count (value : Nat)
  | Approx (value : List (List ℚ))
  deriving DecidableEq

/-- An `IOutputStream`: the items written so far. -/
abbrev IOutputStream := List TStreamItem

/-- An `IInputStream`: the items still to be read. -/
abbrev IInputStream := List TStreamItem

/-- The exceptions of `LoadApproxes`: `CB_ENSURE` raises a `TCatboostException`, and a
`::Load` that does not find its item in the stream raises a `TLoadEOF`. -/
inductive TLoadError where
  | TCatboostException
  | TLoadEOF
  deriving DecidableEq

/-- Modelled from the spec: `::Save(s, x)` appends the item to the stream. -/
def Save (s : IOutputStream) (x : TStreamItem) : IOutputStream := s ++ [x]

/-- Modelled from the spec: `::Load(s, bodyTailCount)` for a `ui64` takes the count at the
front of the stream; the result is `none` when the stream does not start with a count. -/
def LoadCount (s : IInputStream) : Option (Nat × IInputStream) :=
  match s with
  | TStreamItem.Count n :: rest => some (n, rest)
  | _ => none

/-- Modelled from the spec: `::Load(s, approx)` for a `TVector<TVector<double>>` takes the
array at the front of the stream; the result is `none` when the stream does not start with
an array. -/
def LoadApprox (s : IInputStream) : Option (List (List ℚ) × IInputStream) :=
  match s with
  | TStreamItem.Approx a :: rest => some (a, rest)
  | _ => none

/-- The `TFold::SaveApproxes(s)` (lines 268-274). -/
def TFold.SaveApproxes (self : TFold) (s : IOutputStream) : IOutputStream :=
  let bodyTailCount := self.BodyTailArr.length
  let s := Save s (TStreamItem.Count bodyTailCount)
  (List.range bodyTailCount).foldl
    (fun s i => Save s (TStreamItem.Approx (self.BodyTailArr.getD i default).Approx)) s

/-- The state of a `LoadApproxes` call: the fold, the stream, and the exception that has
been raised, if any. -/
structure TLoadState where
  fold : TFold
  stream : IInputStream
  raised : Option TLoadError

/-- The body of the loop of `LoadApproxes` (lines 280-282) for the body-tail `i`; nothing
runs once an exception has been raised. -/
def TFold.LoadApproxesStep (st : TLoadState) (i : Nat) : TLoadState :=
  if st.raised.isSome then st
  else
    match LoadApprox st.stream with
    | none => { st with raised := some TLoadError.TLoadEOF }
    | some (approx, s) =>
      { st with
        fold := { st.fold with
          BodyTailArr := st.fold.BodyTailArr.set i
            { st.fold.BodyTailArr.getD i default with Approx := approx } },
        stream := s }

/-- The `TFold::LoadApproxes(s)` (lines 276-283); the result is the fold and the stream after
the call, and the exception the call ended with, if any. -/
def TFold.LoadApproxes (self : TFold) (s : IInputStream) : TLoadState :=
  match LoadCount s with
  | none => { fold := self, stream := s, raised := some TLoadError.TLoadEOF }
  | some (bodyTailCount, s) =>
    if bodyTailCount = self.BodyTailArr.length then
      (List.range bodyTailCount).foldl TFold.LoadApproxesStep
        { fold := self, stream := s, raised := none }
    else { fold := self, stream := s, raised := some TLoadError.TCatboostException }

/-- A second fold with the two body-tails of the example fold and other approximations. -/
def Example.trained : TFold :=
  { Example.fold with
    BodyTailArr :=
      [ { BodyFinish := 3,
          TailFinish := 6,
          Approx := [[1, 2, 3, 4, 5, 6]],
          Derivatives := [[10, 11, 12]],
          WeightedDer := [[20, 21, 22, 23, 24, 25]],
          Competitors := [] },
        { BodyFinish := 6,
          TailFinish := 10,
          Approx := [[1, 2, 3, 4, 5, 6, 7, 8, 9, 10]],
          Derivatives := [[10, 11, 12, 13, 14, 15]],
          WeightedDer := [[20, 21, 22, 23, 24, 25, 26, 27, 28, 29]],
          Competitors := [] } ] }

/-! ## Further examples -/

/-- The leaf codes of ten documents of which the first seven went right at depth one. -/
def Example.rightmost : List TIndexType := [1, 1, 1, 1, 1, 1, 1, 0, 0, 0]

/-- The example fold at rate one with seven of the ten documents in the right child. -/
def Example.majority : TCalcScoreFold :=
  ((Example.created 1).Sample Example.fold Example.rightmost Example.rand).1

/-- The leaf codes of ten documents that all went right at depth one. -/
def Example.ones : List TIndexType := [1, 1, 1, 1, 1, 1, 1, 1, 1, 1]

/-- A generator whose draws are all below one half. -/
def Example.always : TRestorableFastRng64 :=
  { stream := fun _ => Example.low, pos := 0 }

/-- The object of `Example.sampled` after an earlier use: it was first sampled at rate one
half with all draws below the rate and all leaf codes 1, and then sampled again as
`Example.sampled` is.  The documents 0, 3, 6 and 9 survive, and the slots behind them keep
the codes of the earlier use. -/
def Example.resampled : TCalcScoreFold :=
  ((((Example.created Example.half).Sample Example.fold Example.ones Example.always).1).Sample
    Example.fold Example.indices Example.rand).1

/-- The example data with a baseline: document `i` has the baseline `10 + i`. -/
def Example.baselineData : TTrainData :=
  { Example.data with Baseline := [[10, 11, 12, 13, 14, 15, 16, 17, 18, 19, 20, 21]] }

/-- A generator whose draws are alternately below and above one half. -/
def Example.alternate : TRestorableFastRng64 :=
  { stream := fun i => if i % 2 = 0 then Example.low else Example.high, pos := 0 }

/-- The double nearest to 1.3, `5854679515581645 * 2 ^ (-52)`; it is above 1.3. -/
def Example.thirteenTenths : ℚ := 5854679515581645 / 4503599627370496

/-- The double `2 ^ 31`, one more than the largest `int`. -/
def Example.huge : ℚ := 2147483648

/-- Example data: 510 learn documents and no test documents, without weights, query ids,
baseline and pairs.  The minimum batch size of these data is 10. -/
def Example.wide : TTrainData :=
  { LearnSampleCount := 510,
    LearnQueryCount := 0,
    Target := List.replicate 510 0,
    Weights := [],
    QueryId := [],
    QueryInfo := [],
    Baseline := [],
    Pairs := [] }

/-! # Theorems -/

/-! ## Generic facts about lists and folds -/

theorem read_GetDataPtr {α : Type} [Inhabited α] (data : List α) (off i : Nat) :
    (GetDataPtr data off).read i = data.getD (off + i) default := by
  unfold GetDataPtr TPtr.read
  cases data with
  | nil => simp
  | cons a l => simp [List.getD_eq_getElem?_getD, List.getElem?_drop]

theorem foldl_flatMap_eq {α β σ : Type} (f : σ → β → σ) (g : α → List β) (l : List α) (s : σ) :
    (l.flatMap g).foldl f s = l.foldl (fun s a => (g a).foldl f s) s := by
  induction l generalizing s with
  | nil => simp
  | cons a l ih => simp [List.flatMap_cons, List.foldl_append, ih]

theorem foldl_add_eq_sum {α : Type} (h : α → Nat) (l : List α) (a : Nat) :
    l.foldl (fun acc i => acc + h i) a = a + (l.map h).sum := by
  induction l generalizing a with
  | nil => simp
  | cons x l ih => simp [ih]; omega

theorem sum_toNat_eq_length_filter {α : Type} (c : α → Bool) (l : List α) :
    (l.map fun i => (c i).toNat).sum = (l.filter c).length := by
  induction l with
  | nil => simp
  | cons x l ih =>
    cases hx : c x <;> simp [List.filter_cons, hx, ih]
    omega

theorem ceilDiv_mul_ge (N B : Nat) (hB : 0 < B) : N ≤ CeilDiv N B * B := by
  unfold CeilDiv
  have h1 := Nat.div_add_mod (N + B - 1) B
  have h2 := Nat.mod_lt (N + B - 1) hB
  have h3 : B * ((N + B - 1) / B) = (N + B - 1) / B * B := Nat.mul_comm _ _
  omega

theorem ceilDiv_pred_mul_lt (N B b : Nat) (hB : 0 < B) (hb : b < CeilDiv N B) : b * B < N := by
  unfold CeilDiv at hb
  have h1 : b + 1 ≤ (N + B - 1) / B := hb
  have h2 : (b + 1) * B ≤ N + B - 1 := (Nat.le_div_iff_mul_le hB).1 h1
  have h3 : (b + 1) * B = b * B + B := by ring
  omega

theorem flatMap_blockRange (N B k : Nat) :
    (List.range k).flatMap (fun b => List.range' (b * B) (min N (b * B + B) - b * B))
      = List.range (min N (k * B)) := by
  induction k with
  | zero => simp
  | succ k ih =>
    rw [List.range_succ, List.flatMap_append, ih]
    simp only [List.flatMap_cons, List.flatMap_nil, List.append_nil]
    have hk : (k + 1) * B = k * B + B := by ring
    rw [hk, List.range_eq_range', List.range_eq_range']
    by_cases h : k * B ≤ N
    · rw [Nat.min_eq_right h]
      have := List.range'_append 0 (k * B) (min N (k * B + B) - k * B) 1
      simp only [Nat.zero_add, Nat.one_mul] at this
      rw [this]
      congr 1
      omega
    · have h1 : min N (k * B) = N := by omega
      have h2 : min N (k * B + B) - k * B = 0 := by omega
      have h3 : min N (k * B + B) = N := by omega
      rw [h1, h2, h3]
      simp

theorem blockParams_fields (N B : Nat) :
    ((TExecRangeParams.create 0 N).SetBlockSize B) =
      { FirstId := 0, LastId := N, BlockSize := B, BlockCount := CeilDiv N B } := by
  simp [TExecRangeParams.create, TExecRangeParams.SetBlockSize]

theorem ExecRange_zero {σ : Type} (exec : Nat → σ → σ) (n : Nat) (s : σ) :
    ExecRange exec 0 n s = (List.range n).foldl (fun s i => exec i s) s := by
  simp [ExecRange, List.range_eq_range']

theorem ExecRangeBlocked_eq {σ : Type} (exec : Nat → σ → σ) (N B : Nat) (hB : 0 < B) (s : σ) :
    ExecRangeBlocked exec ((TExecRangeParams.create 0 N).SetBlockSize B) s
      = (List.range N).foldl (fun s i => exec i s) s := by
  rw [blockParams_fields]
  unfold ExecRangeBlocked
  rw [ExecRange_zero]
  simp only [BlockedLoopBody, Nat.zero_add]
  have h := foldl_flatMap_eq (fun s i => exec i s)
    (fun b => List.range' (b * B) (min N (b * B + B) - b * B)) (List.range (CeilDiv N B)) s
  rw [← h, flatMap_blockRange]
  congr 2
  have := ceilDiv_mul_ge N B hB
  omega

/-! ## The block partitioner -/

theorem Create_slices_getElem? (N B b : Nat) (hb : b < CeilDiv N B) :
    (TVectorSlicing.Create ((TExecRangeParams.create 0 N).SetBlockSize B)).Slices[b]?
      = some { Offset := b * B, Size := min B (N - b * B) } := by
  rw [blockParams_fields]
  simp [TVectorSlicing.Create, List.getElem?_map, List.getElem?_range hb, Nat.mul_comm]

theorem Create_slices_getD (N B b : Nat) (hb : b < CeilDiv N B) :
    (TVectorSlicing.Create ((TExecRangeParams.create 0 N).SetBlockSize B)).Slices.getD b default
      = { Offset := b * B, Size := min B (N - b * B) } := by
  rw [List.getD_eq_getElem?_getD, Create_slices_getElem? N B b hb]
  rfl

theorem Create_slices_length (N B : Nat) :
    (TVectorSlicing.Create ((TExecRangeParams.create 0 N).SetBlockSize B)).Slices.length
      = CeilDiv N B := by
  rw [blockParams_fields]
  simp [TVectorSlicing.Create]

theorem sum_block_sizes (N B k : Nat) :
    ((List.range k).map fun i => min B (N - i * B)).sum = min N (k * B) := by
  induction k with
  | zero => simp
  | succ k ih =>
    rw [List.range_succ, List.map_append, List.sum_append, ih]
    have hk : (k + 1) * B = k * B + B := by ring
    simp only [List.map_cons, List.map_nil, List.sum_cons, List.sum_nil, hk]
    omega

theorem assignOffsets_spec (sizes : List Nat) :
    (TVectorSlicing.assignOffsets sizes).2 = sizes.sum ∧
    (TVectorSlicing.assignOffsets sizes).1.length = sizes.length ∧
    ∀ b, b < sizes.length →
      (TVectorSlicing.assignOffsets sizes).1[b]?
        = some { Offset := (sizes.take b).sum, Size := sizes.getD b 0 } := by
  induction sizes using List.reverseRecOn with
  | nil => simp [TVectorSlicing.assignOffsets]
  | append_singleton l a ih =>
    obtain ⟨h1, h2, h3⟩ := ih
    unfold TVectorSlicing.assignOffsets at h1 h2 h3 ⊢
    rw [List.foldl_append]
    simp only [List.foldl_cons, List.foldl_nil]
    refine ⟨by simp [h1], by simp [h2], ?_⟩
    intro b hb
    simp only [List.length_append, List.length_singleton] at hb
    by_cases hbl : b < l.length
    · rw [List.getElem?_append_left (by omega), h3 b hbl]
      simp [List.take_append_of_le_length (Nat.le_of_lt hbl), List.getD_eq_getElem?_getD,
        List.getElem?_append_left hbl]
    · have hbe : b = l.length := by omega
      subst hbe
      rw [List.getElem?_append_right (by omega)]
      simp [h2, h1, List.getD_eq_getElem?_getD]

theorem sum_length_filter_flatMap {α β : Type} (g : α → List β) (c : β → Bool) (l : List α) :
    (l.map fun a => ((g a).filter c).length).sum = ((l.flatMap g).filter c).length := by
  induction l with
  | nil => simp
  | cons a l ih => simp [List.flatMap_cons, List.filter_append, ih]

theorem blockCount_eq (control : List Bool) (N B b : Nat) :
    BlockedLoopBody ((TExecRangeParams.create 0 N).SetBlockSize B)
        (fun doc (sliceSize : Nat) => sliceSize + ((GetDataPtr control 0).read doc).toNat) b 0
      = ((List.range' (b * B) (min N (b * B + B) - b * B)).filter
          fun j => control.getD j false).length := by
  rw [blockParams_fields]
  simp only [BlockedLoopBody, Nat.zero_add]
  rw [foldl_add_eq_sum, Nat.zero_add]
  rw [← sum_toNat_eq_length_filter]
  congr 1
  apply List.map_congr_left
  intro j _
  rw [read_GetDataPtr]
  simp

theorem CreateByControl_sizes (control : List Bool) (N B : Nat) :
    (List.range (CeilDiv N B)).map (fun sliceIdx =>
        BlockedLoopBody ((TExecRangeParams.create 0 N).SetBlockSize B)
          (fun doc (sliceSize : Nat) => sliceSize + ((GetDataPtr control 0).read doc).toNat)
          sliceIdx 0)
      = (List.range (CeilDiv N B)).map fun b =>
          ((List.range' (b * B) (min N (b * B + B) - b * B)).filter
            fun j => control.getD j false).length := by
  apply List.map_congr_left
  intro b _
  exact blockCount_eq control N B b

theorem sum_take_sizes (control : List Bool) (N B K b : Nat) (hb : b ≤ K) :
    (((List.range K).map fun b =>
        ((List.range' (b * B) (min N (b * B + B) - b * B)).filter
          fun j => control.getD j false).length).take b).sum
      = (survivors control (min N (b * B))).length := by
  rw [← List.map_take, List.take_range, Nat.min_eq_left hb]
  rw [sum_length_filter_flatMap (fun b => List.range' (b * B) (min N (b * B + B) - b * B)),
    flatMap_blockRange]
  rfl

theorem CreateByControl_total (control : List Bool) (N B : Nat) (hB : 0 < B) :
    (TVectorSlicing.CreateByControl ((TExecRangeParams.create 0 N).SetBlockSize B) control).Total
      = (survivors control N).length := by
  unfold TVectorSlicing.CreateByControl
  simp only
  rw [(assignOffsets_spec _).1]
  have h0 : ((TExecRangeParams.create 0 N).SetBlockSize B).BlockCount = CeilDiv N B := by
    rw [blockParams_fields]
  rw [h0, CreateByControl_sizes]
  have h := sum_take_sizes control N B (CeilDiv N B) (CeilDiv N B) (Nat.le_refl _)
  rw [List.take_of_length_le (by simp)] at h
  rw [h]
  have := ceilDiv_mul_ge N B hB
  rw [Nat.min_eq_left this]

theorem CreateByControl_slices_length (control : List Bool) (N B : Nat) :
    (TVectorSlicing.CreateByControl
      ((TExecRangeParams.create 0 N).SetBlockSize B) control).Slices.length = CeilDiv N B := by
  unfold TVectorSlicing.CreateByControl
  simp only
  rw [(assignOffsets_spec _).2.1]
  rw [blockParams_fields]
  simp

theorem CreateByControl_slices_getD (control : List Bool) (N B b : Nat) (hB : 0 < B)
    (hb : b < CeilDiv N B) :
    (TVectorSlicing.CreateByControl
      ((TExecRangeParams.create 0 N).SetBlockSize B) control).Slices.getD b default
      = { Offset := (survivors control (b * B)).length,
          Size := ((List.range' (b * B) (min B (N - b * B))).filter
            fun j => control.getD j false).length } := by
  unfold TVectorSlicing.CreateByControl
  simp only
  have h0 : ((TExecRangeParams.create 0 N).SetBlockSize B).BlockCount = CeilDiv N B := by
    rw [blockParams_fields]
  rw [h0, CreateByControl_sizes, List.getD_eq_getElem?_getD,
    (assignOffsets_spec _).2.2 b (by simpa using hb)]
  rw [sum_take_sizes control N B (CeilDiv N B) b (Nat.le_of_lt hb)]
  have hlt := ceilDiv_pred_mul_lt N B b hB hb
  have h1 : min N (b * B) = b * B := by omega
  have h2 : min N (b * B + B) - b * B = min B (N - b * B) := by omega
  simp [h1, h2, List.getD_eq_getElem?_getD, List.getElem?_range hb]

/-- C10. `TVectorSlicing::Create` over the range `[0, N)` with block size `B >= 1` yields
`ceil(N / B)` slices, slice `i` being `(i * B, min(B, N - i * B))`: the first slice starts at
`0`, every slice starts where the one before it ends, every size lies in `[1, B]`, the sizes
add up to `N`, and `Total = N`. -/
theorem TVectorSlicing_Create_covers (N B : Nat) (hB : 1 ≤ B) :
    (TVectorSlicing.Create ((TExecRangeParams.create 0 N).SetBlockSize B)).Total = N ∧
    (TVectorSlicing.Create ((TExecRangeParams.create 0 N).SetBlockSize B)).Slices.length
      = (N + B - 1) / B ∧
    (∀ i, i < (N + B - 1) / B →
      (TVectorSlicing.Create ((TExecRangeParams.create 0 N).SetBlockSize B)).Slices[i]?
        = some { Offset := i * B, Size := min B (N - i * B) }) ∧
    (∀ sl, (TVectorSlicing.Create ((TExecRangeParams.create 0 N).SetBlockSize B)).Slices[0]?
        = some sl → sl.Offset = 0) ∧
    (∀ i sl next,
      (TVectorSlicing.Create ((TExecRangeParams.create 0 N).SetBlockSize B)).Slices[i]?
        = some sl →
      (TVectorSlicing.Create ((TExecRangeParams.create 0 N).SetBlockSize B)).Slices[i + 1]?
        = some next →
      next.Offset = sl.Offset + sl.Size) ∧
    (∀ sl ∈ (TVectorSlicing.Create ((TExecRangeParams.create 0 N).SetBlockSize B)).Slices,
      1 ≤ sl.Size ∧ sl.Size ≤ B) ∧
    ((TVectorSlicing.Create ((TExecRangeParams.create 0 N).SetBlockSize B)).Slices.map
      TSlice.Size).sum = N := by
  have hlen := Create_slices_length N B
  have hget := fun b hb => Create_slices_getElem? N B b hb
  have hK : CeilDiv N B = (N + B - 1) / B := rfl
  refine ⟨by rw [blockParams_fields]; rfl, hlen, fun i hi => hget i hi, ?_, ?_, ?_, ?_⟩
  · intro sl h0
    by_cases hpos : 0 < CeilDiv N B
    · rw [hget 0 hpos] at h0
      cases h0
      simp
    · rw [List.getElem?_eq_none (by omega)] at h0
      cases h0
  · intro i sl next hi hnext
    have hi1 : i + 1 < CeilDiv N B := by
      by_contra hcon
      rw [List.getElem?_eq_none (by omega)] at hnext
      cases hnext
    rw [hget i (by omega)] at hi
    rw [hget (i + 1) hi1] at hnext
    cases hi
    cases hnext
    have := ceilDiv_pred_mul_lt N B (i + 1) hB hi1
    have hk : (i + 1) * B = i * B + B := by ring
    simp only
    omega
  · intro sl hsl
    obtain ⟨i, hi, hsli⟩ := List.getElem_of_mem hsl
    have hi2 : i < CeilDiv N B := by omega
    have h := hget i hi2
    rw [List.getElem?_eq_getElem hi, hsli] at h
    cases h
    have := ceilDiv_pred_mul_lt N B i hB hi2
    simp only
    omega
  · rw [blockParams_fields]
    simp only [TVectorSlicing.Create, List.map_map]
    have h := sum_block_sizes N B (CeilDiv N B)
    have h2 := ceilDiv_mul_ge N B hB
    rw [Nat.min_eq_left h2] at h
    have hmap : ∀ l : List Nat,
        l.map (TSlice.Size ∘ fun sliceIdx =>
          ({ Offset := B * sliceIdx, Size := min B (N - B * sliceIdx) } : TSlice))
          = l.map fun i => min B (N - i * B) := by
      intro l
      apply List.map_congr_left
      intro i _
      simp [Nat.mul_comm]
    rw [hmap, h]

/-! ## Choosing the smaller side -/

theorem foldl_set_length {α : Type} (h : Nat → α) (js : List Nat) (l : List α) :
    (js.foldl (fun c i => c.set i (h i)) l).length = l.length := by
  induction js generalizing l with
  | nil => rfl
  | cons j js ih => simp [ih]

theorem foldl_set_getElem? {α : Type} (h : Nat → α) (n : Nat) (l : List α) (i : Nat) :
    ((List.range n).foldl (fun c i => c.set i (h i)) l)[i]?
      = if i < n ∧ i < l.length then some (h i) else l[i]? := by
  induction n with
  | zero => simp
  | succ n ih =>
    rw [List.range_succ, List.foldl_append]
    simp only [List.foldl_cons, List.foldl_nil, List.getElem?_set, foldl_set_length, ih]
    by_cases h1 : n = i
    · subst h1
      by_cases h2 : n < l.length
      · simp [h2]
      · simp [h2, List.getElem?_eq_none (Nat.le_of_not_lt h2)]
    · simp only [h1, if_false]
      by_cases h3 : i < n
      · have : i < n + 1 := by omega
        simp [h3, this]
      · have : ¬ i < n + 1 := by omega
        simp [h3, this]

theorem sum_map_sum_flatMap {α β : Type} (g : α → List β) (h : β → Nat) (l : List α) :
    (l.map fun a => ((g a).map h).sum).sum = ((l.flatMap g).map h).sum := by
  induction l with
  | nil => simp
  | cons a l ih => simp [List.flatMap_cons, ih]

theorem blockSizes_eq (K : Nat) (size : Nat → Nat) :
    ExecRange (fun blockIdx (blockSize : List Nat) => blockSize.set blockIdx (size blockIdx))
        0 K (List.replicate K 0)
      = (List.range K).map size := by
  rw [ExecRange_zero]
  apply List.ext_getElem?
  intro i
  rw [foldl_set_getElem?]
  by_cases hi : i < K
  · simp [hi, List.getElem?_range hi]
  · rw [if_neg (by omega), List.getElem?_map, List.getElem?_eq_none (by simp; omega),
      List.getElem?_eq_none (by simp; omega)]
    rfl

theorem trueCount_eq (indices : List Nat) (shift B : Nat) (hB : 0 < B) :
    (ExecRange (fun blockIdx (blockSize : List Nat) =>
        blockSize.set blockIdx
          (BlockedLoopBody ((TExecRangeParams.create 0 indices.length).SetBlockSize B)
            (fun docIdx (size : Nat) => size + ((GetDataPtr indices 0).read docIdx >>> shift))
            blockIdx 0))
        0 ((TExecRangeParams.create 0 indices.length).SetBlockSize B).BlockCount
        (List.replicate ((TExecRangeParams.create 0 indices.length).SetBlockSize B).BlockCount 0)
      ).foldl (fun trueCount size => trueCount + size) 0
      = (indices.map fun x => x >>> shift).sum := by
  have hK : ((TExecRangeParams.create 0 indices.length).SetBlockSize B).BlockCount
      = CeilDiv indices.length B := by rw [blockParams_fields]
  rw [hK, blockSizes_eq]
  have hfold : ∀ l : List Nat, l.foldl (fun trueCount size => trueCount + size) 0 = l.sum := by
    intro l
    have := foldl_add_eq_sum (fun x : Nat => x) l 0
    simpa using this
  rw [hfold]
  have hsize : ∀ b, BlockedLoopBody ((TExecRangeParams.create 0 indices.length).SetBlockSize B)
      (fun docIdx (size : Nat) => size + ((GetDataPtr indices 0).read docIdx >>> shift)) b 0
      = ((List.range' (b * B) (min indices.length (b * B + B) - b * B)).map
          fun doc => indices.getD doc 0 >>> shift).sum := by
    intro b
    rw [blockParams_fields]
    simp only [BlockedLoopBody, Nat.zero_add]
    rw [foldl_add_eq_sum, Nat.zero_add]
    congr 1
    apply List.map_congr_left
    intro j _
    rw [read_GetDataPtr]
    simp
  simp only [hsize]
  rw [sum_map_sum_flatMap (fun b => List.range' (b * B) (min indices.length (b * B + B) - b * B)),
    flatMap_blockRange]
  have := ceilDiv_mul_ge indices.length B hB
  rw [Nat.min_eq_left this]
  congr 1
  apply List.ext_getElem?
  intro i
  by_cases hi : i < indices.length
  · simp [List.getElem?_map, List.getElem?_range hi, List.getD_eq_getElem?_getD,
      List.getElem?_eq_getElem hi]
  · simp [List.getElem?_eq_none, Nat.le_of_not_lt hi]

theorem shiftRight_eq_testBit (x d : Nat) (hx : x < 2 ^ (d + 1)) :
    x >>> d = (x.testBit d).toNat := by
  rw [Nat.shiftRight_eq_div_pow, Nat.testBit_to_div_mod]
  have h : x / 2 ^ d < 2 := by
    rw [Nat.div_lt_iff_lt_mul (Nat.two_pow_pos d)]
    rw [Nat.pow_succ] at hx
    omega
  have h2 : x / 2 ^ d = 0 ∨ x / 2 ^ d = 1 := by
    generalize x / 2 ^ d = q at h
    omega
  rcases h2 with h2 | h2 <;> simp [h2]

theorem lt_splitWeight_iff (x d : Nat) (hx : x < 2 ^ (d + 1)) :
    x < 1 <<< d ↔ x.testBit d = false := by
  rw [Nat.one_shiftLeft, Nat.testBit_to_div_mod]
  have hpos := Nat.two_pow_pos d
  rw [Nat.pow_succ] at hx
  constructor
  · intro h
    have : x / 2 ^ d = 0 := Nat.div_eq_of_lt h
    simp [this]
  · intro h
    by_contra hcon
    have h3 : x / 2 ^ d < 2 := by
      rw [Nat.div_lt_iff_lt_mul hpos]
      omega
    have h1 : 2 ^ d ≤ x := Nat.le_of_not_lt hcon
    have h2 : 1 ≤ x / 2 ^ d := (Nat.le_div_iff_mul_le hpos).2 (by simpa using h1)
    have h4 : x / 2 ^ d = 1 := Nat.le_antisymm (Nat.le_of_lt_succ h3) h2
    simp [h4] at h

theorem gt_splitWeight_iff (x d : Nat) (hx : x < 2 ^ (d + 1)) :
    x > 1 <<< d - 1 ↔ x.testBit d = true := by
  have h := lt_splitWeight_iff x d hx
  have hpos : 0 < 1 <<< d := by rw [Nat.one_shiftLeft]; exact Nat.two_pow_pos d
  cases hb : x.testBit d
  · have := h.2 hb
    simp
    omega
  · have hn : ¬ x < 1 <<< d := by
      intro hlt
      have := h.1 hlt
      rw [hb] at this
      cases this
    simp
    omega

theorem SetSmallestSideControl_value (self : TCalcScoreFold) (curDepth : Nat)
    (indices : List TIndexType) :
    (self.SetSmallestSideControl curDepth indices).SmallestSplitSideValue
      = decide ((indices.map fun x => x >>> (curDepth - 1)).sum * 2 ≤ indices.length) := by
  unfold TCalcScoreFold.SetSmallestSideControl
  simp only
  rw [trueCount_eq indices (curDepth - 1) 4000 (by decide)]
  by_cases h : (indices.map fun x => x >>> (curDepth - 1)).sum * 2 > indices.length
  · rw [if_pos h]
    simp
    omega
  · rw [if_neg h]
    simp
    omega

theorem SetSmallestSideControl_control (self : TCalcScoreFold) (curDepth : Nat)
    (indices : List TIndexType) (i : Nat) :
    (self.SetSmallestSideControl curDepth indices).Control[i]?
      = if i < indices.length ∧ i < self.Control.length then
          some (if (self.SetSmallestSideControl curDepth indices).SmallestSplitSideValue
            then decide (indices.getD i 0 > 1 <<< (curDepth - 1) - 1)
            else decide (indices.getD i 0 < 1 <<< (curDepth - 1)))
        else self.Control[i]? := by
  unfold TCalcScoreFold.SetSmallestSideControl
  simp only
  split
  · simp only [ExecRangeBlocked_eq _ _ 4000 (by decide), foldl_set_getElem?, read_GetDataPtr]
    simp
  · simp only [ExecRangeBlocked_eq _ _ 4000 (by decide), foldl_set_getElem?, read_GetDataPtr]
    simp

theorem SetSmallestSideControl_control_length (self : TCalcScoreFold) (curDepth : Nat)
    (indices : List TIndexType) :
    (self.SetSmallestSideControl curDepth indices).Control.length = self.Control.length := by
  unfold TCalcScoreFold.SetSmallestSideControl
  simp only
  split <;> simp only [ExecRangeBlocked_eq _ _ 4000 (by decide), foldl_set_length]

theorem sum_shift_eq_count (indices : List Nat) (d : Nat) (h : ∀ x ∈ indices, x < 2 ^ (d + 1)) :
    (indices.map fun x => x >>> d).sum = (indices.filter fun x => x.testBit d).length := by
  rw [← sum_toNat_eq_length_filter]
  congr 1
  apply List.map_congr_left
  intro x hx
  exact shiftRight_eq_testBit x d (h x hx)

/-- C2. For a depth `d >= 1` and an index vector of length `n` whose entries are all below
`2^d`, with `c` the number of entries that have bit `d-1` set, `SetSmallestSideControl` sets
`SmallestSplitSideValue` to `true` exactly when `2 * c <= n` (a tie picks the bit-set side),
and sets `Control[i]`, for every document `i < n`, to whether bit `d-1` of the document's
code equals `SmallestSplitSideValue`; the control entries from `n` on are left as they were. -/
theorem SetSmallestSideControl_spec (self : TCalcScoreFold) (d : Nat)
    (indices : List TIndexType) (hd : 1 ≤ d) (hlt : ∀ x ∈ indices, x < 2 ^ d)
    (hlen : indices.length ≤ self.Control.length) :
    ((self.SetSmallestSideControl d indices).SmallestSplitSideValue = true ↔
      2 * (indices.filter fun x => x.testBit (d - 1)).length ≤ indices.length) ∧
    (∀ i (hi : i < indices.length),
      (self.SetSmallestSideControl d indices).Control[i]?
        = some ((indices[i].testBit (d - 1))
            == (self.SetSmallestSideControl d indices).SmallestSplitSideValue)) ∧
    (self.SetSmallestSideControl d indices).Control.drop indices.length
      = self.Control.drop indices.length := by
  have hd1 : d - 1 + 1 = d := by omega
  have hlt1 : ∀ x ∈ indices, x < 2 ^ (d - 1 + 1) := by rw [hd1]; exact hlt
  refine ⟨?_, ?_, ?_⟩
  · rw [SetSmallestSideControl_value, sum_shift_eq_count indices (d - 1) hlt1,
      decide_eq_true_iff]
    show (List.filter (fun x : Nat => x.testBit (d - 1)) indices).length * 2 ≤ indices.length ↔
      2 * (List.filter (fun x : Nat => x.testBit (d - 1)) indices).length ≤ indices.length
    omega
  · intro i hi
    rw [SetSmallestSideControl_control, if_pos ⟨hi, by omega⟩]
    have hx := hlt1 indices[i] (List.getElem_mem hi)
    have hget : indices.getD i 0 = indices[i] := List.getD_eq_getElem indices 0 hi
    rw [hget]
    congr 1
    cases hb : indices[i].testBit (d - 1) <;>
      cases hs : (self.SetSmallestSideControl d indices).SmallestSplitSideValue <;>
      simp [(gt_splitWeight_iff _ _ hx), (lt_splitWeight_iff _ _ hx), hb]
  · apply List.ext_getElem?
    intro i
    rw [List.getElem?_drop, List.getElem?_drop, SetSmallestSideControl_control,
      if_neg (by omega)]

/-! ## Compaction of one block -/

theorem take_set_self {α : Type} (l : List α) (n : Nat) (a : α) :
    (l.set n a).take n = l.take n := by
  rw [List.set_take]
  exact List.set_eq_of_length_le (by simp)

theorem take_succ_set {α : Type} (l : List α) (n : Nat) (a : α) (h : n < l.length) :
    (l.set n a).take (n + 1) = l.take n ++ [a] := by
  rw [List.take_succ, take_set_self, List.getElem?_set_self h]
  rfl

theorem write_offset {α : Type} (r : TArrayRef α) (i : Nat) (x : α) :
    (r.write i x).offset = r.offset := rfl

theorem write_vec {α : Type} (r : TArrayRef α) (i : Nat) (x : α) :
    (r.write i x).vec = r.vec.set (r.offset + i) x := rfl

theorem Copy_spec {α : Type} [Inhabited α] (sourceData : TPtr α) (m : Nat) (dst : TArrayRef α) :
    (Copy sourceData m dst).offset = dst.offset ∧
    (Copy sourceData m dst).vec.length = dst.vec.length ∧
    (dst.offset + m ≤ dst.vec.length →
      (Copy sourceData m dst).vec.take (dst.offset + m)
        = dst.vec.take dst.offset ++ (List.range m).map fun i => sourceData.read i) := by
  induction m with
  | zero => simp [Copy]
  | succ m ih =>
    obtain ⟨h1, h2, h3⟩ := ih
    unfold Copy at h1 h2 h3 ⊢
    rw [List.range_succ, List.foldl_append]
    simp only [List.foldl_cons, List.foldl_nil, write_offset, write_vec, List.length_set]
    refine ⟨h1, h2, ?_⟩
    intro hle
    rw [h1, ← Nat.add_assoc, take_succ_set _ _ _ (by rw [h2]; omega), h3 (by omega)]
    simp

theorem SetElementsLoop_spec {α : Type} [Inhabited α] (controlData : TPtr Bool)
    (sourceData : TPtr α) (f : TPtr α → Nat → α) (t : Nat) :
    ∀ (remaining i e : Nat) (dst : TArrayRef α),
      e + ((List.range' i remaining).filter fun j => controlData.read j).length ≤ t →
      (SetElementsLoop controlData sourceData f t remaining i e dst).2
        = e + ((List.range' i remaining).filter fun j => controlData.read j).length ∧
      (SetElementsLoop controlData sourceData f t remaining i e dst).1.vec.length
        = dst.vec.length ∧
      (dst.offset + (e + ((List.range' i remaining).filter fun j => controlData.read j).length)
          ≤ dst.vec.length →
        (SetElementsLoop controlData sourceData f t remaining i e dst).1.vec.take
            (dst.offset + (e + ((List.range' i remaining).filter
              fun j => controlData.read j).length))
          = dst.vec.take (dst.offset + e)
            ++ ((List.range' i remaining).filter fun j => controlData.read j).map
                fun j => f sourceData j) := by
  intro remaining
  induction remaining with
  | zero =>
    intro i e dst _
    simp [SetElementsLoop]
  | succ k ih =>
    intro i e dst hle
    rw [List.range'_succ] at hle ⊢
    unfold SetElementsLoop
    by_cases het : e < t
    · rw [if_pos het]
      cases hc : controlData.read i
      · simp only [List.filter_cons, hc, Bool.false_eq_true, if_false, Bool.toNat_false,
          Nat.add_zero] at hle ⊢
        obtain ⟨h1, h2, h3⟩ := ih (i + 1) e (dst.write e (f sourceData i)) hle
        refine ⟨h1, by rw [h2]; simp [write_vec], ?_⟩
        intro hlen
        have h3a := h3 (by simpa [write_offset, write_vec] using hlen)
        simp only [write_offset, write_vec] at h3a
        rw [h3a, take_set_self]
      · simp only [List.filter_cons, hc, if_true, Bool.toNat_true, List.length_cons,
          List.map_cons] at hle ⊢
        have hle2 : e + 1 + ((List.range' (i + 1) k).filter
            fun j => controlData.read j).length ≤ t := by omega
        obtain ⟨h1, h2, h3⟩ := ih (i + 1) (e + 1) (dst.write e (f sourceData i)) hle2
        refine ⟨by rw [h1]; omega, by rw [h2]; simp [write_vec], ?_⟩
        intro hlen
        have hrw : dst.offset + (e + (((List.range' (i + 1) k).filter
            fun j => controlData.read j).length + 1))
            = dst.offset + (e + 1 + ((List.range' (i + 1) k).filter
              fun j => controlData.read j).length) := by omega
        rw [hrw]
        have h3a := h3 (by simp only [write_offset, write_vec, List.length_set]; omega)
        simp only [write_offset, write_vec] at h3a
        rw [h3a, ← Nat.add_assoc, take_succ_set _ _ _ (by omega)]
        simp
    · rw [if_neg het]
      have hzero : ((i :: List.range' (i + 1) k).filter fun j => controlData.read j).length
          = 0 := by omega
      have hnil : (i :: List.range' (i + 1) k).filter (fun j => controlData.read j) = [] :=
        List.length_eq_zero.1 hzero
      rw [hnil]
      simp

theorem filter_range_all {c : Nat → Bool} {S : Nat}
    (h : ((List.range S).filter c).length = S) (m : Nat) (hm : m ≤ S) :
    (List.range m).filter c = List.range m := by
  have hall : ∀ a ∈ List.range S, c a = true := by
    have := (List.filter_length_eq_length (p := c) (l := List.range S)).1 (by simpa using h)
    exact this
  rw [List.filter_eq_self]
  intro a ha
  exact hall a (by
    rw [List.mem_range] at ha ⊢
    omega)

theorem filter_range_length_mono (c : Nat → Bool) (m S : Nat) (hm : m ≤ S) :
    ((List.range m).filter c).length ≤ ((List.range S).filter c).length :=
  ((List.range_sublist.2 hm).filter c).length_le

theorem SetElements_spec {α : Type} [Inhabited α] (srcControlRef : TConstArrayRef Bool)
    (srcRef : TConstArrayRef α) (f : TPtr α → Nat → α) (dstRef : TArrayRef α) (g : Nat → α)
    (hloop : ∀ i, f srcRef.data i = g i)
    (hfast : srcRef.data.isSome = true → ∀ i, srcRef.data.read i = g i)
    (hm : srcRef.size ≤ srcControlRef.size)
    (ht : dstRef.size
      = ((List.range srcControlRef.size).filter fun j => srcControlRef.data.read j).length) :
    (SetElements srcControlRef srcRef f dstRef).2
      = ((List.range srcRef.size).filter fun j => srcControlRef.data.read j).length ∧
    (SetElements srcControlRef srcRef f dstRef).1.vec.length = dstRef.vec.length ∧
    (dstRef.offset + ((List.range srcRef.size).filter
        fun j => srcControlRef.data.read j).length ≤ dstRef.vec.length →
      (SetElements srcControlRef srcRef f dstRef).1.vec.take
          (dstRef.offset + ((List.range srcRef.size).filter
            fun j => srcControlRef.data.read j).length)
        = dstRef.vec.take dstRef.offset
          ++ ((List.range srcRef.size).filter fun j => srcControlRef.data.read j).map g) := by
  unfold SetElements
  simp only
  by_cases hfp : srcRef.data.isSome = true ∧ srcControlRef.size = dstRef.size
  · rw [if_pos hfp]
    have hall := filter_range_all (c := fun j => srcControlRef.data.read j)
      (S := srcControlRef.size) (by rw [← ht, hfp.2]) srcRef.size hm
    rw [hall]
    obtain ⟨_, h2, h3⟩ := Copy_spec srcRef.data srcRef.size dstRef
    refine ⟨by simp, h2, ?_⟩
    intro hlen
    simp only [List.length_range] at hlen ⊢
    rw [h3 hlen]
    congr 1
    apply List.map_congr_left
    intro i _
    exact hfast hfp.1 i
  · rw [if_neg hfp]
    have hmono := filter_range_length_mono (fun j => srcControlRef.data.read j) _ _ hm
    have hle : 0 + ((List.range' 0 srcRef.size).filter
        fun j => srcControlRef.data.read j).length ≤ dstRef.size := by
      rw [← List.range_eq_range', ht]
      omega
    obtain ⟨h1, h2, h3⟩ := SetElementsLoop_spec srcControlRef.data srcRef.data f dstRef.size
      srcRef.size 0 0 dstRef hle
    simp only [← List.range_eq_range', Nat.zero_add, Nat.add_zero] at h1 h3
    refine ⟨h1, h2, ?_⟩
    intro hlen
    rw [h3 hlen]
    congr 1
    apply List.map_congr_left
    intro i _
    exact hloop i

theorem SetElements_empty_source {α : Type} [Inhabited α] (srcControlRef : TConstArrayRef Bool)
    (srcRef : TConstArrayRef α) (f : TPtr α → Nat → α) (dstRef : TArrayRef α)
    (hm : srcRef.size = 0) :
    (SetElements srcControlRef srcRef f dstRef).1.vec = dstRef.vec := by
  unfold SetElements
  simp only [hm]
  split
  · simp [Copy]
  · simp [SetElementsLoop]

/-! ## Compaction of a whole vector, block after block -/

theorem survivors_add (control : List Bool) (a m : Nat) :
    survivors control (a + m)
      = survivors control a ++ (List.range' a m).filter fun j => control.getD j false := by
  unfold survivors
  rw [List.range_eq_range', List.range_eq_range', ← List.filter_append]
  congr 1
  have := List.range'_append 0 a m 1
  simp only [Nat.zero_add, Nat.one_mul] at this
  rw [this, Nat.add_comm]

theorem survivors_length_mono (control : List Bool) (a b : Nat) (h : a ≤ b) :
    (survivors control a).length ≤ (survivors control b).length :=
  filter_range_length_mono _ a b h

theorem survivors_length_le (control : List Bool) (n : Nat) :
    (survivors control n).length ≤ n := by
  unfold survivors
  have := List.length_filter_le (fun j => control.getD j false) (List.range n)
  simpa using this

theorem filter_range_shift (c : Nat → Bool) (a m : Nat) :
    (List.range' a m).filter c = ((List.range m).filter fun i => c (a + i)).map fun i => a + i := by
  rw [List.range'_eq_map_range, List.filter_map]
  rfl

theorem blockStep_spec {α : Type} [Inhabited α] (control : List Bool) (N B L b : Nat)
    (srcData : TPtr α) (f : TPtr α → Nat → α) (g : Nat → α) (dst : List α)
    (hloop : ∀ i, f srcData i = g (b * B + i))
    (hfast : srcData.isSome = true → ∀ i, srcData.read i = g (b * B + i)) :
    (SetElements (TSlice.GetConstRef ⟨b * B, min B (N - b * B)⟩ control)
        ⟨srcData, min (L - b * B) (min B (N - b * B))⟩ f
        (TSlice.GetRef ⟨(survivors control (b * B)).length,
          ((List.range' (b * B) (min B (N - b * B))).filter
            fun j => control.getD j false).length⟩ dst)).2
      = ((List.range' (b * B) (min (L - b * B) (min B (N - b * B)))).filter
          fun j => control.getD j false).length ∧
    (SetElements (TSlice.GetConstRef ⟨b * B, min B (N - b * B)⟩ control)
        ⟨srcData, min (L - b * B) (min B (N - b * B))⟩ f
        (TSlice.GetRef ⟨(survivors control (b * B)).length,
          ((List.range' (b * B) (min B (N - b * B))).filter
            fun j => control.getD j false).length⟩ dst)).1.vec.length = dst.length ∧
    ((survivors control (b * B)).length
        + ((List.range' (b * B) (min (L - b * B) (min B (N - b * B)))).filter
            fun j => control.getD j false).length ≤ dst.length →
      (SetElements (TSlice.GetConstRef ⟨b * B, min B (N - b * B)⟩ control)
          ⟨srcData, min (L - b * B) (min B (N - b * B))⟩ f
          (TSlice.GetRef ⟨(survivors control (b * B)).length,
            ((List.range' (b * B) (min B (N - b * B))).filter
              fun j => control.getD j false).length⟩ dst)).1.vec.take
          ((survivors control (b * B)).length
            + ((List.range' (b * B) (min (L - b * B) (min B (N - b * B)))).filter
                fun j => control.getD j false).length)
        = dst.take (survivors control (b * B)).length
          ++ ((List.range' (b * B) (min (L - b * B) (min B (N - b * B)))).filter
              fun j => control.getD j false).map g) ∧
    (min (L - b * B) (min B (N - b * B)) = 0 →
      (SetElements (TSlice.GetConstRef ⟨b * B, min B (N - b * B)⟩ control)
          ⟨srcData, min (L - b * B) (min B (N - b * B))⟩ f
          (TSlice.GetRef ⟨(survivors control (b * B)).length,
            ((List.range' (b * B) (min B (N - b * B))).filter
              fun j => control.getD j false).length⟩ dst)).1.vec = dst) := by
  have hread : ∀ j, (TSlice.GetConstRef ⟨b * B, min B (N - b * B)⟩ control).data.read j
      = control.getD (b * B + j) false := by
    intro j
    simp only [TSlice.GetConstRef]
    exact read_GetDataPtr control (b * B) j
  have hcf : (fun j => (TSlice.GetConstRef ⟨b * B, min B (N - b * B)⟩ control).data.read j)
      = fun j => control.getD (b * B + j) false := funext hread
  have hlen : ∀ m, ((List.range' (b * B) m).filter fun j => control.getD j false).length
      = ((List.range m).filter fun j => control.getD (b * B + j) false).length := by
    intro m
    rw [filter_range_shift]
    simp
  obtain ⟨h1, h2, h3⟩ := SetElements_spec
    (TSlice.GetConstRef ⟨b * B, min B (N - b * B)⟩ control)
    ⟨srcData, min (L - b * B) (min B (N - b * B))⟩ f
    (TSlice.GetRef ⟨(survivors control (b * B)).length,
      ((List.range' (b * B) (min B (N - b * B))).filter
        fun j => control.getD j false).length⟩ dst)
    (fun i => g (b * B + i)) hloop hfast
    (by simp only [TSlice.GetConstRef]; omega)
    (by simp only [TSlice.GetRef, hcf]; rw [hlen]; rfl)
  simp only [hcf] at h1 h2 h3
  refine ⟨by rw [h1, hlen], h2, ?_, ?_⟩
  · intro hle
    rw [hlen (min (L - b * B) (min B (N - b * B)))] at hle ⊢
    have h3a := h3 hle
    rw [filter_range_shift (fun j => control.getD j false) (b * B)
      (min (L - b * B) (min B (N - b * B))), List.map_map]
    exact h3a
  · intro hm
    exact SetElements_empty_source _ _ _ _ hm

theorem pass_invariant {α : Type} (control : List Bool) (N B L : Nat) (g : Nat → α)
    (step : Nat → List α → List α)
    (hstep : ∀ b dst, b < CeilDiv N B →
      (step b dst).length = dst.length ∧
      ((survivors control (b * B)).length
          + ((List.range' (b * B) (min (L - b * B) (min B (N - b * B)))).filter
              fun j => control.getD j false).length ≤ dst.length →
        (step b dst).take ((survivors control (b * B)).length
            + ((List.range' (b * B) (min (L - b * B) (min B (N - b * B)))).filter
                fun j => control.getD j false).length)
          = dst.take (survivors control (b * B)).length
            ++ ((List.range' (b * B) (min (L - b * B) (min B (N - b * B)))).filter
                fun j => control.getD j false).map g) ∧
      (min (L - b * B) (min B (N - b * B)) = 0 → step b dst = dst)) :
    ∀ k, k ≤ CeilDiv N B → ∀ dst : List α, (survivors control (min L N)).length ≤ dst.length →
      ((List.range k).foldl (fun d b => step b d) dst).length = dst.length ∧
      ((List.range k).foldl (fun d b => step b d) dst).take
          (survivors control (min L (min N (k * B)))).length
        = (survivors control (min L (min N (k * B)))).map g := by
  intro k
  induction k with
  | zero =>
    intro _ dst _
    simp [survivors]
  | succ k ih =>
    intro hk dst hdst
    obtain ⟨ihlen, ihtake⟩ := ih (by omega) dst hdst
    rw [List.range_succ, List.foldl_append]
    simp only [List.foldl_cons, List.foldl_nil]
    obtain ⟨hs1, hs2, hs3⟩ := hstep k ((List.range k).foldl (fun d b => step b d) dst) hk
    refine ⟨by rw [hs1, ihlen], ?_⟩
    have hkN : k * B ≤ N := by
      by_cases hB : 0 < B
      · exact Nat.le_of_lt (ceilDiv_pred_mul_lt N B k hB hk)
      · have : B = 0 := by omega
        subst this
        simp
    have hk1 : (k + 1) * B = k * B + B := by ring
    by_cases hL : k * B ≤ L
    · have hM : min L (min N ((k + 1) * B))
          = k * B + min (L - k * B) (min B (N - k * B)) := by omega
      have hMk : min L (min N (k * B)) = k * B := by omega
      rw [hMk] at ihtake
      rw [hM, survivors_add, List.length_append, List.map_append, ← ihtake]
      apply hs2
      rw [ihlen]
      have h1 := survivors_length_mono control
        (k * B + min (L - k * B) (min B (N - k * B))) (min L N) (by omega)
      rw [survivors_add, List.length_append] at h1
      omega
    · have hm0 : min (L - k * B) (min B (N - k * B)) = 0 := by omega
      rw [hs3 hm0]
      have hM : min L (min N ((k + 1) * B)) = min L (min N (k * B)) := by omega
      rw [hM]
      exact ihtake

theorem pass_spec {α : Type} (control : List Bool) (N B L : Nat) (hB : 0 < B) (g : Nat → α)
    (step : Nat → List α → List α)
    (hstep : ∀ b dst, b < CeilDiv N B →
      (step b dst).length = dst.length ∧
      ((survivors control (b * B)).length
          + ((List.range' (b * B) (min (L - b * B) (min B (N - b * B)))).filter
              fun j => control.getD j false).length ≤ dst.length →
        (step b dst).take ((survivors control (b * B)).length
            + ((List.range' (b * B) (min (L - b * B) (min B (N - b * B)))).filter
                fun j => control.getD j false).length)
          = dst.take (survivors control (b * B)).length
            ++ ((List.range' (b * B) (min (L - b * B) (min B (N - b * B)))).filter
                fun j => control.getD j false).map g) ∧
      (min (L - b * B) (min B (N - b * B)) = 0 → step b dst = dst))
    (dst : List α) (hdst : (survivors control (min L N)).length ≤ dst.length) :
    ((List.range (CeilDiv N B)).foldl (fun d b => step b d) dst).length = dst.length ∧
    ((List.range (CeilDiv N B)).foldl (fun d b => step b d) dst).take
        (survivors control (min L N)).length
      = (survivors control (min L N)).map g := by
  have h := pass_invariant control N B L g step hstep (CeilDiv N B) (Nat.le_refl _) dst hdst
  have h2 := ceilDiv_mul_ge N B hB
  rw [Nat.min_eq_left h2] at h
  exact h

/-! ## Projections of the block loops -/

theorem foldl_proj {σ τ ι : Type} (P : σ → τ) (I : σ → Prop) (step : σ → ι → σ)
    (stepP : τ → ι → τ) (l : List ι)
    (hP : ∀ s i, i ∈ l → I s → P (step s i) = stepP (P s) i)
    (hI : ∀ s i, i ∈ l → I s → I (step s i)) (s : σ) (hs : I s) :
    P (l.foldl step s) = l.foldl stepP (P s) ∧ I (l.foldl step s) := by
  induction l generalizing s with
  | nil => exact ⟨rfl, hs⟩
  | cons a l ih =>
    simp only [List.foldl_cons]
    have h1 := hP s a (List.mem_cons_self a l) hs
    have h2 := hI s a (List.mem_cons_self a l) hs
    have := ih (fun s i hi => hP s i (List.mem_cons_of_mem a hi))
      (fun s i hi => hI s i (List.mem_cons_of_mem a hi)) (step s a) h2
    rw [h1] at this
    exact this

theorem compact_spec {α : Type} [Inhabited α] (control : List Bool) (N B L : Nat) (hB : 0 < B)
    (srcRef : TSlice → TConstArrayRef α) (f : TSlice → TPtr α → Nat → α) (g : Nat → α)
    (hsize : ∀ b, b < CeilDiv N B →
      (srcRef ⟨b * B, min B (N - b * B)⟩).size = min (L - b * B) (min B (N - b * B)))
    (hloop : ∀ b, b < CeilDiv N B → ∀ i,
      f ⟨b * B, min B (N - b * B)⟩ (srcRef ⟨b * B, min B (N - b * B)⟩).data i = g (b * B + i))
    (hfast : ∀ b, b < CeilDiv N B →
      (srcRef ⟨b * B, min B (N - b * B)⟩).data.isSome = true →
      ∀ i, (srcRef ⟨b * B, min B (N - b * B)⟩).data.read i = g (b * B + i))
    (dst : List α) (hdst : (survivors control (min L N)).length ≤ dst.length) :
    ((List.range (CeilDiv N B)).foldl (fun d b =>
        (SetElements
          (((TVectorSlicing.Create ((TExecRangeParams.create 0 N).SetBlockSize B)).Slices.getD
            b default).GetConstRef control)
          (srcRef ((TVectorSlicing.Create
            ((TExecRangeParams.create 0 N).SetBlockSize B)).Slices.getD b default))
          (f ((TVectorSlicing.Create
            ((TExecRangeParams.create 0 N).SetBlockSize B)).Slices.getD b default))
          (((TVectorSlicing.CreateByControl
            ((TExecRangeParams.create 0 N).SetBlockSize B) control).Slices.getD
              b default).GetRef d)).1.vec) dst).length = dst.length ∧
    ((List.range (CeilDiv N B)).foldl (fun d b =>
        (SetElements
          (((TVectorSlicing.Create ((TExecRangeParams.create 0 N).SetBlockSize B)).Slices.getD
            b default).GetConstRef control)
          (srcRef ((TVectorSlicing.Create
            ((TExecRangeParams.create 0 N).SetBlockSize B)).Slices.getD b default))
          (f ((TVectorSlicing.Create
            ((TExecRangeParams.create 0 N).SetBlockSize B)).Slices.getD b default))
          (((TVectorSlicing.CreateByControl
            ((TExecRangeParams.create 0 N).SetBlockSize B) control).Slices.getD
              b default).GetRef d)).1.vec) dst).take (survivors control (min L N)).length
      = (survivors control (min L N)).map g := by
  have hext := List.foldl_ext
    (fun d b =>
        (SetElements
          (((TVectorSlicing.Create ((TExecRangeParams.create 0 N).SetBlockSize B)).Slices.getD
            b default).GetConstRef control)
          (srcRef ((TVectorSlicing.Create
            ((TExecRangeParams.create 0 N).SetBlockSize B)).Slices.getD b default))
          (f ((TVectorSlicing.Create
            ((TExecRangeParams.create 0 N).SetBlockSize B)).Slices.getD b default))
          (((TVectorSlicing.CreateByControl
            ((TExecRangeParams.create 0 N).SetBlockSize B) control).Slices.getD
              b default).GetRef d)).1.vec)
    (fun d b => if b < CeilDiv N B then
        (SetElements (TSlice.GetConstRef ⟨b * B, min B (N - b * B)⟩ control)
          ⟨(srcRef ⟨b * B, min B (N - b * B)⟩).data, min (L - b * B) (min B (N - b * B))⟩
          (f ⟨b * B, min B (N - b * B)⟩)
          (TSlice.GetRef ⟨(survivors control (b * B)).length,
            ((List.range' (b * B) (min B (N - b * B))).filter
              fun j => control.getD j false).length⟩ d)).1.vec
      else d)
    dst (l := List.range (CeilDiv N B))
    (by
      intro d b hb
      rw [List.mem_range] at hb
      simp only [hb, if_true]
      rw [Create_slices_getD N B b hb, CreateByControl_slices_getD control N B b hB hb]
      congr 3
      rw [← hsize b hb])
  rw [hext]
  apply pass_spec control N B L hB g _ _ dst hdst
  intro b d hb
  simp only [hb, if_true]
  obtain ⟨_, h2, h3, h4⟩ := blockStep_spec control N B L b
    (srcRef ⟨b * B, min B (N - b * B)⟩).data (f ⟨b * B, min B (N - b * B)⟩) g d
    (hloop b hb) (hfast b hb)
  exact ⟨h2, h3, h4⟩

theorem compact_count {α : Type} [Inhabited α] (control : List Bool) (N B L b : Nat)
    (hB : 0 < B) (hb : b < CeilDiv N B) (src dst : List α) :
    (SetElements
      (((TVectorSlicing.Create ((TExecRangeParams.create 0 N).SetBlockSize B)).Slices.getD
        b default).GetConstRef control)
      ((((TVectorSlicing.Create ((TExecRangeParams.create 0 N).SetBlockSize B)).Slices.getD
        b default).Clip L).GetConstRef src)
      GetElement
      (((TVectorSlicing.CreateByControl
        ((TExecRangeParams.create 0 N).SetBlockSize B) control).Slices.getD
          b default).GetRef dst)).2
      = ((List.range' (b * B) (min (L - b * B) (min B (N - b * B)))).filter
          fun j => control.getD j false).length := by
  rw [Create_slices_getD N B b hb, CreateByControl_slices_getD control N B b hB hb]
  exact (blockStep_spec control N B L b (GetDataPtr src (b * B)) GetElement
    (fun j => src.getD j default) dst
    (fun i => read_GetDataPtr src (b * B) i)
    (fun _ i => read_GetDataPtr src (b * B) i)).1

/-! ## What the block tasks change -/

theorem foldl_keep {τ ι : Type} (l : List ι) (x : τ) : l.foldl (fun x _ => x) x = x := by
  induction l with
  | nil => rfl
  | cons a l ih => simp [ih]

/-- The frame of a block loop: the members no block task writes. -/
theorem blocks_frame (task : Nat → TCalcScoreFold → TCalcScoreFold)
    (hC : ∀ b s, (task b s).Control = s.Control)
    (hD : ∀ b s, (task b s).DocCount = s.DocCount)
    (hN : ∀ b s, (task b s).BodyTailCount = s.BodyTailCount)
    (hA : ∀ b s, (task b s).ApproxDimension = s.ApproxDimension)
    (hR : ∀ b s, (task b s).BernoulliSampleRate = s.BernoulliSampleRate)
    (hV : ∀ b s, (task b s).SmallestSplitSideValue = s.SmallestSplitSideValue)
    (hP : ∀ b s, (task b s).PermutationBlockSize = s.PermutationBlockSize)
    (K : Nat) (s : TCalcScoreFold) :
    (ExecRange task 0 K s).Control = s.Control ∧
    (ExecRange task 0 K s).DocCount = s.DocCount ∧
    (ExecRange task 0 K s).BodyTailCount = s.BodyTailCount ∧
    (ExecRange task 0 K s).ApproxDimension = s.ApproxDimension ∧
    (ExecRange task 0 K s).BernoulliSampleRate = s.BernoulliSampleRate ∧
    (ExecRange task 0 K s).SmallestSplitSideValue = s.SmallestSplitSideValue ∧
    (ExecRange task 0 K s).PermutationBlockSize = s.PermutationBlockSize := by
  rw [ExecRange_zero]
  refine ⟨?_, ?_, ?_, ?_, ?_, ?_, ?_⟩
  · have := (foldl_proj (fun s : TCalcScoreFold => s.Control) (fun _ => True)
      (fun s i => task i s) (fun x _ => x) (List.range K)
      (fun s i _ _ => hC i s) (fun _ _ _ _ => trivial) s trivial).1
    rw [this, foldl_keep]
  · have := (foldl_proj (fun s : TCalcScoreFold => s.DocCount) (fun _ => True)
      (fun s i => task i s) (fun x _ => x) (List.range K)
      (fun s i _ _ => hD i s) (fun _ _ _ _ => trivial) s trivial).1
    rw [this, foldl_keep]
  · have := (foldl_proj (fun s : TCalcScoreFold => s.BodyTailCount) (fun _ => True)
      (fun s i => task i s) (fun x _ => x) (List.range K)
      (fun s i _ _ => hN i s) (fun _ _ _ _ => trivial) s trivial).1
    rw [this, foldl_keep]
  · have := (foldl_proj (fun s : TCalcScoreFold => s.ApproxDimension) (fun _ => True)
      (fun s i => task i s) (fun x _ => x) (List.range K)
      (fun s i _ _ => hA i s) (fun _ _ _ _ => trivial) s trivial).1
    rw [this, foldl_keep]
  · have := (foldl_proj (fun s : TCalcScoreFold => s.BernoulliSampleRate) (fun _ => True)
      (fun s i => task i s) (fun x _ => x) (List.range K)
      (fun s i _ _ => hR i s) (fun _ _ _ _ => trivial) s trivial).1
    rw [this, foldl_keep]
  · have := (foldl_proj (fun s : TCalcScoreFold => s.SmallestSplitSideValue) (fun _ => True)
      (fun s i => task i s) (fun x _ => x) (List.range K)
      (fun s i _ _ => hV i s) (fun _ _ _ _ => trivial) s trivial).1
    rw [this, foldl_keep]
  · have := (foldl_proj (fun s : TCalcScoreFold => s.PermutationBlockSize) (fun _ => True)
      (fun s i => task i s) (fun x _ => x) (List.range K)
      (fun s i _ _ => hP i s) (fun _ _ _ _ => trivial) s trivial).1
    rw [this, foldl_keep]

/-- A member written by every block task from the control mask and its own old value only
is, after the loop, the fold of the per-block steps. -/
theorem blocks_member {τ : Type} (task : Nat → TCalcScoreFold → TCalcScoreFold)
    (P : TCalcScoreFold → τ) (stepP : List Bool → Nat → Nat → τ → Nat → τ)
    (hC : ∀ b s, (task b s).Control = s.Control)
    (hN : ∀ b s, (task b s).BodyTailCount = s.BodyTailCount)
    (hA : ∀ b s, (task b s).ApproxDimension = s.ApproxDimension)
    (hP : ∀ b s, P (task b s) = stepP s.Control s.BodyTailCount s.ApproxDimension (P s) b)
    (K : Nat) (s : TCalcScoreFold) :
    P (ExecRange task 0 K s)
      = (List.range K).foldl (stepP s.Control s.BodyTailCount s.ApproxDimension) (P s) := by
  rw [ExecRange_zero]
  exact (foldl_proj P
    (fun t => t.Control = s.Control ∧ t.BodyTailCount = s.BodyTailCount
      ∧ t.ApproxDimension = s.ApproxDimension)
    (fun s i => task i s) (stepP s.Control s.BodyTailCount s.ApproxDimension) (List.range K)
    (fun t i _ ht => by rw [hP, ht.1, ht.2.1, ht.2.2])
    (fun t i _ ht => ⟨by rw [hC, ht.1], by rw [hN, ht.2.1], by rw [hA, ht.2.2]⟩)
    s ⟨rfl, rfl, rfl⟩).1

theorem SampleBlock_frame (fold : TFold) (indices : List TIndexType)
    (srcBlocks dstBlocks : TVectorSlicing) (K : Nat) (s : TCalcScoreFold) :
    (ExecRange (TCalcScoreFold.SampleBlock fold indices srcBlocks dstBlocks) 0 K s).Control
      = s.Control ∧
    (ExecRange (TCalcScoreFold.SampleBlock fold indices srcBlocks dstBlocks) 0 K s).DocCount
      = s.DocCount ∧
    (ExecRange (TCalcScoreFold.SampleBlock fold indices srcBlocks dstBlocks) 0 K
      s).BodyTailCount = s.BodyTailCount ∧
    (ExecRange (TCalcScoreFold.SampleBlock fold indices srcBlocks dstBlocks) 0 K
      s).ApproxDimension = s.ApproxDimension ∧
    (ExecRange (TCalcScoreFold.SampleBlock fold indices srcBlocks dstBlocks) 0 K
      s).BernoulliSampleRate = s.BernoulliSampleRate ∧
    (ExecRange (TCalcScoreFold.SampleBlock fold indices srcBlocks dstBlocks) 0 K
      s).SmallestSplitSideValue = s.SmallestSplitSideValue ∧
    (ExecRange (TCalcScoreFold.SampleBlock fold indices srcBlocks dstBlocks) 0 K
      s).PermutationBlockSize = s.PermutationBlockSize :=
  blocks_frame (TCalcScoreFold.SampleBlock fold indices srcBlocks dstBlocks)
    (fun _ _ => rfl) (fun _ _ => rfl) (fun _ _ => rfl) (fun _ _ => rfl)
    (fun _ _ => rfl) (fun _ _ => rfl) (fun _ _ => rfl) K s

theorem SelectSmallestSplitSideBlock_frame (curDepth : Nat) (fold : TCalcScoreFold)
    (srcBlocks dstBlocks : TVectorSlicing) (K : Nat) (s : TCalcScoreFold) :
    (ExecRange (TCalcScoreFold.SelectSmallestSplitSideBlock curDepth fold srcBlocks dstBlocks)
      0 K s).Control = s.Control ∧
    (ExecRange (TCalcScoreFold.SelectSmallestSplitSideBlock curDepth fold srcBlocks dstBlocks)
      0 K s).DocCount = s.DocCount ∧
    (ExecRange (TCalcScoreFold.SelectSmallestSplitSideBlock curDepth fold srcBlocks dstBlocks)
      0 K s).BodyTailCount = s.BodyTailCount ∧
    (ExecRange (TCalcScoreFold.SelectSmallestSplitSideBlock curDepth fold srcBlocks dstBlocks)
      0 K s).ApproxDimension = s.ApproxDimension ∧
    (ExecRange (TCalcScoreFold.SelectSmallestSplitSideBlock curDepth fold srcBlocks dstBlocks)
      0 K s).BernoulliSampleRate = s.BernoulliSampleRate ∧
    (ExecRange (TCalcScoreFold.SelectSmallestSplitSideBlock curDepth fold srcBlocks dstBlocks)
      0 K s).SmallestSplitSideValue = s.SmallestSplitSideValue ∧
    (ExecRange (TCalcScoreFold.SelectSmallestSplitSideBlock curDepth fold srcBlocks dstBlocks)
      0 K s).PermutationBlockSize = s.PermutationBlockSize :=
  blocks_frame (TCalcScoreFold.SelectSmallestSplitSideBlock curDepth fold srcBlocks dstBlocks)
    (fun _ _ => rfl) (fun _ _ => rfl) (fun _ _ => rfl) (fun _ _ => rfl)
    (fun _ _ => rfl) (fun _ _ => rfl) (fun _ _ => rfl) K s

theorem UpdateIndicesBlock_frame (indices : List TIndexType)
    (srcBlocks dstBlocks : TVectorSlicing) (K : Nat) (s : TCalcScoreFold) :
    (ExecRange (TCalcScoreFold.UpdateIndicesBlock indices srcBlocks dstBlocks) 0 K s).Control
      = s.Control ∧
    (ExecRange (TCalcScoreFold.UpdateIndicesBlock indices srcBlocks dstBlocks) 0 K s).DocCount
      = s.DocCount ∧
    (ExecRange (TCalcScoreFold.UpdateIndicesBlock indices srcBlocks dstBlocks) 0 K
      s).BodyTailCount = s.BodyTailCount ∧
    (ExecRange (TCalcScoreFold.UpdateIndicesBlock indices srcBlocks dstBlocks) 0 K
      s).ApproxDimension = s.ApproxDimension ∧
    (ExecRange (TCalcScoreFold.UpdateIndicesBlock indices srcBlocks dstBlocks) 0 K
      s).BernoulliSampleRate = s.BernoulliSampleRate ∧
    (ExecRange (TCalcScoreFold.UpdateIndicesBlock indices srcBlocks dstBlocks) 0 K
      s).SmallestSplitSideValue = s.SmallestSplitSideValue ∧
    (ExecRange (TCalcScoreFold.UpdateIndicesBlock indices srcBlocks dstBlocks) 0 K
      s).PermutationBlockSize = s.PermutationBlockSize :=
  blocks_frame (TCalcScoreFold.UpdateIndicesBlock indices srcBlocks dstBlocks)
    (fun _ _ => rfl) (fun _ _ => rfl) (fun _ _ => rfl) (fun _ _ => rfl)
    (fun _ _ => rfl) (fun _ _ => rfl) (fun _ _ => rfl) K s

/-- The members `UpdateIndices` does not write, as a loop invariant of its block tasks. -/
theorem UpdateIndicesBlock_rest (indices : List TIndexType)
    (srcBlocks dstBlocks : TVectorSlicing) (K : Nat) (s : TCalcScoreFold) :
    (ExecRange (TCalcScoreFold.UpdateIndicesBlock indices srcBlocks dstBlocks) 0 K s)
      = { s with Indices :=
            (ExecRange (TCalcScoreFold.UpdateIndicesBlock indices srcBlocks dstBlocks) 0 K
              s).Indices } := by
  rw [ExecRange_zero]
  induction K using Nat.rec with
  | zero => rfl
  | succ K ih =>
    rw [List.range_succ, List.foldl_append]
    simp only [List.foldl_cons, List.foldl_nil]
    rw [ih]
    rfl

/-! ## The body-tail loops -/

theorem foldl_set_update {α : Type} (d : α) (h : Nat → α → α) (n : Nat) (arr : List α)
    (i : Nat) :
    ((List.range n).foldl (fun arr i => arr.set i (h i (arr.getD i d))) arr)[i]?
      = if i < n then arr[i]?.map (h i) else arr[i]? := by
  induction n with
  | zero => simp
  | succ n ih =>
    rw [List.range_succ, List.foldl_append]
    simp only [List.foldl_cons, List.foldl_nil, List.getElem?_set]
    have hlen : ((List.range n).foldl (fun arr i => arr.set i (h i (arr.getD i d))) arr).length
        = arr.length := by
      clear ih
      induction n with
      | zero => rfl
      | succ n ih2 =>
        rw [List.range_succ, List.foldl_append]
        simp only [List.foldl_cons, List.foldl_nil, List.length_set]
        exact ih2
    by_cases h1 : n = i
    · subst h1
      have hn : ((List.range n).foldl (fun arr i => arr.set i (h i (arr.getD i d))) arr)[n]?
          = arr[n]? := by rw [ih]; simp
      rw [hlen]
      by_cases h2 : n < arr.length
      · simp only [h2, if_true, Nat.lt_succ_self]
        rw [List.getD_eq_getElem?_getD, hn, List.getElem?_eq_getElem h2]
        rfl
      · simp [h2, List.getElem?_eq_none (Nat.le_of_not_lt h2)]
    · simp only [h1, if_false, ih]
      by_cases h3 : i < n
      · have : i < n + 1 := by omega
        simp [h3, this]
      · have : ¬ i < n + 1 := by omega
        simp [h3, this]

theorem blocks_set_update {α : Type} (d : α) (h : Nat → Nat → α → α) (n : Nat) (l : List Nat)
    (arr : List α) (i : Nat) :
    (l.foldl (fun arr b =>
        (List.range n).foldl (fun arr i => arr.set i (h b i (arr.getD i d))) arr) arr)[i]?
      = if i < n then arr[i]?.map (fun x => l.foldl (fun x b => h b i x) x) else arr[i]? := by
  induction l generalizing arr with
  | nil => simp
  | cons b l ih =>
    simp only [List.foldl_cons]
    rw [ih, foldl_set_update]
    by_cases hi : i < n
    · simp only [hi, if_true, Option.map_map]
      rfl
    · simp [hi]

theorem getElem?_set_getD {α : Type} (l : List α) (A : Nat) (d : α) (F : α → α) (dim : Nat) :
    (l.set A (F (l.getD A d)))[dim]? = if A = dim then l[dim]?.map F else l[dim]? := by
  rw [List.getElem?_set]
  by_cases hd : A = dim
  · subst hd
    simp only [if_true]
    cases hv : l[A]? with
    | none =>
      have := List.getElem?_eq_none_iff.1 hv
      rw [if_neg (by omega)]
      rfl
    | some v =>
      obtain ⟨hlt, hval⟩ := List.getElem?_eq_some.1 hv
      rw [if_pos hlt, List.getD_eq_getElem l d hlt, hval]
      rfl
  · simp [hd]

theorem dims_loop_spec (A : Nat) (srcControlRef : TConstArrayRef Bool)
    (srcBodyTail dstBodyTail : TCalcScoreFold.TBodyTail)
    (srcBodyBlock srcTailBlock dstBlock : TSlice) (eB eT : Nat)
    (hB : ∀ sv dv : List ℚ, (SetElements srcControlRef (srcBodyBlock.GetConstRef sv) GetElement
      (dstBlock.GetRef dv)).2 = eB)
    (hT : ∀ sv dv : List ℚ, (SetElements srcControlRef (srcTailBlock.GetConstRef sv) GetElement
      (dstBlock.GetRef dv)).2 = eT) :
    ((List.range A).foldl
      (fun (st : TCalcScoreFold.TBodyTail × Nat × Nat) dim =>
        ({ st.1 with
            Derivatives := st.1.Derivatives.set dim (SetElements srcControlRef
              (srcBodyBlock.GetConstRef (srcBodyTail.Derivatives.getD dim [])) GetElement
              (dstBlock.GetRef (st.1.Derivatives.getD dim []))).1.vec,
            WeightedDer := st.1.WeightedDer.set dim (SetElements srcControlRef
              (srcTailBlock.GetConstRef (srcBodyTail.WeightedDer.getD dim [])) GetElement
              (dstBlock.GetRef (st.1.WeightedDer.getD dim []))).1.vec },
          (SetElements srcControlRef
              (srcBodyBlock.GetConstRef (srcBodyTail.Derivatives.getD dim [])) GetElement
              (dstBlock.GetRef (st.1.Derivatives.getD dim []))).2,
          (SetElements srcControlRef
              (srcTailBlock.GetConstRef (srcBodyTail.WeightedDer.getD dim [])) GetElement
              (dstBlock.GetRef (st.1.WeightedDer.getD dim []))).2))
      (dstBodyTail, 0, 0)).1.BodyFinish = dstBodyTail.BodyFinish ∧
    ((List.range A).foldl
      (fun (st : TCalcScoreFold.TBodyTail × Nat × Nat) dim =>
        ({ st.1 with
            Derivatives := st.1.Derivatives.set dim (SetElements srcControlRef
              (srcBodyBlock.GetConstRef (srcBodyTail.Derivatives.getD dim [])) GetElement
              (dstBlock.GetRef (st.1.Derivatives.getD dim []))).1.vec,
            WeightedDer := st.1.WeightedDer.set dim (SetElements srcControlRef
              (srcTailBlock.GetConstRef (srcBodyTail.WeightedDer.getD dim [])) GetElement
              (dstBlock.GetRef (st.1.WeightedDer.getD dim []))).1.vec },
          (SetElements srcControlRef
              (srcBodyBlock.GetConstRef (srcBodyTail.Derivatives.getD dim [])) GetElement
              (dstBlock.GetRef (st.1.Derivatives.getD dim []))).2,
          (SetElements srcControlRef
              (srcTailBlock.GetConstRef (srcBodyTail.WeightedDer.getD dim [])) GetElement
              (dstBlock.GetRef (st.1.WeightedDer.getD dim []))).2))
      (dstBodyTail, 0, 0)).1.TailFinish = dstBodyTail.TailFinish ∧
    ((List.range A).foldl
      (fun (st : TCalcScoreFold.TBodyTail × Nat × Nat) dim =>
        ({ st.1 with
            Derivatives := st.1.Derivatives.set dim (SetElements srcControlRef
              (srcBodyBlock.GetConstRef (srcBodyTail.Derivatives.getD dim [])) GetElement
              (dstBlock.GetRef (st.1.Derivatives.getD dim []))).1.vec,
            WeightedDer := st.1.WeightedDer.set dim (SetElements srcControlRef
              (srcTailBlock.GetConstRef (srcBodyTail.WeightedDer.getD dim [])) GetElement
              (dstBlock.GetRef (st.1.WeightedDer.getD dim []))).1.vec },
          (SetElements srcControlRef
              (srcBodyBlock.GetConstRef (srcBodyTail.Derivatives.getD dim [])) GetElement
              (dstBlock.GetRef (st.1.Derivatives.getD dim []))).2,
          (SetElements srcControlRef
              (srcTailBlock.GetConstRef (srcBodyTail.WeightedDer.getD dim [])) GetElement
              (dstBlock.GetRef (st.1.WeightedDer.getD dim []))).2))
      (dstBodyTail, 0, 0)).2 = (if A = 0 then 0 else eB, if A = 0 then 0 else eT) ∧
    (∀ dim, ((List.range A).foldl
      (fun (st : TCalcScoreFold.TBodyTail × Nat × Nat) dim =>
        ({ st.1 with
            Derivatives := st.1.Derivatives.set dim (SetElements srcControlRef
              (srcBodyBlock.GetConstRef (srcBodyTail.Derivatives.getD dim [])) GetElement
              (dstBlock.GetRef (st.1.Derivatives.getD dim []))).1.vec,
            WeightedDer := st.1.WeightedDer.set dim (SetElements srcControlRef
              (srcTailBlock.GetConstRef (srcBodyTail.WeightedDer.getD dim [])) GetElement
              (dstBlock.GetRef (st.1.WeightedDer.getD dim []))).1.vec },
          (SetElements srcControlRef
              (srcBodyBlock.GetConstRef (srcBodyTail.Derivatives.getD dim [])) GetElement
              (dstBlock.GetRef (st.1.Derivatives.getD dim []))).2,
          (SetElements srcControlRef
              (srcTailBlock.GetConstRef (srcBodyTail.WeightedDer.getD dim [])) GetElement
              (dstBlock.GetRef (st.1.WeightedDer.getD dim []))).2))
      (dstBodyTail, 0, 0)).1.Derivatives[dim]?
        = if dim < A then dstBodyTail.Derivatives[dim]?.map (fun v =>
            (SetElements srcControlRef
              (srcBodyBlock.GetConstRef (srcBodyTail.Derivatives.getD dim [])) GetElement
              (dstBlock.GetRef v)).1.vec)
          else dstBodyTail.Derivatives[dim]?) ∧
    (∀ dim, ((List.range A).foldl
      (fun (st : TCalcScoreFold.TBodyTail × Nat × Nat) dim =>
        ({ st.1 with
            Derivatives := st.1.Derivatives.set dim (SetElements srcControlRef
              (srcBodyBlock.GetConstRef (srcBodyTail.Derivatives.getD dim [])) GetElement
              (dstBlock.GetRef (st.1.Derivatives.getD dim []))).1.vec,
            WeightedDer := st.1.WeightedDer.set dim (SetElements srcControlRef
              (srcTailBlock.GetConstRef (srcBodyTail.WeightedDer.getD dim [])) GetElement
              (dstBlock.GetRef (st.1.WeightedDer.getD dim []))).1.vec },
          (SetElements srcControlRef
              (srcBodyBlock.GetConstRef (srcBodyTail.Derivatives.getD dim [])) GetElement
              (dstBlock.GetRef (st.1.Derivatives.getD dim []))).2,
          (SetElements srcControlRef
              (srcTailBlock.GetConstRef (srcBodyTail.WeightedDer.getD dim [])) GetElement
              (dstBlock.GetRef (st.1.WeightedDer.getD dim []))).2))
      (dstBodyTail, 0, 0)).1.WeightedDer[dim]?
        = if dim < A then dstBodyTail.WeightedDer[dim]?.map (fun v =>
            (SetElements srcControlRef
              (srcTailBlock.GetConstRef (srcBodyTail.WeightedDer.getD dim [])) GetElement
              (dstBlock.GetRef v)).1.vec)
          else dstBodyTail.WeightedDer[dim]?) := by
  induction A with
  | zero => simp
  | succ A ih =>
    obtain ⟨h1, h2, _, h4, h5⟩ := ih
    rw [List.range_succ, List.foldl_append]
    simp only [List.foldl_cons, List.foldl_nil]
    refine ⟨h1, h2, ?_, ?_, ?_⟩
    · simp only [hB, hT, Nat.succ_ne_zero, if_false]
    · intro dim
      rw [getElem?_set_getD _ A [] (fun v => (SetElements srcControlRef
        (srcBodyBlock.GetConstRef (srcBodyTail.Derivatives.getD A [])) GetElement
        (dstBlock.GetRef v)).1.vec) dim, h4 dim]
      by_cases hd : A = dim
      · subst hd
        simp
      · by_cases h6 : dim < A
        · have : dim < A + 1 := by omega
          simp [hd, h6, this]
        · have : ¬ dim < A + 1 := by omega
          simp [hd, h6, this]
    · intro dim
      rw [getElem?_set_getD _ A [] (fun v => (SetElements srcControlRef
        (srcTailBlock.GetConstRef (srcBodyTail.WeightedDer.getD A [])) GetElement
        (dstBlock.GetRef v)).1.vec) dim, h5 dim]
      by_cases hd : A = dim
      · subst hd
        simp
      · by_cases h6 : dim < A
        · have : dim < A + 1 := by omega
          simp [hd, h6, this]
        · have : ¬ dim < A + 1 := by omega
          simp [hd, h6, this]

theorem SelectBlockBodyTail_spec (A : Nat) (srcControlRef : TConstArrayRef Bool)
    (srcBodyTail dstBodyTail : TCalcScoreFold.TBodyTail) (srcBlock dstBlock : TSlice)
    (eB eT : Nat)
    (hB : ∀ sv dv : List ℚ, (SetElements srcControlRef
      ((srcBlock.Clip srcBodyTail.BodyFinish).GetConstRef sv) GetElement
      (dstBlock.GetRef dv)).2 = eB)
    (hT : ∀ sv dv : List ℚ, (SetElements srcControlRef
      ((srcBlock.Clip srcBodyTail.TailFinish).GetConstRef sv) GetElement
      (dstBlock.GetRef dv)).2 = eT) :
    (TCalcScoreFold.SelectBlockBodyTail A srcControlRef srcBodyTail dstBodyTail srcBlock
      dstBlock).BodyFinish = dstBodyTail.BodyFinish + (if A = 0 then 0 else eB) ∧
    (TCalcScoreFold.SelectBlockBodyTail A srcControlRef srcBodyTail dstBodyTail srcBlock
      dstBlock).TailFinish = dstBodyTail.TailFinish + (if A = 0 then 0 else eT) ∧
    (∀ dim, (TCalcScoreFold.SelectBlockBodyTail A srcControlRef srcBodyTail dstBodyTail srcBlock
      dstBlock).Derivatives[dim]?
        = if dim < A then dstBodyTail.Derivatives[dim]?.map (fun v =>
            (SetElements srcControlRef
              ((srcBlock.Clip srcBodyTail.BodyFinish).GetConstRef
                (srcBodyTail.Derivatives.getD dim [])) GetElement (dstBlock.GetRef v)).1.vec)
          else dstBodyTail.Derivatives[dim]?) ∧
    (∀ dim, (TCalcScoreFold.SelectBlockBodyTail A srcControlRef srcBodyTail dstBodyTail srcBlock
      dstBlock).WeightedDer[dim]?
        = if dim < A then dstBodyTail.WeightedDer[dim]?.map (fun v =>
            (SetElements srcControlRef
              ((srcBlock.Clip srcBodyTail.TailFinish).GetConstRef
                (srcBodyTail.WeightedDer.getD dim [])) GetElement (dstBlock.GetRef v)).1.vec)
          else dstBodyTail.WeightedDer[dim]?) := by
  obtain ⟨h1, h2, h3, h4, h5⟩ := dims_loop_spec A srcControlRef srcBodyTail dstBodyTail
    (srcBlock.Clip srcBodyTail.BodyFinish) (srcBlock.Clip srcBodyTail.TailFinish) dstBlock
    eB eT hB hT
  unfold TCalcScoreFold.SelectBlockBodyTail
  simp only
  refine ⟨?_, ?_, h4, h5⟩
  · rw [h1, h3]
  · rw [h2, h3]

theorem blocks_bodyTail (A : Nat) (l : List Nat) (ctrlRef : Nat → TConstArrayRef Bool)
    (sbt : TCalcScoreFold.TBodyTail) (srcB dstB : Nat → TSlice) (eB eT : Nat → Nat)
    (hB : ∀ b, b ∈ l → ∀ sv dv : List ℚ, (SetElements (ctrlRef b)
      (((srcB b).Clip sbt.BodyFinish).GetConstRef sv) GetElement ((dstB b).GetRef dv)).2 = eB b)
    (hT : ∀ b, b ∈ l → ∀ sv dv : List ℚ, (SetElements (ctrlRef b)
      (((srcB b).Clip sbt.TailFinish).GetConstRef sv) GetElement ((dstB b).GetRef dv)).2 = eT b)
    (bt0 : TCalcScoreFold.TBodyTail) :
    (l.foldl (fun bt b => TCalcScoreFold.SelectBlockBodyTail A (ctrlRef b) sbt bt (srcB b)
      (dstB b)) bt0).BodyFinish = bt0.BodyFinish + (if A = 0 then 0 else (l.map eB).sum) ∧
    (l.foldl (fun bt b => TCalcScoreFold.SelectBlockBodyTail A (ctrlRef b) sbt bt (srcB b)
      (dstB b)) bt0).TailFinish = bt0.TailFinish + (if A = 0 then 0 else (l.map eT).sum) ∧
    (∀ dim, (l.foldl (fun bt b => TCalcScoreFold.SelectBlockBodyTail A (ctrlRef b) sbt bt
      (srcB b) (dstB b)) bt0).Derivatives[dim]?
        = if dim < A then bt0.Derivatives[dim]?.map (fun v => l.foldl (fun v b =>
            (SetElements (ctrlRef b)
              (((srcB b).Clip sbt.BodyFinish).GetConstRef (sbt.Derivatives.getD dim []))
              GetElement ((dstB b).GetRef v)).1.vec) v)
          else bt0.Derivatives[dim]?) ∧
    (∀ dim, (l.foldl (fun bt b => TCalcScoreFold.SelectBlockBodyTail A (ctrlRef b) sbt bt
      (srcB b) (dstB b)) bt0).WeightedDer[dim]?
        = if dim < A then bt0.WeightedDer[dim]?.map (fun v => l.foldl (fun v b =>
            (SetElements (ctrlRef b)
              (((srcB b).Clip sbt.TailFinish).GetConstRef (sbt.WeightedDer.getD dim []))
              GetElement ((dstB b).GetRef v)).1.vec) v)
          else bt0.WeightedDer[dim]?) := by
  induction l generalizing bt0 with
  | nil => simp
  | cons b l ih =>
    simp only [List.foldl_cons, List.map_cons, List.sum_cons]
    obtain ⟨s1, s2, s3, s4⟩ := SelectBlockBodyTail_spec A (ctrlRef b) sbt bt0 (srcB b) (dstB b)
      (eB b) (eT b) (hB b (List.mem_cons_self b l)) (hT b (List.mem_cons_self b l))
    obtain ⟨i1, i2, i3, i4⟩ := ih (fun b hb => hB b (List.mem_cons_of_mem _ hb))
      (fun b hb => hT b (List.mem_cons_of_mem _ hb))
      (TCalcScoreFold.SelectBlockBodyTail A (ctrlRef b) sbt bt0 (srcB b) (dstB b))
    refine ⟨?_, ?_, ?_, ?_⟩
    · rw [i1, s1]
      by_cases hA : A = 0 <;> simp [hA]
      omega
    · rw [i2, s2]
      by_cases hA : A = 0 <;> simp [hA]
      omega
    · intro dim
      rw [i3 dim, s3 dim]
      by_cases hd : dim < A
      · simp only [hd, if_true, Option.map_map]
        rfl
      · simp [hd]
    · intro dim
      rw [i4 dim, s4 dim]
      by_cases hd : dim < A
      · simp only [hd, if_true, Option.map_map]
        rfl
      · simp [hd]

theorem sum_block_counts (control : List Bool) (N B L k : Nat) (hk : k ≤ CeilDiv N B) :
    ((List.range k).map fun b =>
        ((List.range' (b * B) (min (L - b * B) (min B (N - b * B)))).filter
          fun j => control.getD j false).length).sum
      = (survivors control (min L (min N (k * B)))).length := by
  induction k with
  | zero => simp [survivors]
  | succ k ih =>
    rw [List.range_succ, List.map_append, List.sum_append, ih (by omega)]
    simp only [List.map_cons, List.map_nil, List.sum_cons, List.sum_nil, Nat.add_zero]
    have hkN : k * B ≤ N := by
      by_cases hB : 0 < B
      · exact Nat.le_of_lt (ceilDiv_pred_mul_lt N B k hB hk)
      · have : B = 0 := by omega
        subst this
        simp
    have hk1 : (k + 1) * B = k * B + B := by ring
    by_cases hL : k * B ≤ L
    · have hM : min L (min N ((k + 1) * B))
          = k * B + min (L - k * B) (min B (N - k * B)) := by omega
      have hMk : min L (min N (k * B)) = k * B := by omega
      rw [hM, hMk, survivors_add, List.length_append]
    · have hm0 : min (L - k * B) (min B (N - k * B)) = 0 := by omega
      have hM : min L (min N ((k + 1) * B)) = min L (min N (k * B)) := by omega
      rw [hm0, hM]
      simp

theorem sum_block_counts_all (control : List Bool) (N B L : Nat) (hB : 0 < B) :
    ((List.range (CeilDiv N B)).map fun b =>
        ((List.range' (b * B) (min (L - b * B) (min B (N - b * B)))).filter
          fun j => control.getD j false).length).sum
      = (survivors control (min L N)).length := by
  rw [sum_block_counts control N B L (CeilDiv N B) (Nat.le_refl _)]
  have h2 := ceilDiv_mul_ge N B hB
  rw [Nat.min_eq_left h2]

/-! ## Compaction of the members of a partition -/

theorem compact_clipped {α : Type} [Inhabited α] (control : List Bool) (N L : Nat)
    (src dst : List α) (hdst : (survivors control (min L N)).length ≤ dst.length) :
    ((List.range (CeilDiv N 2000)).foldl (fun d b =>
        (SetElements
          (((TVectorSlicing.Create
            ((TExecRangeParams.create 0 N).SetBlockSize 2000)).Slices.getD
              b default).GetConstRef control)
          ((((TVectorSlicing.Create
            ((TExecRangeParams.create 0 N).SetBlockSize 2000)).Slices.getD
              b default).Clip L).GetConstRef src)
          GetElement
          (((TVectorSlicing.CreateByControl
            ((TExecRangeParams.create 0 N).SetBlockSize 2000) control).Slices.getD
              b default).GetRef d)).1.vec) dst).length = dst.length ∧
    ((List.range (CeilDiv N 2000)).foldl (fun d b =>
        (SetElements
          (((TVectorSlicing.Create
            ((TExecRangeParams.create 0 N).SetBlockSize 2000)).Slices.getD
              b default).GetConstRef control)
          ((((TVectorSlicing.Create
            ((TExecRangeParams.create 0 N).SetBlockSize 2000)).Slices.getD
              b default).Clip L).GetConstRef src)
          GetElement
          (((TVectorSlicing.CreateByControl
            ((TExecRangeParams.create 0 N).SetBlockSize 2000) control).Slices.getD
              b default).GetRef d)).1.vec) dst).take (survivors control (min L N)).length
      = (survivors control (min L N)).map fun j => src.getD j default :=
  compact_spec control N 2000 L (by decide) (fun s => (s.Clip L).GetConstRef src)
    (fun _ => GetElement) (fun j => src.getD j default)
    (fun _ _ => rfl)
    (fun b _ i => read_GetDataPtr src (b * 2000) i)
    (fun b _ _ i => read_GetDataPtr src (b * 2000) i)
    dst hdst

theorem compact_plain {α : Type} [Inhabited α] (control : List Bool) (N : Nat)
    (src dst : List α) (hdst : (survivors control N).length ≤ dst.length) :
    ((List.range (CeilDiv N 2000)).foldl (fun d b =>
        (SetElements
          (((TVectorSlicing.Create
            ((TExecRangeParams.create 0 N).SetBlockSize 2000)).Slices.getD
              b default).GetConstRef control)
          (((TVectorSlicing.Create
            ((TExecRangeParams.create 0 N).SetBlockSize 2000)).Slices.getD
              b default).GetConstRef src)
          GetElement
          (((TVectorSlicing.CreateByControl
            ((TExecRangeParams.create 0 N).SetBlockSize 2000) control).Slices.getD
              b default).GetRef d)).1.vec) dst).length = dst.length ∧
    ((List.range (CeilDiv N 2000)).foldl (fun d b =>
        (SetElements
          (((TVectorSlicing.Create
            ((TExecRangeParams.create 0 N).SetBlockSize 2000)).Slices.getD
              b default).GetConstRef control)
          (((TVectorSlicing.Create
            ((TExecRangeParams.create 0 N).SetBlockSize 2000)).Slices.getD
              b default).GetConstRef src)
          GetElement
          (((TVectorSlicing.CreateByControl
            ((TExecRangeParams.create 0 N).SetBlockSize 2000) control).Slices.getD
              b default).GetRef d)).1.vec) dst).take (survivors control N).length
      = (survivors control N).map fun j => src.getD j default := by
  have h := compact_spec control N 2000 N (by decide) (fun s => s.GetConstRef src)
    (fun _ => GetElement) (fun j => src.getD j default)
    (fun b _ => by
      show min 2000 (N - b * 2000) = min (N - b * 2000) (min 2000 (N - b * 2000))
      omega)
    (fun b _ i => read_GetDataPtr src (b * 2000) i)
    (fun b _ _ i => read_GetDataPtr src (b * 2000) i)
    dst (by rw [Nat.min_self]; exact hdst)
  rw [Nat.min_self] at h
  exact h

theorem compact_computed {α : Type} [Inhabited α] (control : List Bool) (N : Nat)
    (f : TSlice → TPtr α → Nat → α) (g : Nat → α)
    (hf : ∀ b i, f ⟨b * 2000, min 2000 (N - b * 2000)⟩ none i = g (b * 2000 + i))
    (dst : List α) (hdst : (survivors control N).length ≤ dst.length) :
    ((List.range (CeilDiv N 2000)).foldl (fun d b =>
        (SetElements
          (((TVectorSlicing.Create
            ((TExecRangeParams.create 0 N).SetBlockSize 2000)).Slices.getD
              b default).GetConstRef control)
          (((TVectorSlicing.Create
            ((TExecRangeParams.create 0 N).SetBlockSize 2000)).Slices.getD
              b default).GetConstRef ([] : List α))
          (f ((TVectorSlicing.Create
            ((TExecRangeParams.create 0 N).SetBlockSize 2000)).Slices.getD b default))
          (((TVectorSlicing.CreateByControl
            ((TExecRangeParams.create 0 N).SetBlockSize 2000) control).Slices.getD
              b default).GetRef d)).1.vec) dst).length = dst.length ∧
    ((List.range (CeilDiv N 2000)).foldl (fun d b =>
        (SetElements
          (((TVectorSlicing.Create
            ((TExecRangeParams.create 0 N).SetBlockSize 2000)).Slices.getD
              b default).GetConstRef control)
          (((TVectorSlicing.Create
            ((TExecRangeParams.create 0 N).SetBlockSize 2000)).Slices.getD
              b default).GetConstRef ([] : List α))
          (f ((TVectorSlicing.Create
            ((TExecRangeParams.create 0 N).SetBlockSize 2000)).Slices.getD b default))
          (((TVectorSlicing.CreateByControl
            ((TExecRangeParams.create 0 N).SetBlockSize 2000) control).Slices.getD
              b default).GetRef d)).1.vec) dst).take (survivors control N).length
      = (survivors control N).map g := by
  have h := compact_spec control N 2000 N (by decide)
    (fun s => s.GetConstRef ([] : List α)) f g
    (fun b _ => by
      show min 2000 (N - b * 2000) = min (N - b * 2000) (min 2000 (N - b * 2000))
      omega)
    (fun b _ i => hf b i)
    (fun b _ hsome _ => by
      exfalso
      simp [TSlice.GetConstRef, GetDataPtr] at hsome)
    dst (by rw [Nat.min_self]; exact hdst)
  rw [Nat.min_self] at h
  exact h

theorem bodyTailArr_spec (control : List Bool) (N A n : Nat)
    (foldBTA arr0 : List TCalcScoreFold.TBodyTail) (i : Nat) (hi : i < n)
    (bt0 : TCalcScoreFold.TBodyTail) (h0 : arr0[i]? = some bt0) :
    ∃ bt : TCalcScoreFold.TBodyTail,
      ((List.range (CeilDiv N 2000)).foldl (fun arr b =>
        (List.range n).foldl (fun arr i => arr.set i
          (TCalcScoreFold.SelectBlockBodyTail A
            (((TVectorSlicing.Create
              ((TExecRangeParams.create 0 N).SetBlockSize 2000)).Slices.getD
                b default).GetConstRef control)
            (foldBTA.getD i default) (arr.getD i default)
            ((TVectorSlicing.Create
              ((TExecRangeParams.create 0 N).SetBlockSize 2000)).Slices.getD b default)
            ((TVectorSlicing.CreateByControl
              ((TExecRangeParams.create 0 N).SetBlockSize 2000) control).Slices.getD
                b default))) arr) arr0)[i]? = some bt ∧
      bt.BodyFinish = bt0.BodyFinish + (if A = 0 then 0 else
        (survivors control (min (foldBTA.getD i default).BodyFinish N)).length) ∧
      bt.TailFinish = bt0.TailFinish + (if A = 0 then 0 else
        (survivors control (min (foldBTA.getD i default).TailFinish N)).length) ∧
      (∀ dim v, dim < A → bt0.Derivatives[dim]? = some v →
        (survivors control (min (foldBTA.getD i default).BodyFinish N)).length ≤ v.length →
        ∃ w, bt.Derivatives[dim]? = some w ∧ w.length = v.length ∧
          w.take (survivors control (min (foldBTA.getD i default).BodyFinish N)).length
            = (survivors control (min (foldBTA.getD i default).BodyFinish N)).map
                fun j => ((foldBTA.getD i default).Derivatives.getD dim []).getD j default) ∧
      (∀ dim v, dim < A → bt0.WeightedDer[dim]? = some v →
        (survivors control (min (foldBTA.getD i default).TailFinish N)).length ≤ v.length →
        ∃ w, bt.WeightedDer[dim]? = some w ∧ w.length = v.length ∧
          w.take (survivors control (min (foldBTA.getD i default).TailFinish N)).length
            = (survivors control (min (foldBTA.getD i default).TailFinish N)).map
                fun j => ((foldBTA.getD i default).WeightedDer.getD dim []).getD j default) := by
  have hupd := blocks_set_update (default : TCalcScoreFold.TBodyTail)
    (fun b i x => TCalcScoreFold.SelectBlockBodyTail A
      (((TVectorSlicing.Create
        ((TExecRangeParams.create 0 N).SetBlockSize 2000)).Slices.getD
          b default).GetConstRef control)
      (foldBTA.getD i default) x
      ((TVectorSlicing.Create
        ((TExecRangeParams.create 0 N).SetBlockSize 2000)).Slices.getD b default)
      ((TVectorSlicing.CreateByControl
        ((TExecRangeParams.create 0 N).SetBlockSize 2000) control).Slices.getD b default))
    n (List.range (CeilDiv N 2000)) arr0 i
  rw [if_pos hi, h0] at hupd
  refine ⟨_, hupd, ?_⟩
  obtain ⟨b1, b2, b3, b4⟩ := blocks_bodyTail A (List.range (CeilDiv N 2000))
    (fun b => ((TVectorSlicing.Create
      ((TExecRangeParams.create 0 N).SetBlockSize 2000)).Slices.getD
        b default).GetConstRef control)
    (foldBTA.getD i default)
    (fun b => (TVectorSlicing.Create
      ((TExecRangeParams.create 0 N).SetBlockSize 2000)).Slices.getD b default)
    (fun b => (TVectorSlicing.CreateByControl
      ((TExecRangeParams.create 0 N).SetBlockSize 2000) control).Slices.getD b default)
    (fun b => ((List.range' (b * 2000)
      (min ((foldBTA.getD i default).BodyFinish - b * 2000) (min 2000 (N - b * 2000)))).filter
        fun j => control.getD j false).length)
    (fun b => ((List.range' (b * 2000)
      (min ((foldBTA.getD i default).TailFinish - b * 2000) (min 2000 (N - b * 2000)))).filter
        fun j => control.getD j false).length)
    (fun b hb sv dv => compact_count control N 2000 _ b (by decide) (List.mem_range.1 hb) sv dv)
    (fun b hb sv dv => compact_count control N 2000 _ b (by decide) (List.mem_range.1 hb) sv dv)
    bt0
  refine ⟨?_, ?_, ?_, ?_⟩
  · rw [b1, sum_block_counts_all control N 2000 _ (by decide)]
  · rw [b2, sum_block_counts_all control N 2000 _ (by decide)]
  · intro dim v hdim hv hlen
    have h3 := b3 dim
    rw [if_pos hdim, hv] at h3
    obtain ⟨c1, c2⟩ := compact_clipped control N (foldBTA.getD i default).BodyFinish
      ((foldBTA.getD i default).Derivatives.getD dim []) v hlen
    exact ⟨_, h3, c1, c2⟩
  · intro dim v hdim hv hlen
    have h4 := b4 dim
    rw [if_pos hdim, hv] at h4
    obtain ⟨c1, c2⟩ := compact_clipped control N (foldBTA.getD i default).TailFinish
      ((foldBTA.getD i default).WeightedDer.getD dim []) v hlen
    exact ⟨_, h4, c1, c2⟩

/-! ## The sampled control mask -/

theorem sampled_fold (self : TCalcScoreFold) (rand : TRestorableFastRng64) (n : Nat) :
    (List.range n).foldl
      (fun (st : TCalcScoreFold × TRestorableFastRng64) docIdx =>
        ({ st.1 with
            Control := st.1.Control.set docIdx
              (decide (st.2.GenRandReal1.1 < st.1.BernoulliSampleRate)) },
          st.2.GenRandReal1.2))
      (self, rand)
      = ({ self with
            Control := (List.range n).foldl (fun c i =>
              c.set i (decide (rand.stream (rand.pos + i) < self.BernoulliSampleRate)))
              self.Control },
          { rand with pos := rand.pos + n }) := by
  induction n with
  | zero => rfl
  | succ n ih =>
    rw [List.range_succ, List.foldl_append, ih, List.foldl_append]
    rfl

theorem SetSampledControl_fst (self : TCalcScoreFold) (n : Nat) (rand : TRestorableFastRng64) :
    (self.SetSampledControl n rand).1
      = { self with Control := (self.SetSampledControl n rand).1.Control } := by
  unfold TCalcScoreFold.SetSampledControl
  split
  · rfl
  · rw [sampled_fold]

theorem SetSampledControl_full (self : TCalcScoreFold) (n : Nat) (rand : TRestorableFastRng64)
    (h : self.BernoulliSampleRate = 1) :
    self.SetSampledControl n rand
      = ({ self with Control := List.replicate self.Control.length true }, rand) := by
  unfold TCalcScoreFold.SetSampledControl
  rw [if_pos h]

theorem SetSampledControl_draws (self : TCalcScoreFold) (n : Nat) (rand : TRestorableFastRng64)
    (h : self.BernoulliSampleRate ≠ 1) :
    self.SetSampledControl n rand
      = ({ self with
            Control := (List.range n).foldl (fun c i =>
              c.set i (decide (rand.stream (rand.pos + i) < self.BernoulliSampleRate)))
              self.Control },
          { rand with pos := rand.pos + n }) := by
  unfold TCalcScoreFold.SetSampledControl
  rw [if_neg h]
  exact sampled_fold self rand n

theorem SetSampledControl_control_length (self : TCalcScoreFold) (n : Nat)
    (rand : TRestorableFastRng64) :
    (self.SetSampledControl n rand).1.Control.length = self.Control.length := by
  by_cases h : self.BernoulliSampleRate = 1
  · rw [SetSampledControl_full self n rand h]
    simp
  · rw [SetSampledControl_draws self n rand h]
    exact foldl_set_length _ _ _

/-! ## The result of `Sample` and of `SelectSmallestSplitSide`, member by member -/

theorem ClearBodyTail_getElem? (s : TCalcScoreFold) (i : Nat) :
    s.ClearBodyTail.BodyTailArr[i]?
      = s.BodyTailArr[i]?.map fun bodyTail =>
          { bodyTail with BodyFinish := 0, TailFinish := 0 } := by
  simp [TCalcScoreFold.ClearBodyTail, List.getElem?_map]

theorem Sample_fst (self : TCalcScoreFold) (fold : TFold) (indices : List TIndexType)
    (rand : TRestorableFastRng64) :
    (self.Sample fold indices rand).1
      = { ExecRange (TCalcScoreFold.SampleBlock fold indices
            (TVectorSlicing.Create ((TExecRangeParams.create 0 indices.length).SetBlockSize 2000))
            (TVectorSlicing.CreateByControl
              ((TExecRangeParams.create 0 indices.length).SetBlockSize 2000)
              (self.SetSampledControl indices.length rand).1.Control))
            0 (CeilDiv indices.length 2000)
            (TCalcScoreFold.ClearBodyTail { self with
              Control := (self.SetSampledControl indices.length rand).1.Control,
              DocCount := (TVectorSlicing.CreateByControl
                ((TExecRangeParams.create 0 indices.length).SetBlockSize 2000)
                (self.SetSampledControl indices.length rand).1.Control).Total }) with
          PermutationBlockSize :=
            if (ExecRange (TCalcScoreFold.SampleBlock fold indices
              (TVectorSlicing.Create
                ((TExecRangeParams.create 0 indices.length).SetBlockSize 2000))
              (TVectorSlicing.CreateByControl
                ((TExecRangeParams.create 0 indices.length).SetBlockSize 2000)
                (self.SetSampledControl indices.length rand).1.Control))
              0 (CeilDiv indices.length 2000)
              (TCalcScoreFold.ClearBodyTail { self with
                Control := (self.SetSampledControl indices.length rand).1.Control,
                DocCount := (TVectorSlicing.CreateByControl
                  ((TExecRangeParams.create 0 indices.length).SetBlockSize 2000)
                  (self.SetSampledControl indices.length rand).1.Control).Total
                  })).BernoulliSampleRate = 1
            then fold.PermutationBlockSize
            else FoldPermutationBlockSizeNotSet } := by
  unfold TCalcScoreFold.Sample
  simp only
  have hK : ((TExecRangeParams.create 0 indices.length).SetBlockSize 2000).BlockCount
      = CeilDiv indices.length 2000 := by rw [blockParams_fields]
  rw [hK]
  have hs := SetSampledControl_fst self indices.length rand
  have hstate : (TCalcScoreFold.ClearBodyTail { (self.SetSampledControl indices.length rand).1 with
      DocCount := (TVectorSlicing.CreateByControl
        ((TExecRangeParams.create 0 indices.length).SetBlockSize 2000)
        (self.SetSampledControl indices.length rand).1.Control).Total })
      = (TCalcScoreFold.ClearBodyTail { self with
          Control := (self.SetSampledControl indices.length rand).1.Control,
          DocCount := (TVectorSlicing.CreateByControl
            ((TExecRangeParams.create 0 indices.length).SetBlockSize 2000)
            (self.SetSampledControl indices.length rand).1.Control).Total }) := by
    conv_lhs => rw [hs]
  rw [hstate]

theorem SelectSmallestSplitSide_eq (self : TCalcScoreFold) (curDepth : Nat)
    (fold : TCalcScoreFold) :
    self.SelectSmallestSplitSide curDepth fold
      = { ExecRange (TCalcScoreFold.SelectSmallestSplitSideBlock curDepth fold
            (TVectorSlicing.Create ((TExecRangeParams.create 0 fold.DocCount).SetBlockSize 2000))
            (TVectorSlicing.CreateByControl
              ((TExecRangeParams.create 0 fold.DocCount).SetBlockSize 2000)
              (self.SetSmallestSideControl curDepth fold.Indices).Control))
            0 (CeilDiv fold.DocCount 2000)
            (TCalcScoreFold.ClearBodyTail { self.SetSmallestSideControl curDepth fold.Indices with
              DocCount := (TVectorSlicing.CreateByControl
                ((TExecRangeParams.create 0 fold.DocCount).SetBlockSize 2000)
                (self.SetSmallestSideControl curDepth fold.Indices).Control).Total }) with
          PermutationBlockSize := FoldPermutationBlockSizeNotSet } := by
  unfold TCalcScoreFold.SelectSmallestSplitSide
  simp only
  have hK : ((TExecRangeParams.create 0 fold.DocCount).SetBlockSize 2000).BlockCount
      = CeilDiv fold.DocCount 2000 := by rw [blockParams_fields]
  rw [hK]

theorem SetSmallestSideControl_rest (self : TCalcScoreFold) (curDepth : Nat)
    (indices : List TIndexType) :
    self.SetSmallestSideControl curDepth indices
      = { self with
          SmallestSplitSideValue :=
            (self.SetSmallestSideControl curDepth indices).SmallestSplitSideValue,
          Control := (self.SetSmallestSideControl curDepth indices).Control } := by
  unfold TCalcScoreFold.SetSmallestSideControl
  simp only
  split <;> rfl

/-- The members every partition step compacts through `SelectBlockFromFold`, after the block
loop of a step over `N` source documents whose block tasks end in `SelectBlockFromFold`. -/
theorem fromFold_spec (task : Nat → TCalcScoreFold → TCalcScoreFold) (foldT : TFoldType)
    (N : Nat) (s : TCalcScoreFold)
    (hC : ∀ b t, (task b t).Control = t.Control)
    (hN : ∀ b t, (task b t).BodyTailCount = t.BodyTailCount)
    (hA : ∀ b t, (task b t).ApproxDimension = t.ApproxDimension)
    (hLP : ∀ b t, (task b t).LearnPermutation
      = (SetElements
          (((TVectorSlicing.Create
            ((TExecRangeParams.create 0 N).SetBlockSize 2000)).Slices.getD
              b default).GetConstRef t.Control)
          (((TVectorSlicing.Create
            ((TExecRangeParams.create 0 N).SetBlockSize 2000)).Slices.getD
              b default).GetConstRef foldT.LearnPermutation)
          GetElement
          (((TVectorSlicing.CreateByControl
            ((TExecRangeParams.create 0 N).SetBlockSize 2000) s.Control).Slices.getD
              b default).GetRef t.LearnPermutation)).1.vec)
    (hLW : ∀ b t, (task b t).LearnWeights
      = (SetElements
          (((TVectorSlicing.Create
            ((TExecRangeParams.create 0 N).SetBlockSize 2000)).Slices.getD
              b default).GetConstRef t.Control)
          (((TVectorSlicing.Create
            ((TExecRangeParams.create 0 N).SetBlockSize 2000)).Slices.getD
              b default).GetConstRef foldT.LearnWeights)
          GetElement
          (((TVectorSlicing.CreateByControl
            ((TExecRangeParams.create 0 N).SetBlockSize 2000) s.Control).Slices.getD
              b default).GetRef t.LearnWeights)).1.vec)
    (hSW : ∀ b t, (task b t).SampleWeights
      = (SetElements
          (((TVectorSlicing.Create
            ((TExecRangeParams.create 0 N).SetBlockSize 2000)).Slices.getD
              b default).GetConstRef t.Control)
          (((TVectorSlicing.Create
            ((TExecRangeParams.create 0 N).SetBlockSize 2000)).Slices.getD
              b default).GetConstRef foldT.SampleWeights)
          GetElement
          (((TVectorSlicing.CreateByControl
            ((TExecRangeParams.create 0 N).SetBlockSize 2000) s.Control).Slices.getD
              b default).GetRef t.SampleWeights)).1.vec)
    (hBT : ∀ b t, (task b t).BodyTailArr
      = (List.range t.BodyTailCount).foldl (fun arr i => arr.set i
          (TCalcScoreFold.SelectBlockBodyTail t.ApproxDimension
            (((TVectorSlicing.Create
              ((TExecRangeParams.create 0 N).SetBlockSize 2000)).Slices.getD
                b default).GetConstRef t.Control)
            (foldT.BodyTailArr.getD i default) (arr.getD i default)
            ((TVectorSlicing.Create
              ((TExecRangeParams.create 0 N).SetBlockSize 2000)).Slices.getD b default)
            ((TVectorSlicing.CreateByControl
              ((TExecRangeParams.create 0 N).SetBlockSize 2000) s.Control).Slices.getD
                b default))) t.BodyTailArr) :
    ((survivors s.Control N).length ≤ s.LearnPermutation.length →
      (ExecRange task 0 (CeilDiv N 2000) s).LearnPermutation.length = s.LearnPermutation.length ∧
      (ExecRange task 0 (CeilDiv N 2000) s).LearnPermutation.take (survivors s.Control N).length
        = (survivors s.Control N).map fun j => foldT.LearnPermutation.getD j default) ∧
    ((survivors s.Control N).length ≤ s.LearnWeights.length →
      (ExecRange task 0 (CeilDiv N 2000) s).LearnWeights.length = s.LearnWeights.length ∧
      (ExecRange task 0 (CeilDiv N 2000) s).LearnWeights.take (survivors s.Control N).length
        = (survivors s.Control N).map fun j => foldT.LearnWeights.getD j default) ∧
    ((survivors s.Control N).length ≤ s.SampleWeights.length →
      (ExecRange task 0 (CeilDiv N 2000) s).SampleWeights.length = s.SampleWeights.length ∧
      (ExecRange task 0 (CeilDiv N 2000) s).SampleWeights.take (survivors s.Control N).length
        = (survivors s.Control N).map fun j => foldT.SampleWeights.getD j default) ∧
    (∀ i bt0, i < s.BodyTailCount → s.BodyTailArr[i]? = some bt0 →
      ∃ bt : TCalcScoreFold.TBodyTail,
        (ExecRange task 0 (CeilDiv N 2000) s).BodyTailArr[i]? = some bt ∧
        bt.BodyFinish = bt0.BodyFinish + (if s.ApproxDimension = 0 then 0 else
          (survivors s.Control (min (foldT.BodyTailArr.getD i default).BodyFinish N)).length) ∧
        bt.TailFinish = bt0.TailFinish + (if s.ApproxDimension = 0 then 0 else
          (survivors s.Control (min (foldT.BodyTailArr.getD i default).TailFinish N)).length) ∧
        (∀ dim v, dim < s.ApproxDimension → bt0.Derivatives[dim]? = some v →
          (survivors s.Control
            (min (foldT.BodyTailArr.getD i default).BodyFinish N)).length ≤ v.length →
          ∃ w, bt.Derivatives[dim]? = some w ∧ w.length = v.length ∧
            w.take (survivors s.Control
                (min (foldT.BodyTailArr.getD i default).BodyFinish N)).length
              = (survivors s.Control (min (foldT.BodyTailArr.getD i default).BodyFinish N)).map
                  fun j => ((foldT.BodyTailArr.getD i default).Derivatives.getD dim []).getD
                    j default) ∧
        (∀ dim v, dim < s.ApproxDimension → bt0.WeightedDer[dim]? = some v →
          (survivors s.Control
            (min (foldT.BodyTailArr.getD i default).TailFinish N)).length ≤ v.length →
          ∃ w, bt.WeightedDer[dim]? = some w ∧ w.length = v.length ∧
            w.take (survivors s.Control
                (min (foldT.BodyTailArr.getD i default).TailFinish N)).length
              = (survivors s.Control (min (foldT.BodyTailArr.getD i default).TailFinish N)).map
                  fun j => ((foldT.BodyTailArr.getD i default).WeightedDer.getD dim []).getD
                    j default)) := by
  refine ⟨?_, ?_, ?_, ?_⟩
  · intro hlen
    rw [blocks_member task (fun t => t.LearnPermutation)
      (fun C _ _ d b => (SetElements
          (((TVectorSlicing.Create
            ((TExecRangeParams.create 0 N).SetBlockSize 2000)).Slices.getD
              b default).GetConstRef C)
          (((TVectorSlicing.Create
            ((TExecRangeParams.create 0 N).SetBlockSize 2000)).Slices.getD
              b default).GetConstRef foldT.LearnPermutation)
          GetElement
          (((TVectorSlicing.CreateByControl
            ((TExecRangeParams.create 0 N).SetBlockSize 2000) s.Control).Slices.getD
              b default).GetRef d)).1.vec) hC hN hA hLP]
    exact compact_plain s.Control N foldT.LearnPermutation s.LearnPermutation hlen
  · intro hlen
    rw [blocks_member task (fun t => t.LearnWeights)
      (fun C _ _ d b => (SetElements
          (((TVectorSlicing.Create
            ((TExecRangeParams.create 0 N).SetBlockSize 2000)).Slices.getD
              b default).GetConstRef C)
          (((TVectorSlicing.Create
            ((TExecRangeParams.create 0 N).SetBlockSize 2000)).Slices.getD
              b default).GetConstRef foldT.LearnWeights)
          GetElement
          (((TVectorSlicing.CreateByControl
            ((TExecRangeParams.create 0 N).SetBlockSize 2000) s.Control).Slices.getD
              b default).GetRef d)).1.vec) hC hN hA hLW]
    exact compact_plain s.Control N foldT.LearnWeights s.LearnWeights hlen
  · intro hlen
    rw [blocks_member task (fun t => t.SampleWeights)
      (fun C _ _ d b => (SetElements
          (((TVectorSlicing.Create
            ((TExecRangeParams.create 0 N).SetBlockSize 2000)).Slices.getD
              b default).GetConstRef C)
          (((TVectorSlicing.Create
            ((TExecRangeParams.create 0 N).SetBlockSize 2000)).Slices.getD
              b default).GetConstRef foldT.SampleWeights)
          GetElement
          (((TVectorSlicing.CreateByControl
            ((TExecRangeParams.create 0 N).SetBlockSize 2000) s.Control).Slices.getD
              b default).GetRef d)).1.vec) hC hN hA hSW]
    exact compact_plain s.Control N foldT.SampleWeights s.SampleWeights hlen
  · intro i bt0 hi h0
    rw [blocks_member task (fun t => t.BodyTailArr)
      (fun C n A arr b => (List.range n).foldl (fun arr i => arr.set i
          (TCalcScoreFold.SelectBlockBodyTail A
            (((TVectorSlicing.Create
              ((TExecRangeParams.create 0 N).SetBlockSize 2000)).Slices.getD
                b default).GetConstRef C)
            (foldT.BodyTailArr.getD i default) (arr.getD i default)
            ((TVectorSlicing.Create
              ((TExecRangeParams.create 0 N).SetBlockSize 2000)).Slices.getD b default)
            ((TVectorSlicing.CreateByControl
              ((TExecRangeParams.create 0 N).SetBlockSize 2000) s.Control).Slices.getD
                b default))) arr) hC hN hA hBT]
    exact bodyTailArr_spec s.Control N s.ApproxDimension s.BodyTailCount foldT.BodyTailArr
      s.BodyTailArr i hi bt0 h0

theorem asFoldType_getD (fold : TFold) (i : Nat) :
    fold.asFoldType.BodyTailArr.getD i default
      = (fold.BodyTailArr.getD i default).asFoldType := by
  simp only [TFold.asFoldType, List.getD_eq_getElem?_getD, List.getElem?_map]
  cases fold.BodyTailArr[i]? <;> rfl

/-- The block loop of `Sample`, from any state `s` whose control mask is the sampled one. -/
theorem SampleBlocks_spec (fold : TFold) (indices : List TIndexType) (s : TCalcScoreFold) :
    ((survivors s.Control indices.length).length ≤ s.Indices.length →
      (ExecRange (TCalcScoreFold.SampleBlock fold indices
        (TVectorSlicing.Create ((TExecRangeParams.create 0 indices.length).SetBlockSize 2000))
        (TVectorSlicing.CreateByControl
          ((TExecRangeParams.create 0 indices.length).SetBlockSize 2000) s.Control))
        0 (CeilDiv indices.length 2000) s).Indices.length = s.Indices.length ∧
      (ExecRange (TCalcScoreFold.SampleBlock fold indices
        (TVectorSlicing.Create ((TExecRangeParams.create 0 indices.length).SetBlockSize 2000))
        (TVectorSlicing.CreateByControl
          ((TExecRangeParams.create 0 indices.length).SetBlockSize 2000) s.Control))
        0 (CeilDiv indices.length 2000) s).Indices.take
          (survivors s.Control indices.length).length
        = (survivors s.Control indices.length).map fun j => indices.getD j default) ∧
    ((survivors s.Control indices.length).length ≤ s.IndexInFold.length →
      (ExecRange (TCalcScoreFold.SampleBlock fold indices
        (TVectorSlicing.Create ((TExecRangeParams.create 0 indices.length).SetBlockSize 2000))
        (TVectorSlicing.CreateByControl
          ((TExecRangeParams.create 0 indices.length).SetBlockSize 2000) s.Control))
        0 (CeilDiv indices.length 2000) s).IndexInFold.length = s.IndexInFold.length ∧
      (ExecRange (TCalcScoreFold.SampleBlock fold indices
        (TVectorSlicing.Create ((TExecRangeParams.create 0 indices.length).SetBlockSize 2000))
        (TVectorSlicing.CreateByControl
          ((TExecRangeParams.create 0 indices.length).SetBlockSize 2000) s.Control))
        0 (CeilDiv indices.length 2000) s).IndexInFold.take
          (survivors s.Control indices.length).length
        = survivors s.Control indices.length) := by
  refine ⟨?_, ?_⟩
  · intro hlen
    rw [blocks_member
      (TCalcScoreFold.SampleBlock fold indices
        (TVectorSlicing.Create ((TExecRangeParams.create 0 indices.length).SetBlockSize 2000))
        (TVectorSlicing.CreateByControl
          ((TExecRangeParams.create 0 indices.length).SetBlockSize 2000) s.Control))
      (fun t => t.Indices)
      (fun C _ _ d b => (SetElements
          (((TVectorSlicing.Create
            ((TExecRangeParams.create 0 indices.length).SetBlockSize 2000)).Slices.getD
              b default).GetConstRef C)
          (((TVectorSlicing.Create
            ((TExecRangeParams.create 0 indices.length).SetBlockSize 2000)).Slices.getD
              b default).GetConstRef indices)
          GetElement
          (((TVectorSlicing.CreateByControl
            ((TExecRangeParams.create 0 indices.length).SetBlockSize 2000)
              s.Control).Slices.getD b default).GetRef d)).1.vec)
      (fun _ _ => rfl) (fun _ _ => rfl) (fun _ _ => rfl) (fun _ _ => rfl)]
    exact compact_plain s.Control indices.length indices s.Indices hlen
  · intro hlen
    rw [blocks_member
      (TCalcScoreFold.SampleBlock fold indices
        (TVectorSlicing.Create ((TExecRangeParams.create 0 indices.length).SetBlockSize 2000))
        (TVectorSlicing.CreateByControl
          ((TExecRangeParams.create 0 indices.length).SetBlockSize 2000) s.Control))
      (fun t => t.IndexInFold)
      (fun C _ _ d b => (SetElements
          (((TVectorSlicing.Create
            ((TExecRangeParams.create 0 indices.length).SetBlockSize 2000)).Slices.getD
              b default).GetConstRef C)
          (((TVectorSlicing.Create
            ((TExecRangeParams.create 0 indices.length).SetBlockSize 2000)).Slices.getD
              b default).GetConstRef ([] : List Nat))
          ((fun (srcBlock : TSlice) (_ : TPtr Nat) (j : Nat) => srcBlock.Offset + j)
            ((TVectorSlicing.Create
              ((TExecRangeParams.create 0 indices.length).SetBlockSize 2000)).Slices.getD
                b default))
          (((TVectorSlicing.CreateByControl
            ((TExecRangeParams.create 0 indices.length).SetBlockSize 2000)
              s.Control).Slices.getD b default).GetRef d)).1.vec)
      (fun _ _ => rfl) (fun _ _ => rfl) (fun _ _ => rfl) (fun _ _ => rfl)]
    have h := compact_computed s.Control indices.length
      (fun (srcBlock : TSlice) (_ : TPtr Nat) (j : Nat) => srcBlock.Offset + j) (fun j => j)
      (fun _ _ => rfl) s.IndexInFold hlen
    rw [List.map_id'] at h
    exact h

/-- The block loop of `SelectSmallestSplitSide`, from any state `s`. -/
theorem SelectBlocks_spec (curDepth : Nat) (fold : TCalcScoreFold) (s : TCalcScoreFold) :
    ((survivors s.Control fold.DocCount).length ≤ s.Indices.length →
      (ExecRange (TCalcScoreFold.SelectSmallestSplitSideBlock curDepth fold
        (TVectorSlicing.Create ((TExecRangeParams.create 0 fold.DocCount).SetBlockSize 2000))
        (TVectorSlicing.CreateByControl
          ((TExecRangeParams.create 0 fold.DocCount).SetBlockSize 2000) s.Control))
        0 (CeilDiv fold.DocCount 2000) s).Indices.length = s.Indices.length ∧
      (ExecRange (TCalcScoreFold.SelectSmallestSplitSideBlock curDepth fold
        (TVectorSlicing.Create ((TExecRangeParams.create 0 fold.DocCount).SetBlockSize 2000))
        (TVectorSlicing.CreateByControl
          ((TExecRangeParams.create 0 fold.DocCount).SetBlockSize 2000) s.Control))
        0 (CeilDiv fold.DocCount 2000) s).Indices.take
          (survivors s.Control fold.DocCount).length
        = (survivors s.Control fold.DocCount).map
            fun j => fold.Indices.getD j 0 ||| 1 <<< (curDepth - 1)) ∧
    ((survivors s.Control fold.DocCount).length ≤ s.IndexInFold.length →
      (ExecRange (TCalcScoreFold.SelectSmallestSplitSideBlock curDepth fold
        (TVectorSlicing.Create ((TExecRangeParams.create 0 fold.DocCount).SetBlockSize 2000))
        (TVectorSlicing.CreateByControl
          ((TExecRangeParams.create 0 fold.DocCount).SetBlockSize 2000) s.Control))
        0 (CeilDiv fold.DocCount 2000) s).IndexInFold.length = s.IndexInFold.length ∧
      (ExecRange (TCalcScoreFold.SelectSmallestSplitSideBlock curDepth fold
        (TVectorSlicing.Create ((TExecRangeParams.create 0 fold.DocCount).SetBlockSize 2000))
        (TVectorSlicing.CreateByControl
          ((TExecRangeParams.create 0 fold.DocCount).SetBlockSize 2000) s.Control))
        0 (CeilDiv fold.DocCount 2000) s).IndexInFold.take
          (survivors s.Control fold.DocCount).length
        = (survivors s.Control fold.DocCount).map fun j => fold.IndexInFold.getD j default) := by
  refine ⟨?_, ?_⟩
  · intro hlen
    rw [blocks_member
      (TCalcScoreFold.SelectSmallestSplitSideBlock curDepth fold
        (TVectorSlicing.Create ((TExecRangeParams.create 0 fold.DocCount).SetBlockSize 2000))
        (TVectorSlicing.CreateByControl
          ((TExecRangeParams.create 0 fold.DocCount).SetBlockSize 2000) s.Control))
      (fun t => t.Indices)
      (fun C _ _ d b => (SetElements
          (((TVectorSlicing.Create
            ((TExecRangeParams.create 0 fold.DocCount).SetBlockSize 2000)).Slices.getD
              b default).GetConstRef C)
          (((TVectorSlicing.Create
            ((TExecRangeParams.create 0 fold.DocCount).SetBlockSize 2000)).Slices.getD
              b default).GetConstRef ([] : List TIndexType))
          ((fun (srcBlock : TSlice) (_ : TPtr TIndexType) (i : Nat) =>
              (srcBlock.GetConstRef fold.Indices).data.read i ||| 1 <<< (curDepth - 1))
            ((TVectorSlicing.Create
              ((TExecRangeParams.create 0 fold.DocCount).SetBlockSize 2000)).Slices.getD
                b default))
          (((TVectorSlicing.CreateByControl
            ((TExecRangeParams.create 0 fold.DocCount).SetBlockSize 2000)
              s.Control).Slices.getD b default).GetRef d)).1.vec)
      (fun _ _ => rfl) (fun _ _ => rfl) (fun _ _ => rfl) (fun _ _ => rfl)]
    exact compact_computed s.Control fold.DocCount
      (fun (srcBlock : TSlice) (_ : TPtr TIndexType) (i : Nat) =>
        (srcBlock.GetConstRef fold.Indices).data.read i ||| 1 <<< (curDepth - 1))
      (fun j => fold.Indices.getD j 0 ||| 1 <<< (curDepth - 1))
      (fun b i => by
        show (GetDataPtr fold.Indices (b * 2000)).read i ||| 1 <<< (curDepth - 1) = _
        rw [read_GetDataPtr]
        rfl)
      s.Indices hlen
  · intro hlen
    rw [blocks_member
      (TCalcScoreFold.SelectSmallestSplitSideBlock curDepth fold
        (TVectorSlicing.Create ((TExecRangeParams.create 0 fold.DocCount).SetBlockSize 2000))
        (TVectorSlicing.CreateByControl
          ((TExecRangeParams.create 0 fold.DocCount).SetBlockSize 2000) s.Control))
      (fun t => t.IndexInFold)
      (fun C _ _ d b => (SetElements
          (((TVectorSlicing.Create
            ((TExecRangeParams.create 0 fold.DocCount).SetBlockSize 2000)).Slices.getD
              b default).GetConstRef C)
          (((TVectorSlicing.Create
            ((TExecRangeParams.create 0 fold.DocCount).SetBlockSize 2000)).Slices.getD
              b default).GetConstRef fold.IndexInFold)
          GetElement
          (((TVectorSlicing.CreateByControl
            ((TExecRangeParams.create 0 fold.DocCount).SetBlockSize 2000)
              s.Control).Slices.getD b default).GetRef d)).1.vec)
      (fun _ _ => rfl) (fun _ _ => rfl) (fun _ _ => rfl) (fun _ _ => rfl)]
    exact compact_plain s.Control fold.DocCount fold.IndexInFold s.IndexInFold hlen

/-! ## `Sample`, member by member -/

theorem Sample_frame (self : TCalcScoreFold) (fold : TFold) (indices : List TIndexType)
    (rand : TRestorableFastRng64) :
    (self.Sample fold indices rand).1.Control
      = (self.SetSampledControl indices.length rand).1.Control ∧
    (self.Sample fold indices rand).1.DocCount
      = (survivors (self.Sample fold indices rand).1.Control indices.length).length ∧
    (self.Sample fold indices rand).1.BodyTailCount = self.BodyTailCount ∧
    (self.Sample fold indices rand).1.ApproxDimension = self.ApproxDimension ∧
    (self.Sample fold indices rand).1.BernoulliSampleRate = self.BernoulliSampleRate ∧
    (self.Sample fold indices rand).1.SmallestSplitSideValue = self.SmallestSplitSideValue ∧
    (self.Sample fold indices rand).1.PermutationBlockSize
      = (if self.BernoulliSampleRate = 1 then fold.PermutationBlockSize
          else FoldPermutationBlockSizeNotSet) ∧
    (self.Sample fold indices rand).2 = (self.SetSampledControl indices.length rand).2 := by
  obtain ⟨f1, f2, f3, f4, f5, f6, _⟩ := SampleBlock_frame fold indices
    (TVectorSlicing.Create ((TExecRangeParams.create 0 indices.length).SetBlockSize 2000))
    (TVectorSlicing.CreateByControl
      ((TExecRangeParams.create 0 indices.length).SetBlockSize 2000)
      (self.SetSampledControl indices.length rand).1.Control)
    (CeilDiv indices.length 2000)
    (TCalcScoreFold.ClearBodyTail { self with
      Control := (self.SetSampledControl indices.length rand).1.Control,
      DocCount := (TVectorSlicing.CreateByControl
        ((TExecRangeParams.create 0 indices.length).SetBlockSize 2000)
        (self.SetSampledControl indices.length rand).1.Control).Total })
  have hC : (self.Sample fold indices rand).1.Control
      = (self.SetSampledControl indices.length rand).1.Control := by
    rw [Sample_fst]
    exact f1
  refine ⟨hC, ?_, ?_, ?_, ?_, ?_, ?_, rfl⟩
  · rw [hC, Sample_fst]
    exact f2.trans (CreateByControl_total _ _ 2000 (by decide))
  · rw [Sample_fst]
    exact f3
  · rw [Sample_fst]
    exact f4
  · rw [Sample_fst]
    exact f5
  · rw [Sample_fst]
    exact f6
  · rw [Sample_fst]
    show (if TCalcScoreFold.BernoulliSampleRate (ExecRange _ 0 _ _) = 1 then _ else _) = _
    rw [f5]
    rfl

theorem Sample_members (self : TCalcScoreFold) (fold : TFold) (indices : List TIndexType)
    (rand : TRestorableFastRng64) :
    ((survivors (self.Sample fold indices rand).1.Control indices.length).length
        ≤ self.Indices.length →
      (self.Sample fold indices rand).1.Indices.length = self.Indices.length ∧
      (self.Sample fold indices rand).1.Indices.take
          (survivors (self.Sample fold indices rand).1.Control indices.length).length
        = (survivors (self.Sample fold indices rand).1.Control indices.length).map
            fun j => indices.getD j 0) ∧
    ((survivors (self.Sample fold indices rand).1.Control indices.length).length
        ≤ self.IndexInFold.length →
      (self.Sample fold indices rand).1.IndexInFold.length = self.IndexInFold.length ∧
      (self.Sample fold indices rand).1.IndexInFold.take
          (survivors (self.Sample fold indices rand).1.Control indices.length).length
        = survivors (self.Sample fold indices rand).1.Control indices.length) ∧
    ((survivors (self.Sample fold indices rand).1.Control indices.length).length
        ≤ self.LearnPermutation.length →
      (self.Sample fold indices rand).1.LearnPermutation.length = self.LearnPermutation.length ∧
      (self.Sample fold indices rand).1.LearnPermutation.take
          (survivors (self.Sample fold indices rand).1.Control indices.length).length
        = (survivors (self.Sample fold indices rand).1.Control indices.length).map
            fun j => fold.LearnPermutation.getD j 0) ∧
    ((survivors (self.Sample fold indices rand).1.Control indices.length).length
        ≤ self.LearnWeights.length →
      (self.Sample fold indices rand).1.LearnWeights.length = self.LearnWeights.length ∧
      (self.Sample fold indices rand).1.LearnWeights.take
          (survivors (self.Sample fold indices rand).1.Control indices.length).length
        = (survivors (self.Sample fold indices rand).1.Control indices.length).map
            fun j => fold.LearnWeights.getD j 0) ∧
    ((survivors (self.Sample fold indices rand).1.Control indices.length).length
        ≤ self.SampleWeights.length →
      (self.Sample fold indices rand).1.SampleWeights.length = self.SampleWeights.length ∧
      (self.Sample fold indices rand).1.SampleWeights.take
          (survivors (self.Sample fold indices rand).1.Control indices.length).length
        = (survivors (self.Sample fold indices rand).1.Control indices.length).map
            fun j => fold.SampleWeights.getD j 0) := by
  rw [(Sample_frame self fold indices rand).1]
  have hI := SampleBlocks_spec fold indices (TCalcScoreFold.ClearBodyTail { self with
      Control := (self.SetSampledControl indices.length rand).1.Control,
      DocCount := (TVectorSlicing.CreateByControl
        ((TExecRangeParams.create 0 indices.length).SetBlockSize 2000)
        (self.SetSampledControl indices.length rand).1.Control).Total })
  have hF := fromFold_spec
    (TCalcScoreFold.SampleBlock fold indices
      (TVectorSlicing.Create ((TExecRangeParams.create 0 indices.length).SetBlockSize 2000))
      (TVectorSlicing.CreateByControl
        ((TExecRangeParams.create 0 indices.length).SetBlockSize 2000)
        (self.SetSampledControl indices.length rand).1.Control))
    fold.asFoldType indices.length
    (TCalcScoreFold.ClearBodyTail { self with
      Control := (self.SetSampledControl indices.length rand).1.Control,
      DocCount := (TVectorSlicing.CreateByControl
        ((TExecRangeParams.create 0 indices.length).SetBlockSize 2000)
        (self.SetSampledControl indices.length rand).1.Control).Total })
    (fun _ _ => rfl) (fun _ _ => rfl) (fun _ _ => rfl) (fun _ _ => rfl) (fun _ _ => rfl)
    (fun _ _ => rfl) (fun _ _ => rfl)
  rw [Sample_fst]
  exact ⟨hI.1, hI.2, hF.1, hF.2.1, hF.2.2.1⟩

theorem Sample_bodyTails (self : TCalcScoreFold) (fold : TFold) (indices : List TIndexType)
    (rand : TRestorableFastRng64) (i : Nat) (dbt : TCalcScoreFold.TBodyTail)
    (hi : i < self.BodyTailCount) (h0 : self.BodyTailArr[i]? = some dbt) :
    ∃ bt : TCalcScoreFold.TBodyTail,
      (self.Sample fold indices rand).1.BodyTailArr[i]? = some bt ∧
      bt.BodyFinish = (if self.ApproxDimension = 0 then 0 else
        (survivors (self.Sample fold indices rand).1.Control
          (min (fold.BodyTailArr.getD i default).BodyFinish indices.length)).length) ∧
      bt.TailFinish = (if self.ApproxDimension = 0 then 0 else
        (survivors (self.Sample fold indices rand).1.Control
          (min (fold.BodyTailArr.getD i default).TailFinish indices.length)).length) ∧
      (∀ dim v, dim < self.ApproxDimension → dbt.Derivatives[dim]? = some v →
        (survivors (self.Sample fold indices rand).1.Control
          (min (fold.BodyTailArr.getD i default).BodyFinish indices.length)).length
            ≤ v.length →
        ∃ w, bt.Derivatives[dim]? = some w ∧ w.length = v.length ∧
          w.take (survivors (self.Sample fold indices rand).1.Control
              (min (fold.BodyTailArr.getD i default).BodyFinish indices.length)).length
            = (survivors (self.Sample fold indices rand).1.Control
                (min (fold.BodyTailArr.getD i default).BodyFinish indices.length)).map
                fun j => ((fold.BodyTailArr.getD i default).Derivatives.getD dim []).getD j 0) ∧
      (∀ dim v, dim < self.ApproxDimension → dbt.WeightedDer[dim]? = some v →
        (survivors (self.Sample fold indices rand).1.Control
          (min (fold.BodyTailArr.getD i default).TailFinish indices.length)).length
            ≤ v.length →
        ∃ w, bt.WeightedDer[dim]? = some w ∧ w.length = v.length ∧
          w.take (survivors (self.Sample fold indices rand).1.Control
              (min (fold.BodyTailArr.getD i default).TailFinish indices.length)).length
            = (survivors (self.Sample fold indices rand).1.Control
                (min (fold.BodyTailArr.getD i default).TailFinish indices.length)).map
                fun j => ((fold.BodyTailArr.getD i default).WeightedDer.getD dim []).getD j 0) := by
  rw [(Sample_frame self fold indices rand).1]
  have hF := (fromFold_spec
    (TCalcScoreFold.SampleBlock fold indices
      (TVectorSlicing.Create ((TExecRangeParams.create 0 indices.length).SetBlockSize 2000))
      (TVectorSlicing.CreateByControl
        ((TExecRangeParams.create 0 indices.length).SetBlockSize 2000)
        (self.SetSampledControl indices.length rand).1.Control))
    fold.asFoldType indices.length
    (TCalcScoreFold.ClearBodyTail { self with
      Control := (self.SetSampledControl indices.length rand).1.Control,
      DocCount := (TVectorSlicing.CreateByControl
        ((TExecRangeParams.create 0 indices.length).SetBlockSize 2000)
        (self.SetSampledControl indices.length rand).1.Control).Total })
    (fun _ _ => rfl) (fun _ _ => rfl) (fun _ _ => rfl) (fun _ _ => rfl) (fun _ _ => rfl)
    (fun _ _ => rfl) (fun _ _ => rfl)).2.2.2 i
    { dbt with BodyFinish := 0, TailFinish := 0 } hi
    (by rw [ClearBodyTail_getElem?]; show Option.map _ self.BodyTailArr[i]? = _; rw [h0]; rfl)
  rw [asFoldType_getD] at hF
  obtain ⟨bt, h1, h2, h3, h4, h5⟩ := hF
  refine ⟨bt, ?_, ?_, ?_, h4, h5⟩
  · rw [Sample_fst]
    exact h1
  · rw [h2]
    simp only [Nat.zero_add]
    rfl
  · rw [h3]
    simp only [Nat.zero_add]
    rfl

/-! ## `SelectSmallestSplitSide`, member by member -/

theorem SetSmallestSideControl_fields (self : TCalcScoreFold) (curDepth : Nat)
    (indices : List TIndexType) :
    (self.SetSmallestSideControl curDepth indices).Indices = self.Indices ∧
    (self.SetSmallestSideControl curDepth indices).IndexInFold = self.IndexInFold ∧
    (self.SetSmallestSideControl curDepth indices).LearnPermutation = self.LearnPermutation ∧
    (self.SetSmallestSideControl curDepth indices).LearnWeights = self.LearnWeights ∧
    (self.SetSmallestSideControl curDepth indices).SampleWeights = self.SampleWeights ∧
    (self.SetSmallestSideControl curDepth indices).BodyTailArr = self.BodyTailArr ∧
    (self.SetSmallestSideControl curDepth indices).BodyTailCount = self.BodyTailCount ∧
    (self.SetSmallestSideControl curDepth indices).ApproxDimension = self.ApproxDimension ∧
    (self.SetSmallestSideControl curDepth indices).BernoulliSampleRate
      = self.BernoulliSampleRate := by
  have hrest := SetSmallestSideControl_rest self curDepth indices
  refine ⟨?_, ?_, ?_, ?_, ?_, ?_, ?_, ?_, ?_⟩
  · have := congrArg TCalcScoreFold.Indices hrest
    exact this
  · have := congrArg TCalcScoreFold.IndexInFold hrest
    exact this
  · have := congrArg TCalcScoreFold.LearnPermutation hrest
    exact this
  · have := congrArg TCalcScoreFold.LearnWeights hrest
    exact this
  · have := congrArg TCalcScoreFold.SampleWeights hrest
    exact this
  · have := congrArg TCalcScoreFold.BodyTailArr hrest
    exact this
  · have := congrArg TCalcScoreFold.BodyTailCount hrest
    exact this
  · have := congrArg TCalcScoreFold.ApproxDimension hrest
    exact this
  · have := congrArg TCalcScoreFold.BernoulliSampleRate hrest
    exact this

theorem SelectSmallestSplitSide_frame (self : TCalcScoreFold) (curDepth : Nat)
    (fold : TCalcScoreFold) :
    (self.SelectSmallestSplitSide curDepth fold).Control
      = (self.SetSmallestSideControl curDepth fold.Indices).Control ∧
    (self.SelectSmallestSplitSide curDepth fold).DocCount
      = (survivors (self.SelectSmallestSplitSide curDepth fold).Control fold.DocCount).length ∧
    (self.SelectSmallestSplitSide curDepth fold).BodyTailCount = self.BodyTailCount ∧
    (self.SelectSmallestSplitSide curDepth fold).ApproxDimension = self.ApproxDimension ∧
    (self.SelectSmallestSplitSide curDepth fold).BernoulliSampleRate
      = self.BernoulliSampleRate ∧
    (self.SelectSmallestSplitSide curDepth fold).SmallestSplitSideValue
      = (self.SetSmallestSideControl curDepth fold.Indices).SmallestSplitSideValue ∧
    (self.SelectSmallestSplitSide curDepth fold).PermutationBlockSize
      = FoldPermutationBlockSizeNotSet := by
  obtain ⟨f1, f2, f3, f4, f5, f6, _⟩ := SelectSmallestSplitSideBlock_frame curDepth fold
    (TVectorSlicing.Create ((TExecRangeParams.create 0 fold.DocCount).SetBlockSize 2000))
    (TVectorSlicing.CreateByControl
      ((TExecRangeParams.create 0 fold.DocCount).SetBlockSize 2000)
      (self.SetSmallestSideControl curDepth fold.Indices).Control)
    (CeilDiv fold.DocCount 2000)
    (TCalcScoreFold.ClearBodyTail { self.SetSmallestSideControl curDepth fold.Indices with
      DocCount := (TVectorSlicing.CreateByControl
        ((TExecRangeParams.create 0 fold.DocCount).SetBlockSize 2000)
        (self.SetSmallestSideControl curDepth fold.Indices).Control).Total })
  obtain ⟨_, _, _, _, _, _, eN, eA, eR⟩ := SetSmallestSideControl_fields self curDepth fold.Indices
  have hC : (self.SelectSmallestSplitSide curDepth fold).Control
      = (self.SetSmallestSideControl curDepth fold.Indices).Control := by
    rw [SelectSmallestSplitSide_eq]
    exact f1
  refine ⟨hC, ?_, ?_, ?_, ?_, ?_, ?_⟩
  · rw [hC, SelectSmallestSplitSide_eq]
    exact f2.trans (CreateByControl_total _ _ 2000 (by decide))
  · rw [SelectSmallestSplitSide_eq]
    exact f3.trans eN
  · rw [SelectSmallestSplitSide_eq]
    exact f4.trans eA
  · rw [SelectSmallestSplitSide_eq]
    exact f5.trans eR
  · rw [SelectSmallestSplitSide_eq]
    exact f6
  · rw [SelectSmallestSplitSide_eq]

theorem SelectSmallestSplitSide_members (self : TCalcScoreFold) (curDepth : Nat)
    (fold : TCalcScoreFold) :
    ((survivors (self.SelectSmallestSplitSide curDepth fold).Control fold.DocCount).length
        ≤ self.Indices.length →
      (self.SelectSmallestSplitSide curDepth fold).Indices.length = self.Indices.length ∧
      (self.SelectSmallestSplitSide curDepth fold).Indices.take
          (survivors (self.SelectSmallestSplitSide curDepth fold).Control fold.DocCount).length
        = (survivors (self.SelectSmallestSplitSide curDepth fold).Control fold.DocCount).map
            fun j => fold.Indices.getD j 0 ||| 1 <<< (curDepth - 1)) ∧
    ((survivors (self.SelectSmallestSplitSide curDepth fold).Control fold.DocCount).length
        ≤ self.IndexInFold.length →
      (self.SelectSmallestSplitSide curDepth fold).IndexInFold.length
        = self.IndexInFold.length ∧
      (self.SelectSmallestSplitSide curDepth fold).IndexInFold.take
          (survivors (self.SelectSmallestSplitSide curDepth fold).Control fold.DocCount).length
        = (survivors (self.SelectSmallestSplitSide curDepth fold).Control fold.DocCount).map
            fun j => fold.IndexInFold.getD j 0) ∧
    ((survivors (self.SelectSmallestSplitSide curDepth fold).Control fold.DocCount).length
        ≤ self.LearnPermutation.length →
      (self.SelectSmallestSplitSide curDepth fold).LearnPermutation.length
        = self.LearnPermutation.length ∧
      (self.SelectSmallestSplitSide curDepth fold).LearnPermutation.take
          (survivors (self.SelectSmallestSplitSide curDepth fold).Control fold.DocCount).length
        = (survivors (self.SelectSmallestSplitSide curDepth fold).Control fold.DocCount).map
            fun j => fold.LearnPermutation.getD j 0) ∧
    ((survivors (self.SelectSmallestSplitSide curDepth fold).Control fold.DocCount).length
        ≤ self.LearnWeights.length →
      (self.SelectSmallestSplitSide curDepth fold).LearnWeights.length
        = self.LearnWeights.length ∧
      (self.SelectSmallestSplitSide curDepth fold).LearnWeights.take
          (survivors (self.SelectSmallestSplitSide curDepth fold).Control fold.DocCount).length
        = (survivors (self.SelectSmallestSplitSide curDepth fold).Control fold.DocCount).map
            fun j => fold.LearnWeights.getD j 0) ∧
    ((survivors (self.SelectSmallestSplitSide curDepth fold).Control fold.DocCount).length
        ≤ self.SampleWeights.length →
      (self.SelectSmallestSplitSide curDepth fold).SampleWeights.length
        = self.SampleWeights.length ∧
      (self.SelectSmallestSplitSide curDepth fold).SampleWeights.take
          (survivors (self.SelectSmallestSplitSide curDepth fold).Control fold.DocCount).length
        = (survivors (self.SelectSmallestSplitSide curDepth fold).Control fold.DocCount).map
            fun j => fold.SampleWeights.getD j 0) := by
  rw [(SelectSmallestSplitSide_frame self curDepth fold).1]
  have hI := SelectBlocks_spec curDepth fold
    (TCalcScoreFold.ClearBodyTail { self.SetSmallestSideControl curDepth fold.Indices with
      DocCount := (TVectorSlicing.CreateByControl
        ((TExecRangeParams.create 0 fold.DocCount).SetBlockSize 2000)
        (self.SetSmallestSideControl curDepth fold.Indices).Control).Total })
  have hF := fromFold_spec
    (TCalcScoreFold.SelectSmallestSplitSideBlock curDepth fold
      (TVectorSlicing.Create ((TExecRangeParams.create 0 fold.DocCount).SetBlockSize 2000))
      (TVectorSlicing.CreateByControl
        ((TExecRangeParams.create 0 fold.DocCount).SetBlockSize 2000)
        (self.SetSmallestSideControl curDepth fold.Indices).Control))
    fold.asFoldType fold.DocCount
    (TCalcScoreFold.ClearBodyTail { self.SetSmallestSideControl curDepth fold.Indices with
      DocCount := (TVectorSlicing.CreateByControl
        ((TExecRangeParams.create 0 fold.DocCount).SetBlockSize 2000)
        (self.SetSmallestSideControl curDepth fold.Indices).Control).Total })
    (fun _ _ => rfl) (fun _ _ => rfl) (fun _ _ => rfl) (fun _ _ => rfl) (fun _ _ => rfl)
    (fun _ _ => rfl) (fun _ _ => rfl)
  obtain ⟨e1, e2, e3, e4, e5, _, _, _, _⟩ :=
    SetSmallestSideControl_fields self curDepth fold.Indices
  rw [SelectSmallestSplitSide_eq]
  refine ⟨?_, ?_, ?_, ?_, ?_⟩
  · rw [← e1]
    exact hI.1
  · rw [← e2]
    exact hI.2
  · rw [← e3]
    exact hF.1
  · rw [← e4]
    exact hF.2.1
  · rw [← e5]
    exact hF.2.2.1

theorem SelectSmallestSplitSide_bodyTails (self : TCalcScoreFold) (curDepth : Nat)
    (fold : TCalcScoreFold) (i : Nat) (dbt : TCalcScoreFold.TBodyTail)
    (hi : i < self.BodyTailCount) (h0 : self.BodyTailArr[i]? = some dbt) :
    ∃ bt : TCalcScoreFold.TBodyTail,
      (self.SelectSmallestSplitSide curDepth fold).BodyTailArr[i]? = some bt ∧
      bt.BodyFinish = (if self.ApproxDimension = 0 then 0 else
        (survivors (self.SelectSmallestSplitSide curDepth fold).Control
          (min (fold.BodyTailArr.getD i default).BodyFinish fold.DocCount)).length) ∧
      bt.TailFinish = (if self.ApproxDimension = 0 then 0 else
        (survivors (self.SelectSmallestSplitSide curDepth fold).Control
          (min (fold.BodyTailArr.getD i default).TailFinish fold.DocCount)).length) ∧
      (∀ dim v, dim < self.ApproxDimension → dbt.Derivatives[dim]? = some v →
        (survivors (self.SelectSmallestSplitSide curDepth fold).Control
          (min (fold.BodyTailArr.getD i default).BodyFinish fold.DocCount)).length
            ≤ v.length →
        ∃ w, bt.Derivatives[dim]? = some w ∧ w.length = v.length ∧
          w.take (survivors (self.SelectSmallestSplitSide curDepth fold).Control
              (min (fold.BodyTailArr.getD i default).BodyFinish fold.DocCount)).length
            = (survivors (self.SelectSmallestSplitSide curDepth fold).Control
                (min (fold.BodyTailArr.getD i default).BodyFinish fold.DocCount)).map
                fun j => ((fold.BodyTailArr.getD i default).Derivatives.getD dim []).getD j 0) ∧
      (∀ dim v, dim < self.ApproxDimension → dbt.WeightedDer[dim]? = some v →
        (survivors (self.SelectSmallestSplitSide curDepth fold).Control
          (min (fold.BodyTailArr.getD i default).TailFinish fold.DocCount)).length
            ≤ v.length →
        ∃ w, bt.WeightedDer[dim]? = some w ∧ w.length = v.length ∧
          w.take (survivors (self.SelectSmallestSplitSide curDepth fold).Control
              (min (fold.BodyTailArr.getD i default).TailFinish fold.DocCount)).length
            = (survivors (self.SelectSmallestSplitSide curDepth fold).Control
                (min (fold.BodyTailArr.getD i default).TailFinish fold.DocCount)).map
                fun j => ((fold.BodyTailArr.getD i default).WeightedDer.getD dim []).getD j 0) := by
  rw [(SelectSmallestSplitSide_frame self curDepth fold).1]
  obtain ⟨_, _, _, _, _, eB, eN, eA, _⟩ :=
    SetSmallestSideControl_fields self curDepth fold.Indices
  have hF := (fromFold_spec
    (TCalcScoreFold.SelectSmallestSplitSideBlock curDepth fold
      (TVectorSlicing.Create ((TExecRangeParams.create 0 fold.DocCount).SetBlockSize 2000))
      (TVectorSlicing.CreateByControl
        ((TExecRangeParams.create 0 fold.DocCount).SetBlockSize 2000)
        (self.SetSmallestSideControl curDepth fold.Indices).Control))
    fold.asFoldType fold.DocCount
    (TCalcScoreFold.ClearBodyTail { self.SetSmallestSideControl curDepth fold.Indices with
      DocCount := (TVectorSlicing.CreateByControl
        ((TExecRangeParams.create 0 fold.DocCount).SetBlockSize 2000)
        (self.SetSmallestSideControl curDepth fold.Indices).Control).Total })
    (fun _ _ => rfl) (fun _ _ => rfl) (fun _ _ => rfl) (fun _ _ => rfl) (fun _ _ => rfl)
    (fun _ _ => rfl) (fun _ _ => rfl)).2.2.2 i
    { dbt with BodyFinish := 0, TailFinish := 0 }
    (by show i < (self.SetSmallestSideControl curDepth fold.Indices).BodyTailCount
        rw [eN]; exact hi)
    (by rw [ClearBodyTail_getElem?]
        show Option.map _ (self.SetSmallestSideControl curDepth fold.Indices).BodyTailArr[i]? = _
        rw [eB, h0]; rfl)
  obtain ⟨bt, h1, h2, h3, h4, h5⟩ := hF
  have eA2 : (TCalcScoreFold.ClearBodyTail
      { self.SetSmallestSideControl curDepth fold.Indices with
        DocCount := (TVectorSlicing.CreateByControl
          ((TExecRangeParams.create 0 fold.DocCount).SetBlockSize 2000)
          (self.SetSmallestSideControl curDepth fold.Indices).Control).Total }).ApproxDimension
      = self.ApproxDimension := eA
  rw [eA2] at h2 h3 h4 h5
  refine ⟨bt, ?_, ?_, ?_, h4, h5⟩
  · rw [SelectSmallestSplitSide_eq]
    exact h1
  · rw [h2]
    simp only [Nat.zero_add]
    rfl
  · rw [h3]
    simp only [Nat.zero_add]
    rfl

/-! ## Survivors -/

theorem survivors_length_eq_count (control : List Bool) (n : Nat) :
    (survivors control n).length = (control.take n).count true := by
  induction n with
  | zero => simp [survivors]
  | succ n ih =>
    rw [survivors_add control n 1, List.length_append, ih, List.take_succ, List.count_append]
    congr 1
    cases h : control[n]? with
    | none => simp [List.getD_eq_getElem?_getD, h]
    | some b => cases b <;> simp [List.getD_eq_getElem?_getD, h]

theorem survivors_pairwise (control : List Bool) (n : Nat) :
    (survivors control n).Pairwise (· < ·) :=
  (List.pairwise_lt_range n).sublist (List.filter_sublist _)

theorem mem_survivors (control : List Bool) (n j : Nat) :
    j ∈ survivors control n ↔ j < n ∧ control.getD j false = true := by
  simp [survivors, List.mem_filter]

theorem survivors_prefix (control : List Bool) (L N : Nat) (h : L ≤ N) :
    survivors control L = (survivors control N).take (survivors control L).length := by
  have hN : N = L + (N - L) := by omega
  rw [hN, survivors_add]
  simp

theorem survivors_all_true (control : List Bool) (n : Nat)
    (h : ∀ j, j < n → control.getD j false = true) : survivors control n = List.range n := by
  unfold survivors
  rw [List.filter_eq_self]
  intro j hj
  exact h j (List.mem_range.1 hj)

theorem getD_of_take_eq_map {α β : Type} (l : List β) (m : List α) (f : α → β) (d : β) (e : α)
    (h : l.take m.length = m.map f) (k : Nat) (hk : k < m.length) :
    l.getD k d = f (m.getD k e) := by
  have h1 : (l.take m.length)[k]? = (m.map f)[k]? := by rw [h]
  rw [List.getElem?_take, if_pos hk, List.getElem?_map, List.getElem?_eq_getElem hk] at h1
  rw [List.getD_eq_getElem?_getD, h1, List.getD_eq_getElem m e hk]
  rfl

/-! ## `DocCount` and the body-tail counters -/

/-- C3. After `Sample`, and after `SelectSmallestSplitSide`, `DocCount` is the number of `true`
entries of the control mask at the positions below the source document count of the step:
`indices.size()` for `Sample`, the parent's `DocCount` for `SelectSmallestSplitSide`. -/
theorem DocCount_eq_control_count (self : TCalcScoreFold) (fold : TFold)
    (indices : List TIndexType) (rand : TRestorableFastRng64) (curDepth : Nat)
    (parent : TCalcScoreFold) :
    (self.Sample fold indices rand).1.DocCount
      = ((self.Sample fold indices rand).1.Control.take indices.length).count true ∧
    (self.SelectSmallestSplitSide curDepth parent).DocCount
      = ((self.SelectSmallestSplitSide curDepth parent).Control.take parent.DocCount).count
          true := by
  constructor
  · rw [(Sample_frame self fold indices rand).2.1, survivors_length_eq_count]
  · rw [(SelectSmallestSplitSide_frame self curDepth parent).2.1, survivors_length_eq_count]

/-- C6. With an approximation dimension of at least one, for every body-tail index `b` the
`BodyFinish` of the result's body-tail `b` is the number of source positions below the source
body-tail's `BodyFinish` whose control entry is `true`, and its `TailFinish` the number of
those below the source `TailFinish`: after `Sample` (the source is the fold) and after
`SelectSmallestSplitSide` (the source is the parent partition). -/
theorem bodyTail_counts (self : TCalcScoreFold) (fold : TFold) (indices : List TIndexType)
    (rand : TRestorableFastRng64) (curDepth : Nat) (parent : TCalcScoreFold) (b : Nat)
    (sbt : TFold.TBodyTail) (pbt : TCalcScoreFold.TBodyTail)
    (hA : 1 ≤ self.ApproxDimension) (hb : b < self.BodyTailCount)
    (hdst : b < self.BodyTailArr.length)
    (hsrc : fold.BodyTailArr[b]? = some sbt)
    (hsB : sbt.BodyFinish ≤ indices.length) (hsT : sbt.TailFinish ≤ indices.length)
    (hpar : parent.BodyTailArr[b]? = some pbt)
    (hpB : pbt.BodyFinish ≤ parent.DocCount) (hpT : pbt.TailFinish ≤ parent.DocCount) :
    ((self.Sample fold indices rand).1.BodyTailArr.getD b default).BodyFinish
      = ((self.Sample fold indices rand).1.Control.take sbt.BodyFinish).count true ∧
    ((self.Sample fold indices rand).1.BodyTailArr.getD b default).TailFinish
      = ((self.Sample fold indices rand).1.Control.take sbt.TailFinish).count true ∧
    ((self.SelectSmallestSplitSide curDepth parent).BodyTailArr.getD b default).BodyFinish
      = ((self.SelectSmallestSplitSide curDepth parent).Control.take pbt.BodyFinish).count
          true ∧
    ((self.SelectSmallestSplitSide curDepth parent).BodyTailArr.getD b default).TailFinish
      = ((self.SelectSmallestSplitSide curDepth parent).Control.take pbt.TailFinish).count
          true := by
  have hA0 : ¬ self.ApproxDimension = 0 := by omega
  have hs : fold.BodyTailArr.getD b default = sbt := by
    rw [List.getD_eq_getElem?_getD, hsrc]; rfl
  have hp : parent.BodyTailArr.getD b default = pbt := by
    rw [List.getD_eq_getElem?_getD, hpar]; rfl
  obtain ⟨bt, h1, h2, h3, _, _⟩ := Sample_bodyTails self fold indices rand b
    self.BodyTailArr[b] hb (List.getElem?_eq_getElem hdst)
  obtain ⟨bt2, g1, g2, g3, _, _⟩ := SelectSmallestSplitSide_bodyTails self curDepth parent b
    self.BodyTailArr[b] hb (List.getElem?_eq_getElem hdst)
  rw [hs, if_neg hA0] at h2 h3
  rw [hp, if_neg hA0] at g2 g3
  rw [Nat.min_eq_left hsB] at h2
  rw [Nat.min_eq_left hsT] at h3
  rw [Nat.min_eq_left hpB] at g2
  rw [Nat.min_eq_left hpT] at g3
  rw [List.getD_eq_getElem?_getD, h1, List.getD_eq_getElem?_getD, g1]
  simp only [Option.getD_some]
  rw [h2, h3, g2, g3]
  simp only [survivors_length_eq_count, and_self]

/-! ## Index alignment of the compacted members -/

theorem getD_survivors_prefix (control : List Bool) (L N k : Nat) (h : L ≤ N)
    (hk : k < (survivors control L).length) :
    (survivors control L).getD k 0 = (survivors control N).getD k 0 := by
  have hp := survivors_prefix control L N h
  rw [List.getD_eq_getElem?_getD, List.getD_eq_getElem?_getD]
  conv_lhs => rw [hp]
  rw [List.getElem?_take, if_pos hk]

/-- C4. After `Sample(fold, indices, rng)`, at any sampling rate, let `j_0 < j_1 < ...` be the
positions `j < |indices|` whose control entry is `true` (`survivors`).  The first `DocCount`
slots of `IndexInFold` are exactly `j_0, j_1, ...`, so `IndexInFold` is strictly increasing
over them, and slot `k` of `LearnPermutation`, `SampleWeights` and `Indices` holds the fold's
`LearnPermutation[j_k]`, the fold's `SampleWeights[j_k]` and `indices[j_k]`: slot `k` of every
array refers to the same document.  The blocks of 2000 documents are handled for every
length of `indices`. -/
theorem Sample_aligned (self : TCalcScoreFold) (fold : TFold) (indices : List TIndexType)
    (rand : TRestorableFastRng64)
    (hI : indices.length ≤ self.Indices.length)
    (hF : indices.length ≤ self.IndexInFold.length)
    (hL : indices.length ≤ self.LearnPermutation.length)
    (hW : indices.length ≤ self.SampleWeights.length) :
    (self.Sample fold indices rand).1.DocCount
      = (survivors (self.Sample fold indices rand).1.Control indices.length).length ∧
    (self.Sample fold indices rand).1.IndexInFold.take (self.Sample fold indices rand).1.DocCount
      = survivors (self.Sample fold indices rand).1.Control indices.length ∧
    ((self.Sample fold indices rand).1.IndexInFold.take
      (self.Sample fold indices rand).1.DocCount).Pairwise (· < ·) ∧
    (self.Sample fold indices rand).1.LearnPermutation.take
        (self.Sample fold indices rand).1.DocCount
      = (survivors (self.Sample fold indices rand).1.Control indices.length).map
          (fun j => fold.LearnPermutation.getD j 0) ∧
    (self.Sample fold indices rand).1.SampleWeights.take
        (self.Sample fold indices rand).1.DocCount
      = (survivors (self.Sample fold indices rand).1.Control indices.length).map
          (fun j => fold.SampleWeights.getD j 0) ∧
    (self.Sample fold indices rand).1.Indices.take (self.Sample fold indices rand).1.DocCount
      = (survivors (self.Sample fold indices rand).1.Control indices.length).map
          (fun j => indices.getD j 0) ∧
    (∀ k, k < (self.Sample fold indices rand).1.DocCount →
      (self.Sample fold indices rand).1.IndexInFold.getD k 0
        = (survivors (self.Sample fold indices rand).1.Control indices.length).getD k 0 ∧
      (self.Sample fold indices rand).1.LearnPermutation.getD k 0
        = fold.LearnPermutation.getD
            ((self.Sample fold indices rand).1.IndexInFold.getD k 0) 0 ∧
      (self.Sample fold indices rand).1.SampleWeights.getD k 0
        = fold.SampleWeights.getD ((self.Sample fold indices rand).1.IndexInFold.getD k 0) 0 ∧
      (self.Sample fold indices rand).1.Indices.getD k 0
        = indices.getD ((self.Sample fold indices rand).1.IndexInFold.getD k 0) 0) := by
  have hD := (Sample_frame self fold indices rand).2.1
  have hle := survivors_length_le (self.Sample fold indices rand).1.Control indices.length
  obtain ⟨m1, m2, m3, _, m5⟩ := Sample_members self fold indices rand
  have a1 := (m1 (by omega)).2
  have a2 := (m2 (by omega)).2
  have a3 := (m3 (by omega)).2
  have a5 := (m5 (by omega)).2
  rw [hD]
  refine ⟨rfl, a2, ?_, a3, a5, a1, ?_⟩
  · rw [a2]
    exact survivors_pairwise _ _
  · intro k hk
    have e2 : (self.Sample fold indices rand).1.IndexInFold.getD k 0
        = (survivors (self.Sample fold indices rand).1.Control indices.length).getD k 0 := by
      have := getD_of_take_eq_map _ _ (fun j : Nat => j) 0 0
        (by rw [List.map_id']; exact a2) k hk
      exact this
    rw [e2]
    exact ⟨rfl, getD_of_take_eq_map _ _ _ 0 0 a3 k hk, getD_of_take_eq_map _ _ _ 0 0 a5 k hk,
      getD_of_take_eq_map _ _ _ 0 0 a1 k hk⟩

/-- C5. After `SelectSmallestSplitSide` at depth `d` from a parent partition `P`, let
`j_0 < j_1 < ...` be the positions `j < P.DocCount` whose control entry is `true`
(`survivors`).  For every `k < DocCount`, `IndexInFold[k] = P.IndexInFold[j_k]`,
`LearnPermutation[k] = P.LearnPermutation[j_k]` and `Indices[k] = P.Indices[j_k] OR 2^(d-1)`;
and for every body-tail `b`, dimension `dim` and `k` below the new `BodyFinish` (resp.
`TailFinish`), `Derivatives[dim][k] = P.Derivatives[dim][j_k]` (resp. `WeightedDer`). -/
theorem SelectSmallestSplitSide_aligned (self : TCalcScoreFold) (d : Nat)
    (P : TCalcScoreFold)
    (hI : P.DocCount ≤ self.Indices.length)
    (hF : P.DocCount ≤ self.IndexInFold.length)
    (hL : P.DocCount ≤ self.LearnPermutation.length) :
    (self.SelectSmallestSplitSide d P).IndexInFold.take (self.SelectSmallestSplitSide d P).DocCount
      = (survivors (self.SelectSmallestSplitSide d P).Control P.DocCount).map
          (fun j => P.IndexInFold.getD j 0) ∧
    (self.SelectSmallestSplitSide d P).LearnPermutation.take
        (self.SelectSmallestSplitSide d P).DocCount
      = (survivors (self.SelectSmallestSplitSide d P).Control P.DocCount).map
          (fun j => P.LearnPermutation.getD j 0) ∧
    (self.SelectSmallestSplitSide d P).Indices.take (self.SelectSmallestSplitSide d P).DocCount
      = (survivors (self.SelectSmallestSplitSide d P).Control P.DocCount).map
          (fun j => P.Indices.getD j 0 ||| 2 ^ (d - 1)) ∧
    (∀ k, k < (self.SelectSmallestSplitSide d P).DocCount →
      (self.SelectSmallestSplitSide d P).IndexInFold.getD k 0
        = P.IndexInFold.getD
            ((survivors (self.SelectSmallestSplitSide d P).Control P.DocCount).getD k 0) 0 ∧
      (self.SelectSmallestSplitSide d P).LearnPermutation.getD k 0
        = P.LearnPermutation.getD
            ((survivors (self.SelectSmallestSplitSide d P).Control P.DocCount).getD k 0) 0 ∧
      (self.SelectSmallestSplitSide d P).Indices.getD k 0
        = P.Indices.getD
            ((survivors (self.SelectSmallestSplitSide d P).Control P.DocCount).getD k 0) 0
          ||| 2 ^ (d - 1)) ∧
    (∀ b dim k (pbt dbt : TCalcScoreFold.TBodyTail) (v : List ℚ),
      b < self.BodyTailCount → dim < self.ApproxDimension →
      P.BodyTailArr[b]? = some pbt → self.BodyTailArr[b]? = some dbt →
      pbt.BodyFinish ≤ P.DocCount → dbt.Derivatives[dim]? = some v →
      pbt.BodyFinish ≤ v.length →
      k < ((self.SelectSmallestSplitSide d P).BodyTailArr.getD b default).BodyFinish →
      (((self.SelectSmallestSplitSide d P).BodyTailArr.getD b default).Derivatives.getD
          dim []).getD k 0
        = (pbt.Derivatives.getD dim []).getD
            ((survivors (self.SelectSmallestSplitSide d P).Control P.DocCount).getD k 0) 0) ∧
    (∀ b dim k (pbt dbt : TCalcScoreFold.TBodyTail) (v : List ℚ),
      b < self.BodyTailCount → dim < self.ApproxDimension →
      P.BodyTailArr[b]? = some pbt → self.BodyTailArr[b]? = some dbt →
      pbt.TailFinish ≤ P.DocCount → dbt.WeightedDer[dim]? = some v →
      pbt.TailFinish ≤ v.length →
      k < ((self.SelectSmallestSplitSide d P).BodyTailArr.getD b default).TailFinish →
      (((self.SelectSmallestSplitSide d P).BodyTailArr.getD b default).WeightedDer.getD
          dim []).getD k 0
        = (pbt.WeightedDer.getD dim []).getD
            ((survivors (self.SelectSmallestSplitSide d P).Control P.DocCount).getD k 0) 0) := by
  have hD := (SelectSmallestSplitSide_frame self d P).2.1
  have hle := survivors_length_le (self.SelectSmallestSplitSide d P).Control P.DocCount
  obtain ⟨m1, m2, m3, _, _⟩ := SelectSmallestSplitSide_members self d P
  have a1 := (m1 (by omega)).2
  have a2 := (m2 (by omega)).2
  have a3 := (m3 (by omega)).2
  rw [Nat.one_shiftLeft] at a1
  rw [hD]
  refine ⟨a2, a3, a1, ?_, ?_, ?_⟩
  · intro k hk
    exact ⟨getD_of_take_eq_map _ _ _ 0 0 a2 k hk, getD_of_take_eq_map _ _ _ 0 0 a3 k hk,
      getD_of_take_eq_map _ _ (fun j => P.Indices.getD j 0 ||| 2 ^ (d - 1)) 0 0 a1 k hk⟩
  · intro b dim k pbt dbt v hb hdim hpar hdst hpB hv hcap hk
    have hp : P.BodyTailArr.getD b default = pbt := by
      rw [List.getD_eq_getElem?_getD, hpar]; rfl
    obtain ⟨bt, g1, g2, _, g4, _⟩ := SelectSmallestSplitSide_bodyTails self d P b dbt hb hdst
    rw [hp, Nat.min_eq_left hpB] at g2 g4
    have hA0 : ¬ self.ApproxDimension = 0 := by omega
    rw [if_neg hA0] at g2
    have hcnt := survivors_length_le (self.SelectSmallestSplitSide d P).Control pbt.BodyFinish
    obtain ⟨w, w1, _, w3⟩ := g4 dim v hdim hv (by omega)
    have hbt : (self.SelectSmallestSplitSide d P).BodyTailArr.getD b default = bt := by
      rw [List.getD_eq_getElem?_getD, g1]; rfl
    rw [hbt] at hk ⊢
    rw [g2] at hk
    have hw : bt.Derivatives.getD dim [] = w := by
      rw [List.getD_eq_getElem?_getD, w1]; rfl
    rw [hw, getD_of_take_eq_map w _ _ 0 0 w3 k hk,
      getD_survivors_prefix _ pbt.BodyFinish P.DocCount k hpB hk]
  · intro b dim k pbt dbt v hb hdim hpar hdst hpT hv hcap hk
    have hp : P.BodyTailArr.getD b default = pbt := by
      rw [List.getD_eq_getElem?_getD, hpar]; rfl
    obtain ⟨bt, g1, _, g3, _, g5⟩ := SelectSmallestSplitSide_bodyTails self d P b dbt hb hdst
    rw [hp, Nat.min_eq_left hpT] at g3 g5
    have hA0 : ¬ self.ApproxDimension = 0 := by omega
    rw [if_neg hA0] at g3
    have hcnt := survivors_length_le (self.SelectSmallestSplitSide d P).Control pbt.TailFinish
    obtain ⟨w, w1, _, w3⟩ := g5 dim v hdim hv (by omega)
    have hbt : (self.SelectSmallestSplitSide d P).BodyTailArr.getD b default = bt := by
      rw [List.getD_eq_getElem?_getD, g1]; rfl
    rw [hbt] at hk ⊢
    rw [g3] at hk
    have hw : bt.WeightedDer.getD dim [] = w := by
      rw [List.getD_eq_getElem?_getD, w1]; rfl
    rw [hw, getD_of_take_eq_map w _ _ 0 0 w3 k hk,
      getD_survivors_prefix _ pbt.TailFinish P.DocCount k hpT hk]

/-! ## Determinism of `Sample` and the frame of `UpdateIndices` -/

theorem SetSampledControl_congr (self : TCalcScoreFold) (n : Nat)
    (rand1 rand2 : TRestorableFastRng64)
    (h : ∀ i, i < n → rand1.stream (rand1.pos + i) = rand2.stream (rand2.pos + i)) :
    (self.SetSampledControl n rand1).1 = (self.SetSampledControl n rand2).1 := by
  by_cases hr : self.BernoulliSampleRate = 1
  · rw [SetSampledControl_full self n rand1 hr, SetSampledControl_full self n rand2 hr]
  · rw [SetSampledControl_draws self n rand1 hr, SetSampledControl_draws self n rand2 hr]
    simp only
    congr 1
    apply List.foldl_ext
    intro c i hi
    rw [h i (List.mem_range.1 hi)]

theorem Sample_congr (self : TCalcScoreFold) (fold : TFold) (indices : List TIndexType)
    (rand1 rand2 : TRestorableFastRng64)
    (h : (self.SetSampledControl indices.length rand1).1
      = (self.SetSampledControl indices.length rand2).1) :
    (self.Sample fold indices rand1).1 = (self.Sample fold indices rand2).1 := by
  unfold TCalcScoreFold.Sample
  simp only
  rw [h]

/-- C8. `Sample` is deterministic in its random source.  For a rate below one, `Control[i]` is
`true` exactly when the `i`-th draw of the generator, taken in document order, is strictly
below the rate, and the call consumes one draw per document; two invocations on the same
object, fold and indices with generators that deliver the same draws (in particular
generators in equal states) produce equal control masks and equal partitions. -/
theorem Sample_deterministic (self : TCalcScoreFold) (fold : TFold)
    (indices : List TIndexType) (rand1 rand2 : TRestorableFastRng64)
    (hrate : self.BernoulliSampleRate < 1)
    (hC : indices.length ≤ self.Control.length)
    (hdraws : ∀ i, i < indices.length →
      rand1.stream (rand1.pos + i) = rand2.stream (rand2.pos + i)) :
    (∀ i, i < indices.length →
      (self.Sample fold indices rand1).1.Control[i]?
        = some (decide (rand1.stream (rand1.pos + i) < self.BernoulliSampleRate))) ∧
    (self.Sample fold indices rand1).2 = { rand1 with pos := rand1.pos + indices.length } ∧
    (self.Sample fold indices rand1).1.Control = (self.Sample fold indices rand2).1.Control ∧
    (self.Sample fold indices rand1).1 = (self.Sample fold indices rand2).1 := by
  have hne : self.BernoulliSampleRate ≠ 1 := ne_of_lt hrate
  have heq := Sample_congr self fold indices rand1 rand2
    (SetSampledControl_congr self indices.length rand1 rand2 hdraws)
  refine ⟨?_, ?_, by rw [heq], heq⟩
  · intro i hi
    rw [(Sample_frame self fold indices rand1).1,
      SetSampledControl_draws self indices.length rand1 hne]
    simp only
    rw [foldl_set_getElem?, if_pos ⟨hi, by omega⟩]
  · rw [(Sample_frame self fold indices rand1).2.2.2.2.2.2.2,
      SetSampledControl_draws self indices.length rand1 hne]

/-- C9. `UpdateIndices` changes only `Indices` and `DocCount`: `LearnPermutation`,
`IndexInFold`, `LearnWeights`, `SampleWeights`, `Control` and the whole body-tail array (every
`Derivatives`, `WeightedDer`, `BodyFinish` and `TailFinish`) are exactly as they were, and so
is every other member. -/
theorem UpdateIndices_frame (self : TCalcScoreFold) (indices : List TIndexType) :
    (self.UpdateIndices indices).LearnPermutation = self.LearnPermutation ∧
    (self.UpdateIndices indices).IndexInFold = self.IndexInFold ∧
    (self.UpdateIndices indices).LearnWeights = self.LearnWeights ∧
    (self.UpdateIndices indices).SampleWeights = self.SampleWeights ∧
    (self.UpdateIndices indices).Control = self.Control ∧
    (self.UpdateIndices indices).BodyTailArr = self.BodyTailArr ∧
    (∀ b, ((self.UpdateIndices indices).BodyTailArr.getD b default).Derivatives
        = (self.BodyTailArr.getD b default).Derivatives ∧
      ((self.UpdateIndices indices).BodyTailArr.getD b default).WeightedDer
        = (self.BodyTailArr.getD b default).WeightedDer ∧
      ((self.UpdateIndices indices).BodyTailArr.getD b default).BodyFinish
        = (self.BodyTailArr.getD b default).BodyFinish ∧
      ((self.UpdateIndices indices).BodyTailArr.getD b default).TailFinish
        = (self.BodyTailArr.getD b default).TailFinish) ∧
    self.UpdateIndices indices
      = { self with
          Indices := (self.UpdateIndices indices).Indices,
          DocCount := (self.UpdateIndices indices).DocCount } := by
  have h : self.UpdateIndices indices
      = { self with
          Indices := (self.UpdateIndices indices).Indices,
          DocCount := (self.UpdateIndices indices).DocCount } := by
    unfold TCalcScoreFold.UpdateIndices
    simp only
    rw [UpdateIndicesBlock_rest]
  have hB : (self.UpdateIndices indices).BodyTailArr = self.BodyTailArr := by
    rw [h]
  refine ⟨by rw [h], by rw [h], by rw [h], by rw [h], by rw [h], hB, ?_, h⟩
  intro b
  rw [hB]
  exact ⟨rfl, rfl, rfl, rfl⟩

/-! ## The shape of the body-tail array is kept -/

theorem length_eq_of_getElem?_isSome {α β : Type} (l1 : List α) (l2 : List β)
    (h : ∀ i : Nat, l1[i]?.isSome = l2[i]?.isSome) : l1.length = l2.length := by
  have h1 : ∀ i, i < l1.length ↔ i < l2.length := by
    intro i
    have hi := h i
    constructor
    · intro hlt
      rw [List.getElem?_eq_getElem hlt] at hi
      by_contra hcon
      rw [List.getElem?_eq_none (Nat.le_of_not_lt hcon)] at hi
      cases hi
    · intro hlt
      rw [List.getElem?_eq_getElem hlt] at hi
      by_contra hcon
      rw [List.getElem?_eq_none (Nat.le_of_not_lt hcon)] at hi
      cases hi
  by_contra hne
  rcases Nat.lt_or_gt_of_ne hne with hlt | hgt
  · exact absurd ((h1 l1.length).2 hlt) (Nat.lt_irrefl _)
  · exact absurd ((h1 l2.length).1 hgt) (Nat.lt_irrefl _)

theorem bodyTailArr_shape (control : List Bool) (N A n : Nat)
    (foldBTA arr0 : List TCalcScoreFold.TBodyTail) :
    ((List.range (CeilDiv N 2000)).foldl (fun arr b =>
        (List.range n).foldl (fun arr i => arr.set i
          (TCalcScoreFold.SelectBlockBodyTail A
            (((TVectorSlicing.Create
              ((TExecRangeParams.create 0 N).SetBlockSize 2000)).Slices.getD
                b default).GetConstRef control)
            (foldBTA.getD i default) (arr.getD i default)
            ((TVectorSlicing.Create
              ((TExecRangeParams.create 0 N).SetBlockSize 2000)).Slices.getD b default)
            ((TVectorSlicing.CreateByControl
              ((TExecRangeParams.create 0 N).SetBlockSize 2000) control).Slices.getD
                b default))) arr) arr0).length = arr0.length ∧
    ∀ (i : Nat) (bt0 bt : TCalcScoreFold.TBodyTail), arr0[i]? = some bt0 →
      ((List.range (CeilDiv N 2000)).foldl (fun arr b =>
        (List.range n).foldl (fun arr i => arr.set i
          (TCalcScoreFold.SelectBlockBodyTail A
            (((TVectorSlicing.Create
              ((TExecRangeParams.create 0 N).SetBlockSize 2000)).Slices.getD
                b default).GetConstRef control)
            (foldBTA.getD i default) (arr.getD i default)
            ((TVectorSlicing.Create
              ((TExecRangeParams.create 0 N).SetBlockSize 2000)).Slices.getD b default)
            ((TVectorSlicing.CreateByControl
              ((TExecRangeParams.create 0 N).SetBlockSize 2000) control).Slices.getD
                b default))) arr) arr0)[i]? = some bt →
      bt.Derivatives.length = bt0.Derivatives.length ∧
      bt.WeightedDer.length = bt0.WeightedDer.length := by
  have hupd := blocks_set_update (default : TCalcScoreFold.TBodyTail)
    (fun b i x => TCalcScoreFold.SelectBlockBodyTail A
      (((TVectorSlicing.Create
        ((TExecRangeParams.create 0 N).SetBlockSize 2000)).Slices.getD
          b default).GetConstRef control)
      (foldBTA.getD i default) x
      ((TVectorSlicing.Create
        ((TExecRangeParams.create 0 N).SetBlockSize 2000)).Slices.getD b default)
      ((TVectorSlicing.CreateByControl
        ((TExecRangeParams.create 0 N).SetBlockSize 2000) control).Slices.getD b default))
    n (List.range (CeilDiv N 2000)) arr0
  constructor
  · apply length_eq_of_getElem?_isSome
    intro i
    rw [hupd i]
    by_cases hi : i < n
    · rw [if_pos hi]
      cases arr0[i]? <;> rfl
    · rw [if_neg hi]
  · intro i bt0 bt h0 h1
    rw [hupd i, h0] at h1
    by_cases hi : i < n
    · rw [if_pos hi] at h1
      simp only [Option.map_some', Option.some.injEq] at h1
      obtain ⟨_, _, b3, b4⟩ := blocks_bodyTail A (List.range (CeilDiv N 2000))
        (fun b => ((TVectorSlicing.Create
          ((TExecRangeParams.create 0 N).SetBlockSize 2000)).Slices.getD
            b default).GetConstRef control)
        (foldBTA.getD i default)
        (fun b => (TVectorSlicing.Create
          ((TExecRangeParams.create 0 N).SetBlockSize 2000)).Slices.getD b default)
        (fun b => (TVectorSlicing.CreateByControl
          ((TExecRangeParams.create 0 N).SetBlockSize 2000) control).Slices.getD b default)
        (fun b => ((List.range' (b * 2000)
          (min ((foldBTA.getD i default).BodyFinish - b * 2000)
            (min 2000 (N - b * 2000)))).filter fun j => control.getD j false).length)
        (fun b => ((List.range' (b * 2000)
          (min ((foldBTA.getD i default).TailFinish - b * 2000)
            (min 2000 (N - b * 2000)))).filter fun j => control.getD j false).length)
        (fun b hb sv dv =>
          compact_count control N 2000 _ b (by decide) (List.mem_range.1 hb) sv dv)
        (fun b hb sv dv =>
          compact_count control N 2000 _ b (by decide) (List.mem_range.1 hb) sv dv)
        bt0
      rw [h1] at b3 b4
      constructor
      · apply length_eq_of_getElem?_isSome
        intro dim
        rw [b3 dim]
        by_cases hd : dim < A
        · rw [if_pos hd]
          cases bt0.Derivatives[dim]? <;> rfl
        · rw [if_neg hd]
      · apply length_eq_of_getElem?_isSome
        intro dim
        rw [b4 dim]
        by_cases hd : dim < A
        · rw [if_pos hd]
          cases bt0.WeightedDer[dim]? <;> rfl
        · rw [if_neg hd]
    · rw [if_neg hi] at h1
      cases h1
      exact ⟨rfl, rfl⟩

theorem Sample_bodyTails_shape (self : TCalcScoreFold) (fold : TFold)
    (indices : List TIndexType) (rand : TRestorableFastRng64) :
    (self.Sample fold indices rand).1.BodyTailArr.length = self.BodyTailArr.length ∧
    ∀ (i : Nat) (dbt bt : TCalcScoreFold.TBodyTail), self.BodyTailArr[i]? = some dbt →
      (self.Sample fold indices rand).1.BodyTailArr[i]? = some bt →
      bt.Derivatives.length = dbt.Derivatives.length ∧
      bt.WeightedDer.length = dbt.WeightedDer.length := by
  have hmem := blocks_member
    (TCalcScoreFold.SampleBlock fold indices
      (TVectorSlicing.Create ((TExecRangeParams.create 0 indices.length).SetBlockSize 2000))
      (TVectorSlicing.CreateByControl
        ((TExecRangeParams.create 0 indices.length).SetBlockSize 2000)
        (self.SetSampledControl indices.length rand).1.Control))
    (fun t => t.BodyTailArr)
    (fun C n A arr b => (List.range n).foldl (fun arr i => arr.set i
        (TCalcScoreFold.SelectBlockBodyTail A
          (((TVectorSlicing.Create
            ((TExecRangeParams.create 0 indices.length).SetBlockSize 2000)).Slices.getD
              b default).GetConstRef C)
          (fold.asFoldType.BodyTailArr.getD i default) (arr.getD i default)
          ((TVectorSlicing.Create
            ((TExecRangeParams.create 0 indices.length).SetBlockSize 2000)).Slices.getD
              b default)
          ((TVectorSlicing.CreateByControl
            ((TExecRangeParams.create 0 indices.length).SetBlockSize 2000)
            (self.SetSampledControl indices.length rand).1.Control).Slices.getD
              b default))) arr)
    (fun _ _ => rfl) (fun _ _ => rfl) (fun _ _ => rfl) (fun _ _ => rfl)
    (CeilDiv indices.length 2000)
    (TCalcScoreFold.ClearBodyTail { self with
      Control := (self.SetSampledControl indices.length rand).1.Control,
      DocCount := (TVectorSlicing.CreateByControl
        ((TExecRangeParams.create 0 indices.length).SetBlockSize 2000)
        (self.SetSampledControl indices.length rand).1.Control).Total })
  have hsh := bodyTailArr_shape (self.SetSampledControl indices.length rand).1.Control
    indices.length self.ApproxDimension self.BodyTailCount fold.asFoldType.BodyTailArr
    (TCalcScoreFold.ClearBodyTail { self with
      Control := (self.SetSampledControl indices.length rand).1.Control,
      DocCount := (TVectorSlicing.CreateByControl
        ((TExecRangeParams.create 0 indices.length).SetBlockSize 2000)
        (self.SetSampledControl indices.length rand).1.Control).Total }).BodyTailArr
  have hr : (self.Sample fold indices rand).1.BodyTailArr
      = (ExecRange (TCalcScoreFold.SampleBlock fold indices
          (TVectorSlicing.Create ((TExecRangeParams.create 0 indices.length).SetBlockSize 2000))
          (TVectorSlicing.CreateByControl
            ((TExecRangeParams.create 0 indices.length).SetBlockSize 2000)
            (self.SetSampledControl indices.length rand).1.Control))
          0 (CeilDiv indices.length 2000)
          (TCalcScoreFold.ClearBodyTail { self with
            Control := (self.SetSampledControl indices.length rand).1.Control,
            DocCount := (TVectorSlicing.CreateByControl
              ((TExecRangeParams.create 0 indices.length).SetBlockSize 2000)
              (self.SetSampledControl indices.length rand).1.Control).Total })).BodyTailArr := by
    rw [Sample_fst]
  rw [hr, hmem]
  constructor
  · exact hsh.1.trans (by simp [TCalcScoreFold.ClearBodyTail])
  · intro i dbt bt h0 h1
    exact hsh.2 i { dbt with BodyFinish := 0, TailFinish := 0 } bt
      (by rw [ClearBodyTail_getElem?]; show Option.map _ self.BodyTailArr[i]? = _; rw [h0]; rfl)
      h1

/-! ## Sampling at rate one -/

theorem TCalcScoreFold_eq (a b : TCalcScoreFold)
    (h1 : a.Indices = b.Indices) (h2 : a.LearnPermutation = b.LearnPermutation)
    (h3 : a.IndexInFold = b.IndexInFold) (h4 : a.LearnWeights = b.LearnWeights)
    (h5 : a.SampleWeights = b.SampleWeights) (h6 : a.BodyTailArr = b.BodyTailArr)
    (h7 : a.SmallestSplitSideValue = b.SmallestSplitSideValue)
    (h8 : a.PermutationBlockSize = b.PermutationBlockSize) (h9 : a.Control = b.Control)
    (h10 : a.DocCount = b.DocCount) (h11 : a.BodyTailCount = b.BodyTailCount)
    (h12 : a.ApproxDimension = b.ApproxDimension)
    (h13 : a.BernoulliSampleRate = b.BernoulliSampleRate) : a = b := by
  cases a
  cases b
  simp_all

theorem TBodyTail_eq (a b : TCalcScoreFold.TBodyTail)
    (h1 : a.Derivatives = b.Derivatives) (h2 : a.WeightedDer = b.WeightedDer)
    (h3 : a.BodyFinish = b.BodyFinish) (h4 : a.TailFinish = b.TailFinish) : a = b := by
  cases a
  cases b
  simp_all

theorem map_getD_range {α : Type} (l : List α) (d : α) :
    (List.range l.length).map (fun j => l.getD j d) = l := by
  apply List.ext_getElem?
  intro i
  by_cases hi : i < l.length
  · rw [List.getElem?_map, List.getElem?_range hi, List.getElem?_eq_getElem hi]
    simp only [Option.map_some', List.getD_eq_getElem l d hi]
  · rw [List.getElem?_eq_none (by simpa using hi), List.getElem?_eq_none (by omega)]

theorem eq_of_take_eq_of_length {α : Type} (l m : List α) (h : l.take m.length = m)
    (hlen : l.length = m.length) : l = m := by
  rw [← h, ← hlen, List.take_length]

theorem survivors_replicate_true (len n : Nat) (h : n ≤ len) :
    survivors (List.replicate len true) n = List.range n := by
  apply survivors_all_true
  intro j hj
  rw [List.getD_eq_getElem?_getD, List.getElem?_replicate, if_pos (by omega)]
  rfl

theorem closed_bodyTail (A BF TF N : Nat) (sbtD sbtW : List (List ℚ)) (C : List Bool)
    (dbt bt : TCalcScoreFold.TBodyTail) (hA : 0 < A)
    (hC : ∀ n, n ≤ N → survivors C n = List.range n) (hB : BF ≤ N) (hT : TF ≤ N)
    (d1 : dbt.Derivatives.length = A) (d2 : dbt.WeightedDer.length = A)
    (d3 : ∀ dim, dim < A → (dbt.Derivatives.getD dim []).length = BF ∧
      (dbt.WeightedDer.getD dim []).length = TF)
    (k1 : bt.Derivatives.length = dbt.Derivatives.length)
    (k2 : bt.WeightedDer.length = dbt.WeightedDer.length)
    (g2 : bt.BodyFinish = (if A = 0 then 0 else (survivors C (min BF N)).length))
    (g3 : bt.TailFinish = (if A = 0 then 0 else (survivors C (min TF N)).length))
    (g4 : ∀ dim v, dim < A → dbt.Derivatives[dim]? = some v →
      (survivors C (min BF N)).length ≤ v.length →
      ∃ w, bt.Derivatives[dim]? = some w ∧ w.length = v.length ∧
        w.take (survivors C (min BF N)).length
          = (survivors C (min BF N)).map fun j => (sbtD.getD dim []).getD j 0)
    (g5 : ∀ dim v, dim < A → dbt.WeightedDer[dim]? = some v →
      (survivors C (min TF N)).length ≤ v.length →
      ∃ w, bt.WeightedDer[dim]? = some w ∧ w.length = v.length ∧
        w.take (survivors C (min TF N)).length
          = (survivors C (min TF N)).map fun j => (sbtW.getD dim []).getD j 0) :
    bt = { Derivatives := (List.range A).map fun dim =>
             (List.range BF).map fun j => (sbtD.getD dim []).getD j 0,
           WeightedDer := (List.range A).map fun dim =>
             (List.range TF).map fun j => (sbtW.getD dim []).getD j 0,
           BodyFinish := BF,
           TailFinish := TF } := by
  have eB : min BF N = BF := Nat.min_eq_left hB
  have eT : min TF N = TF := Nat.min_eq_left hT
  have hA0 : ¬ A = 0 := by omega
  rw [eB, hC BF hB, List.length_range] at g4
  rw [eT, hC TF hT, List.length_range] at g5
  rw [if_neg hA0, eB, hC BF hB, List.length_range] at g2
  rw [if_neg hA0, eT, hC TF hT, List.length_range] at g3
  apply TBodyTail_eq
  · show bt.Derivatives = _
    apply List.ext_getElem?
    intro dim
    by_cases hd : dim < A
    · have hlt : dim < dbt.Derivatives.length := by omega
      have hv : dbt.Derivatives[dim]? = some (dbt.Derivatives.getD dim []) := by
        rw [List.getElem?_eq_getElem hlt, List.getD_eq_getElem _ _ hlt]
      have hvl := (d3 dim hd).1
      obtain ⟨w, w1, w2, w3⟩ := g4 dim _ hd hv (Nat.le_of_eq hvl.symm)
      rw [w1, List.getElem?_map, List.getElem?_range hd]
      simp only [Option.map_some', Option.some.injEq]
      exact eq_of_take_eq_of_length _ _
        (by rw [List.length_map, List.length_range]; exact w3)
        (by rw [List.length_map, List.length_range, w2, hvl])
    · have h1 : bt.Derivatives.length ≤ dim := by omega
      rw [List.getElem?_eq_none h1, List.getElem?_eq_none (by simp; omega)]
  · show bt.WeightedDer = _
    apply List.ext_getElem?
    intro dim
    by_cases hd : dim < A
    · have hlt : dim < dbt.WeightedDer.length := by omega
      have hv : dbt.WeightedDer[dim]? = some (dbt.WeightedDer.getD dim []) := by
        rw [List.getElem?_eq_getElem hlt, List.getD_eq_getElem _ _ hlt]
      have hvl := (d3 dim hd).2
      obtain ⟨w, w1, w2, w3⟩ := g5 dim _ hd hv (Nat.le_of_eq hvl.symm)
      rw [w1, List.getElem?_map, List.getElem?_range hd]
      simp only [Option.map_some', Option.some.injEq]
      exact eq_of_take_eq_of_length _ _
        (by rw [List.length_map, List.length_range]; exact w3)
        (by rw [List.length_map, List.length_range, w2, hvl])
    · have h1 : bt.WeightedDer.length ≤ dim := by omega
      rw [List.getElem?_eq_none h1, List.getElem?_eq_none (by simp; omega)]
  · exact g2
  · exact g3

/-- An object that holds what `Sample` leaves at rate one in storage sized by `Create` is
determined by the fold and the indices: nothing of the old contents is left. -/
theorem full_closed_core (self : TCalcScoreFold) (fold : TFold) (indices : List TIndexType)
    (r : TCalcScoreFold)
    (hcr : self.CreatedFor fold)
    (hN : indices.length = fold.LearnPermutation.length)
    (hbt : ∀ bt, bt ∈ fold.BodyTailArr →
      bt.BodyFinish ≤ fold.LearnPermutation.length ∧
      bt.TailFinish ≤ fold.LearnPermutation.length)
    (f1 : r.Control = List.replicate indices.length true)
    (f2 : r.DocCount = (survivors r.Control indices.length).length)
    (f3 : r.BodyTailCount = self.BodyTailCount)
    (f4 : r.ApproxDimension = self.ApproxDimension)
    (f5 : r.BernoulliSampleRate = 1)
    (f6 : r.SmallestSplitSideValue = self.SmallestSplitSideValue)
    (f7 : r.PermutationBlockSize = fold.PermutationBlockSize)
    (m1 : (survivors r.Control indices.length).length ≤ self.Indices.length →
      r.Indices.length = self.Indices.length ∧
      r.Indices.take (survivors r.Control indices.length).length
        = (survivors r.Control indices.length).map fun j => indices.getD j 0)
    (m2 : (survivors r.Control indices.length).length ≤ self.IndexInFold.length →
      r.IndexInFold.length = self.IndexInFold.length ∧
      r.IndexInFold.take (survivors r.Control indices.length).length
        = survivors r.Control indices.length)
    (m3 : (survivors r.Control indices.length).length ≤ self.LearnPermutation.length →
      r.LearnPermutation.length = self.LearnPermutation.length ∧
      r.LearnPermutation.take (survivors r.Control indices.length).length
        = (survivors r.Control indices.length).map fun j => fold.LearnPermutation.getD j 0)
    (m4 : (survivors r.Control indices.length).length ≤ self.LearnWeights.length →
      r.LearnWeights.length = self.LearnWeights.length ∧
      r.LearnWeights.take (survivors r.Control indices.length).length
        = (survivors r.Control indices.length).map fun j => fold.LearnWeights.getD j 0)
    (m5 : (survivors r.Control indices.length).length ≤ self.SampleWeights.length →
      r.SampleWeights.length = self.SampleWeights.length ∧
      r.SampleWeights.take (survivors r.Control indices.length).length
        = (survivors r.Control indices.length).map fun j => fold.SampleWeights.getD j 0)
    (s1 : r.BodyTailArr.length = self.BodyTailArr.length)
    (s2 : ∀ (i : Nat) (dbt bt : TCalcScoreFold.TBodyTail), self.BodyTailArr[i]? = some dbt →
      r.BodyTailArr[i]? = some bt →
      bt.Derivatives.length = dbt.Derivatives.length ∧
      bt.WeightedDer.length = dbt.WeightedDer.length)
    (hb : ∀ (i : Nat) (dbt : TCalcScoreFold.TBodyTail), i < self.BodyTailCount →
      self.BodyTailArr[i]? = some dbt →
      ∃ bt : TCalcScoreFold.TBodyTail,
        r.BodyTailArr[i]? = some bt ∧
        bt.BodyFinish = (if self.ApproxDimension = 0 then 0 else
          (survivors r.Control
            (min (fold.BodyTailArr.getD i default).BodyFinish indices.length)).length) ∧
        bt.TailFinish = (if self.ApproxDimension = 0 then 0 else
          (survivors r.Control
            (min (fold.BodyTailArr.getD i default).TailFinish indices.length)).length) ∧
        (∀ dim v, dim < self.ApproxDimension → dbt.Derivatives[dim]? = some v →
          (survivors r.Control
            (min (fold.BodyTailArr.getD i default).BodyFinish indices.length)).length
              ≤ v.length →
          ∃ w, bt.Derivatives[dim]? = some w ∧ w.length = v.length ∧
            w.take (survivors r.Control
                (min (fold.BodyTailArr.getD i default).BodyFinish indices.length)).length
              = (survivors r.Control
                  (min (fold.BodyTailArr.getD i default).BodyFinish indices.length)).map
                  fun j => ((fold.BodyTailArr.getD i default).Derivatives.getD dim []).getD
                    j 0) ∧
        (∀ dim v, dim < self.ApproxDimension → dbt.WeightedDer[dim]? = some v →
          (survivors r.Control
            (min (fold.BodyTailArr.getD i default).TailFinish indices.length)).length
              ≤ v.length →
          ∃ w, bt.WeightedDer[dim]? = some w ∧ w.length = v.length ∧
            w.take (survivors r.Control
                (min (fold.BodyTailArr.getD i default).TailFinish indices.length)).length
              = (survivors r.Control
                  (min (fold.BodyTailArr.getD i default).TailFinish indices.length)).map
                  fun j => ((fold.BodyTailArr.getD i default).WeightedDer.getD dim []).getD
                    j 0)) :
    r = { Indices := indices,
          LearnPermutation := fold.LearnPermutation,
          IndexInFold := List.range indices.length,
          LearnWeights := (List.range indices.length).map fun j => fold.LearnWeights.getD j 0,
          SampleWeights := (List.range indices.length).map fun j => fold.SampleWeights.getD j 0,
          BodyTailArr := fold.BodyTailArr.map fun sbt =>
            { Derivatives := (List.range self.ApproxDimension).map fun dim =>
                (List.range sbt.BodyFinish).map fun j =>
                  (sbt.Derivatives.getD dim []).getD j 0,
              WeightedDer := (List.range self.ApproxDimension).map fun dim =>
                (List.range sbt.TailFinish).map fun j =>
                  (sbt.WeightedDer.getD dim []).getD j 0,
              BodyFinish := sbt.BodyFinish,
              TailFinish := sbt.TailFinish },
          SmallestSplitSideValue := self.SmallestSplitSideValue,
          PermutationBlockSize := fold.PermutationBlockSize,
          Control := List.replicate indices.length true,
          DocCount := indices.length,
          BodyTailCount := self.BodyTailCount,
          ApproxDimension := self.ApproxDimension,
          BernoulliSampleRate := 1 } := by
  obtain ⟨c1, c2, c3, c4, c5, c6, c7, c8, c9, c10⟩ := hcr
  have hsurv : ∀ n, n ≤ indices.length → survivors r.Control n = List.range n := by
    intro n hn
    rw [f1]
    exact survivors_replicate_true _ _ hn
  have hsN := hsurv indices.length (Nat.le_refl _)
  rw [hsN, List.length_range] at m1 m2 m3 m4 m5
  obtain ⟨m1a, m1b⟩ := m1 (by omega)
  obtain ⟨m2a, m2b⟩ := m2 (by omega)
  obtain ⟨m3a, m3b⟩ := m3 (by omega)
  obtain ⟨m4a, m4b⟩ := m4 (by omega)
  obtain ⟨m5a, m5b⟩ := m5 (by omega)
  apply TCalcScoreFold_eq
  · show r.Indices = indices
    rw [map_getD_range] at m1b
    exact eq_of_take_eq_of_length _ _ m1b (by omega)
  · show r.LearnPermutation = fold.LearnPermutation
    rw [hN, map_getD_range] at m3b
    exact eq_of_take_eq_of_length _ _ m3b (by omega)
  · show r.IndexInFold = List.range indices.length
    exact eq_of_take_eq_of_length _ _ (by rw [List.length_range]; exact m2b)
      (by rw [List.length_range]; omega)
  · show r.LearnWeights = _
    exact eq_of_take_eq_of_length _ _ (by rw [List.length_map, List.length_range]; exact m4b)
      (by rw [List.length_map, List.length_range]; omega)
  · show r.SampleWeights = _
    exact eq_of_take_eq_of_length _ _ (by rw [List.length_map, List.length_range]; exact m5b)
      (by rw [List.length_map, List.length_range]; omega)
  · show r.BodyTailArr = _
    apply List.ext_getElem?
    intro b
    by_cases hb1 : b < self.BodyTailCount
    · have hbl : b < self.BodyTailArr.length := by omega
      have hbf : b < fold.BodyTailArr.length := by omega
      obtain ⟨bt, g1, g2, g3, g4, g5⟩ := hb b self.BodyTailArr[b] hb1
        (List.getElem?_eq_getElem hbl)
      obtain ⟨k1, k2⟩ := s2 b self.BodyTailArr[b] bt (List.getElem?_eq_getElem hbl) g1
      have hsb : fold.BodyTailArr.getD b default = fold.BodyTailArr[b] :=
        List.getD_eq_getElem _ _ hbf
      have hdb : self.BodyTailArr.getD b default = self.BodyTailArr[b] :=
        List.getD_eq_getElem _ _ hbl
      obtain ⟨hB, hT⟩ := hbt fold.BodyTailArr[b] (List.getElem_mem hbf)
      obtain ⟨d1, d2, d3⟩ := c10 b hb1
      rw [hdb] at d1 d2 d3
      rw [hsb] at g2 g3 g4 g5 d3
      rw [g1, List.getElem?_map, List.getElem?_eq_getElem hbf]
      simp only [Option.map_some', Option.some.injEq]
      exact closed_bodyTail self.ApproxDimension fold.BodyTailArr[b].BodyFinish
        fold.BodyTailArr[b].TailFinish indices.length fold.BodyTailArr[b].Derivatives
        fold.BodyTailArr[b].WeightedDer r.Control self.BodyTailArr[b] bt c9 hsurv
        (by rw [hN]; exact hB) (by rw [hN]; exact hT) d1 d2 d3 k1 k2 g2 g3 g4 g5
    · have h1 : r.BodyTailArr.length ≤ b := by omega
      rw [List.getElem?_eq_none h1, List.getElem?_eq_none (by simp; omega)]
  · exact f6
  · exact f7
  · exact f1
  · show r.DocCount = indices.length
    rw [f2, hsN, List.length_range]
  · exact f3
  · exact f4
  · exact f5

/-- The result of `Sample` at rate one, for an object sized by `Create` for the fold. -/
theorem Sample_full_closed (self : TCalcScoreFold) (fold : TFold) (indices : List TIndexType)
    (rand : TRestorableFastRng64)
    (hrate : self.BernoulliSampleRate = 1)
    (hcr : self.CreatedFor fold)
    (hN : indices.length = fold.LearnPermutation.length)
    (hbt : ∀ bt, bt ∈ fold.BodyTailArr →
      bt.BodyFinish ≤ fold.LearnPermutation.length ∧
      bt.TailFinish ≤ fold.LearnPermutation.length) :
    self.Sample fold indices rand
      = ({ Indices := indices,
           LearnPermutation := fold.LearnPermutation,
           IndexInFold := List.range indices.length,
           LearnWeights := (List.range indices.length).map fun j => fold.LearnWeights.getD j 0,
           SampleWeights := (List.range indices.length).map fun j => fold.SampleWeights.getD j 0,
           BodyTailArr := fold.BodyTailArr.map fun sbt =>
             { Derivatives := (List.range self.ApproxDimension).map fun dim =>
                 (List.range sbt.BodyFinish).map fun j =>
                   (sbt.Derivatives.getD dim []).getD j 0,
               WeightedDer := (List.range self.ApproxDimension).map fun dim =>
                 (List.range sbt.TailFinish).map fun j =>
                   (sbt.WeightedDer.getD dim []).getD j 0,
               BodyFinish := sbt.BodyFinish,
               TailFinish := sbt.TailFinish },
           SmallestSplitSideValue := self.SmallestSplitSideValue,
           PermutationBlockSize := fold.PermutationBlockSize,
           Control := List.replicate indices.length true,
           DocCount := indices.length,
           BodyTailCount := self.BodyTailCount,
           ApproxDimension := self.ApproxDimension,
           BernoulliSampleRate := 1 }, rand) := by
  obtain ⟨f1, f2, f3, f4, f5, f6, f7, f8⟩ := Sample_frame self fold indices rand
  rw [SetSampledControl_full self indices.length rand hrate] at f1 f8
  have hlen : self.Control.length = indices.length := by rw [hN]; exact hcr.2.2.2.2.2.1
  apply Prod.ext
  · exact full_closed_core self fold indices (self.Sample fold indices rand).1 hcr hN hbt
      (f1.trans (by rw [hlen])) f2 f3 f4 (f5.trans hrate) f6 (f7.trans (if_pos hrate))
      (Sample_members self fold indices rand).1
      (Sample_members self fold indices rand).2.1
      (Sample_members self fold indices rand).2.2.1
      (Sample_members self fold indices rand).2.2.2.1
      (Sample_members self fold indices rand).2.2.2.2
      (Sample_bodyTails_shape self fold indices rand).1
      (Sample_bodyTails_shape self fold indices rand).2
      (fun i dbt hi h0 => Sample_bodyTails self fold indices rand i dbt hi h0)
  · exact f8

/-! ## Sampling at rate one is the identity -/

theorem closed_CreatedFor (fold : TFold) (indices : List TIndexType) (A n : Nat) (v : Bool)
    (hA : 0 < A) (hn : n = fold.BodyTailArr.length)
    (hN : indices.length = fold.LearnPermutation.length) :
    TCalcScoreFold.CreatedFor
      { Indices := indices,
        LearnPermutation := fold.LearnPermutation,
        IndexInFold := List.range indices.length,
        LearnWeights := (List.range indices.length).map fun j => fold.LearnWeights.getD j 0,
        SampleWeights := (List.range indices.length).map fun j => fold.SampleWeights.getD j 0,
        BodyTailArr := fold.BodyTailArr.map fun sbt =>
          { Derivatives := (List.range A).map fun dim =>
              (List.range sbt.BodyFinish).map fun j => (sbt.Derivatives.getD dim []).getD j 0,
            WeightedDer := (List.range A).map fun dim =>
              (List.range sbt.TailFinish).map fun j => (sbt.WeightedDer.getD dim []).getD j 0,
            BodyFinish := sbt.BodyFinish,
            TailFinish := sbt.TailFinish },
        SmallestSplitSideValue := v,
        PermutationBlockSize := fold.PermutationBlockSize,
        Control := List.replicate indices.length true,
        DocCount := indices.length,
        BodyTailCount := n,
        ApproxDimension := A,
        BernoulliSampleRate := 1 } fold := by
  unfold TCalcScoreFold.CreatedFor
  refine ⟨hN, rfl, ?_, ?_, ?_, ?_, hn, ?_, hA, ?_⟩
  · simp only [List.length_range]; exact hN
  · simp only [List.length_map, List.length_range]; exact hN
  · simp only [List.length_map, List.length_range]; exact hN
  · simp only [List.length_replicate]; exact hN
  · simp only [List.length_map]; exact hn.symm
  show ∀ b, b < n → _
  intro b hb
  have hbf : b < fold.BodyTailArr.length := by omega
  have hsb : fold.BodyTailArr.getD b default = fold.BodyTailArr[b] :=
    List.getD_eq_getElem _ _ hbf
  rw [List.getD_eq_getElem _ _ (by rw [List.length_map]; exact hbf), List.getElem_map, hsb]
  simp only [List.length_map, List.length_range, true_and]
  intro dim hd
  rw [List.getD_eq_getElem _ _ (by rw [List.length_map, List.length_range]; exact hd),
    List.getD_eq_getElem _ _ (by rw [List.length_map, List.length_range]; exact hd)]
  simp

/-- C7. `Sample` at rate 1.0 on an object sized by `Create` for the fold is the identity
projection of the fold: for a fold of `N` documents and indices of length `N`, the result has
`DocCount = N`, `IndexInFold[k] = k`, `LearnPermutation` equal to the fold's, `Indices` equal to
`indices`, and in every body-tail the fold's `BodyFinish` and `TailFinish`; no random draw is
consumed, and calling `Sample` again with the same arguments returns the same object. -/
theorem Sample_full_rate_identity (self : TCalcScoreFold) (fold : TFold)
    (indices : List TIndexType) (rand : TRestorableFastRng64)
    (hrate : self.BernoulliSampleRate = 1)
    (hcr : self.CreatedFor fold)
    (hN : indices.length = fold.LearnPermutation.length)
    (hbt : ∀ bt, bt ∈ fold.BodyTailArr →
      bt.BodyFinish ≤ fold.LearnPermutation.length ∧
      bt.TailFinish ≤ fold.LearnPermutation.length) :
    (self.Sample fold indices rand).1.DocCount = indices.length ∧
    (self.Sample fold indices rand).1.IndexInFold = List.range indices.length ∧
    (∀ k, k < indices.length → (self.Sample fold indices rand).1.IndexInFold[k]? = some k) ∧
    (self.Sample fold indices rand).1.LearnPermutation = fold.LearnPermutation ∧
    (self.Sample fold indices rand).1.Indices = indices ∧
    (∀ (b : Nat) (sbt : TFold.TBodyTail), fold.BodyTailArr[b]? = some sbt →
      ((self.Sample fold indices rand).1.BodyTailArr.getD b default).BodyFinish
        = sbt.BodyFinish ∧
      ((self.Sample fold indices rand).1.BodyTailArr.getD b default).TailFinish
        = sbt.TailFinish) ∧
    (self.Sample fold indices rand).2 = rand ∧
    (self.Sample fold indices rand).1.Sample fold indices (self.Sample fold indices rand).2
      = self.Sample fold indices rand := by
  rw [Sample_full_closed self fold indices rand hrate hcr hN hbt]
  refine ⟨rfl, rfl, ?_, rfl, rfl, ?_, rfl, ?_⟩
  · intro k hk
    exact List.getElem?_range hk
  · intro b sbt hb
    simp only [List.getD_eq_getElem?_getD, List.getElem?_map, hb, Option.map_some',
      Option.getD_some, and_self]
  · exact Sample_full_closed _ fold indices rand rfl
      (closed_CreatedFor fold indices self.ApproxDimension self.BodyTailCount
        self.SmallestSplitSideValue hcr.2.2.2.2.2.2.2.2.1 hcr.2.2.2.2.2.2.1 hN) hN hbt

/-! ## Creation of the object, and the side chosen over the stored indices -/

theorem length_yresize {α : Type} [Inhabited α] (v : List α) (n : Nat) :
    (yresize v n).length = n := by
  unfold yresize
  rw [List.length_append, List.length_take, List.length_replicate]
  omega

theorem Create_CreatedFor (self : TCalcScoreFold) (fold : TFold) (sampleRate : ℚ)
    (hA : 0 < fold.GetApproxDimension) :
    (self.Create fold sampleRate).CreatedFor fold := by
  unfold TCalcScoreFold.CreatedFor TCalcScoreFold.Create
  simp only [length_yresize, List.length_map, List.length_range, true_and]
  refine ⟨hA, ?_⟩
  intro b hb
  simp only [List.getD_eq_getElem?_getD, List.getElem?_map, List.getElem?_range hb,
    Option.map_some', Option.getD_some, List.length_map, List.length_range, true_and]
  intro dim hd
  simp only [List.getElem?_range hd, Option.map_some', Option.getD_some, length_yresize,
    and_self]

theorem Create_rate (self : TCalcScoreFold) (fold : TFold) (sampleRate : ℚ) :
    (self.Create fold sampleRate).BernoulliSampleRate = sampleRate := rfl

theorem length_filter_add_not {α : Type} (p : α → Bool) (l : List α) :
    (l.filter p).length + (l.filter fun x => !p x).length = l.length := by
  induction l with
  | nil => rfl
  | cons a t ih =>
    cases h : p a <;> simp [List.filter_cons, h] <;> omega

theorem length_filter_range_getD {α : Type} (l : List α) (d : α) (p : α → Bool) :
    ((List.range l.length).filter fun j => p (l.getD j d)).length = (l.filter p).length := by
  have h : (l.filter p).length
      = (((List.range l.length).map fun j => l.getD j d).filter p).length := by
    rw [map_getD_range]
  rw [h, List.filter_map, List.length_map]
  rfl

theorem SetSmallestSideControl_getD (self : TCalcScoreFold) (d : Nat)
    (indices : List TIndexType) (hd : 1 ≤ d) (hlt : ∀ x ∈ indices, x < 2 ^ d)
    (hlen : indices.length ≤ self.Control.length) (i : Nat) (hi : i < indices.length) :
    (self.SetSmallestSideControl d indices).Control.getD i false
      = ((indices.getD i 0).testBit (d - 1)
          == (self.SetSmallestSideControl d indices).SmallestSplitSideValue) := by
  have hd1 : d - 1 + 1 = d := by omega
  have hx : indices.getD i 0 < 2 ^ (d - 1 + 1) := by
    rw [hd1, List.getD_eq_getElem indices 0 hi]
    exact hlt _ (List.getElem_mem hi)
  rw [List.getD_eq_getElem?_getD, SetSmallestSideControl_control, if_pos ⟨hi, by omega⟩,
    Option.getD_some]
  generalize indices.getD i 0 = x at hx ⊢
  cases hb : x.testBit (d - 1) <;>
    cases hs : (self.SetSmallestSideControl d indices).SmallestSplitSideValue <;>
    simp [(gt_splitWeight_iff _ _ hx), (lt_splitWeight_iff _ _ hx), hb]

/-- When the stored `Indices` of the parent has exactly `DocCount` entries (as after `Sample`
at rate one), `SelectSmallestSplitSide` keeps the smaller side: `min(c, N - c)` documents. -/
theorem SelectSmallestSplitSide_exact_storage (self : TCalcScoreFold) (d : Nat)
    (fold : TCalcScoreFold) (hd : 1 ≤ d)
    (hlen : fold.Indices.length = fold.DocCount)
    (hlt : ∀ x ∈ fold.Indices, x < 2 ^ d)
    (hC : fold.DocCount ≤ self.Control.length) :
    (self.SelectSmallestSplitSide d fold).DocCount
      = min (fold.Indices.filter fun x => x.testBit (d - 1)).length
          (fold.DocCount - (fold.Indices.filter fun x => x.testBit (d - 1)).length) ∧
    2 * (self.SelectSmallestSplitSide d fold).DocCount ≤ fold.DocCount := by
  obtain ⟨hctl, hdc, -⟩ := SelectSmallestSplitSide_frame self d fold
  have hd1 : d - 1 + 1 = d := by omega
  have hlt1 : ∀ x ∈ fold.Indices, x < 2 ^ (d - 1 + 1) := by rw [hd1]; exact hlt
  have hv := SetSmallestSideControl_value self d fold.Indices
  rw [sum_shift_eq_count fold.Indices (d - 1) hlt1] at hv
  have hcount : (self.SelectSmallestSplitSide d fold).DocCount
      = (fold.Indices.filter fun x => x.testBit (d - 1)
          == (self.SetSmallestSideControl d fold.Indices).SmallestSplitSideValue).length := by
    rw [hdc, hctl, ← length_filter_range_getD fold.Indices 0, hlen]
    unfold survivors
    congr 1
    apply List.filter_congr
    intro j hj
    rw [List.mem_range] at hj
    exact SetSmallestSideControl_getD self d fold.Indices hd hlt (by omega) j (by omega)
  have hsplit := length_filter_add_not (fun x : TIndexType => x.testBit (d - 1)) fold.Indices
  have hv1 : (self.SetSmallestSideControl d fold.Indices).SmallestSplitSideValue
      = decide ((fold.Indices.filter fun x : TIndexType => x.testBit (d - 1)).length * 2
          ≤ fold.Indices.length) := hv
  cases hs : (self.SetSmallestSideControl d fold.Indices).SmallestSplitSideValue
  · rw [hs] at hv1 hcount
    have hv2 := of_decide_eq_false hv1.symm
    have he : (fold.Indices.filter fun x : TIndexType => x.testBit (d - 1) == false)
        = fold.Indices.filter fun x : TIndexType => !(x.testBit (d - 1)) := by
      apply List.filter_congr
      intro x _
      cases x.testBit (d - 1) <;> rfl
    rw [he] at hcount
    rw [hcount]
    omega
  · rw [hs] at hv1 hcount
    have hv2 := of_decide_eq_true hv1.symm
    have he : (fold.Indices.filter fun x : TIndexType => x.testBit (d - 1) == true)
        = fold.Indices.filter fun x : TIndexType => x.testBit (d - 1) := by
      apply List.filter_congr
      intro x _
      cases x.testBit (d - 1) <;> rfl
    rw [he] at hcount
    rw [hcount]
    omega

/-- C1. `SelectSmallestSplitSide` does not keep the smaller side of a parent whose stored
`Indices` is longer than its `DocCount`.  The parent made by `Sample` at rate one half from
the ten-document example fold has `N = 4` documents, with leaf codes `1, 1, 1, 0` below
`2^1`, so `c = 3` and `min(c, N - c) = 1`; `SetSmallestSideControl` compares the set bits with
the ten stored entries of `Indices`, picks the bit-set side, and `SelectSmallestSplitSide` at
depth 1 returns `DocCount = 3`, with `2 * 3 > 4`. -/
theorem SelectSmallestSplitSide_counts_stale_storage :
    Example.sampled.DocCount = 4 ∧
    Example.sampled.Indices.take 4 = [1, 1, 1, 0] ∧
    (∀ x ∈ Example.sampled.Indices.take Example.sampled.DocCount, x < 2 ^ 1) ∧
    ((Example.sampled.Indices.take Example.sampled.DocCount).filter
      fun x => x.testBit 0).length = 3 ∧
    Example.sampled.Indices.length = 10 ∧
    ((Example.created Example.half).SelectSmallestSplitSide 1
      Example.sampled).SmallestSplitSideValue = true ∧
    ((Example.created Example.half).SelectSmallestSplitSide 1 Example.sampled).DocCount = 3 ∧
    ¬ 2 * ((Example.created Example.half).SelectSmallestSplitSide 1 Example.sampled).DocCount
        ≤ Example.sampled.DocCount ∧
    ((Example.created Example.half).SelectSmallestSplitSide 1 Example.sampled).DocCount
      ≠ min 3 (Example.sampled.DocCount - 3) := by
  decide

/-! ## The statements on the ten-document fold -/

/-- The partitioner statement for ten documents in blocks of four. -/
theorem TVectorSlicing_Create_covers_witness :
    1 ≤ 4 ∧
    (TVectorSlicing.Create ((TExecRangeParams.create 0 10).SetBlockSize 4)).Total = 10 ∧
    (TVectorSlicing.Create ((TExecRangeParams.create 0 10).SetBlockSize 4)).Slices.length
      = (10 + 4 - 1) / 4 :=
  ⟨by decide, (TVectorSlicing_Create_covers 10 4 (by decide)).1,
    (TVectorSlicing_Create_covers 10 4 (by decide)).2.1⟩

/-- The side choice at depth one on the leaf codes of the example. -/
theorem SetSmallestSideControl_spec_witness :
    1 ≤ 1 ∧ (∀ x ∈ Example.indices, x < 2 ^ 1) ∧
    Example.indices.length ≤ (Example.created 1).Control.length ∧
    (((Example.created 1).SetSmallestSideControl 1 Example.indices).SmallestSplitSideValue
        = true ↔
      2 * (Example.indices.filter fun x => x.testBit (1 - 1)).length
        ≤ Example.indices.length) :=
  ⟨by decide, by decide, by decide,
    (SetSmallestSideControl_spec (Example.created 1) 1 Example.indices (by decide) (by decide)
      (by decide)).1⟩

/-- The body-tail counters of the example fold sampled at rate one half. -/
theorem bodyTail_counts_witness :
    1 ≤ (Example.created Example.half).ApproxDimension ∧
    0 < (Example.created Example.half).BodyTailCount ∧
    Example.fold.BodyTailArr[0]? = some (Example.fold.BodyTailArr.getD 0 default) ∧
    Example.full.BodyTailArr[0]? = some (Example.full.BodyTailArr.getD 0 default) ∧
    (((Example.created Example.half).Sample Example.fold Example.indices
        Example.rand).1.BodyTailArr.getD 0 default).BodyFinish
      = (((Example.created Example.half).Sample Example.fold Example.indices
          Example.rand).1.Control.take
            (Example.fold.BodyTailArr.getD 0 default).BodyFinish).count true :=
  ⟨by decide, by decide, by decide, by decide,
    (bodyTail_counts (Example.created Example.half) Example.fold Example.indices Example.rand 1
      Example.full 0 (Example.fold.BodyTailArr.getD 0 default)
      (Example.full.BodyTailArr.getD 0 default)
      (by decide) (by decide) (by decide) (by decide) (by decide) (by decide) (by decide)
      (by decide) (by decide)).1⟩

/-- The alignment of the example fold sampled at rate one half. -/
theorem Sample_aligned_witness :
    Example.indices.length ≤ (Example.created Example.half).Indices.length ∧
    Example.indices.length ≤ (Example.created Example.half).IndexInFold.length ∧
    Example.indices.length ≤ (Example.created Example.half).LearnPermutation.length ∧
    Example.indices.length ≤ (Example.created Example.half).SampleWeights.length ∧
    ((Example.created Example.half).Sample Example.fold Example.indices
        Example.rand).1.IndexInFold.take
        ((Example.created Example.half).Sample Example.fold Example.indices
          Example.rand).1.DocCount
      = survivors ((Example.created Example.half).Sample Example.fold Example.indices
          Example.rand).1.Control Example.indices.length :=
  ⟨by decide, by decide, by decide, by decide,
    (Sample_aligned (Example.created Example.half) Example.fold Example.indices Example.rand
      (by decide) (by decide) (by decide) (by decide)).2.1⟩

/-- The alignment of the smaller side of the fully sampled example fold at depth one. -/
theorem SelectSmallestSplitSide_aligned_witness :
    Example.full.DocCount ≤ (Example.created 1).Indices.length ∧
    Example.full.DocCount ≤ (Example.created 1).IndexInFold.length ∧
    Example.full.DocCount ≤ (Example.created 1).LearnPermutation.length ∧
    ((Example.created 1).SelectSmallestSplitSide 1 Example.full).Indices.take
        ((Example.created 1).SelectSmallestSplitSide 1 Example.full).DocCount
      = (survivors ((Example.created 1).SelectSmallestSplitSide 1 Example.full).Control
          Example.full.DocCount).map (fun j => Example.full.Indices.getD j 0 ||| 2 ^ (1 - 1)) ∧
    ((((Example.created 1).SelectSmallestSplitSide 1 Example.full).BodyTailArr.getD 0
        default).Derivatives.getD 0 []).getD 0 0
      = ((Example.full.BodyTailArr.getD 0 default).Derivatives.getD 0 []).getD
          ((survivors ((Example.created 1).SelectSmallestSplitSide 1 Example.full).Control
            Example.full.DocCount).getD 0 0) 0 :=
  ⟨by decide, by decide, by decide,
    (SelectSmallestSplitSide_aligned (Example.created 1) 1 Example.full
      (by decide) (by decide) (by decide)).2.2.1,
    (SelectSmallestSplitSide_aligned (Example.created 1) 1 Example.full
      (by decide) (by decide) (by decide)).2.2.2.2.1 0 0 0
      (Example.full.BodyTailArr.getD 0 default)
      ((Example.created 1).BodyTailArr.getD 0 default)
      (((Example.created 1).BodyTailArr.getD 0 default).Derivatives.getD 0 [])
      (by decide) (by decide) (by decide) (by decide) (by decide) (by decide) (by decide)
      (by decide)⟩

/-- The example fold sampled at rate one, twice. -/
theorem Sample_full_rate_identity_witness :
    (Example.created 1).BernoulliSampleRate = 1 ∧
    (Example.created 1).CreatedFor Example.fold ∧
    Example.indices.length = Example.fold.LearnPermutation.length ∧
    ((Example.created 1).Sample Example.fold Example.indices Example.rand).1.DocCount
      = Example.indices.length ∧
    ((Example.created 1).Sample Example.fold Example.indices Example.rand).1.Sample
        Example.fold Example.indices
        ((Example.created 1).Sample Example.fold Example.indices Example.rand).2
      = (Example.created 1).Sample Example.fold Example.indices Example.rand :=
  ⟨rfl, Create_CreatedFor default Example.fold 1 (by decide), by decide,
    (Sample_full_rate_identity (Example.created 1) Example.fold Example.indices Example.rand
      rfl (Create_CreatedFor default Example.fold 1 (by decide)) (by decide) (by decide)).1,
    (Sample_full_rate_identity (Example.created 1) Example.fold Example.indices Example.rand
      rfl (Create_CreatedFor default Example.fold 1 (by decide)) (by decide)
      (by decide)).2.2.2.2.2.2.2⟩

/-- The example fold sampled at rate one half with two generators that deliver the same
draws. -/
theorem Sample_deterministic_witness :
    (Example.created Example.half).BernoulliSampleRate < 1 ∧
    Example.indices.length ≤ (Example.created Example.half).Control.length ∧
    (∀ i, i < Example.indices.length →
      Example.rand.stream (Example.rand.pos + i)
        = Example.later.stream (Example.later.pos + i)) ∧
    ((Example.created Example.half).Sample Example.fold Example.indices Example.rand).1
      = ((Example.created Example.half).Sample Example.fold Example.indices Example.later).1 :=
  ⟨by decide, by decide, by decide,
    (Sample_deterministic (Example.created Example.half) Example.fold Example.indices
      Example.rand Example.later (by decide) (by decide) (by decide)).2.2.2⟩

/-! ## Slices by a control mask -/

theorem assignOffsets_sizes (sizes : List Nat) :
    (TVectorSlicing.assignOffsets sizes).1.map TSlice.Size = sizes := by
  obtain ⟨-, hlen, hget⟩ := assignOffsets_spec sizes
  apply List.ext_getElem?
  intro i
  by_cases hi : i < sizes.length
  · rw [List.getElem?_map, hget i hi, List.getElem?_eq_getElem hi]
    simp [List.getD_eq_getElem?_getD, List.getElem?_eq_getElem hi]
  · rw [List.getElem?_eq_none (by rw [List.length_map, hlen]; omega),
      List.getElem?_eq_none (by omega)]

theorem length_filter_range'_eq_count (control : List Bool) (a m : Nat) :
    ((List.range' a m).filter fun j => control.getD j false).length
      = ((control.drop a).take m).count true := by
  have h1 := congrArg List.length (survivors_add control a m)
  rw [List.length_append, survivors_length_eq_count, survivors_length_eq_count] at h1
  have h2 : control.take (a + m) = control.take a ++ (control.drop a).take m :=
    List.take_add control a m
  rw [h2, List.count_append] at h1
  omega

theorem CreateByControl_offsets (control : List Bool) (blockParams : TExecRangeParams) (b : Nat)
    (sl : TSlice)
    (h : (TVectorSlicing.CreateByControl blockParams control).Slices[b]? = some sl) :
    sl.Offset
      = (((TVectorSlicing.CreateByControl blockParams control).Slices.take b).map
          TSlice.Size).sum := by
  unfold TVectorSlicing.CreateByControl at h ⊢
  simp only at h ⊢
  rw [List.map_take, assignOffsets_sizes]
  obtain ⟨-, hlen, hget⟩ := assignOffsets_spec
    ((List.range blockParams.BlockCount).map fun sliceIdx =>
      BlockedLoopBody blockParams
        (fun doc (sliceSize : Nat) => sliceSize + ((GetDataPtr control 0).read doc).toNat)
        sliceIdx 0)
  have hb : b < ((List.range blockParams.BlockCount).map fun sliceIdx =>
      BlockedLoopBody blockParams
        (fun doc (sliceSize : Nat) => sliceSize + ((GetDataPtr control 0).read doc).toNat)
        sliceIdx 0).length := by
    rw [← hlen]
    exact (List.getElem?_eq_some_iff.1 h).1
  rw [hget b hb] at h
  cases h
  rfl

theorem sum_take_succ (l : List Nat) (i : Nat) (x : Nat) (h : l[i]? = some x) :
    (l.take (i + 1)).sum = (l.take i).sum + x := by
  rw [List.take_succ, h]
  simp

theorem sum_take_mono (l : List Nat) (a b : Nat) (h : a ≤ b) :
    (l.take a).sum ≤ (l.take b).sum := by
  induction l generalizing a b with
  | nil => simp
  | cons x t ih =>
    cases a with
    | zero => simp
    | succ a =>
      cases b with
      | zero => omega
      | succ b =>
        simp only [List.take_succ_cons, List.sum_cons]
        exact Nat.add_le_add_left (ih a b (by omega)) x

theorem sum_take_le_sum (l : List Nat) (a : Nat) : (l.take a).sum ≤ l.sum := by
  have h := sum_take_mono l a (max a l.length) (Nat.le_max_left _ _)
  rw [List.take_of_length_le (Nat.le_max_right _ _)] at h
  exact h

theorem CreateByControl_total_eq_sum (control : List Bool) (blockParams : TExecRangeParams) :
    (TVectorSlicing.CreateByControl blockParams control).Total
      = ((TVectorSlicing.CreateByControl blockParams control).Slices.map TSlice.Size).sum := by
  unfold TVectorSlicing.CreateByControl
  simp only
  rw [assignOffsets_sizes, (assignOffsets_spec _).1]

/-- C11. For a range `[0, N)` cut into blocks of `B >= 1`, `CreateByControl` yields one slice
per fixed block of `Create`; the size of slice `b` is the number of `true` control entries
inside the fixed block `b`, and its offset is the sum of the sizes of the slices before it.
`Total` is the number of `true` entries of the control mask below `N` and the sum of all
sizes; so the first slice starts at 0, every slice starts where the previous one ends, an
earlier slice ends before a later one starts, and every slice lies inside `[0, Total)`. -/
theorem TVectorSlicing_CreateByControl_tiles (control : List Bool) (N B : Nat) (hB : 1 ≤ B) :
    (TVectorSlicing.CreateByControl
        ((TExecRangeParams.create 0 N).SetBlockSize B) control).Slices.length
      = (TVectorSlicing.Create ((TExecRangeParams.create 0 N).SetBlockSize B)).Slices.length ∧
    (∀ (b : Nat) (fixed sl : TSlice),
      (TVectorSlicing.Create ((TExecRangeParams.create 0 N).SetBlockSize B)).Slices[b]?
        = some fixed →
      (TVectorSlicing.CreateByControl
        ((TExecRangeParams.create 0 N).SetBlockSize B) control).Slices[b]? = some sl →
      sl.Size = ((control.drop fixed.Offset).take fixed.Size).count true ∧
      sl.Offset = (((TVectorSlicing.CreateByControl
        ((TExecRangeParams.create 0 N).SetBlockSize B) control).Slices.take b).map
          TSlice.Size).sum) ∧
    (TVectorSlicing.CreateByControl
        ((TExecRangeParams.create 0 N).SetBlockSize B) control).Total
      = (control.take N).count true ∧
    (TVectorSlicing.CreateByControl
        ((TExecRangeParams.create 0 N).SetBlockSize B) control).Total
      = ((TVectorSlicing.CreateByControl
          ((TExecRangeParams.create 0 N).SetBlockSize B) control).Slices.map TSlice.Size).sum ∧
    (∀ sl : TSlice,
      (TVectorSlicing.CreateByControl
        ((TExecRangeParams.create 0 N).SetBlockSize B) control).Slices[0]? = some sl →
      sl.Offset = 0) ∧
    (∀ (i : Nat) (sl next : TSlice),
      (TVectorSlicing.CreateByControl
        ((TExecRangeParams.create 0 N).SetBlockSize B) control).Slices[i]? = some sl →
      (TVectorSlicing.CreateByControl
        ((TExecRangeParams.create 0 N).SetBlockSize B) control).Slices[i + 1]? = some next →
      next.Offset = sl.Offset + sl.Size) ∧
    (∀ (i j : Nat) (si sj : TSlice), i < j →
      (TVectorSlicing.CreateByControl
        ((TExecRangeParams.create 0 N).SetBlockSize B) control).Slices[i]? = some si →
      (TVectorSlicing.CreateByControl
        ((TExecRangeParams.create 0 N).SetBlockSize B) control).Slices[j]? = some sj →
      si.Offset + si.Size ≤ sj.Offset) ∧
    (∀ (i : Nat) (sl : TSlice),
      (TVectorSlicing.CreateByControl
        ((TExecRangeParams.create 0 N).SetBlockSize B) control).Slices[i]? = some sl →
      sl.Offset + sl.Size ≤ (TVectorSlicing.CreateByControl
        ((TExecRangeParams.create 0 N).SetBlockSize B) control).Total) := by
  have hoff := CreateByControl_offsets control ((TExecRangeParams.create 0 N).SetBlockSize B)
  have hsum := CreateByControl_total_eq_sum control ((TExecRangeParams.create 0 N).SetBlockSize B)
  generalize hS : TVectorSlicing.CreateByControl
    ((TExecRangeParams.create 0 N).SetBlockSize B) control = S at hoff hsum ⊢
  have hsize : ∀ (i : Nat) (sl : TSlice), S.Slices[i]? = some sl →
      (S.Slices.map TSlice.Size)[i]? = some sl.Size := by
    intro i sl h
    rw [List.getElem?_map, h]
    rfl
  have hnext : ∀ (i : Nat) (sl : TSlice), S.Slices[i]? = some sl →
      ((S.Slices.take (i + 1)).map TSlice.Size).sum = sl.Offset + sl.Size := by
    intro i sl h
    rw [List.map_take, sum_take_succ _ i sl.Size (hsize i sl h), ← List.map_take, ← hoff i sl h]
  refine ⟨?_, ?_, ?_, hsum, ?_, ?_, ?_, ?_⟩
  · rw [← hS, CreateByControl_slices_length, Create_slices_length]
  · intro b fixed sl hf hs
    refine ⟨?_, hoff b sl hs⟩
    have hb : b < CeilDiv N B := by
      have := (List.getElem?_eq_some_iff.1 hf).1
      rwa [Create_slices_length] at this
    rw [Create_slices_getElem? N B b hb] at hf
    cases hf
    have h2 := CreateByControl_slices_getD control N B b hB hb
    rw [hS, List.getD_eq_getElem?_getD, hs, Option.getD_some] at h2
    rw [h2]
    exact length_filter_range'_eq_count control (b * B) (min B (N - b * B))
  · rw [← hS, CreateByControl_total control N B hB, survivors_length_eq_count]
  · intro sl h
    rw [hoff 0 sl h]
    rfl
  · intro i sl next h1 h2
    rw [hoff (i + 1) next h2, hnext i sl h1]
  · intro i j si sj hij h1 h2
    rw [hoff j sj h2, ← hnext i si h1, List.map_take, List.map_take]
    exact sum_take_mono _ _ _ hij
  · intro i sl h
    rw [hsum, ← hnext i sl h, List.map_take]
    exact sum_take_le_sum _ _

theorem TVectorSlicing_CreateByControl_tiles_witness :
    1 ≤ 4 ∧
    (TVectorSlicing.CreateByControl
        ((TExecRangeParams.create 0 10).SetBlockSize 4)
        [true, false, false, true, false, false, true, false, false, true]).Total
      = ([true, false, false, true, false, false, true, false, false, true].take 10).count
          true :=
  ⟨by decide, (TVectorSlicing_CreateByControl_tiles
    [true, false, false, true, false, false, true, false, false, true] 10 4
    (by decide)).2.2.1⟩

/-! ## The split-statistics cache -/

theorem lookup_filter_ne {κ ν : Type} [DecidableEq κ] (l : List (κ × ν)) (k k' : κ)
    (h : k' ≠ k) :
    (l.filter fun entry => entry.1 ≠ k).lookup k' = l.lookup k' := by
  induction l with
  | nil => rfl
  | cons e t ih =>
    obtain ⟨a, b⟩ := e
    rw [List.filter_cons]
    by_cases ha : a = k
    · have h1 : (k' == a) = false := by
        rw [ha]
        simpa using h
      rw [if_neg (by simp [ha]), ih, List.lookup_cons, h1]
    · rw [if_pos (by simp [ha]), List.lookup_cons, List.lookup_cons, ih]

theorem GetStats_hit (self : TBucketStatsCache) (split : TSplitCandidate) (statsCount : Nat)
    (splitStats : Nat) (h : self.Stats.lookup split = some (some splitStats)) :
    self.GetStats split statsCount = ((splitStats, false), self) := by
  unfold TBucketStatsCache.GetStats
  rw [h]

theorem GetStats_miss (self : TBucketStatsCache) (split : TSplitCandidate) (statsCount : Nat)
    (h : self.Stats.lookup split = none ∨ self.Stats.lookup split = some none) :
    self.GetStats split statsCount
      = ((self.Heap.length, true),
          { self with
            Heap := self.Heap ++ [yresize [] statsCount],
            MemoryPool := self.MemoryPool.Allocate statsCount,
            Stats := (split, some self.Heap.length) ::
              self.Stats.filter fun entry => entry.1 ≠ split }) := by
  unfold TBucketStatsCache.GetStats
  rcases h with h | h <;> rw [h]

theorem GetStats_cases (self : TBucketStatsCache) (split : TSplitCandidate) :
    (∃ splitStats, self.Stats.lookup split = some (some splitStats)) ∨
    (self.Stats.lookup split = none ∨ self.Stats.lookup split = some none) := by
  cases h : self.Stats.lookup split with
  | none => exact Or.inr (Or.inl rfl)
  | some v =>
    cases v with
    | none => exact Or.inr (Or.inr rfl)
    | some a => exact Or.inl ⟨a, rfl⟩

theorem GetStats_keeps (self : TBucketStatsCache) (split other : TSplitCandidate)
    (statsCount splitStats : Nat)
    (h : self.Stats.lookup split = some (some splitStats)) (hlt : splitStats < self.Heap.length) :
    (self.GetStats other statsCount).2.Stats.lookup split = some (some splitStats) ∧
    splitStats < (self.GetStats other statsCount).2.Heap.length ∧
    (self.GetStats other statsCount).2.Heap.getD splitStats []
      = self.Heap.getD splitStats [] := by
  rcases GetStats_cases self other with ⟨a, ha⟩ | hmiss
  · rw [GetStats_hit self other statsCount a ha]
    exact ⟨h, hlt, rfl⟩
  · rw [GetStats_miss self other statsCount hmiss]
    have hne : split ≠ other := by
      intro he
      subst he
      rcases hmiss with h1 | h1 <;> rw [h1] at h <;> cases h
    refine ⟨?_, ?_, ?_⟩
    · show ((other, some self.Heap.length) ::
        self.Stats.filter fun entry => entry.1 ≠ other).lookup split = _
      have h1 : (split == other) = false := by simpa using hne
      rw [List.lookup_cons, h1, lookup_filter_ne _ _ _ hne, h]
    · show splitStats < (self.Heap ++ [yresize [] statsCount]).length
      rw [List.length_append]
      omega
    · show (self.Heap ++ [yresize [] statsCount]).getD splitStats [] = _
      rw [List.getD_eq_getElem?_getD, List.getD_eq_getElem?_getD,
        List.getElem?_append_left hlt]

theorem Serve_keeps (self : TBucketStatsCache) (split : TSplitCandidate) (splitStats : Nat)
    (request : TCacheRequest)
    (h : self.Stats.lookup split = some (some splitStats)) (hlt : splitStats < self.Heap.length) :
    (self.Serve request).Stats.lookup split = some (some splitStats) ∧
    splitStats < (self.Serve request).Heap.length := by
  cases request with
  | GetStats other statsCount =>
    exact ⟨(GetStats_keeps self split other statsCount splitStats h hlt).1,
      (GetStats_keeps self split other statsCount splitStats h hlt).2.1⟩
  | Write a stats =>
    refine ⟨h, ?_⟩
    show splitStats < (self.Heap.set a stats).length
    rw [List.length_set]
    exact hlt

theorem ServeAll_keeps (requests : List TCacheRequest) (self : TBucketStatsCache)
    (split : TSplitCandidate) (splitStats : Nat)
    (h : self.Stats.lookup split = some (some splitStats)) (hlt : splitStats < self.Heap.length) :
    (self.ServeAll requests).Stats.lookup split = some (some splitStats) ∧
    splitStats < (self.ServeAll requests).Heap.length := by
  induction requests generalizing self with
  | nil => exact ⟨h, hlt⟩
  | cons q t ih =>
    have hq := Serve_keeps self split splitStats q h hlt
    exact ih (self.Serve q) hq.1 hq.2

theorem ServeAll_append (self : TBucketStatsCache) (before after : List TCacheRequest) :
    self.ServeAll (before ++ after) = (self.ServeAll before).ServeAll after := by
  unfold TBucketStatsCache.ServeAll
  rw [List.foldl_append]

theorem ServeAll_contents (requests : List TCacheRequest) (self : TBucketStatsCache)
    (split : TSplitCandidate) (splitStats : Nat)
    (h : self.Stats.lookup split = some (some splitStats)) (hlt : splitStats < self.Heap.length)
    (hw : ∀ q ∈ requests, ∀ stats, q ≠ TCacheRequest.Write splitStats stats) :
    (self.ServeAll requests).Heap.getD splitStats [] = self.Heap.getD splitStats [] := by
  induction requests generalizing self with
  | nil => rfl
  | cons q t ih =>
    have hq := Serve_keeps self split splitStats q h hlt
    have hstep : (self.Serve q).Heap.getD splitStats [] = self.Heap.getD splitStats [] := by
      cases q with
      | GetStats other statsCount =>
        exact (GetStats_keeps self split other statsCount splitStats h hlt).2.2
      | Write a stats =>
        have hne : a ≠ splitStats := by
          intro he
          subst he
          exact hw _ (List.mem_cons_self _ _) stats rfl
        show (self.Heap.set a stats).getD splitStats [] = _
        rw [List.getD_eq_getElem?_getD, List.getD_eq_getElem?_getD,
          List.getElem?_set_ne hne]
    have := ih (self.Serve q) hq.1 hq.2 (fun q' hq' => hw q' (List.mem_cons_of_mem _ hq'))
    exact this.trans hstep

/-- C12. For every cache state and split candidate `split` that is absent (no entry, or a
null holder): the first `GetStats` reports `areStatsDirty = true`; after any sequence of
further requests without a `GarbageCollect` (calls of `GetStats` for any candidates, and the
callers' stores into the vectors), `GetStats` for `split` returns the very same vector (the
same address), reports `areStatsDirty = false` and leaves the cache as it is; and the vector
holds what the last store into it left there. -/
theorem GetStats_same_buffer (self : TBucketStatsCache) (split : TSplitCandidate)
    (statsCount laterCount : Nat) (requests : List TCacheRequest)
    (habsent : self.Stats.lookup split = none ∨ self.Stats.lookup split = some none) :
    (self.GetStats split statsCount).1.2 = true ∧
    (((self.GetStats split statsCount).2.ServeAll requests).GetStats split laterCount).1
      = ((self.GetStats split statsCount).1.1, false) ∧
    (((self.GetStats split statsCount).2.ServeAll requests).GetStats split laterCount).2
      = (self.GetStats split statsCount).2.ServeAll requests ∧
    (∀ (before after : List TCacheRequest) (stats : List TBucketStats),
      requests = before ++ TCacheRequest.Write (self.GetStats split statsCount).1.1 stats :: after →
      (∀ q ∈ after, ∀ stats2,
        q ≠ TCacheRequest.Write (self.GetStats split statsCount).1.1 stats2) →
      (((self.GetStats split statsCount).2.ServeAll requests).GetStats split
          laterCount).2.Heap.getD (self.GetStats split statsCount).1.1 [] = stats) := by
  rw [GetStats_miss self split statsCount habsent]
  have h0 : ({ self with
      Heap := self.Heap ++ [yresize [] statsCount],
      MemoryPool := self.MemoryPool.Allocate statsCount,
      Stats := (split, some self.Heap.length) ::
        self.Stats.filter fun entry => entry.1 ≠ split } : TBucketStatsCache).Stats.lookup split
      = some (some self.Heap.length) := by
    show ((split, some self.Heap.length) ::
      self.Stats.filter fun entry => entry.1 ≠ split).lookup split = _
    simp [List.lookup_cons]
  have h1 : self.Heap.length < ({ self with
      Heap := self.Heap ++ [yresize [] statsCount],
      MemoryPool := self.MemoryPool.Allocate statsCount,
      Stats := (split, some self.Heap.length) ::
        self.Stats.filter fun entry => entry.1 ≠ split } : TBucketStatsCache).Heap.length := by
    show self.Heap.length < (self.Heap ++ [yresize [] statsCount]).length
    rw [List.length_append]
    exact Nat.lt_succ_self _
  generalize ({ self with
      Heap := self.Heap ++ [yresize [] statsCount],
      MemoryPool := self.MemoryPool.Allocate statsCount,
      Stats := (split, some self.Heap.length) ::
        self.Stats.filter fun entry => entry.1 ≠ split } : TBucketStatsCache) = c at h0 h1 ⊢
  have hk := ServeAll_keeps requests c split self.Heap.length h0 h1
  have hhit := GetStats_hit (c.ServeAll requests) split laterCount self.Heap.length hk.1
  refine ⟨rfl, ?_, ?_, ?_⟩
  · rw [hhit]
  · rw [hhit]
  · intro before after stats hreq hafter
    rw [hhit]
    show (c.ServeAll requests).Heap.getD self.Heap.length [] = stats
    rw [hreq, ServeAll_append]
    have hb := ServeAll_keeps before c split self.Heap.length h0 h1
    have hw : ((c.ServeAll before).Serve
        (TCacheRequest.Write self.Heap.length stats)).Heap.getD self.Heap.length [] = stats := by
      show ((c.ServeAll before).Heap.set self.Heap.length stats).getD self.Heap.length [] = stats
      rw [List.getD_eq_getElem?_getD, List.getElem?_set_self hb.2]
      rfl
    have hs := Serve_keeps (c.ServeAll before) split self.Heap.length
      (TCacheRequest.Write self.Heap.length stats) hb.1 hb.2
    have hc := ServeAll_contents after _ split self.Heap.length hs.1 hs.2 hafter
    exact hc.trans hw

/-- C13. If `GarbageCollect` runs while the `MemoryWaste` of the pool exceeds `InitialSize`,
every cached entry is dropped and the pool is cleared: the next `GetStats` for any split
candidate (so for every candidate cached before) reports `areStatsDirty = true` and returns
a vector made by that call, at an address beyond every vector made before, holding
`statsCount` elements. -/
theorem GarbageCollect_drops_entries (self : TBucketStatsCache)
    (hwaste : self.MemoryPool.MemoryWaste > self.InitialSize) :
    self.GarbageCollect.Stats = [] ∧
    self.GarbageCollect.MemoryPool.Requests = [] ∧
    (∀ (split : TSplitCandidate) (statsCount : Nat),
      (self.GarbageCollect.GetStats split statsCount).1 = (self.Heap.length, true) ∧
      ((self.GarbageCollect.GetStats split statsCount).2.Heap.getD self.Heap.length []).length
        = statsCount ∧
      (self.GarbageCollect.GetStats split statsCount).2.Heap.getD self.Heap.length []
        = List.replicate statsCount default ∧
      (∀ (cached : TSplitCandidate) (splitStats : Nat),
        self.Stats.lookup cached = some (some splitStats) → splitStats < self.Heap.length →
        (self.GarbageCollect.GetStats split statsCount).1.1 ≠ splitStats)) := by
  have hgc : self.GarbageCollect
      = { self with Stats := [], MemoryPool := self.MemoryPool.Clear } := by
    unfold TBucketStatsCache.GarbageCollect
    rw [if_pos hwaste]
  rw [hgc]
  refine ⟨rfl, rfl, ?_⟩
  intro split statsCount
  have hmiss : ({ self with Stats := [], MemoryPool := self.MemoryPool.Clear } :
      TBucketStatsCache).Stats.lookup split = none ∨
      ({ self with Stats := [], MemoryPool := self.MemoryPool.Clear } :
      TBucketStatsCache).Stats.lookup split = some none := Or.inl rfl
  rw [GetStats_miss _ split statsCount hmiss]
  have hget : (self.Heap ++ [(yresize [] statsCount : List TBucketStats)]).getD
      self.Heap.length [] = List.replicate statsCount default := by
    rw [List.getD_eq_getElem?_getD, List.getElem?_append_right (Nat.le_refl _)]
    simp [yresize]
  refine ⟨rfl, ?_, hget, ?_⟩
  · show ((self.Heap ++ [(yresize [] statsCount : List TBucketStats)]).getD
      self.Heap.length []).length = statsCount
    rw [hget, List.length_replicate]
  · intro cached splitStats _ hlt he
    have he2 : self.Heap.length = splitStats := he
    omega

/-- C14. `GarbageCollect` does nothing unless the waste strictly exceeds the threshold: when
`MemoryWaste <= InitialSize` (equality included) the cache is unchanged, with its entries
and its vectors, so a following `GetStats` for a cached candidate returns the cached vector
and reports `areStatsDirty = false`. -/
theorem GarbageCollect_below_threshold (self : TBucketStatsCache)
    (hwaste : self.MemoryPool.MemoryWaste ≤ self.InitialSize) :
    self.GarbageCollect = self ∧
    self.GarbageCollect.Stats = self.Stats ∧
    self.GarbageCollect.Heap = self.Heap ∧
    (∀ (split : TSplitCandidate) (splitStats statsCount : Nat),
      self.Stats.lookup split = some (some splitStats) →
      self.GarbageCollect.GetStats split statsCount = ((splitStats, false), self)) := by
  have hgc : self.GarbageCollect = self := by
    unfold TBucketStatsCache.GarbageCollect
    rw [if_neg (by omega)]
  rw [hgc]
  refine ⟨rfl, rfl, rfl, ?_⟩
  intro split splitStats statsCount h
  exact GetStats_hit self split statsCount splitStats h

/-- A miss for the candidate `(2, 0)` on the example cache, then a hit for another candidate,
a store into the new vector and a miss for a third candidate. -/
theorem GetStats_same_buffer_witness :
    (Example.cache.Stats.lookup ⟨2, 0⟩ = none ∨ Example.cache.Stats.lookup ⟨2, 0⟩ = some none) ∧
    (((Example.cache.GetStats ⟨2, 0⟩ 3).2.ServeAll
        [TCacheRequest.GetStats ⟨1, 0⟩ 2, TCacheRequest.Write 1 [⟨1, 2, 3⟩],
          TCacheRequest.GetStats ⟨3, 0⟩ 1]).GetStats ⟨2, 0⟩ 7).1
      = ((Example.cache.GetStats ⟨2, 0⟩ 3).1.1, false) :=
  ⟨by decide,
    (GetStats_same_buffer Example.cache ⟨2, 0⟩ 3 7
      [TCacheRequest.GetStats ⟨1, 0⟩ 2, TCacheRequest.Write 1 [⟨1, 2, 3⟩],
        TCacheRequest.GetStats ⟨3, 0⟩ 1] (by decide)).2.1⟩

/-- The example cache after a further allocation of three elements wastes five, above its
threshold of two. -/
theorem GarbageCollect_drops_entries_witness :
    (Example.cache.GetStats ⟨2, 0⟩ 3).2.MemoryPool.MemoryWaste
      > (Example.cache.GetStats ⟨2, 0⟩ 3).2.InitialSize ∧
    (Example.cache.GetStats ⟨2, 0⟩ 3).2.GarbageCollect.Stats = [] :=
  ⟨by decide, (GarbageCollect_drops_entries (Example.cache.GetStats ⟨2, 0⟩ 3).2 (by decide)).1⟩

/-- The example cache wastes exactly its threshold. -/
theorem GarbageCollect_below_threshold_witness :
    Example.cache.MemoryPool.MemoryWaste ≤ Example.cache.InitialSize ∧
    Example.cache.GarbageCollect.Stats = Example.cache.Stats :=
  ⟨by decide, (GarbageCollect_below_threshold Example.cache (by decide)).2.1⟩

/-! ## Competitor lists -/

theorem length_resize {α : Type} (v : List α) (n : Nat) (x : α) : (resize v n x).length = n := by
  unfold resize
  rw [List.length_append, List.length_take, List.length_replicate]
  omega

theorem getD_set_append {α : Type} (l : List (List α)) (i p : Nat) (x : List α)
    (hi : i < l.length) :
    (l.set i (l.getD i [] ++ x)).getD p [] = l.getD p [] ++ (if i = p then x else []) := by
  by_cases h : i = p
  · subst h
    rw [if_pos rfl, List.getD_eq_getElem?_getD, List.getElem?_set_self hi]
    rfl
  · rw [if_neg h, List.append_nil, List.getD_eq_getElem?_getD, List.getElem?_set_ne h,
      List.getD_eq_getElem?_getD]

theorem AssignCompetitorsPair_length (learnSampleCount bodyFinish tailFinish : Nat)
    (invertPermutation : List Nat) (competitors : List (List TCompetitor)) (pair : TPair) :
    (TFold.AssignCompetitorsPair learnSampleCount bodyFinish tailFinish invertPermutation
      competitors pair).length = competitors.length := by
  unfold TFold.AssignCompetitorsPair
  simp only
  split
  · rfl
  · split
    · rfl
    · split <;> split <;> simp only [List.length_set]

theorem AssignCompetitorsPair_skip (learnSampleCount bodyFinish tailFinish : Nat)
    (invertPermutation : List Nat) (competitors : List (List TCompetitor)) (pair : TPair)
    (h : pair.WinnerId ≥ learnSampleCount ∨ pair.LoserId ≥ learnSampleCount ∨
      invertPermutation.getD pair.WinnerId 0 ≥ tailFinish ∨
      invertPermutation.getD pair.LoserId 0 ≥ tailFinish) :
    TFold.AssignCompetitorsPair learnSampleCount bodyFinish tailFinish invertPermutation
      competitors pair = competitors := by
  unfold TFold.AssignCompetitorsPair
  simp only
  by_cases h1 : pair.WinnerId ≥ learnSampleCount ∨ pair.LoserId ≥ learnSampleCount
  · rw [if_pos h1]
  · rw [if_neg h1, if_pos]
    rcases h with h | h | h | h
    · exact absurd (Or.inl h) h1
    · exact absurd (Or.inr h) h1
    · exact Or.inl h
    · exact Or.inr h

theorem AssignCompetitorsPair_kept (learnSampleCount bodyFinish tailFinish : Nat)
    (invertPermutation : List Nat) (competitors : List (List TCompetitor)) (pair : TPair)
    (p : Nat) (hlen : competitors.length = tailFinish)
    (h1 : ¬ (pair.WinnerId ≥ learnSampleCount ∨ pair.LoserId ≥ learnSampleCount))
    (h2 : ¬ (invertPermutation.getD pair.WinnerId 0 ≥ tailFinish ∨
      invertPermutation.getD pair.LoserId 0 ≥ tailFinish)) :
    (TFold.AssignCompetitorsPair learnSampleCount bodyFinish tailFinish invertPermutation
      competitors pair).getD p []
      = competitors.getD p [] ++
        ((if invertPermutation.getD pair.WinnerId 0 = p ∧
              (invertPermutation.getD pair.WinnerId 0 < bodyFinish ∨
                invertPermutation.getD pair.WinnerId 0 > invertPermutation.getD pair.LoserId 0)
          then [({ Id := invertPermutation.getD pair.LoserId 0, Weight := pair.Weight } :
            TCompetitor)]
          else []) ++
        (if invertPermutation.getD pair.LoserId 0 = p ∧
              (invertPermutation.getD pair.LoserId 0 < bodyFinish ∨
                invertPermutation.getD pair.LoserId 0 > invertPermutation.getD pair.WinnerId 0)
          then [({ Id := invertPermutation.getD pair.WinnerId 0, Weight := -pair.Weight } :
            TCompetitor)]
          else [])) := by
  unfold TFold.AssignCompetitorsPair
  simp only
  rw [if_neg h1, if_neg h2]
  generalize invertPermutation.getD pair.WinnerId 0 = w at h2 ⊢
  generalize invertPermutation.getD pair.LoserId 0 = l at h2 ⊢
  have hw : w < competitors.length := by omega
  have hl : l < competitors.length := by omega
  by_cases hA : w < bodyFinish ∨ w > l
  · rw [if_pos hA]
    have hl2 : l < (competitors.set w (competitors.getD w [] ++
        [({ Id := l, Weight := pair.Weight } : TCompetitor)])).length := by
      rw [List.length_set]
      exact hl
    by_cases hB : l < bodyFinish ∨ l > w
    · rw [if_pos hB, getD_set_append _ l p _ hl2, getD_set_append _ w p _ hw]
      simp [hA, hB]
    · rw [if_neg hB, getD_set_append _ w p _ hw]
      simp [hA, hB]
  · rw [if_neg hA]
    by_cases hB : l < bodyFinish ∨ l > w
    · rw [if_pos hB, getD_set_append _ l p _ hl]
      simp [hA, hB]
    · rw [if_neg hB]
      simp [hA, hB]

theorem AssignCompetitors_foldl (learnSampleCount bodyFinish tailFinish : Nat)
    (invertPermutation : List Nat) (pairs : List TPair) (competitors : List (List TCompetitor))
    (p : Nat) (hlen : competitors.length = tailFinish) :
    (pairs.foldl
      (TFold.AssignCompetitorsPair learnSampleCount bodyFinish tailFinish invertPermutation)
      competitors).length = tailFinish ∧
    (pairs.foldl
      (TFold.AssignCompetitorsPair learnSampleCount bodyFinish tailFinish invertPermutation)
      competitors).getD p []
      = competitors.getD p [] ++ pairs.flatMap fun pair =>
        if pair.WinnerId ≥ learnSampleCount ∨ pair.LoserId ≥ learnSampleCount ∨
            invertPermutation.getD pair.WinnerId 0 ≥ tailFinish ∨
            invertPermutation.getD pair.LoserId 0 ≥ tailFinish then []
        else
          (if invertPermutation.getD pair.WinnerId 0 = p ∧
                (invertPermutation.getD pair.WinnerId 0 < bodyFinish ∨
                  invertPermutation.getD pair.WinnerId 0
                    > invertPermutation.getD pair.LoserId 0)
            then [({ Id := invertPermutation.getD pair.LoserId 0, Weight := pair.Weight } :
              TCompetitor)]
            else []) ++
          (if invertPermutation.getD pair.LoserId 0 = p ∧
                (invertPermutation.getD pair.LoserId 0 < bodyFinish ∨
                  invertPermutation.getD pair.LoserId 0
                    > invertPermutation.getD pair.WinnerId 0)
            then [({ Id := invertPermutation.getD pair.WinnerId 0, Weight := -pair.Weight } :
              TCompetitor)]
            else []) := by
  induction pairs generalizing competitors with
  | nil => exact ⟨hlen, by simp⟩
  | cons pair t ih =>
    rw [List.foldl_cons, List.flatMap_cons]
    have hl1 : (TFold.AssignCompetitorsPair learnSampleCount bodyFinish tailFinish
        invertPermutation competitors pair).length = tailFinish := by
      rw [AssignCompetitorsPair_length, hlen]
    obtain ⟨ih1, ih2⟩ := ih _ hl1
    refine ⟨ih1, ?_⟩
    rw [ih2, ← List.append_assoc]
    congr 1
    by_cases hskip : pair.WinnerId ≥ learnSampleCount ∨ pair.LoserId ≥ learnSampleCount ∨
        invertPermutation.getD pair.WinnerId 0 ≥ tailFinish ∨
        invertPermutation.getD pair.LoserId 0 ≥ tailFinish
    · rw [if_pos hskip, AssignCompetitorsPair_skip _ _ _ _ _ _ hskip, List.append_nil]
    · rw [if_neg hskip]
      have h1 : ¬ (pair.WinnerId ≥ learnSampleCount ∨ pair.LoserId ≥ learnSampleCount) := by
        intro h
        rcases h with h | h
        · exact hskip (Or.inl h)
        · exact hskip (Or.inr (Or.inl h))
      have h2 : ¬ (invertPermutation.getD pair.WinnerId 0 ≥ tailFinish ∨
          invertPermutation.getD pair.LoserId 0 ≥ tailFinish) := by
        intro h
        rcases h with h | h
        · exact hskip (Or.inr (Or.inr (Or.inl h)))
        · exact hskip (Or.inr (Or.inr (Or.inr h)))
      exact AssignCompetitorsPair_kept _ _ _ _ _ _ p hlen h1 h2

theorem mem_resize_nil {α : Type} (v : List (List α)) (n : Nat) (l : List α)
    (h : l ∈ resize v n []) : l ∈ v ∨ l = [] := by
  unfold resize at h
  rw [List.mem_append] at h
  rcases h with h | h
  · exact Or.inl (List.mem_of_mem_take h)
  · exact Or.inr (List.eq_of_mem_replicate h)

/-- C19. `AssignCompetitors` produces exactly `TailFinish` competitor lists.  A pair whose
winner or loser id is `>= LearnSampleCount`, or one of whose endpoints has a position after
permutation inversion that is `>= TailFinish`, contributes no entry at all: the result is
the same as without the pair.  Consequently, when the lists the body-tail starts with name
only positions below `TailFinish` (they are empty in a new body-tail), every listed
opponent position is below `TailFinish`. -/
theorem AssignCompetitors_window (self : TFold) (pairs : List TPair)
    (invertPermutation : List Nat) (bt : TFold.TBodyTail)
    (hinit : ∀ l ∈ bt.Competitors, ∀ c ∈ l, c.Id < bt.TailFinish) :
    (self.AssignCompetitors pairs invertPermutation bt).Competitors.length = bt.TailFinish ∧
    (∀ (before after : List TPair) (pair : TPair), pairs = before ++ pair :: after →
      (pair.WinnerId ≥ self.LearnPermutation.length ∨
        pair.LoserId ≥ self.LearnPermutation.length ∨
        invertPermutation.getD pair.WinnerId 0 ≥ bt.TailFinish ∨
        invertPermutation.getD pair.LoserId 0 ≥ bt.TailFinish) →
      self.AssignCompetitors pairs invertPermutation bt
        = self.AssignCompetitors (before ++ after) invertPermutation bt) ∧
    (∀ l ∈ (self.AssignCompetitors pairs invertPermutation bt).Competitors,
      ∀ c ∈ l, c.Id < bt.TailFinish) := by
  have hlen := length_resize bt.Competitors bt.TailFinish ([] : List TCompetitor)
  refine ⟨?_, ?_, ?_⟩
  · exact (AssignCompetitors_foldl self.LearnPermutation.length bt.BodyFinish bt.TailFinish
      invertPermutation pairs _ 0 hlen).1
  · intro before after pair hp hskip
    unfold TFold.AssignCompetitors
    simp only
    rw [hp, List.foldl_append, List.foldl_cons, List.foldl_append,
      AssignCompetitorsPair_skip _ _ _ _ _ _ hskip]
  · intro l hl c hc
    obtain ⟨p, hp, hget⟩ := List.getElem_of_mem hl
    have hform := (AssignCompetitors_foldl self.LearnPermutation.length bt.BodyFinish
      bt.TailFinish invertPermutation pairs _ p hlen).2
    have hl2 : l = (self.AssignCompetitors pairs invertPermutation bt).Competitors.getD p [] := by
      rw [List.getD_eq_getElem _ _ hp, hget]
    have hc2 := hc
    rw [hl2] at hc2
    unfold TFold.AssignCompetitors at hc2
    simp only at hc2
    rw [hform] at hc2
    rw [List.mem_append] at hc2
    rcases hc2 with hc2 | hc2
    · by_cases hp2 : p < (resize bt.Competitors bt.TailFinish ([] : List TCompetitor)).length
      · rw [List.getD_eq_getElem _ _ hp2] at hc2
        rcases mem_resize_nil _ _ _ (List.getElem_mem hp2) with h | h
        · exact hinit _ h c hc2
        · rw [h] at hc2
          cases hc2
      · rw [List.getD_eq_default _ _ (by omega)] at hc2
        cases hc2
    · rw [List.mem_flatMap] at hc2
      obtain ⟨pair, -, hmem⟩ := hc2
      by_cases hskip : pair.WinnerId ≥ self.LearnPermutation.length ∨
          pair.LoserId ≥ self.LearnPermutation.length ∨
          invertPermutation.getD pair.WinnerId 0 ≥ bt.TailFinish ∨
          invertPermutation.getD pair.LoserId 0 ≥ bt.TailFinish
      · rw [if_pos hskip] at hmem
        cases hmem
      · rw [if_neg hskip, List.mem_append] at hmem
        have hw : invertPermutation.getD pair.WinnerId 0 < bt.TailFinish := by
          by_contra hcon
          exact hskip (Or.inr (Or.inr (Or.inl (Nat.le_of_not_lt hcon))))
        have hlo : invertPermutation.getD pair.LoserId 0 < bt.TailFinish := by
          by_contra hcon
          exact hskip (Or.inr (Or.inr (Or.inr (Nat.le_of_not_lt hcon))))
        rcases hmem with hmem | hmem
        · split at hmem
          · rw [List.mem_singleton] at hmem
            rw [hmem]
            exact hlo
          · cases hmem
        · split at hmem
          · rw [List.mem_singleton] at hmem
            rw [hmem]
            exact hw
          · cases hmem

/-- C20. The competitor list of every position `p` after `AssignCompetitors` is the list the
body-tail had for `p`, followed, in the order of the pairs, by the entries of the kept pairs
(both ids below `LearnSampleCount`, both permuted positions `w` of the winner and `l` of the
loser below `TailFinish`): the entry `(l, +x)` in the list of `w` if and only if
`w < BodyFinish` or `w > l`, and the entry `(w, -x)` in the list of `l` if and only if
`l < BodyFinish` or `l > w`, where `x` is the weight of the pair.  No other entries are
created. -/
theorem AssignCompetitors_entries (self : TFold) (pairs : List TPair)
    (invertPermutation : List Nat) (bt : TFold.TBodyTail) (p : Nat) :
    (self.AssignCompetitors pairs invertPermutation bt).Competitors.getD p []
      = (resize bt.Competitors bt.TailFinish []).getD p [] ++ pairs.flatMap fun pair =>
        if pair.WinnerId ≥ self.LearnPermutation.length ∨
            pair.LoserId ≥ self.LearnPermutation.length ∨
            invertPermutation.getD pair.WinnerId 0 ≥ bt.TailFinish ∨
            invertPermutation.getD pair.LoserId 0 ≥ bt.TailFinish then []
        else
          (if invertPermutation.getD pair.WinnerId 0 = p ∧
                (invertPermutation.getD pair.WinnerId 0 < bt.BodyFinish ∨
                  invertPermutation.getD pair.WinnerId 0
                    > invertPermutation.getD pair.LoserId 0)
            then [({ Id := invertPermutation.getD pair.LoserId 0, Weight := pair.Weight } :
              TCompetitor)]
            else []) ++
          (if invertPermutation.getD pair.LoserId 0 = p ∧
                (invertPermutation.getD pair.LoserId 0 < bt.BodyFinish ∨
                  invertPermutation.getD pair.LoserId 0
                    > invertPermutation.getD pair.WinnerId 0)
            then [({ Id := invertPermutation.getD pair.WinnerId 0, Weight := -pair.Weight } :
              TCompetitor)]
            else []) :=
  (AssignCompetitors_foldl self.LearnPermutation.length bt.BodyFinish bt.TailFinish
    invertPermutation pairs _ p (length_resize bt.Competitors bt.TailFinish [])).2

/-! ## Shuffles are permutations -/

theorem boole_le_count {α : Type} [DecidableEq α] (v : List α) (i : Nat) (a : α)
    (hi : i < v.length) : (if (v[i] == a) = true then 1 else 0) ≤ v.count a := by
  split
  · rename_i h
    have hm : a ∈ v := by
      have := List.getElem_mem hi
      rw [beq_iff_eq] at h
      rwa [h] at this
    exact List.count_pos_iff.2 hm
  · exact Nat.zero_le _

theorem DoSwap_length {α : Type} [Inhabited α] (v : List α) (i j : Nat) :
    (DoSwap v i j).length = v.length := by
  unfold DoSwap
  rw [List.length_set, List.length_set]

theorem DoSwap_perm {α : Type} [DecidableEq α] [Inhabited α] (v : List α) (i j : Nat)
    (hi : i < v.length) (hj : j < v.length) : (DoSwap v i j).Perm v := by
  unfold DoSwap
  rw [List.getD_eq_getElem v default hi, List.getD_eq_getElem v default hj]
  by_cases hij : i = j
  · subst hij
    have h1 : v.set i v[i] = v := by
      apply List.ext_getElem?
      intro k
      by_cases hk : i = k
      · subst hk
        rw [List.getElem?_set_self hi, List.getElem?_eq_getElem hi]
      · rw [List.getElem?_set_ne hk]
    rw [h1, h1]
  · rw [List.perm_iff_count]
    intro a
    have hj2 : j < (v.set i v[j]).length := by
      rw [List.length_set]
      exact hj
    rw [List.count_set _ _ _ _ hj2, List.getElem_set_ne hij, List.count_set _ _ _ _ hi]
    have hb := boole_le_count v i a hi
    omega

theorem Uniform_lt (rand : TRestorableFastRng64) (n : Nat) (hn : 0 < n) :
    (rand.Uniform n).1 < n := by
  unfold TRestorableFastRng64.Uniform
  exact Nat.mod_lt _ hn

theorem Shuffle_steps_perm {α : Type} [DecidableEq α] [Inhabited α] (v : List α)
    (steps : List Nat) (hsteps : ∀ i ∈ steps, i < v.length)
    (st : List α × TRestorableFastRng64) (hst : st.1.Perm v) :
    (steps.foldl
      (fun (st : List α × TRestorableFastRng64) i =>
        let u := st.2.Uniform (i + 1)
        (DoSwap st.1 i u.1, u.2))
      st).1.Perm v := by
  induction steps generalizing st with
  | nil => exact hst
  | cons i t ih =>
    rw [List.foldl_cons]
    apply ih (fun k hk => hsteps k (List.mem_cons_of_mem _ hk))
    have hi : i < st.1.length := by
      rw [hst.length_eq]
      exact hsteps i (List.mem_cons_self _ _)
    have hu : (st.2.Uniform (i + 1)).1 < st.1.length := by
      have := Uniform_lt st.2 (i + 1) (Nat.succ_pos _)
      omega
    exact (DoSwap_perm st.1 i _ hi hu).trans hst

theorem Shuffle_perm {α : Type} [DecidableEq α] [Inhabited α] (v : List α)
    (rand : TRestorableFastRng64) : (Shuffle v rand).1.Perm v := by
  unfold Shuffle
  apply Shuffle_steps_perm v _ _ (v, rand) (List.Perm.refl v)
  intro i hi
  rw [List.mem_range'_1] at hi
  omega

theorem Shuffle_length {α : Type} [DecidableEq α] [Inhabited α] (v : List α)
    (rand : TRestorableFastRng64) : (Shuffle v rand).1.length = v.length :=
  (Shuffle_perm v rand).length_eq

/-! ## Writing runs of consecutive indices -/

theorem write_run (l : List Nat) (c s m : Nat) (h : c + m ≤ l.length) :
    (List.range m).foldl (fun p d => p.set (c + d) (s + d)) l
      = l.take c ++ List.range' s m ++ l.drop (c + m) := by
  induction m with
  | zero => simp
  | succ m ih =>
    rw [List.range_succ, List.foldl_append, List.foldl_cons, List.foldl_nil, ih (by omega)]
    have hlen : (l.take c ++ List.range' s m).length = c + m := by
      rw [List.length_append, List.length_take, List.length_range']
      omega
    have hd : l.drop (c + m) = l[c + m] :: l.drop (c + m + 1) :=
      List.drop_eq_getElem_cons (by omega)
    rw [List.set_append_right _ _ (by rw [hlen]), hlen, Nat.sub_self, hd, List.set_cons_zero,
      List.range'_concat, List.append_assoc, List.append_assoc]
    simp [Nat.add_assoc]

theorem write_block (l : List Nat) (c s m : Nat) (h : c + m ≤ l.length) :
    (List.range' s m).foldl (fun p j => p.set (c + j - s) j) l
      = l.take c ++ List.range' s m ++ l.drop (c + m) := by
  rw [← write_run l c s m h, List.range'_eq_map_range, List.foldl_map]
  apply List.foldl_ext
  intro p d _
  have : c + (s + d) - s = c + d := by omega
  rw [this]

/-! ## The block shuffle -/

theorem foldl_range_getD {α σ : Type} (F : σ → α → σ) (l : List α) (d : α) (init : σ) :
    (List.range l.length).foldl (fun st i => F st (l.getD i d)) init = l.foldl F init := by
  have h := List.foldl_map (fun i => l.getD i d) F (List.range l.length) init
  rw [map_getD_range] at h
  exact h.symm

theorem blocks_write (B N : Nat) (bs : List Nat) (l : List Nat) (c : Nat)
    (h : c + (bs.flatMap fun b =>
      List.range' (b * B) (min (b * B + B) N - b * B)).length ≤ l.length) :
    bs.foldl
      (fun (st : List Nat × Nat) b =>
        ((List.range' (b * B) (min (b * B + B) N - b * B)).foldl
            (fun p j => p.set (st.2 + j - b * B) j) st.1,
          st.2 + (min (b * B + B) N - b * B)))
      (l, c)
      = (l.take c ++ (bs.flatMap fun b => List.range' (b * B) (min (b * B + B) N - b * B))
          ++ l.drop (c + (bs.flatMap fun b =>
            List.range' (b * B) (min (b * B + B) N - b * B)).length),
        c + (bs.flatMap fun b =>
          List.range' (b * B) (min (b * B + B) N - b * B)).length) := by
  induction bs generalizing l c with
  | nil => simp
  | cons b t ih =>
    rw [List.foldl_cons]
    simp only [List.flatMap_cons, List.length_append, List.length_range'] at h ⊢
    rw [write_block l c (b * B) (min (b * B + B) N - b * B) (by omega)]
    have hlen : (l.take c ++ List.range' (b * B) (min (b * B + B) N - b * B)
        ++ l.drop (c + (min (b * B + B) N - b * B))).length = l.length := by
      simp only [List.length_append, List.length_take, List.length_range', List.length_drop]
      omega
    rw [ih _ _ (by rw [hlen]; omega)]
    have hc : (l.take c).length = c := by
      rw [List.length_take]
      omega
    have h1 : (l.take c ++ List.range' (b * B) (min (b * B + B) N - b * B)
        ++ l.drop (c + (min (b * B + B) N - b * B))).take
          (c + (min (b * B + B) N - b * B))
        = l.take c ++ List.range' (b * B) (min (b * B + B) N - b * B) := by
      rw [List.take_append_of_le_length (by
        rw [List.length_append, hc, List.length_range'])]
      rw [List.take_of_length_le (by rw [List.length_append, hc, List.length_range'])]
    have h2 : ∀ k, (l.take c ++ List.range' (b * B) (min (b * B + B) N - b * B)
        ++ l.drop (c + (min (b * B + B) N - b * B))).drop
          (c + (min (b * B + B) N - b * B) + k)
        = l.drop (c + (min (b * B + B) N - b * B) + k) := by
      intro k
      rw [List.drop_append_eq_append_drop, List.drop_of_length_le (by
        rw [List.length_append, hc, List.length_range']
        omega)]
      rw [List.length_append, hc, List.length_range', List.nil_append, List.drop_drop]
      congr 1
      omega
    rw [h1, h2]
    simp only [List.append_assoc, Nat.add_assoc]

theorem blocks_perm (B N K : Nat) (hK : N ≤ K * B) (bs : List Nat)
    (hbs : bs.Perm (List.range K)) :
    (bs.foldl
      (fun (st : List Nat × Nat) b =>
        ((List.range' (b * B) (min (b * B + B) N - b * B)).foldl
            (fun p j => p.set (st.2 + j - b * B) j) st.1,
          st.2 + (min (b * B + B) N - b * B)))
      (List.range N, 0)).1.Perm (List.range N) := by
  have hflat : (bs.flatMap fun b => List.range' (b * B) (min (b * B + B) N - b * B)).Perm
      (List.range N) := by
    have h1 := List.Perm.flatMap_right
      (fun b => List.range' (b * B) (min (b * B + B) N - b * B)) hbs
    have h2 : ((List.range K).flatMap fun b =>
        List.range' (b * B) (min (b * B + B) N - b * B)) = List.range N := by
      have h3 := flatMap_blockRange N B K
      rw [Nat.min_eq_left hK] at h3
      rw [← h3]
      congr 1
      funext b
      rw [Nat.min_comm]
    rw [h2] at h1
    exact h1
  have hlen : (bs.flatMap fun b =>
      List.range' (b * B) (min (b * B + B) N - b * B)).length = N := by
    rw [hflat.length_eq, List.length_range]
  rw [blocks_write B N bs (List.range N) 0 (by rw [hlen, List.length_range]; omega)]
  simp only [List.take_zero, List.nil_append, Nat.zero_add, hlen]
  rw [List.drop_of_length_le (by rw [List.length_range]), List.append_nil]
  exact hflat

theorem ShuffleData_blocked_perm (data : TTrainData) (permuteBlockSize : Nat)
    (rand : TRestorableFastRng64) (fold : TFold) (hB : 1 ≤ permuteBlockSize)
    (hbranch : ¬ (permuteBlockSize = 1 ∨ ¬ data.QueryId.isEmpty))
    (hfold : fold.LearnPermutation = List.range data.LearnSampleCount) :
    (ShuffleData data permuteBlockSize rand fold).1.LearnPermutation.Perm
      (List.range data.LearnSampleCount) := by
  unfold ShuffleData
  rw [if_neg hbranch]
  simp only
  have hlen : (Shuffle (List.range
      ((data.LearnSampleCount + permuteBlockSize - 1) / permuteBlockSize)) rand).1.length
      = (data.LearnSampleCount + permuteBlockSize - 1) / permuteBlockSize := by
    rw [Shuffle_length, List.length_range]
  have key := foldl_range_getD
    (fun (st : List Nat × Nat) b =>
      ((List.range' (b * permuteBlockSize)
          (min (b * permuteBlockSize + permuteBlockSize) data.LearnSampleCount
            - b * permuteBlockSize)).foldl
          (fun p j => p.set (st.2 + j - b * permuteBlockSize) j) st.1,
        st.2 + (min (b * permuteBlockSize + permuteBlockSize) data.LearnSampleCount
          - b * permuteBlockSize)))
    (Shuffle (List.range
      ((data.LearnSampleCount + permuteBlockSize - 1) / permuteBlockSize)) rand).1 0
    (List.range data.LearnSampleCount, 0)
  rw [hlen] at key
  rw [hfold, key]
  exact blocks_perm permuteBlockSize data.LearnSampleCount
    ((data.LearnSampleCount + permuteBlockSize - 1) / permuteBlockSize)
    (ceilDiv_mul_ge data.LearnSampleCount permuteBlockSize hB) _ (Shuffle_perm _ rand)

/-! ## The shuffle of query groups -/

theorem QueryStartAndSize_spec (queryId : List Nat) (docCount : Nat) :
    ((QueryStartAndSize queryId docCount).flatMap fun g => List.range' g.1 g.2)
        = List.range docCount ∧
    (0 < docCount → ∃ (init : List (Nat × Nat)) (s k : Nat),
      QueryStartAndSize queryId docCount = init ++ [(s, k)] ∧ s + k = docCount) := by
  induction docCount with
  | zero => exact ⟨rfl, fun h => absurd h (Nat.lt_irrefl 0)⟩
  | succ n ih =>
    obtain ⟨ih1, ih2⟩ := ih
    have hstep : QueryStartAndSize queryId (n + 1)
        = if n = 0 ∨ queryId.getD n 0 ≠ queryId.getD (n - 1) 0 then
            QueryStartAndSize queryId n ++ [(n, 1)]
          else
            (QueryStartAndSize queryId n).dropLast ++
              [(((QueryStartAndSize queryId n).getLastD (0, 0)).1,
                ((QueryStartAndSize queryId n).getLastD (0, 0)).2 + 1)] := by
      unfold QueryStartAndSize
      rw [List.range_succ, List.foldl_append]
      rfl
    rw [hstep]
    by_cases hnew : n = 0 ∨ queryId.getD n 0 ≠ queryId.getD (n - 1) 0
    · rw [if_pos hnew]
      refine ⟨?_, fun _ => ⟨_, n, 1, rfl, rfl⟩⟩
      rw [List.flatMap_append, ih1, List.range_succ]
      simp
    · rw [if_neg hnew]
      have hn : 0 < n := by
        rcases Nat.eq_zero_or_pos n with h | h
        · exact absurd (Or.inl h) hnew
        · exact h
      obtain ⟨init, s, k, hG, hsk⟩ := ih2 hn
      rw [hG, List.dropLast_concat, List.getLastD_concat]
      refine ⟨?_, fun _ => ⟨init, s, k + 1, rfl, by omega⟩⟩
      rw [hG, List.flatMap_append] at ih1
      rw [List.flatMap_append, List.range_succ, ← ih1]
      simp only [List.flatMap_cons, List.flatMap_nil, List.append_nil]
      rw [List.range'_concat, ← hsk]
      simp

theorem ShuffleQueryGroup_spec (l : List Nat) (rand : TRestorableFastRng64) (c : Nat)
    (g : Nat × Nat) (h : c + g.2 ≤ l.length) :
    (ShuffleQueryGroup ((l, rand), c) g).2 = c + g.2 ∧
    (ShuffleQueryGroup ((l, rand), c) g).1.1.length = l.length ∧
    ((ShuffleQueryGroup ((l, rand), c) g).1.1.take (c + g.2)).Perm
      (l.take c ++ List.range' g.1 g.2) ∧
    (∀ k, (ShuffleQueryGroup ((l, rand), c) g).1.1.drop (c + g.2 + k)
      = l.drop (c + g.2 + k)) := by
  obtain ⟨s, m⟩ := g
  simp only at h ⊢
  unfold ShuffleQueryGroup
  simp only
  rw [write_run l c s m h]
  have hc : (l.take c).length = c := by
    rw [List.length_take]
    omega
  have h1 : ((l.take c ++ List.range' s m ++ l.drop (c + m)).drop c).take m
      = List.range' s m := by
    rw [List.append_assoc, List.drop_append_of_le_length (by rw [hc]),
      List.drop_of_length_le (by rw [hc]), List.nil_append,
      List.take_append_of_le_length (by rw [List.length_range']),
      List.take_of_length_le (by rw [List.length_range'])]
  have h2 : (l.take c ++ List.range' s m ++ l.drop (c + m)).take c = l.take c := by
    rw [List.append_assoc, List.take_append_of_le_length (by rw [hc]),
      List.take_of_length_le (by rw [hc])]
  have h3 : (l.take c ++ List.range' s m ++ l.drop (c + m)).drop (c + m)
      = l.drop (c + m) := by
    rw [List.drop_append_eq_append_drop, List.drop_of_length_le (by
      rw [List.length_append, hc, List.length_range'])]
    rw [List.length_append, hc, List.length_range', Nat.sub_self, List.nil_append,
      List.drop_zero]
  rw [h1, h2, h3]
  have hperm := Shuffle_perm (List.range' s m) rand
  have hlen : (Shuffle (List.range' s m) rand).1.length = m := by
    rw [hperm.length_eq, List.length_range']
  have hpre : (l.take c ++ (Shuffle (List.range' s m) rand).1).length = c + m := by
    rw [List.length_append, hc, hlen]
  refine ⟨trivial, ?_, ?_, ?_⟩
  · simp only [List.length_append, hc, hlen, List.length_drop]
    omega
  · rw [List.take_append_of_le_length (by rw [hpre]),
      List.take_of_length_le (by rw [hpre])]
    exact List.Perm.append_left _ hperm
  · intro k
    rw [List.drop_append_eq_append_drop, List.drop_of_length_le (by rw [hpre]; omega), hpre,
      List.nil_append, List.drop_drop]
    congr 1
    omega

theorem groups_write (gs : List (Nat × Nat)) (l : List Nat) (rand : TRestorableFastRng64)
    (c : Nat)
    (h : c + (gs.flatMap fun g => List.range' g.1 g.2).length ≤ l.length) :
    (gs.foldl ShuffleQueryGroup ((l, rand), c)).2
      = c + (gs.flatMap fun g => List.range' g.1 g.2).length ∧
    (gs.foldl ShuffleQueryGroup ((l, rand), c)).1.1.length = l.length ∧
    ((gs.foldl ShuffleQueryGroup ((l, rand), c)).1.1.take
        (c + (gs.flatMap fun g => List.range' g.1 g.2).length)).Perm
      (l.take c ++ gs.flatMap fun g => List.range' g.1 g.2) ∧
    (∀ k, (gs.foldl ShuffleQueryGroup ((l, rand), c)).1.1.drop
        (c + (gs.flatMap fun g => List.range' g.1 g.2).length + k)
      = l.drop (c + (gs.flatMap fun g => List.range' g.1 g.2).length + k)) := by
  induction gs generalizing l rand c with
  | nil =>
    refine ⟨rfl, rfl, ?_, fun _ => rfl⟩
    simp
  | cons g t ih =>
    rw [List.foldl_cons]
    simp only [List.flatMap_cons, List.length_append, List.length_range'] at h ⊢
    obtain ⟨s1, s2, s3, s4⟩ := ShuffleQueryGroup_spec l rand c g (by omega)
    generalize ShuffleQueryGroup ((l, rand), c) g = st at s1 s2 s3 s4 ⊢
    obtain ⟨⟨l1, rand1⟩, c1⟩ := st
    simp only at s1 s2 s3 s4
    subst s1
    obtain ⟨i1, i2, i3, i4⟩ := ih l1 rand1 (c + g.2) (by rw [s2]; omega)
    refine ⟨?_, ?_, ?_, ?_⟩
    · rw [i1]
      omega
    · rw [i2, s2]
    · rw [← Nat.add_assoc]
      refine i3.trans ?_
      rw [← List.append_assoc]
      exact List.Perm.append_right _ s3
    · intro k
      rw [← Nat.add_assoc, i4 k]
      have := s4 ((t.flatMap fun g => List.range' g.1 g.2).length + k)
      rw [← Nat.add_assoc] at this
      exact this

theorem ShuffleByQueryId_perm (queryId : List Nat) (rand : TRestorableFastRng64) (N : Nat) :
    (ShuffleByQueryId queryId rand (List.range N)).1.Perm (List.range N) := by
  unfold ShuffleByQueryId
  split
  · exact Shuffle_perm _ rand
  · simp only [List.length_range]
    have hG := (QueryStartAndSize_spec queryId N).1
    have hperm := Shuffle_perm (QueryStartAndSize queryId N) rand
    have hflat : ((Shuffle (QueryStartAndSize queryId N) rand).1.flatMap
        fun g => List.range' g.1 g.2).Perm (List.range N) := by
      have := List.Perm.flatMap_right (fun g : Nat × Nat => List.range' g.1 g.2) hperm
      rw [hG] at this
      exact this
    have hlen : ((Shuffle (QueryStartAndSize queryId N) rand).1.flatMap
        fun g => List.range' g.1 g.2).length = N := by
      rw [hflat.length_eq, List.length_range]
    obtain ⟨-, w2, w3, -⟩ := groups_write (Shuffle (QueryStartAndSize queryId N) rand).1
      (List.range N) (Shuffle (QueryStartAndSize queryId N) rand).2 0
      (by rw [hlen, List.length_range]; omega)
    rw [hlen, Nat.zero_add, List.take_zero, List.nil_append] at w3
    rw [List.length_range] at w2
    rw [List.take_of_length_le (by rw [w2])] at w3
    exact w3.trans hflat

theorem ShuffleData_perm (data : TTrainData) (permuteBlockSize : Nat)
    (rand : TRestorableFastRng64) (fold : TFold) (hB : 1 ≤ permuteBlockSize)
    (hfold : fold.LearnPermutation = List.range data.LearnSampleCount) :
    (ShuffleData data permuteBlockSize rand fold).1.LearnPermutation.Perm
      (List.range data.LearnSampleCount) := by
  by_cases hbranch : permuteBlockSize = 1 ∨ ¬ data.QueryId.isEmpty
  · unfold ShuffleData
    rw [if_pos hbranch]
    simp only
    rw [hfold]
    exact ShuffleByQueryId_perm _ rand _
  · exact ShuffleData_blocked_perm data permuteBlockSize rand fold hB hbranch hfold

theorem ShuffleData_rest (data : TTrainData) (permuteBlockSize : Nat)
    (rand : TRestorableFastRng64) (fold : TFold) :
    (ShuffleData data permuteBlockSize rand fold).1.BodyTailArr = fold.BodyTailArr ∧
    (ShuffleData data permuteBlockSize rand fold).1.SampleWeights = fold.SampleWeights ∧
    (ShuffleData data permuteBlockSize rand fold).1.LearnWeights = fold.LearnWeights := by
  unfold ShuffleData
  split <;> exact ⟨rfl, rfl, rfl⟩

theorem BuildFoldPermutation_perm (data : TTrainData) (shuffle : Bool) (permuteBlockSize : Nat)
    (rand : TRestorableFastRng64) (hB : 1 ≤ permuteBlockSize) :
    (BuildFoldPermutation data shuffle permuteBlockSize rand).1.LearnPermutation.Perm
      (List.range data.LearnSampleCount) := by
  unfold BuildFoldPermutation
  simp only
  cases shuffle
  · simp only [Bool.false_eq_true, if_false]
    split <;> exact List.Perm.refl _
  · simp only [if_true]
    split <;> exact ShuffleData_perm data permuteBlockSize rand _ hB rfl

theorem BuildFoldPermutation_bodyTails (data : TTrainData) (shuffle : Bool)
    (permuteBlockSize : Nat) (rand : TRestorableFastRng64) :
    (BuildFoldPermutation data shuffle permuteBlockSize rand).1.BodyTailArr = [] := by
  unfold BuildFoldPermutation
  simp only
  cases shuffle
  · simp only [Bool.false_eq_true, if_false]
    split <;> rfl
  · simp only [if_true]
    split <;> exact (ShuffleData_rest data permuteBlockSize rand _).1

theorem perm_range_bijection (l : List Nat) (N : Nat) (h : l.Perm (List.range N)) :
    l.length = N ∧ (∀ i, i < N → l.count i = 1) ∧ (∀ x ∈ l, x < N) ∧ l.Nodup := by
  refine ⟨?_, ?_, ?_, ?_⟩
  · rw [h.length_eq, List.length_range]
  · intro i hi
    rw [h.count_eq]
    exact List.count_eq_one_of_mem (List.nodup_range N) (List.mem_range.2 hi)
  · intro x hx
    exact List.mem_range.1 (h.mem_iff.1 hx)
  · exact h.nodup_iff.2 (List.nodup_range N)

/-! ## The rounding of the `double` arithmetic -/

theorem RoundHalfEven_ge (x : ℚ) (k : Int) (h : (k : ℚ) ≤ x) : k ≤ RoundHalfEven x := by
  have hf : k ≤ Int.floor x := Int.le_floor.2 h
  unfold RoundHalfEven
  split
  · exact hf
  · split
    · omega
    · split <;> omega

theorem RoundHalfEven_le (x : ℚ) (k : Int) (h : x ≤ (k : ℚ)) : RoundHalfEven x ≤ k := by
  have h1 : ((Int.floor x : Int) : ℚ) ≤ x := Int.floor_le x
  have hf : Int.floor x ≤ k := by
    have : ((Int.floor x : Int) : ℚ) ≤ (k : ℚ) := le_trans h1 h
    exact_mod_cast this
  by_cases he : Int.floor x = k
  · have hx : x = (k : ℚ) := le_antisymm h (by rw [← he]; exact h1)
    unfold RoundHalfEven
    rw [hx, Int.floor_intCast, sub_self, if_pos (by norm_num)]
  · have hlt : Int.floor x + 1 ≤ k := by omega
    unfold RoundHalfEven
    split
    · omega
    · split
      · exact hlt
      · split
        · omega
        · exact hlt

theorem RoundHalfEven_gt (x : ℚ) (k : Int) (h : (k : ℚ) + 1 / 2 < x) :
    k + 1 ≤ RoundHalfEven x := by
  have hk : k ≤ Int.floor x := Int.le_floor.2 (by linarith)
  by_cases he : Int.floor x = k
  · unfold RoundHalfEven
    rw [he]
    rw [if_neg (by linarith), if_pos (by linarith)]
  · have h2 : k + 1 ≤ Int.floor x := by omega
    have h3 := RoundHalfEven_ge x (Int.floor x) (Int.floor_le x)
    omega

theorem RoundHalfEven_intCast (k : Int) : RoundHalfEven (k : ℚ) = k :=
  le_antisymm (RoundHalfEven_le _ k (le_refl _)) (RoundHalfEven_ge _ k (le_refl _))

theorem RoundHalfEven_near (x : ℚ) (k : Int) (h1 : (k : ℚ) - 1 / 2 < x)
    (h2 : x < (k : ℚ) + 1 / 2) : RoundHalfEven x = k := by
  apply le_antisymm
  · by_contra hcon
    have h3 : k + 1 ≤ RoundHalfEven x := by omega
    have hfl : ((Int.floor x : Int) : ℚ) ≤ x := Int.floor_le x
    have hfl2 : x < ((Int.floor x : Int) : ℚ) + 1 := Int.lt_floor_add_one x
    have hf : Int.floor x ≤ k := by
      have : ((Int.floor x : Int) : ℚ) < (k : ℚ) + 1 := by linarith
      have : Int.floor x < k + 1 := by exact_mod_cast this
      omega
    unfold RoundHalfEven at h3
    by_cases he : Int.floor x = k
    · rw [he, if_pos (by linarith)] at h3
      omega
    · have hlt : Int.floor x + 1 ≤ k := by omega
      split at h3
      · omega
      · split at h3
        · omega
        · split at h3 <;> omega
  · by_contra hcon
    have h3 : RoundHalfEven x ≤ k - 1 := by omega
    have hfl2 : x < ((Int.floor x : Int) : ℚ) + 1 := Int.lt_floor_add_one x
    have hf : k - 1 ≤ Int.floor x := by
      have : ((k - 1 : Int) : ℚ) ≤ x := by push_cast; linarith
      exact Int.le_floor.2 this
    by_cases he : Int.floor x = k - 1
    · have hgt := RoundHalfEven_gt x (k - 1) (by push_cast; linarith)
      omega
    · have := RoundHalfEven_ge x (Int.floor x) (Int.floor_le x)
      omega

theorem two_zpow_pos (e : Int) : (0 : ℚ) < 2 ^ e := zpow_pos (by norm_num) e

/-- A multiple of the spacing below `x` is not above the double of `x`. -/
theorem RoundToDouble_ge (x : ℚ) (k : Int)
    (h : (k : ℚ) * 2 ^ (max (Int.log 2 (abs x)) (-1022) - 52) ≤ x) :
    (k : ℚ) * 2 ^ (max (Int.log 2 (abs x)) (-1022) - 52) ≤ RoundToDouble x := by
  unfold RoundToDouble
  simp only
  have hu := two_zpow_pos (max (Int.log 2 (abs x)) (-1022) - 52)
  have hk : (k : ℚ) ≤ x / 2 ^ (max (Int.log 2 (abs x)) (-1022) - 52) := by
    rw [le_div_iff₀ hu]; exact h
  have := RoundHalfEven_ge _ k hk
  have h2 : (k : ℚ) ≤ (RoundHalfEven (x / 2 ^ (max (Int.log 2 (abs x)) (-1022) - 52)) : ℚ) := by
    exact_mod_cast this
  exact mul_le_mul_of_nonneg_right h2 (le_of_lt hu)

/-- The double of `x` is not above a multiple of the spacing above `x`. -/
theorem RoundToDouble_le (x : ℚ) (k : Int)
    (h : x ≤ (k : ℚ) * 2 ^ (max (Int.log 2 (abs x)) (-1022) - 52)) :
    RoundToDouble x ≤ (k : ℚ) * 2 ^ (max (Int.log 2 (abs x)) (-1022) - 52) := by
  unfold RoundToDouble
  simp only
  have hu := two_zpow_pos (max (Int.log 2 (abs x)) (-1022) - 52)
  have hk : x / 2 ^ (max (Int.log 2 (abs x)) (-1022) - 52) ≤ (k : ℚ) := by
    rw [div_le_iff₀ hu]; exact h
  have := RoundHalfEven_le _ k hk
  have h2 : (RoundHalfEven (x / 2 ^ (max (Int.log 2 (abs x)) (-1022) - 52)) : ℚ) ≤ (k : ℚ) := by
    exact_mod_cast this
  exact mul_le_mul_of_nonneg_right h2 (le_of_lt hu)

theorem log_two_eq (x : ℚ) (e : Int) (h1 : (2 : ℚ) ^ e ≤ x) (h2 : x < 2 ^ (e + 1)) :
    Int.log 2 x = e := by
  have hx : 0 < x := lt_of_lt_of_le (two_zpow_pos e) h1
  have ha : e ≤ Int.log 2 x := by
    apply (Int.zpow_le_iff_le_log (by norm_num) hx).1
    simpa using h1
  have hb : Int.log 2 x < e + 1 := by
    apply (Int.lt_zpow_iff_log_lt (by norm_num) hx).1
    simpa using h2
  omega

theorem log_two_spec (x : ℚ) (hx : 0 < x) :
    (2 : ℚ) ^ Int.log 2 x ≤ x ∧ x < 2 ^ (Int.log 2 x + 1) := by
  have h1 := Int.zpow_log_le_self (b := 2) (r := x) (by norm_num) hx
  have h2 := Int.lt_zpow_succ_log_self (b := 2) (by norm_num) x
  simp only [Nat.cast_ofNat] at h1 h2
  exact ⟨h1, h2⟩

/-- The value of `RoundToDouble` at an `x` whose binade and nearest multiple are known. -/
theorem RoundToDouble_eval (x : ℚ) (e k : Int) (he : -1022 ≤ e) (h1 : (2 : ℚ) ^ e ≤ abs x)
    (h2 : abs x < 2 ^ (e + 1)) (h3 : (k : ℚ) - 1 / 2 < x / 2 ^ (e - 52))
    (h4 : x / 2 ^ (e - 52) < (k : ℚ) + 1 / 2) :
    RoundToDouble x = (k : ℚ) * 2 ^ (e - 52) := by
  unfold RoundToDouble
  simp only
  rw [log_two_eq (abs x) e h1 h2, max_eq_left he, RoundHalfEven_near _ k h3 h4]

/-- A natural number is a multiple of the spacing `2 ^ (e - 52)` of a binade `e <= 52`. -/
theorem natCast_on_grid (n : Nat) (e : Int) (he : e ≤ 52) :
    (n : ℚ) = (((n * 2 ^ (52 - e).toNat : Nat) : Int) : ℚ) * 2 ^ (e - 52) := by
  have h1 : ((2 : ℚ) ^ (52 - e).toNat) = (2 : ℚ) ^ (52 - e) := by
    rw [← zpow_natCast, Int.toNat_of_nonneg (by omega)]
  have h2 : (2 : ℚ) ^ (52 - e) * 2 ^ (e - 52) = 1 := by
    rw [← zpow_add₀ (by norm_num : (2 : ℚ) ≠ 0)]
    have : 52 - e + (e - 52) = 0 := by ring
    rw [this, zpow_zero]
  push_cast
  rw [h1, mul_assoc, h2, mul_one]

theorem two_pow_grid (e : Int) :
    (2 : ℚ) ^ e = (((2 : Int) ^ 52 : Int) : ℚ) * 2 ^ (e - 52) := by
  have h : (((2 : Int) ^ 52 : Int) : ℚ) = (2 : ℚ) ^ (52 : Int) := by norm_num
  rw [h, ← zpow_add₀ (by norm_num : (2 : ℚ) ≠ 0)]
  congr 1
  ring

theorem two_zpow_neg_lt_one : (2 : ℚ) ^ (-52 : Int) < 1 := by
  rw [show (1 : ℚ) = 2 ^ (0 : Int) from (zpow_zero 2).symm]
  exact zpow_lt_zpow_right₀ (by norm_num) (by norm_num)

theorem log_two_nonneg (x : ℚ) (hx : 1 ≤ x) : 0 ≤ Int.log 2 x := by
  apply (Int.zpow_le_iff_le_log (by norm_num) (by linarith)).1
  simpa using hx

theorem log_two_lt (x : ℚ) (n : Int) (hx : 0 < x) (h : x < 2 ^ n) : Int.log 2 x < n := by
  apply (Int.lt_zpow_iff_log_lt (by norm_num) hx).1
  simpa using h

/-- A double is at least the power of two at the start of its binade: if `2 ^ n <= x`, then
`2 ^ n <= RoundToDouble x`. -/
theorem RoundToDouble_ge_two_pow (x : ℚ) (n : Nat) (h : (2 : ℚ) ^ n ≤ x) :
    (2 : ℚ) ^ n ≤ RoundToDouble x := by
  have hx : 0 < x := lt_of_lt_of_le (pow_pos (by norm_num) n) h
  have habs : abs x = x := abs_of_pos hx
  have hn : (n : Int) ≤ Int.log 2 x := by
    apply (Int.zpow_le_iff_le_log (by norm_num) hx).1
    simpa using h
  have hmax : max (Int.log 2 (abs x)) (-1022) = Int.log 2 x := by
    rw [habs]; exact max_eq_left (by omega)
  have hspec := log_two_spec x hx
  have hgrid := two_pow_grid (Int.log 2 x)
  have h1 := RoundToDouble_ge x ((2 : Int) ^ 52) (by rw [hmax, ← hgrid]; exact hspec.1)
  rw [hmax, ← hgrid] at h1
  have h2 : (2 : ℚ) ^ n ≤ 2 ^ Int.log 2 x := by
    rw [← zpow_natCast]
    exact zpow_le_zpow_right₀ (by norm_num) hn
  exact le_trans h2 h1

/-- The double of a positive `x` is not above a natural number below `2 ^ 53` that `x` is
not above. -/
theorem RoundToDouble_le_natCast (x : ℚ) (B : Nat) (hx : 0 < x) (hB : B < 2 ^ 53)
    (h : x ≤ (B : ℚ)) : RoundToDouble x ≤ (B : ℚ) := by
  have habs : abs x = x := abs_of_pos hx
  have hlog : Int.log 2 x < 53 := by
    apply log_two_lt x 53 hx
    have : (B : ℚ) < 2 ^ (53 : Nat) := by exact_mod_cast hB
    have h53 : (2 : ℚ) ^ (53 : Int) = 2 ^ (53 : Nat) := by norm_cast
    rw [h53]
    linarith
  have he : max (Int.log 2 (abs x)) (-1022) ≤ 52 := by
    rw [habs]
    exact max_le (by omega) (by norm_num)
  have hgrid := natCast_on_grid B _ he
  have h1 := RoundToDouble_le x _ (by rw [← hgrid]; exact h)
  rw [← hgrid] at h1
  exact h1

/-- The double of a natural number below `2 ^ 53` is the number. -/
theorem RoundToDouble_natCast (n : Nat) (h : n < 2 ^ 53) : RoundToDouble (n : ℚ) = n := by
  rcases Nat.eq_zero_or_pos n with h0 | hpos
  · subst h0
    unfold RoundToDouble
    simp [RoundHalfEven]
  · have hx : (0 : ℚ) < (n : ℚ) := by exact_mod_cast hpos
    have habs : abs (n : ℚ) = n := abs_of_pos hx
    apply le_antisymm (RoundToDouble_le_natCast _ n hx h (le_refl _))
    have hlog : Int.log 2 (n : ℚ) < 53 := by
      apply log_two_lt _ 53 hx
      have : (n : ℚ) < 2 ^ (53 : Nat) := by exact_mod_cast h
      have h53 : (2 : ℚ) ^ (53 : Int) = 2 ^ (53 : Nat) := by norm_cast
      rw [h53]
      exact this
    have he : max (Int.log 2 (abs (n : ℚ))) (-1022) ≤ 52 := by
      rw [habs]
      exact max_le (by omega) (by norm_num)
    have hgrid := natCast_on_grid n _ he
    have h1 := RoundToDouble_ge (n : ℚ) _ (by rw [← hgrid])
    rw [← hgrid] at h1
    exact h1

/-- The growth of the tail: for a body of `L >= 1` documents and a multiplier of at least
`1 + 2 ^ (-52)`, the least double above one, the double of the product `L * multiplier`
is above `L`, when the product is below `2 ^ 53`. -/
theorem RoundToDouble_mul_gt (L : Nat) (multiplier : ℚ) (hL : 1 ≤ L)
    (hm : 1 + 2 ^ (-52 : Int) ≤ multiplier) (hx : (L : ℚ) * multiplier < 2 ^ (53 : Int)) :
    (L : ℚ) < RoundToDouble ((L : ℚ) * multiplier) := by
  have hLq : (1 : ℚ) ≤ (L : ℚ) := by exact_mod_cast hL
  have heps : (0 : ℚ) < 2 ^ (-52 : Int) := two_zpow_pos _
  have hm1 : 1 < multiplier := by linarith
  have hxL : (L : ℚ) < (L : ℚ) * multiplier := by nlinarith
  have hx1 : (1 : ℚ) ≤ (L : ℚ) * multiplier := by linarith
  have hpos : (0 : ℚ) < (L : ℚ) * multiplier := by linarith
  have habs : abs ((L : ℚ) * multiplier) = (L : ℚ) * multiplier := abs_of_pos hpos
  have hlog0 := log_two_nonneg _ hx1
  have hlog53 := log_two_lt _ 53 hpos hx
  have hspec := log_two_spec _ hpos
  have hmax : max (Int.log 2 (abs ((L : ℚ) * multiplier))) (-1022)
      = Int.log 2 ((L : ℚ) * multiplier) := by
    rw [habs]; exact max_eq_left (by omega)
  generalize hE : Int.log 2 ((L : ℚ) * multiplier) = e at hlog0 hlog53 hspec hmax
  have hgrid := natCast_on_grid L e (by omega)
  have hu := two_zpow_pos (e - 52)
  -- the product exceeds `L` by more than half the spacing
  have hhalf : (2 : ℚ) ^ (e - 52) * (1 / 2) < (L : ℚ) * multiplier - L := by
    have he1 : (2 : ℚ) ^ (e - 52) = 2 ^ e * 2 ^ (-52 : Int) := by
      rw [← zpow_add₀ (by norm_num : (2 : ℚ) ≠ 0)]
      congr 1
    have hpe : (0 : ℚ) < 2 ^ e := two_zpow_pos e
    rw [he1]
    have hs1 := hspec.1
    have heps1 := two_zpow_neg_lt_one
    generalize (2 : ℚ) ^ e = p at hs1 hpe ⊢
    generalize (2 : ℚ) ^ (-52 : Int) = eps at hm heps heps1 ⊢
    by_cases h2 : multiplier < 2
    · have b1 : (L : ℚ) * multiplier < (L : ℚ) * 2 :=
        mul_lt_mul_of_pos_left h2 (by linarith)
      have a1 : (L : ℚ) * eps ≤ (L : ℚ) * (multiplier - 1) :=
        mul_le_mul_of_nonneg_left (by linarith) (by linarith)
      have a2 : p * (1 / 2) * eps < (L : ℚ) * eps :=
        mul_lt_mul_of_pos_right (by linarith) heps
      have a3 : (L : ℚ) * (multiplier - 1) = (L : ℚ) * multiplier - L := by ring
      have a4 : p * eps * (1 / 2) = p * (1 / 2) * eps := by ring
      linarith
    · have h2 : 2 ≤ multiplier := not_lt.1 h2
      have b1 : 0 ≤ (L : ℚ) * (multiplier / 2 - 1) :=
        mul_nonneg (by linarith) (by linarith)
      have b2 : (L : ℚ) * (multiplier / 2 - 1)
          = (L : ℚ) * multiplier - L - (L : ℚ) * multiplier / 2 := by ring
      have b3 : p * (1 / 2) * eps < p * (1 / 2) * 1 :=
        mul_lt_mul_of_pos_left heps1 (by linarith)
      have b4 : p * eps * (1 / 2) = p * (1 / 2) * eps := by ring
      linarith
  have hk : (((L * 2 ^ (52 - e).toNat : Nat) : Int) : ℚ) + 1 / 2
      < (L : ℚ) * multiplier / 2 ^ (e - 52) := by
    rw [lt_div_iff₀ hu, add_mul, ← hgrid]
    linarith
  have hr := RoundHalfEven_gt _ _ hk
  have hr2 : ((((L * 2 ^ (52 - e).toNat : Nat) : Int) + 1 : Int) : ℚ)
      ≤ (RoundHalfEven ((L : ℚ) * multiplier / 2 ^ (e - 52)) : ℚ) := by
    exact_mod_cast hr
  have hfl : RoundToDouble ((L : ℚ) * multiplier)
      = (RoundHalfEven ((L : ℚ) * multiplier / 2 ^ (e - 52)) : ℚ) * 2 ^ (e - 52) := by
    unfold RoundToDouble
    simp only
    rw [hmax]
  rw [hfl]
  have h3 := mul_le_mul_of_nonneg_right hr2 (le_of_lt hu)
  have h4 : ((((L * 2 ^ (52 - e).toNat : Nat) : Int) + 1 : Int) : ℚ) * 2 ^ (e - 52)
      = (L : ℚ) + 2 ^ (e - 52) := by
    push_cast
    rw [add_mul, one_mul]
    congr 1
    have := hgrid
    push_cast at this
    exact this.symm
  rw [h4] at h3
  linarith

/-- A double above one is at least `1 + 2 ^ (-52)`. -/
theorem double_above_one (multiplier : ℚ) (hD : RoundToDouble multiplier = multiplier)
    (hm : 1 < multiplier) : 1 + 2 ^ (-52 : Int) ≤ multiplier := by
  by_cases h2 : 2 ≤ multiplier
  · have h52 : (2 : ℚ) ^ (-52 : Int) ≤ 1 := by
      rw [show (1 : ℚ) = 2 ^ (0 : Int) from (zpow_zero 2).symm]
      exact zpow_le_zpow_right₀ (by norm_num) (by norm_num)
    linarith
  · have h2 : multiplier < 2 := not_le.1 h2
    have hpos : (0 : ℚ) < multiplier := by linarith
    have hlog : Int.log 2 (abs multiplier) = 0 := by
      rw [abs_of_pos hpos]
      exact log_two_eq multiplier 0 (by simpa using le_of_lt hm) (by simpa using h2)
    have hfl : RoundToDouble multiplier
        = (RoundHalfEven (multiplier / 2 ^ (-52 : Int)) : ℚ) * 2 ^ (-52 : Int) := by
      unfold RoundToDouble
      simp only
      rw [hlog]
      rfl
    rw [hfl] at hD
    have hu := two_zpow_pos (-52)
    have hone : (1 : ℚ) = (((2 : Int) ^ 52 : Int) : ℚ) * 2 ^ (-52 : Int) := by
      have := two_pow_grid 0
      simpa using this
    have hk : ((2 : Int) ^ 52 : Int) < RoundHalfEven (multiplier / 2 ^ (-52 : Int)) := by
      by_contra hcon
      have hle : RoundHalfEven (multiplier / 2 ^ (-52 : Int)) ≤ (2 : Int) ^ 52 := by omega
      have hle2 : (RoundHalfEven (multiplier / 2 ^ (-52 : Int)) : ℚ)
          ≤ (((2 : Int) ^ 52 : Int) : ℚ) := by exact_mod_cast hle
      have := mul_le_mul_of_nonneg_right hle2 (le_of_lt hu)
      rw [hD, ← hone] at this
      linarith
    have hk2 : ((((2 : Int) ^ 52 : Int) + 1 : Int) : ℚ)
        ≤ (RoundHalfEven (multiplier / 2 ^ (-52 : Int)) : ℚ) := by
      exact_mod_cast (show (2 : Int) ^ 52 + 1 ≤ _ from hk)
    have h3 := mul_le_mul_of_nonneg_right hk2 (le_of_lt hu)
    rw [hD] at h3
    have h4 : ((((2 : Int) ^ 52 : Int) + 1 : Int) : ℚ) * 2 ^ (-52 : Int)
        = 1 + 2 ^ (-52 : Int) := by
      rw [Int.cast_add, add_mul, ← hone]
      simp
    rw [h4] at h3
    exact h3

/-! ## The growth schedule of the ordered fold -/

theorem UpdateSize_bounds (size N : Nat) (queryEndInfo : List TQueryEndInfo)
    (hs : 1 ≤ size) (hN : 1 ≤ N)
    (hq : queryEndInfo = [] ∨ ∀ i, i < N →
      i < (queryEndInfo.getD i default).QueryEnd ∧
      (queryEndInfo.getD i default).QueryEnd ≤ N) :
    min size N ≤ UpdateSize size queryEndInfo N ∧ UpdateSize size queryEndInfo N ≤ N := by
  unfold UpdateSize
  simp only
  by_cases he : queryEndInfo.isEmpty = true
  · rw [if_neg (by simpa using he)]
    exact ⟨Nat.le_refl _, Nat.min_le_right _ _⟩
  · rw [if_pos he]
    rcases hq with hq | hq
    · rw [hq] at he
      exact absurd rfl he
    · have := hq (min size N - 1) (by omega)
      omega

theorem UpdateSize_noQueries (size N : Nat) : UpdateSize size [] N = min size N := by
  unfold UpdateSize
  simp

/-- What a result of `SelectTailSize` says: the `ceil` of the rounded product is in the
range of `int`, and the result is what `UpdateSize` makes of it. -/
theorem SelectTailSize_some (L N : Nat) (multiplier : ℚ) (queryEndInfo : List TQueryEndInfo)
    (T : Int) (h : SelectTailSize L multiplier queryEndInfo N = some T) :
    -2147483648 ≤ Int.ceil (RoundToDouble ((L : ℚ) * multiplier)) ∧
    Int.ceil (RoundToDouble ((L : ℚ) * multiplier)) ≤ 2147483647 ∧
    ((1 ≤ Int.ceil (RoundToDouble ((L : ℚ) * multiplier)) ∧
        T = (UpdateSize (Int.ceil (RoundToDouble ((L : ℚ) * multiplier))).toNat
          queryEndInfo N : Nat)) ∨
      (Int.ceil (RoundToDouble ((L : ℚ) * multiplier)) < 1 ∧ queryEndInfo.isEmpty = true ∧
        T = Int.ceil (RoundToDouble ((L : ℚ) * multiplier)))) := by
  unfold SelectTailSize at h
  simp only at h
  split at h
  · cases h
  · rename_i hr
    refine ⟨by omega, by omega, ?_⟩
    split at h
    · rename_i h1
      simp only [Option.some.injEq] at h
      exact Or.inl ⟨h1, h.symm⟩
    · rename_i h1
      split at h
      · rename_i he
        simp only [Option.some.injEq] at h
        exact Or.inr ⟨by omega, he, h.symm⟩
      · cases h

/-- Without query ends the result of `SelectTailSize` is the smaller of the `ceil` of the
rounded product and the number of learn documents. -/
theorem SelectTailSize_noQueries (L N : Nat) (multiplier : ℚ) (T : Int)
    (h : SelectTailSize L multiplier [] N = some T) :
    T = min (Int.ceil (RoundToDouble ((L : ℚ) * multiplier))) (N : Int) := by
  obtain ⟨-, -, h3⟩ := SelectTailSize_some L N multiplier [] T h
  rcases h3 with ⟨h1, hT⟩ | ⟨h1, -, hT⟩
  · rw [hT, UpdateSize_noQueries, Nat.cast_min, Int.toNat_of_nonneg (by omega)]
  · rw [hT]
    omega

/-- A result of `SelectTailSize` is not above the number of learn documents. -/
theorem SelectTailSize_le (L N : Nat) (multiplier : ℚ) (queryEndInfo : List TQueryEndInfo)
    (T : Nat) (hN : 1 ≤ N)
    (hq : queryEndInfo = [] ∨ ∀ i, i < N →
      i < (queryEndInfo.getD i default).QueryEnd ∧
      (queryEndInfo.getD i default).QueryEnd ≤ N)
    (h : SelectTailSize L multiplier queryEndInfo N = some (T : Int)) : T ≤ N := by
  obtain ⟨-, -, h3⟩ := SelectTailSize_some L N multiplier queryEndInfo T h
  rcases h3 with ⟨h1, hT⟩ | ⟨h1, -, hT⟩
  · have hb := UpdateSize_bounds (Int.ceil (RoundToDouble ((L : ℚ) * multiplier))).toNat N
      queryEndInfo (by omega) hN hq
    have hT2 : T = UpdateSize (Int.ceil (RoundToDouble ((L : ℚ) * multiplier))).toNat
        queryEndInfo N := by exact_mod_cast hT
    rw [hT2]
    exact hb.2
  · omega

/-- For a body of `L >= 1` documents and a multiplier of at least `1 + 2 ^ (-52)`, the
`ceil` of the rounded product is above `L`, when the product is below `2 ^ 53`. -/
theorem ceil_RoundToDouble_gt (L : Nat) (multiplier : ℚ) (hL : 1 ≤ L)
    (hm : 1 + 2 ^ (-52 : Int) ≤ multiplier) (hx : (L : ℚ) * multiplier < 2 ^ (53 : Int)) :
    (L : Int) < Int.ceil (RoundToDouble ((L : ℚ) * multiplier)) := by
  apply Int.lt_ceil.2
  have := RoundToDouble_mul_gt L multiplier hL hm hx
  exact_mod_cast this

/-- A positive product whose rounded `ceil` is an `int` is below `2 ^ 31`. -/
theorem lt_of_ceil_RoundToDouble_le (x : ℚ)
    (h : Int.ceil (RoundToDouble x) ≤ 2147483647) : x < 2 ^ (31 : Nat) := by
  by_contra hcon
  have h1 := RoundToDouble_ge_two_pow x 31 (not_lt.1 hcon)
  have h2 : RoundToDouble x ≤ ((2147483647 : Int) : ℚ) := Int.ceil_le.1 h
  norm_num at h1 h2
  linarith

theorem two_pow_31_lt : (2 : ℚ) ^ (31 : Nat) < 2 ^ (53 : Int) := by norm_num

/-- The result of `SelectTailSize` for a multiplier of at least `1 + 2 ^ (-52)`, when there is
one: it lies in `[L, N]`, and above `L` when `L < N`. -/
theorem SelectTailSize_grows (L N : Nat) (multiplier : ℚ) (queryEndInfo : List TQueryEndInfo)
    (T : Nat) (hL : 1 ≤ L) (hLN : L ≤ N) (hm : 1 + 2 ^ (-52 : Int) ≤ multiplier)
    (hq : queryEndInfo = [] ∨ ∀ i, i < N →
      i < (queryEndInfo.getD i default).QueryEnd ∧
      (queryEndInfo.getD i default).QueryEnd ≤ N)
    (h : SelectTailSize L multiplier queryEndInfo N = some (T : Int)) :
    L ≤ T ∧ T ≤ N ∧ (L < N → L < T) := by
  obtain ⟨-, h2, h3⟩ := SelectTailSize_some L N multiplier queryEndInfo T h
  have hx := lt_trans (lt_of_ceil_RoundToDouble_le _ h2) two_pow_31_lt
  have hg := ceil_RoundToDouble_gt L multiplier hL hm hx
  rcases h3 with ⟨h1, hT⟩ | ⟨h1, -, hT⟩
  · have hb := UpdateSize_bounds (Int.ceil (RoundToDouble ((L : ℚ) * multiplier))).toNat N
      queryEndInfo (by omega) (by omega) hq
    have hT2 : T = UpdateSize (Int.ceil (RoundToDouble ((L : ℚ) * multiplier))).toNat
        queryEndInfo N := by exact_mod_cast hT
    rw [hT2]
    have := hb.1
    refine ⟨by omega, hb.2, fun _ => by omega⟩
  · omega

/-- The `SelectTailSize` of a body of `L` documents, `1 <= L <= N`, has a result that is not
negative when the multiplier is at least `1 + 2 ^ (-52)` and `N * multiplier` does not exceed
the largest `int`. -/
theorem SelectTailSize_defined (L N : Nat) (multiplier : ℚ)
    (queryEndInfo : List TQueryEndInfo) (hL : 1 ≤ L) (hLN : L ≤ N)
    (hm : 1 + 2 ^ (-52 : Int) ≤ multiplier) (hR : (N : ℚ) * multiplier ≤ 2147483647) :
    ∃ T : Nat, SelectTailSize L multiplier queryEndInfo N = some (T : Int) := by
  have hLq : (1 : ℚ) ≤ (L : ℚ) := by exact_mod_cast hL
  have hLNq : (L : ℚ) ≤ (N : ℚ) := by exact_mod_cast hLN
  have heps : (0 : ℚ) < 2 ^ (-52 : Int) := two_zpow_pos _
  have hm0 : (0 : ℚ) ≤ multiplier := by linarith
  have hxB : (L : ℚ) * multiplier ≤ 2147483647 :=
    le_trans (mul_le_mul_of_nonneg_right hLNq hm0) hR
  have hpos : (0 : ℚ) < (L : ℚ) * multiplier := by nlinarith
  have hx : (L : ℚ) * multiplier < 2 ^ (53 : Int) := by
    have : (2147483647 : ℚ) < 2 ^ (53 : Int) := by norm_num
    linarith
  have hg := ceil_RoundToDouble_gt L multiplier hL hm hx
  have hle : Int.ceil (RoundToDouble ((L : ℚ) * multiplier)) ≤ 2147483647 := by
    apply Int.ceil_le.2
    have := RoundToDouble_le_natCast ((L : ℚ) * multiplier) 2147483647 hpos (by norm_num)
      (by exact_mod_cast hxB)
    exact_mod_cast this
  refine ⟨UpdateSize (Int.ceil (RoundToDouble ((L : ℚ) * multiplier))).toNat queryEndInfo N,
    ?_⟩
  unfold SelectTailSize
  simp only
  rw [if_neg (by omega), if_pos (by omega)]

theorem SelectMinBatchSize_bounds (N : Nat) (queryEndInfo : List TQueryEndInfo) (hN : 1 ≤ N)
    (hq : queryEndInfo = [] ∨ ∀ i, i < N →
      i < (queryEndInfo.getD i default).QueryEnd ∧
      (queryEndInfo.getD i default).QueryEnd ≤ N) :
    1 ≤ SelectMinBatchSize N queryEndInfo ∧ SelectMinBatchSize N queryEndInfo ≤ N := by
  unfold SelectMinBatchSize
  simp only
  have hs : 1 ≤ (if N > 500 then min 100 (N / 50) else 1) := by
    split
    · omega
    · exact Nat.le_refl 1
  have hb := UpdateSize_bounds (if N > 500 then min 100 (N / 50) else 1) N queryEndInfo hs hN hq
  refine ⟨?_, hb.2⟩
  have := hb.1
  omega

theorem AssignCompetitors_fields (self : TFold) (pairs : List TPair)
    (invertPermutation : List Nat) (bt : TFold.TBodyTail) :
    (self.AssignCompetitors pairs invertPermutation bt).BodyFinish = bt.BodyFinish ∧
    (self.AssignCompetitors pairs invertPermutation bt).TailFinish = bt.TailFinish ∧
    (self.AssignCompetitors pairs invertPermutation bt).Approx = bt.Approx ∧
    (self.AssignCompetitors pairs invertPermutation bt).Derivatives = bt.Derivatives ∧
    (self.AssignCompetitors pairs invertPermutation bt).WeightedDer = bt.WeightedDer :=
  ⟨rfl, rfl, rfl, rfl, rfl⟩

theorem bodyTail_finish (exp : ℚ → ℚ) (data : TTrainData) (approxDimension : Nat)
    (storeExpApproxes : Bool) (invertPermutation : List Nat) (ff : TFold)
    (leftPartLen tailFinish : Nat) :
    (BuildDynamicFold.bodyTail exp data approxDimension storeExpApproxes invertPermutation ff
      leftPartLen tailFinish).BodyFinish = leftPartLen ∧
    (BuildDynamicFold.bodyTail exp data approxDimension storeExpApproxes invertPermutation ff
      leftPartLen tailFinish).TailFinish = tailFinish := by
  unfold BuildDynamicFold.bodyTail
  simp only
  split <;> exact ⟨rfl, rfl⟩

theorem bodyTail_congr (exp : ℚ → ℚ) (data : TTrainData) (approxDimension : Nat)
    (storeExpApproxes : Bool) (invertPermutation : List Nat) (ff : TFold)
    (arr : List TFold.TBodyTail) (leftPartLen tailFinish : Nat) :
    BuildDynamicFold.bodyTail exp data approxDimension storeExpApproxes invertPermutation
      { ff with BodyTailArr := arr } leftPartLen tailFinish
    = BuildDynamicFold.bodyTail exp data approxDimension storeExpApproxes invertPermutation
      ff leftPartLen tailFinish := rfl

/-- One iteration of the loop of `BuildDynamicFold` that adds a body-tail. -/
theorem loop_step (exp : ℚ → ℚ) (data : TTrainData) (approxDimension : Nat)
    (multiplier : ℚ) (storeExpApproxes : Bool) (queryEndInfo : List TQueryEndInfo)
    (invertPermutation : List Nat) (fuel : Nat) (ff : TFold) (L T : Nat)
    (hc : ff.BodyTailArr.isEmpty = true ∨ L < data.LearnSampleCount)
    (hT : SelectTailSize L multiplier queryEndInfo data.LearnSampleCount = some (T : Int)) :
    BuildDynamicFold.loop exp data approxDimension multiplier storeExpApproxes queryEndInfo
        invertPermutation (fuel + 1) ff L
      = BuildDynamicFold.loop exp data approxDimension multiplier storeExpApproxes
          queryEndInfo invertPermutation fuel
          { ff with BodyTailArr := ff.BodyTailArr ++
            [BuildDynamicFold.bodyTail exp data approxDimension storeExpApproxes
              invertPermutation ff L T] } T := by
  rw [BuildDynamicFold.loop, if_pos hc, hT]
  show BuildDynamicFold.loop exp data approxDimension multiplier storeExpApproxes
      queryEndInfo invertPermutation fuel _
      (BuildDynamicFold.bodyTail exp data approxDimension storeExpApproxes
        invertPermutation ff L T).TailFinish = _
  rw [(bodyTail_finish exp data approxDimension storeExpApproxes invertPermutation ff L
    T).2]

/-- An iteration of the loop of `BuildDynamicFold` that returns a fold has a result of
`SelectTailSize` that is not negative. -/
theorem loop_step_some (exp : ℚ → ℚ) (data : TTrainData) (approxDimension : Nat)
    (multiplier : ℚ) (storeExpApproxes : Bool) (queryEndInfo : List TQueryEndInfo)
    (invertPermutation : List Nat) (fuel : Nat) (ff result : TFold) (L : Nat)
    (hc : ff.BodyTailArr.isEmpty = true ∨ L < data.LearnSampleCount)
    (h : BuildDynamicFold.loop exp data approxDimension multiplier storeExpApproxes
      queryEndInfo invertPermutation (fuel + 1) ff L = some result) :
    ∃ T : Nat,
      SelectTailSize L multiplier queryEndInfo data.LearnSampleCount = some (T : Int) := by
  rw [BuildDynamicFold.loop, if_pos hc] at h
  split at h
  · rename_i t ht
    exact ⟨t, ht⟩
  · cases h

/-- What the loop of `BuildDynamicFold` returns: the fold it started with, with body-tails
added for windows `(BodyFinish, TailFinish)` that start at `L`, each starting where the one
before it ends, below `N`, and each ending where `SelectTailSize` says; the last one ends
at `N` or above. -/
theorem loop_windows (exp : ℚ → ℚ) (data : TTrainData) (approxDimension : Nat)
    (multiplier : ℚ) (storeExpApproxes : Bool) (queryEndInfo : List TQueryEndInfo)
    (invertPermutation : List Nat) :
    ∀ (fuel : Nat) (ff result : TFold) (L : Nat),
      BuildDynamicFold.loop exp data approxDimension multiplier storeExpApproxes queryEndInfo
        invertPermutation fuel ff L = some result →
      ∃ Ws : List (Nat × Nat),
        result = { ff with
          BodyTailArr := ff.BodyTailArr ++ Ws.map fun w =>
            BuildDynamicFold.bodyTail exp data approxDimension storeExpApproxes
              invertPermutation ff w.1 w.2 } ∧
        (∀ w ∈ Ws,
          SelectTailSize w.1 multiplier queryEndInfo data.LearnSampleCount
            = some (w.2 : Int)) ∧
        List.Chain' (fun a b : Nat × Nat => b.1 = a.2 ∧ a.2 < data.LearnSampleCount) Ws ∧
        (∀ w, Ws.head? = some w → w.1 = L) ∧
        (ff.BodyTailArr.isEmpty = true → Ws ≠ []) ∧
        (ff.BodyTailArr.isEmpty = false → Ws ≠ [] → L < data.LearnSampleCount) ∧
        (Ws = [] → data.LearnSampleCount ≤ L) ∧
        (∀ w, Ws.getLast? = some w → data.LearnSampleCount ≤ w.2) := by
  intro fuel
  induction fuel with
  | zero =>
    intro ff result L h
    rw [BuildDynamicFold.loop] at h
    split at h
    · cases h
    · rename_i hc
      simp only [Option.some.injEq] at h
      subst h
      have he : ff.BodyTailArr.isEmpty = false := by
        cases h : ff.BodyTailArr.isEmpty
        · rfl
        · exact absurd (Or.inl h) hc
      refine ⟨[], by simp, ?_, List.chain'_nil, ?_, ?_, ?_, ?_, ?_⟩
      · intro w hw; cases hw
      · intro w hw; cases hw
      · intro h; rw [he] at h; cases h
      · intro _ h; exact absurd rfl h
      · intro _
        by_contra hcon
        exact hc (Or.inr (by omega))
      · intro w hw; cases hw
  | succ fuel ih =>
    intro ff result L h
    by_cases hc : ff.BodyTailArr.isEmpty = true ∨ L < data.LearnSampleCount
    · obtain ⟨T, hT⟩ := loop_step_some exp data approxDimension multiplier storeExpApproxes
        queryEndInfo invertPermutation fuel ff result L hc h
      rw [loop_step exp data approxDimension multiplier storeExpApproxes queryEndInfo
        invertPermutation fuel ff L T hc hT] at h
      obtain ⟨Ws, e1, e2, e3, e4, -, e6, e7, e8⟩ := ih _ _ _ h
      have hne : (ff.BodyTailArr ++ [BuildDynamicFold.bodyTail exp data approxDimension
          storeExpApproxes invertPermutation ff L T]).isEmpty = false := by
        cases ff.BodyTailArr <;> rfl
      refine ⟨(L, T) :: Ws, ?_, ?_, ?_, ?_, ?_, ?_, ?_, ?_⟩
      · rw [e1]
        simp only [List.map_cons, List.append_assoc, List.singleton_append]
        rfl
      · intro w hw
        rcases List.mem_cons.1 hw with h1 | h1
        · rw [h1]; exact hT
        · exact e2 w h1
      · rw [List.chain'_cons']
        refine ⟨?_, e3⟩
        intro y hy
        have hy1 := e4 y hy
        have hWs : Ws ≠ [] := by
          intro h0
          rw [h0] at hy
          cases hy
        exact ⟨hy1, e6 hne hWs⟩
      · intro w hw
        simp only [List.head?_cons, Option.some.injEq] at hw
        rw [← hw]
      · intro _ h0; cases h0
      · intro he _
        rcases hc with h1 | h1
        · rw [he] at h1; cases h1
        · exact h1
      · intro h0; cases h0
      · intro w hw
        cases Ws with
        | nil =>
          simp only [List.getLast?_singleton, Option.some.injEq] at hw
          rw [← hw]
          exact e7 rfl
        | cons y t =>
          rw [List.getLast?_cons_cons] at hw
          exact e8 w hw
    · rw [BuildDynamicFold.loop, if_neg hc] at h
      simp only [Option.some.injEq] at h
      subst h
      have he : ff.BodyTailArr.isEmpty = false := by
        cases h : ff.BodyTailArr.isEmpty
        · rfl
        · exact absurd (Or.inl h) hc
      refine ⟨[], by simp, ?_, List.chain'_nil, ?_, ?_, ?_, ?_, ?_⟩
      · intro w hw; cases hw
      · intro w hw; cases hw
      · intro h; rw [he] at h; cases h
      · intro _ h; exact absurd rfl h
      · intro _
        by_contra hcon
        exact hc (Or.inr (by omega))
      · intro w hw; cases hw

/-- The loop of `BuildDynamicFold` returns a fold within `N - L` iterations, and one more
when it starts without a body-tail, when `SelectTailSize` has a result in `[L, N]` for every
body `L` in `[1, N]`, above `L` for `L < N`. -/
theorem loop_returns (exp : ℚ → ℚ) (data : TTrainData) (approxDimension : Nat)
    (multiplier : ℚ) (storeExpApproxes : Bool) (queryEndInfo : List TQueryEndInfo)
    (invertPermutation : List Nat)
    (hstep : ∀ L, 1 ≤ L → L ≤ data.LearnSampleCount →
      ∃ T : Nat,
        SelectTailSize L multiplier queryEndInfo data.LearnSampleCount = some (T : Int) ∧
        L ≤ T ∧ T ≤ data.LearnSampleCount ∧ (L < data.LearnSampleCount → L < T)) :
    ∀ (fuel : Nat) (ff : TFold) (L : Nat), 1 ≤ L → L ≤ data.LearnSampleCount →
      data.LearnSampleCount - L + (if ff.BodyTailArr.isEmpty then 1 else 0) ≤ fuel →
      ∃ result, BuildDynamicFold.loop exp data approxDimension multiplier storeExpApproxes
        queryEndInfo invertPermutation fuel ff L = some result := by
  intro fuel
  induction fuel with
  | zero =>
    intro ff L hL hLN hfuel
    have he : ff.BodyTailArr.isEmpty = false := by
      cases h : ff.BodyTailArr.isEmpty
      · rfl
      · rw [h] at hfuel
        simp at hfuel
    refine ⟨ff, ?_⟩
    rw [BuildDynamicFold.loop, if_neg (by rw [he]; simp; omega)]
  | succ fuel ih =>
    intro ff L hL hLN hfuel
    by_cases hc : ff.BodyTailArr.isEmpty = true ∨ L < data.LearnSampleCount
    · obtain ⟨T, hT, h1, h2, h3⟩ := hstep L hL hLN
      rw [loop_step exp data approxDimension multiplier storeExpApproxes queryEndInfo
        invertPermutation fuel ff L T hc hT]
      have hne : (ff.BodyTailArr ++ [BuildDynamicFold.bodyTail exp data approxDimension
          storeExpApproxes invertPermutation ff L T]).isEmpty = false := by
        cases ff.BodyTailArr <;> rfl
      apply ih _ T (by omega) h2
      simp only [hne, Bool.false_eq_true, if_false]
      rcases hc with h | h
      · rw [h] at hfuel
        simp only [if_true] at hfuel
        omega
      · have := h3 h
        omega
    · exact ⟨ff, by rw [BuildDynamicFold.loop, if_neg hc]⟩

theorem loop_keeps (exp : ℚ → ℚ) (data : TTrainData) (approxDimension : Nat)
    (multiplier : ℚ) (storeExpApproxes : Bool) (queryEndInfo : List TQueryEndInfo)
    (invertPermutation : List Nat) (fuel : Nat) (ff result : TFold) (L : Nat)
    (h : BuildDynamicFold.loop exp data approxDimension multiplier storeExpApproxes
      queryEndInfo invertPermutation fuel ff L = some result) :
    result.LearnPermutation = ff.LearnPermutation ∧
    result.PermutationBlockSize = ff.PermutationBlockSize ∧
    result.LearnWeights = ff.LearnWeights ∧
    result.SampleWeights = ff.SampleWeights := by
  obtain ⟨Ws, e, -⟩ := loop_windows exp data approxDimension multiplier storeExpApproxes
    queryEndInfo invertPermutation fuel ff result L h
  rw [e]
  exact ⟨rfl, rfl, rfl, rfl⟩

/-- More fuel does not change what the loop of `BuildDynamicFold` returns. -/
theorem loop_fuel_succ (exp : ℚ → ℚ) (data : TTrainData) (approxDimension : Nat)
    (multiplier : ℚ) (storeExpApproxes : Bool) (queryEndInfo : List TQueryEndInfo)
    (invertPermutation : List Nat) :
    ∀ (fuel : Nat) (ff result : TFold) (L : Nat),
      BuildDynamicFold.loop exp data approxDimension multiplier storeExpApproxes queryEndInfo
        invertPermutation fuel ff L = some result →
      BuildDynamicFold.loop exp data approxDimension multiplier storeExpApproxes queryEndInfo
        invertPermutation (fuel + 1) ff L = some result := by
  intro fuel
  induction fuel with
  | zero =>
    intro ff result L h
    rw [BuildDynamicFold.loop] at h
    split at h
    · cases h
    · rename_i hc
      rw [BuildDynamicFold.loop, if_neg hc]
      exact h
  | succ fuel ih =>
    intro ff result L h
    by_cases hc : ff.BodyTailArr.isEmpty = true ∨ L < data.LearnSampleCount
    · obtain ⟨T, hT⟩ := loop_step_some exp data approxDimension multiplier storeExpApproxes
        queryEndInfo invertPermutation fuel ff result L hc h
      rw [loop_step exp data approxDimension multiplier storeExpApproxes queryEndInfo
        invertPermutation fuel ff L T hc hT] at h
      rw [loop_step exp data approxDimension multiplier storeExpApproxes queryEndInfo
        invertPermutation (fuel + 1) ff L T hc hT]
      exact ih _ _ _ h
    · rw [BuildDynamicFold.loop, if_neg hc] at h
      rw [BuildDynamicFold.loop, if_neg hc]
      exact h

theorem loop_fuel_mono (exp : ℚ → ℚ) (data : TTrainData) (approxDimension : Nat)
    (multiplier : ℚ) (storeExpApproxes : Bool) (queryEndInfo : List TQueryEndInfo)
    (invertPermutation : List Nat) (fuel : Nat) (ff result : TFold) (L : Nat)
    (h : BuildDynamicFold.loop exp data approxDimension multiplier storeExpApproxes
      queryEndInfo invertPermutation fuel ff L = some result) :
    ∀ more, BuildDynamicFold.loop exp data approxDimension multiplier storeExpApproxes
      queryEndInfo invertPermutation (fuel + more) ff L = some result := by
  intro more
  induction more with
  | zero => exact h
  | succ more ih => exact loop_fuel_succ _ _ _ _ _ _ _ _ _ _ _ ih

theorem BuildDynamicFold_fuel_mono (exp : ℚ → ℚ) (fuel : Nat) (data : TTrainData)
    (shuffle : Bool) (permuteBlockSize approxDimension : Nat) (multiplier : ℚ)
    (storeExpApproxes : Bool) (rand : TRestorableFastRng64) (r : TFold × TRestorableFastRng64)
    (h : BuildDynamicFold exp fuel data shuffle permuteBlockSize approxDimension multiplier
      storeExpApproxes rand = some r) (more : Nat) :
    BuildDynamicFold exp (fuel + more) data shuffle permuteBlockSize approxDimension multiplier
      storeExpApproxes rand = some r := by
  unfold BuildDynamicFold at h ⊢
  simp only at h ⊢
  rw [Option.map_eq_some'] at h ⊢
  obtain ⟨res, h1, h2⟩ := h
  exact ⟨res, loop_fuel_mono _ _ _ _ _ _ _ _ _ _ _ h1 more, h2⟩

theorem queryEndInfo_noQueries (data : TTrainData) (shuffle : Bool) (ff : TFold)
    (h : data.QueryId = []) : BuildDynamicFold.queryEndInfo data shuffle ff = [] := by
  unfold BuildDynamicFold.queryEndInfo
  rw [h]
  rfl

theorem chain'_getElem? {α : Type} (R : α → α → Prop) (l : List α) (h : l.Chain' R)
    (i : Nat) (a b : α) (ha : l[i]? = some a) (hb : l[i + 1]? = some b) : R a b := by
  induction l generalizing i with
  | nil => cases ha
  | cons x t ih =>
    rw [List.chain'_cons'] at h
    cases i with
    | zero =>
      simp only [List.getElem?_cons_zero, Option.some.injEq] at ha
      rw [← ha]
      apply h.1
      rw [List.getElem?_cons_succ] at hb
      rw [List.head?_eq_getElem?]
      exact hb
    | succ i =>
      rw [List.getElem?_cons_succ] at ha hb
      exact ih h.2 i ha hb

/-- The windows of a chain that starts in `[1, N]` and in which every window that starts in
`[1, N]` ends in `[start, N]`, above its start when that is below `N`: they all start at 1
or above and end at `N` or below, and starts and ends increase strictly along the chain. -/
theorem windows_bounds (N : Nat) :
    ∀ (Ws : List (Nat × Nat)) (L : Nat), 1 ≤ L → L ≤ N →
      (∀ w, Ws.head? = some w → w.1 = L) →
      List.Chain' (fun a b : Nat × Nat => b.1 = a.2 ∧ a.2 < N) Ws →
      (∀ w ∈ Ws, 1 ≤ w.1 → w.1 ≤ N → w.1 ≤ w.2 ∧ w.2 ≤ N ∧ (w.1 < N → w.1 < w.2)) →
      (∀ w ∈ Ws, 1 ≤ w.1 ∧ w.1 ≤ w.2 ∧ w.2 ≤ N) ∧
      List.Chain' (fun a b : Nat × Nat => a.1 < b.1 ∧ a.2 < b.2) Ws := by
  intro Ws
  induction Ws with
  | nil =>
    intro L _ _ _ _ _
    exact ⟨fun w hw => (by cases hw), List.chain'_nil⟩
  | cons w t ih =>
    intro L hL hLN hhead hchain hstep
    have hw1 : w.1 = L := hhead w rfl
    have hb := hstep w (List.mem_cons_self _ _) (by omega) (by omega)
    rw [List.chain'_cons'] at hchain
    have hrec := ih w.2 (by omega) hb.2.1
      (fun y hy => (hchain.1 y hy).1) hchain.2
      (fun y hy => hstep y (List.mem_cons_of_mem _ hy))
    refine ⟨?_, ?_⟩
    · intro y hy
      rcases List.mem_cons.1 hy with h | h
      · rw [h]
        exact ⟨by omega, hb.1, hb.2.1⟩
      · exact hrec.1 y h
    · rw [List.chain'_cons']
      refine ⟨?_, hrec.2⟩
      intro y hy
      have hy1 := hchain.1 y hy
      have hymem : y ∈ t := by
        cases t with
        | nil => cases hy
        | cons z u =>
          simp only [List.head?_cons, Option.mem_def, Option.some.injEq] at hy
          rw [← hy]
          exact List.mem_cons_self _ _
      have hyb := hstep y (List.mem_cons_of_mem _ hymem) (by omega) (by omega)
      have := hb.2.2 (by omega)
      have := hyb.2.2 (by omega)
      omega

/-- What `BuildDynamicFold` returns: the fold with the permutation and the weights of
`BuildFoldPermutation`, with body-tails for a chain of windows that starts at the minimum
batch size. -/
theorem BuildDynamicFold_sound (exp : ℚ → ℚ) (fuel : Nat) (data : TTrainData)
    (shuffle : Bool) (permuteBlockSize approxDimension : Nat) (multiplier : ℚ)
    (storeExpApproxes : Bool) (rand : TRestorableFastRng64) (ff : TFold)
    (rand2 : TRestorableFastRng64)
    (h : BuildDynamicFold exp fuel data shuffle permuteBlockSize approxDimension multiplier
      storeExpApproxes rand = some (ff, rand2)) :
    ∃ Ws : List (Nat × Nat),
      ff = { (BuildFoldPermutation data shuffle permuteBlockSize rand).1 with
        BodyTailArr := Ws.map fun w =>
          BuildDynamicFold.bodyTail exp data approxDimension storeExpApproxes
            (InvertPermutation
              (BuildFoldPermutation data shuffle permuteBlockSize rand).1.LearnPermutation)
            (BuildFoldPermutation data shuffle permuteBlockSize rand).1 w.1 w.2 } ∧
      rand2 = (BuildFoldPermutation data shuffle permuteBlockSize rand).2 ∧
      Ws ≠ [] ∧
      (∀ w ∈ Ws,
        SelectTailSize w.1 multiplier
          (BuildDynamicFold.queryEndInfo data shuffle
            (BuildFoldPermutation data shuffle permuteBlockSize rand).1)
          data.LearnSampleCount = some (w.2 : Int)) ∧
      List.Chain' (fun a b : Nat × Nat => b.1 = a.2 ∧ a.2 < data.LearnSampleCount) Ws ∧
      (∀ w, Ws.head? = some w →
        w.1 = SelectMinBatchSize data.LearnSampleCount
          (BuildDynamicFold.queryEndInfo data shuffle
            (BuildFoldPermutation data shuffle permuteBlockSize rand).1)) ∧
      (∀ w, Ws.getLast? = some w → data.LearnSampleCount ≤ w.2) := by
  have hbt0 := BuildFoldPermutation_bodyTails data shuffle permuteBlockSize rand
  have hempty : (BuildFoldPermutation data shuffle permuteBlockSize rand).1.BodyTailArr.isEmpty
      = true := by
    rw [hbt0]
    rfl
  unfold BuildDynamicFold at h
  simp only at h
  rw [Option.map_eq_some'] at h
  obtain ⟨res, h1, h2⟩ := h
  obtain ⟨Ws, e1, e2, e3, e4, e5, -, -, e8⟩ := loop_windows _ _ _ _ _ _ _ _ _ _ _ h1
  have h3 : res = ff := congrArg Prod.fst h2
  have h4 : (BuildFoldPermutation data shuffle permuteBlockSize rand).2 = rand2 :=
    congrArg Prod.snd h2
  refine ⟨Ws, ?_, h4.symm, e5 hempty, e2, e3, e4, e8⟩
  rw [← h3, e1, hbt0]
  rfl

/-- When `BuildDynamicFold` returns a fold: there is a learn document, the multiplier is a
double above one, `N * multiplier` does not exceed the largest `int`, the fuel is `N`, and
the query ends, if any, lie behind their positions and inside the learn set. -/
theorem BuildDynamicFold_returns (exp : ℚ → ℚ) (fuel : Nat) (data : TTrainData)
    (shuffle : Bool) (permuteBlockSize approxDimension : Nat) (multiplier : ℚ)
    (storeExpApproxes : Bool) (rand : TRestorableFastRng64)
    (hN : 1 ≤ data.LearnSampleCount) (hm : 1 < multiplier)
    (hD : RoundToDouble multiplier = multiplier)
    (hR : (data.LearnSampleCount : ℚ) * multiplier ≤ 2147483647)
    (hfuel : data.LearnSampleCount ≤ fuel)
    (hq : BuildDynamicFold.queryEndInfo data shuffle
        (BuildFoldPermutation data shuffle permuteBlockSize rand).1 = [] ∨
      ∀ i, i < data.LearnSampleCount →
        i < ((BuildDynamicFold.queryEndInfo data shuffle
          (BuildFoldPermutation data shuffle permuteBlockSize rand).1).getD i
            default).QueryEnd ∧
        ((BuildDynamicFold.queryEndInfo data shuffle
          (BuildFoldPermutation data shuffle permuteBlockSize rand).1).getD i
            default).QueryEnd ≤ data.LearnSampleCount) :
    ∃ (ff : TFold) (rand2 : TRestorableFastRng64),
      BuildDynamicFold exp fuel data shuffle permuteBlockSize approxDimension multiplier
        storeExpApproxes rand = some (ff, rand2) := by
  have hbt0 := BuildFoldPermutation_bodyTails data shuffle permuteBlockSize rand
  have hS := SelectMinBatchSize_bounds data.LearnSampleCount _ hN hq
  have hempty : (BuildFoldPermutation data shuffle permuteBlockSize rand).1.BodyTailArr.isEmpty
      = true := by
    rw [hbt0]
    rfl
  have hm2 := double_above_one multiplier hD hm
  obtain ⟨res, hres⟩ := loop_returns exp data approxDimension multiplier storeExpApproxes
    (BuildDynamicFold.queryEndInfo data shuffle
      (BuildFoldPermutation data shuffle permuteBlockSize rand).1)
    (InvertPermutation
      (BuildFoldPermutation data shuffle permuteBlockSize rand).1.LearnPermutation)
    (by
      intro L hL hLN
      obtain ⟨T, hT⟩ := SelectTailSize_defined L data.LearnSampleCount multiplier
        (BuildDynamicFold.queryEndInfo data shuffle
          (BuildFoldPermutation data shuffle permuteBlockSize rand).1) hL hLN hm2 hR
      exact ⟨T, hT, SelectTailSize_grows L data.LearnSampleCount multiplier _ T hL hLN hm2 hq
        hT⟩)
    fuel (BuildFoldPermutation data shuffle permuteBlockSize rand).1 _ hS.1 hS.2
    (by rw [hempty]; simp only [if_true]; omega)
  refine ⟨res, (BuildFoldPermutation data shuffle permuteBlockSize rand).2, ?_⟩
  unfold BuildDynamicFold
  simp only
  rw [hres]
  rfl

/-- The windows of a fold that `BuildDynamicFold` returns for a multiplier of at least
`1 + 2 ^ (-52)`: every window starts at 1 or above and ends at `N` or below, not before its
start, and the starts and the ends increase strictly from every window to the next. -/
theorem BuildDynamicFold_windows_bounds (data : TTrainData) (multiplier : ℚ)
    (queryEndInfo : List TQueryEndInfo) (Ws : List (Nat × Nat))
    (hN : 1 ≤ data.LearnSampleCount) (hm : 1 + 2 ^ (-52 : Int) ≤ multiplier)
    (hq : queryEndInfo = [] ∨ ∀ i, i < data.LearnSampleCount →
      i < (queryEndInfo.getD i default).QueryEnd ∧
      (queryEndInfo.getD i default).QueryEnd ≤ data.LearnSampleCount)
    (hsel : ∀ w ∈ Ws,
      SelectTailSize w.1 multiplier queryEndInfo data.LearnSampleCount = some (w.2 : Int))
    (hchain : List.Chain' (fun a b : Nat × Nat => b.1 = a.2 ∧ a.2 < data.LearnSampleCount)
      Ws)
    (hhead : ∀ w, Ws.head? = some w →
      w.1 = SelectMinBatchSize data.LearnSampleCount queryEndInfo) :
    (∀ w ∈ Ws, 1 ≤ w.1 ∧ w.1 ≤ w.2 ∧ w.2 ≤ data.LearnSampleCount) ∧
    List.Chain' (fun a b : Nat × Nat => a.1 < b.1 ∧ a.2 < b.2) Ws := by
  have hS := SelectMinBatchSize_bounds data.LearnSampleCount queryEndInfo hN hq
  exact windows_bounds data.LearnSampleCount Ws _ hS.1 hS.2 hhead hchain
    (fun w hw h1 h2 => SelectTailSize_grows w.1 data.LearnSampleCount multiplier queryEndInfo
      w.2 h1 h2 hm hq (hsel w hw))

/-! ## The folds that the builders make -/

theorem BuildPlainFold_permutation (exp : ℚ → ℚ) (data : TTrainData) (shuffle : Bool)
    (permuteBlockSize approxDimension : Nat) (storeExpApproxes : Bool)
    (rand : TRestorableFastRng64) :
    (BuildPlainFold exp data shuffle permuteBlockSize approxDimension storeExpApproxes
      rand).1.LearnPermutation
      = (BuildFoldPermutation data shuffle permuteBlockSize rand).1.LearnPermutation := rfl

theorem BuildDynamicFold_permutation (exp : ℚ → ℚ) (fuel : Nat) (data : TTrainData)
    (shuffle : Bool) (permuteBlockSize approxDimension : Nat) (multiplier : ℚ)
    (storeExpApproxes : Bool) (rand : TRestorableFastRng64) (ff : TFold)
    (rand2 : TRestorableFastRng64)
    (h : BuildDynamicFold exp fuel data shuffle permuteBlockSize approxDimension multiplier
      storeExpApproxes rand = some (ff, rand2)) :
    ff.LearnPermutation
      = (BuildFoldPermutation data shuffle permuteBlockSize rand).1.LearnPermutation := by
  unfold BuildDynamicFold at h
  simp only [Option.map_eq_some'] at h
  obtain ⟨r, hr, he⟩ := h
  cases he
  exact (loop_keeps _ _ _ _ _ _ _ _ _ _ _ hr).1

/-- C15. For every learn sample count `N`, every `permuteBlockSize >= 1` (`N` need not be a
multiple of it), every shuffle flag and every generator (so every outcome of the random
shuffle), the `LearnPermutation` of the fold `BuildPlainFold` makes, and of every fold
`BuildDynamicFold` returns, is a bijection on `[0, N)`: it is a permutation of
`0, ..., N - 1`, so it has length `N`, every index below `N` occurs in it exactly once and
nothing else occurs.  `BuildDynamicFold` returns a fold for `N >= 1`, a multiplier that is a
double above one with `N * multiplier` not above the largest `int`, `N` iterations of fuel
and data without query ids. -/
theorem LearnPermutation_bijection (exp : ℚ → ℚ) (fuel : Nat) (data : TTrainData)
    (shuffle : Bool) (permuteBlockSize approxDimension : Nat) (multiplier : ℚ)
    (storeExpApproxes : Bool) (rand : TRestorableFastRng64) (hB : 1 ≤ permuteBlockSize) :
    ((BuildPlainFold exp data shuffle permuteBlockSize approxDimension storeExpApproxes
        rand).1.LearnPermutation.Perm (List.range data.LearnSampleCount) ∧
      (BuildPlainFold exp data shuffle permuteBlockSize approxDimension storeExpApproxes
        rand).1.LearnPermutation.length = data.LearnSampleCount ∧
      (∀ i, i < data.LearnSampleCount →
        (BuildPlainFold exp data shuffle permuteBlockSize approxDimension storeExpApproxes
          rand).1.LearnPermutation.count i = 1) ∧
      (∀ x ∈ (BuildPlainFold exp data shuffle permuteBlockSize approxDimension
        storeExpApproxes rand).1.LearnPermutation, x < data.LearnSampleCount)) ∧
    (∀ (ff : TFold) (rand2 : TRestorableFastRng64),
      BuildDynamicFold exp fuel data shuffle permuteBlockSize approxDimension multiplier
        storeExpApproxes rand = some (ff, rand2) →
      ff.LearnPermutation.Perm (List.range data.LearnSampleCount) ∧
      ff.LearnPermutation.length = data.LearnSampleCount ∧
      (∀ i, i < data.LearnSampleCount → ff.LearnPermutation.count i = 1) ∧
      (∀ x ∈ ff.LearnPermutation, x < data.LearnSampleCount)) ∧
    (1 ≤ data.LearnSampleCount → 1 < multiplier → RoundToDouble multiplier = multiplier →
      (data.LearnSampleCount : ℚ) * multiplier ≤ 2147483647 →
      data.LearnSampleCount ≤ fuel → data.QueryId = [] →
      ∃ (ff : TFold) (rand2 : TRestorableFastRng64),
        BuildDynamicFold exp fuel data shuffle permuteBlockSize approxDimension multiplier
          storeExpApproxes rand = some (ff, rand2)) := by
  have hperm := BuildFoldPermutation_perm data shuffle permuteBlockSize rand hB
  have hbij := perm_range_bijection _ _ hperm
  refine ⟨?_, ?_, ?_⟩
  · rw [BuildPlainFold_permutation]
    exact ⟨hperm, hbij.1, hbij.2.1, hbij.2.2.1⟩
  · intro ff rand2 h
    rw [BuildDynamicFold_permutation exp fuel data shuffle permuteBlockSize approxDimension
      multiplier storeExpApproxes rand ff rand2 h]
    exact ⟨hperm, hbij.1, hbij.2.1, hbij.2.2.1⟩
  · intro hN hm hD hR hfuel hQ
    exact BuildDynamicFold_returns exp fuel data shuffle permuteBlockSize approxDimension
      multiplier storeExpApproxes rand hN hm hD hR hfuel
      (Or.inl (queryEndInfo_noQueries data shuffle _ hQ))

/-- C16. For `N >= 1` learn documents, every fold that `BuildDynamicFold` returns has a
`BodyTailArr` that is non-empty, in which every entry's `BodyFinish` is the `TailFinish` of
the entry before it, and whose last entry has `TailFinish = N`.  `BuildDynamicFold` returns
such a fold, given `N` iterations of fuel, for a multiplier that is a double above one with
`N * multiplier` not above the largest `int`.  For data with query ids the query ends that
the helpers deliver are taken to be ends of groups: `i < QueryEnd <= N` at every position
`i < N`. -/
theorem BuildDynamicFold_chained (exp : ℚ → ℚ) (fuel : Nat) (data : TTrainData)
    (shuffle : Bool) (permuteBlockSize approxDimension : Nat) (multiplier : ℚ)
    (storeExpApproxes : Bool) (rand : TRestorableFastRng64)
    (hN : 1 ≤ data.LearnSampleCount)
    (hq : data.QueryId = [] ∨
      ∀ i, i < data.LearnSampleCount →
        i < ((BuildDynamicFold.queryEndInfo data shuffle
          (BuildFoldPermutation data shuffle permuteBlockSize rand).1).getD i
            default).QueryEnd ∧
        ((BuildDynamicFold.queryEndInfo data shuffle
          (BuildFoldPermutation data shuffle permuteBlockSize rand).1).getD i
            default).QueryEnd ≤ data.LearnSampleCount) :
    (∀ (ff : TFold) (rand2 : TRestorableFastRng64),
      BuildDynamicFold exp fuel data shuffle permuteBlockSize approxDimension multiplier
        storeExpApproxes rand = some (ff, rand2) →
      ff.BodyTailArr ≠ [] ∧
      (∀ (i : Nat) (a b : TFold.TBodyTail), ff.BodyTailArr[i]? = some a →
        ff.BodyTailArr[i + 1]? = some b → b.BodyFinish = a.TailFinish) ∧
      (∀ last : TFold.TBodyTail, ff.BodyTailArr.getLast? = some last →
        last.TailFinish = data.LearnSampleCount)) ∧
    (1 < multiplier → RoundToDouble multiplier = multiplier →
      (data.LearnSampleCount : ℚ) * multiplier ≤ 2147483647 →
      data.LearnSampleCount ≤ fuel →
      ∃ (ff : TFold) (rand2 : TRestorableFastRng64),
        BuildDynamicFold exp fuel data shuffle permuteBlockSize approxDimension multiplier
          storeExpApproxes rand = some (ff, rand2) ∧
        ff.BodyTailArr ≠ [] ∧
        (∀ (i : Nat) (a b : TFold.TBodyTail), ff.BodyTailArr[i]? = some a →
          ff.BodyTailArr[i + 1]? = some b → b.BodyFinish = a.TailFinish) ∧
        (∀ last : TFold.TBodyTail, ff.BodyTailArr.getLast? = some last →
          last.TailFinish = data.LearnSampleCount)) := by
  have hq2 : BuildDynamicFold.queryEndInfo data shuffle
        (BuildFoldPermutation data shuffle permuteBlockSize rand).1 = [] ∨
      ∀ i, i < data.LearnSampleCount →
        i < ((BuildDynamicFold.queryEndInfo data shuffle
          (BuildFoldPermutation data shuffle permuteBlockSize rand).1).getD i
            default).QueryEnd ∧
        ((BuildDynamicFold.queryEndInfo data shuffle
          (BuildFoldPermutation data shuffle permuteBlockSize rand).1).getD i
            default).QueryEnd ≤ data.LearnSampleCount := by
    rcases hq with h | h
    · exact Or.inl (queryEndInfo_noQueries data shuffle _ h)
    · exact Or.inr h
  have hsound : ∀ (ff : TFold) (rand2 : TRestorableFastRng64),
      BuildDynamicFold exp fuel data shuffle permuteBlockSize approxDimension multiplier
        storeExpApproxes rand = some (ff, rand2) →
      ff.BodyTailArr ≠ [] ∧
      (∀ (i : Nat) (a b : TFold.TBodyTail), ff.BodyTailArr[i]? = some a →
        ff.BodyTailArr[i + 1]? = some b → b.BodyFinish = a.TailFinish) ∧
      (∀ last : TFold.TBodyTail, ff.BodyTailArr.getLast? = some last →
        last.TailFinish = data.LearnSampleCount) := by
    intro ff rand2 h
    obtain ⟨Ws, e, -, hne, hsel, hchain, -, hlast⟩ := BuildDynamicFold_sound exp fuel data
      shuffle permuteBlockSize approxDimension multiplier storeExpApproxes rand ff rand2 h
    rw [e]
    refine ⟨?_, ?_, ?_⟩
    · intro h0
      exact hne (List.map_eq_nil_iff.1 h0)
    · intro i a b ha hb
      simp only [List.getElem?_map, Option.map_eq_some'] at ha hb
      obtain ⟨x, hx, rfl⟩ := ha
      obtain ⟨y, hy, rfl⟩ := hb
      have hR := chain'_getElem? _ Ws hchain i x y hx hy
      rw [(bodyTail_finish _ _ _ _ _ _ _ _).1, (bodyTail_finish _ _ _ _ _ _ _ _).2]
      exact hR.1
    · intro last h0
      simp only [List.getLast?_map, Option.map_eq_some'] at h0
      obtain ⟨x, hx, rfl⟩ := h0
      rw [(bodyTail_finish _ _ _ _ _ _ _ _).2]
      have hmem : x ∈ Ws := List.mem_of_getLast?_eq_some hx
      have h1 := SelectTailSize_le x.1 data.LearnSampleCount multiplier _ x.2 hN hq2
        (hsel x hmem)
      have h2 := hlast x hx
      omega
  refine ⟨hsound, ?_⟩
  intro hm hD hR hfuel
  obtain ⟨ff, rand2, h⟩ := BuildDynamicFold_returns exp fuel data shuffle permuteBlockSize
    approxDimension multiplier storeExpApproxes rand hN hm hD hR hfuel hq2
  exact ⟨ff, rand2, h, hsound ff rand2 h⟩

/-- C17. For `N >= 1` learn documents without query ids and a multiplier that is a double
above one, every fold that `BuildDynamicFold` returns has body-tails that all satisfy
`0 < BodyFinish <= TailFinish <= N`, and `TailFinish` is strictly increasing along
`BodyTailArr`: from every entry to the next, and so between any two entries.  The product
`BodyFinish * multiplier` is rounded to a double as the code rounds it.  `BuildDynamicFold`
returns a fold, given `N` iterations of fuel, when `N * multiplier` is not above the largest
`int`. -/
theorem BuildDynamicFold_windows (exp : ℚ → ℚ) (fuel : Nat) (data : TTrainData)
    (shuffle : Bool) (permuteBlockSize approxDimension : Nat) (multiplier : ℚ)
    (storeExpApproxes : Bool) (rand : TRestorableFastRng64)
    (hN : 1 ≤ data.LearnSampleCount) (hm : 1 < multiplier)
    (hD : RoundToDouble multiplier = multiplier) (hQ : data.QueryId = []) :
    (∀ (ff : TFold) (rand2 : TRestorableFastRng64),
      BuildDynamicFold exp fuel data shuffle permuteBlockSize approxDimension multiplier
        storeExpApproxes rand = some (ff, rand2) →
      (∀ bt ∈ ff.BodyTailArr,
        0 < bt.BodyFinish ∧ bt.BodyFinish ≤ bt.TailFinish ∧
          bt.TailFinish ≤ data.LearnSampleCount) ∧
      (∀ (i : Nat) (a b : TFold.TBodyTail), ff.BodyTailArr[i]? = some a →
        ff.BodyTailArr[i + 1]? = some b → a.TailFinish < b.TailFinish) ∧
      (ff.BodyTailArr.map TFold.TBodyTail.TailFinish).Pairwise (· < ·)) ∧
    ((data.LearnSampleCount : ℚ) * multiplier ≤ 2147483647 → data.LearnSampleCount ≤ fuel →
      ∃ (ff : TFold) (rand2 : TRestorableFastRng64),
        BuildDynamicFold exp fuel data shuffle permuteBlockSize approxDimension multiplier
          storeExpApproxes rand = some (ff, rand2) ∧ ff.BodyTailArr ≠ []) := by
  have hq0 := queryEndInfo_noQueries data shuffle
    (BuildFoldPermutation data shuffle permuteBlockSize rand).1 hQ
  have hm2 := double_above_one multiplier hD hm
  have hsound : ∀ (ff : TFold) (rand2 : TRestorableFastRng64),
      BuildDynamicFold exp fuel data shuffle permuteBlockSize approxDimension multiplier
        storeExpApproxes rand = some (ff, rand2) →
      ff.BodyTailArr ≠ [] ∧
      (∀ bt ∈ ff.BodyTailArr,
        0 < bt.BodyFinish ∧ bt.BodyFinish ≤ bt.TailFinish ∧
          bt.TailFinish ≤ data.LearnSampleCount) ∧
      (∀ (i : Nat) (a b : TFold.TBodyTail), ff.BodyTailArr[i]? = some a →
        ff.BodyTailArr[i + 1]? = some b → a.TailFinish < b.TailFinish) ∧
      (ff.BodyTailArr.map TFold.TBodyTail.TailFinish).Pairwise (· < ·) := by
    intro ff rand2 h
    obtain ⟨Ws, e, -, hne, hsel, hchain, hhead, -⟩ := BuildDynamicFold_sound exp fuel data
      shuffle permuteBlockSize approxDimension multiplier storeExpApproxes rand ff rand2 h
    obtain ⟨hall, hinc⟩ := BuildDynamicFold_windows_bounds data multiplier _ Ws hN hm2
      (Or.inl hq0) hsel hchain hhead
    rw [e]
    refine ⟨?_, ?_, ?_, ?_⟩
    · intro h0
      exact hne (List.map_eq_nil_iff.1 h0)
    · intro bt hbt
      simp only [List.mem_map] at hbt
      obtain ⟨x, hx, rfl⟩ := hbt
      rw [(bodyTail_finish _ _ _ _ _ _ _ _).1, (bodyTail_finish _ _ _ _ _ _ _ _).2]
      have := hall x hx
      omega
    · intro i a b ha hb
      simp only [List.getElem?_map, Option.map_eq_some'] at ha hb
      obtain ⟨x, hx, rfl⟩ := ha
      obtain ⟨y, hy, rfl⟩ := hb
      rw [(bodyTail_finish _ _ _ _ _ _ _ _).2, (bodyTail_finish _ _ _ _ _ _ _ _).2]
      exact (chain'_getElem? _ Ws hinc i x y hx hy).2
    · simp only [List.map_map]
      rw [← List.chain'_iff_pairwise, List.chain'_map]
      refine List.Chain'.imp ?_ hinc
      intro a b hR
      show (BuildDynamicFold.bodyTail _ _ _ _ _ _ a.1 a.2).TailFinish
        < (BuildDynamicFold.bodyTail _ _ _ _ _ _ b.1 b.2).TailFinish
      rw [(bodyTail_finish _ _ _ _ _ _ _ _).2, (bodyTail_finish _ _ _ _ _ _ _ _).2]
      exact hR.2
  refine ⟨fun ff rand2 h => (hsound ff rand2 h).2, ?_⟩
  intro hR hfuel
  obtain ⟨ff, rand2, h⟩ := BuildDynamicFold_returns exp fuel data shuffle permuteBlockSize
    approxDimension multiplier storeExpApproxes rand hN hm hD hR hfuel (Or.inl hq0)
  exact ⟨ff, rand2, h, (hsound ff rand2 h).1⟩

/-! ## The example multipliers -/

theorem Example.two_eq : Example.two = ((2 : Nat) : ℚ) := by
  rfl

/-- The multiplier two is a double. -/
theorem RoundToDouble_two : RoundToDouble Example.two = Example.two := by
  rw [Example.two_eq]
  exact RoundToDouble_natCast 2 (by norm_num)

theorem Example.range_two :
    (Example.data.LearnSampleCount : ℚ) * Example.two ≤ 2147483647 := by
  rw [Example.two_eq]
  show ((10 : Nat) : ℚ) * ((2 : Nat) : ℚ) ≤ 2147483647
  norm_num

/-- The example multiplier near 1.3 is a double. -/
theorem RoundToDouble_thirteenTenths :
    RoundToDouble Example.thirteenTenths = Example.thirteenTenths := by
  unfold Example.thirteenTenths
  rw [RoundToDouble_eval _ 0 5854679515581645 (by norm_num) (by norm_num [abs_of_pos])
    (by norm_num [abs_of_pos]) (by norm_num) (by norm_num)]
  norm_num

/-- Ten times the example multiplier near 1.3 is rounded to the double 13. -/
theorem RoundToDouble_ten_thirteenTenths :
    RoundToDouble (((10 : Nat) : ℚ) * Example.thirteenTenths) = 13 := by
  unfold Example.thirteenTenths
  rw [RoundToDouble_eval _ 3 7318349394477056 (by norm_num) (by norm_num [abs_of_pos])
    (by norm_num [abs_of_pos]) (by norm_num) (by norm_num)]
  norm_num

/-- The double `2 ^ 31` is a double. -/
theorem RoundToDouble_huge : RoundToDouble Example.huge = Example.huge := by
  have h : Example.huge = ((2147483648 : Nat) : ℚ) := by
    unfold Example.huge
    norm_num
  rw [h]
  exact RoundToDouble_natCast _ (by norm_num)

theorem SelectTailSize_ten_thirteenTenths :
    SelectTailSize 10 Example.thirteenTenths [] 510 = some 13 := by
  unfold SelectTailSize
  simp only
  rw [RoundToDouble_ten_thirteenTenths]
  have hc : Int.ceil (13 : ℚ) = 13 := by simp
  rw [hc]
  decide

theorem SelectTailSize_one_huge (queryEndInfo : List TQueryEndInfo) (N : Nat) :
    SelectTailSize 1 Example.huge queryEndInfo N = none := by
  unfold SelectTailSize
  simp only
  have hx : ((1 : Nat) : ℚ) * Example.huge = ((2147483648 : Nat) : ℚ) := by
    unfold Example.huge
    norm_num
  rw [hx, RoundToDouble_natCast _ (by norm_num)]
  have hc : Int.ceil (((2147483648 : Nat) : ℚ)) = 2147483648 := by simp
  rw [hc]
  rfl

theorem resize_nil {α : Type} (n : Nat) (x : α) : resize [] n x = List.replicate n x := by
  simp [resize]

/-- C18. `BuildPlainFold` on data without baseline yields exactly one body-tail, with
`BodyFinish = TailFinish = N` for the `N` learn documents; its `Approx` has `approxDimension`
rows that hold the neutral value throughout, and its `Derivatives` and `WeightedDer` have
`approxDimension` zero-filled rows.  The rows have one element per document of the data,
`GetSampleCount()` of them, learn and test documents together: their length is `N` when
the data holds no test documents. -/
theorem BuildPlainFold_single_bodyTail (exp : ℚ → ℚ) (data : TTrainData) (shuffle : Bool)
    (permuteBlockSize approxDimension : Nat) (storeExpApproxes : Bool)
    (rand : TRestorableFastRng64) (hBaseline : data.Baseline = []) :
    ∃ bt : TFold.TBodyTail,
      (BuildPlainFold exp data shuffle permuteBlockSize approxDimension storeExpApproxes
        rand).1.BodyTailArr = [bt] ∧
      bt.BodyFinish = data.LearnSampleCount ∧
      bt.TailFinish = data.LearnSampleCount ∧
      bt.Approx = List.replicate approxDimension
        (List.replicate data.GetSampleCount (GetNeutralApprox storeExpApproxes)) ∧
      bt.Derivatives = List.replicate approxDimension (List.replicate data.GetSampleCount 0) ∧
      bt.WeightedDer = List.replicate approxDimension (List.replicate data.GetSampleCount 0) ∧
      (data.GetSampleCount = data.LearnSampleCount →
        bt.Approx = List.replicate approxDimension
          (List.replicate data.LearnSampleCount (GetNeutralApprox storeExpApproxes)) ∧
        bt.Derivatives
          = List.replicate approxDimension (List.replicate data.LearnSampleCount 0) ∧
        bt.WeightedDer
          = List.replicate approxDimension (List.replicate data.LearnSampleCount 0)) := by
  have hbt0 := BuildFoldPermutation_bodyTails data shuffle permuteBlockSize rand
  have hA : ∀ n : Nat, resize (default : TFold.TBodyTail).Approx approxDimension
      (List.replicate n (GetNeutralApprox storeExpApproxes))
      = List.replicate approxDimension (List.replicate n (GetNeutralApprox storeExpApproxes)) :=
    fun n => resize_nil _ _
  have hD : ∀ n : Nat, resize (default : TFold.TBodyTail).Derivatives approxDimension
      (List.replicate n (0 : ℚ)) = List.replicate approxDimension (List.replicate n 0) :=
    fun n => resize_nil _ _
  have hW : ∀ n : Nat, resize (default : TFold.TBodyTail).WeightedDer approxDimension
      (List.replicate n (0 : ℚ)) = List.replicate approxDimension (List.replicate n 0) :=
    fun n => resize_nil _ _
  refine ⟨(BuildFoldPermutation data shuffle permuteBlockSize rand).1.AssignCompetitors
    data.Pairs
    (InvertPermutation (BuildFoldPermutation data shuffle permuteBlockSize rand).1.LearnPermutation)
    { BodyFinish := data.LearnSampleCount,
      TailFinish := data.LearnSampleCount,
      Approx := resize (default : TFold.TBodyTail).Approx approxDimension
        (List.replicate data.GetSampleCount (GetNeutralApprox storeExpApproxes)),
      Derivatives := resize (default : TFold.TBodyTail).Derivatives approxDimension
        (List.replicate data.GetSampleCount 0),
      WeightedDer := resize (default : TFold.TBodyTail).WeightedDer approxDimension
        (List.replicate data.GetSampleCount 0),
      Competitors := (default : TFold.TBodyTail).Competitors }, ?_, ?_⟩
  · unfold BuildPlainFold
    simp only
    rw [hbt0, List.nil_append, hBaseline]
    rfl
  · refine ⟨rfl, rfl, hA _, hD _, hW _, ?_⟩
    intro hS
    rw [← hS]
    exact ⟨hA _, hD _, hW _⟩

/-- C18, a counterexample to rows of length `N`: for the example data, ten learn documents
followed by two test documents, without weights, query ids and baseline, the single
body-tail of the plain fold has `BodyFinish = TailFinish = 10`, and its rows of `Approx`,
`Derivatives` and `WeightedDer` have twelve elements. -/
theorem BuildPlainFold_rows_counterexample :
    Example.data.LearnSampleCount = 10 ∧
    Example.data.Weights = [] ∧ Example.data.QueryId = [] ∧ Example.data.Baseline = [] ∧
    ((BuildPlainFold id Example.data false 1 1 false Example.rand).1.BodyTailArr.map
      fun bt => (bt.BodyFinish, bt.TailFinish)) = [(10, 10)] ∧
    ((BuildPlainFold id Example.data false 1 1 false Example.rand).1.BodyTailArr.map
      fun bt => bt.Approx.map List.length) = [[12]] ∧
    ((BuildPlainFold id Example.data false 1 1 false Example.rand).1.BodyTailArr.map
      fun bt => bt.Derivatives.map List.length) = [[12]] ∧
    ((BuildPlainFold id Example.data false 1 1 false Example.rand).1.BodyTailArr.map
      fun bt => bt.WeightedDer.map List.length) = [[12]] := by
  decide

/-! ## The statements on the example data -/

/-- The plain fold of the example data. -/
theorem BuildPlainFold_single_bodyTail_witness :
    Example.data.Baseline = [] ∧
    ∃ bt : TFold.TBodyTail,
      (BuildPlainFold id Example.data true 3 1 false Example.rand).1.BodyTailArr = [bt] ∧
      bt.BodyFinish = Example.data.LearnSampleCount :=
  ⟨rfl,
    (BuildPlainFold_single_bodyTail id Example.data true 3 1 false Example.rand rfl).imp
      fun _ h => ⟨h.1, h.2.1⟩⟩

/-- The permutation of the example data shuffled in blocks of three. -/
theorem LearnPermutation_bijection_witness :
    1 ≤ 3 ∧
    (BuildPlainFold id Example.data true 3 1 false Example.rand).1.LearnPermutation.Perm
      (List.range Example.data.LearnSampleCount) :=
  ⟨by decide,
    (LearnPermutation_bijection id 10 Example.data true 3 1 Example.two false Example.rand
      (by decide)).1.1⟩

/-- The ordered fold of the example data with the multiplier two. -/
theorem BuildDynamicFold_chained_witness :
    1 ≤ Example.data.LearnSampleCount ∧ Example.data.QueryId = [] ∧ 1 < Example.two ∧
    RoundToDouble Example.two = Example.two ∧
    (Example.data.LearnSampleCount : ℚ) * Example.two ≤ 2147483647 ∧
    Example.data.LearnSampleCount ≤ 10 ∧
    ∃ (ff : TFold) (rand2 : TRestorableFastRng64),
      BuildDynamicFold id 10 Example.data true 3 1 Example.two false Example.rand
        = some (ff, rand2) ∧
      ff.BodyTailArr ≠ [] :=
  ⟨by decide, rfl, by decide, RoundToDouble_two, Example.range_two, by decide,
    ((BuildDynamicFold_chained id 10 Example.data true 3 1 Example.two false Example.rand
      (by decide) (Or.inl rfl)).2 (by decide) RoundToDouble_two Example.range_two
      (by decide)).imp
      fun _ h => h.imp fun _ h2 => ⟨h2.1, h2.2.1⟩⟩

/-- The windows of the ordered fold of the example data with the multiplier two. -/
theorem BuildDynamicFold_windows_witness :
    1 ≤ Example.data.LearnSampleCount ∧ 1 < Example.two ∧
    RoundToDouble Example.two = Example.two ∧ Example.data.QueryId = [] ∧
    (Example.data.LearnSampleCount : ℚ) * Example.two ≤ 2147483647 ∧
    Example.data.LearnSampleCount ≤ 10 ∧
    ∃ (ff : TFold) (rand2 : TRestorableFastRng64),
      BuildDynamicFold id 10 Example.data false 1 1 Example.two false Example.rand
        = some (ff, rand2) ∧
      (ff.BodyTailArr.map TFold.TBodyTail.TailFinish).Pairwise (· < ·) :=
  ⟨by decide, by decide, RoundToDouble_two, rfl, Example.range_two, by decide,
    ((BuildDynamicFold_windows id 10 Example.data false 1 1 Example.two false Example.rand
      (by decide) (by decide) RoundToDouble_two rfl).2 Example.range_two (by decide)).imp
      fun ff h => h.imp fun rand2 h2 =>
        ⟨h2.1, ((BuildDynamicFold_windows id 10 Example.data false 1 1 Example.two false
          Example.rand (by decide) (by decide) RoundToDouble_two rfl).1 ff rand2
          h2.1).2.2⟩⟩

/-- The competitors of the example pairs in a new body-tail over six positions. -/
theorem AssignCompetitors_window_witness :
    (∀ l ∈ Example.bodyTail.Competitors, ∀ c ∈ l, c.Id < Example.bodyTail.TailFinish) ∧
    (Example.fold.AssignCompetitors Example.data.Pairs
      (InvertPermutation Example.fold.LearnPermutation) Example.bodyTail).Competitors.length
      = Example.bodyTail.TailFinish :=
  ⟨by decide,
    (AssignCompetitors_window Example.fold Example.data.Pairs
      (InvertPermutation Example.fold.LearnPermutation) Example.bodyTail (by decide)).1⟩

/-! ## A pair inside one window -/

theorem AssignCompetitors_snoc (self : TFold) (before : List TPair) (pair : TPair)
    (invertPermutation : List Nat) (bt : TFold.TBodyTail) :
    (self.AssignCompetitors (before ++ [pair]) invertPermutation bt).Competitors
      = TFold.AssignCompetitorsPair self.LearnPermutation.length bt.BodyFinish bt.TailFinish
          invertPermutation (self.AssignCompetitors before invertPermutation bt).Competitors
          pair ∧
    (self.AssignCompetitors before invertPermutation bt).Competitors.length
      = bt.TailFinish := by
  refine ⟨?_, ?_⟩
  · unfold TFold.AssignCompetitors
    simp only [List.foldl_append, List.foldl_cons, List.foldl_nil]
  · exact (AssignCompetitors_foldl self.LearnPermutation.length bt.BodyFinish bt.TailFinish
      invertPermutation before _ 0 (length_resize bt.Competitors bt.TailFinish [])).1

/-- C21. A kept pair whose winner has the greater permuted position (`w > l`, as with the
winner at position 5 and the loser at position 2) adds the entry `(l, +x)` to the list of
the winner.  It adds the entry `(w, -x)` to the list of the loser only if the loser lies in
the body, `l < BodyFinish`; when the loser lies in the tail part, the list of the loser
gains nothing. -/
theorem AssignCompetitors_winner_above (self : TFold) (before : List TPair) (pair : TPair)
    (invertPermutation : List Nat) (bt : TFold.TBodyTail)
    (hw : pair.WinnerId < self.LearnPermutation.length)
    (hl : pair.LoserId < self.LearnPermutation.length)
    (hpos : invertPermutation.getD pair.LoserId 0 < invertPermutation.getD pair.WinnerId 0)
    (hT : invertPermutation.getD pair.WinnerId 0 < bt.TailFinish) :
    (self.AssignCompetitors (before ++ [pair]) invertPermutation bt).Competitors.getD
        (invertPermutation.getD pair.WinnerId 0) []
      = (self.AssignCompetitors before invertPermutation bt).Competitors.getD
          (invertPermutation.getD pair.WinnerId 0) []
        ++ [{ Id := invertPermutation.getD pair.LoserId 0, Weight := pair.Weight }] ∧
    (self.AssignCompetitors (before ++ [pair]) invertPermutation bt).Competitors.getD
        (invertPermutation.getD pair.LoserId 0) []
      = (self.AssignCompetitors before invertPermutation bt).Competitors.getD
          (invertPermutation.getD pair.LoserId 0) []
        ++ (if invertPermutation.getD pair.LoserId 0 < bt.BodyFinish then
              [{ Id := invertPermutation.getD pair.WinnerId 0, Weight := -pair.Weight }]
            else []) := by
  obtain ⟨hs, hlen⟩ := AssignCompetitors_snoc self before pair invertPermutation bt
  have h1 : ¬ (pair.WinnerId ≥ self.LearnPermutation.length ∨
      pair.LoserId ≥ self.LearnPermutation.length) := by omega
  have h2 : ¬ (invertPermutation.getD pair.WinnerId 0 ≥ bt.TailFinish ∨
      invertPermutation.getD pair.LoserId 0 ≥ bt.TailFinish) := by omega
  rw [hs]
  refine ⟨?_, ?_⟩
  · rw [AssignCompetitorsPair_kept _ _ _ _ _ _ _ hlen h1 h2]
    congr 1
    rw [if_pos ⟨rfl, Or.inr hpos⟩, if_neg (by omega), List.append_nil]
  · rw [AssignCompetitorsPair_kept _ _ _ _ _ _ _ hlen h1 h2]
    congr 1
    rw [if_neg (by omega), List.nil_append]
    by_cases hb : invertPermutation.getD pair.LoserId 0 < bt.BodyFinish
    · rw [if_pos hb, if_pos ⟨rfl, Or.inl hb⟩]
    · rw [if_neg hb, if_neg (by omega)]

theorem AssignCompetitors_winner_above_witness :
    4 < Example.fold.LearnPermutation.length ∧ 7 < Example.fold.LearnPermutation.length ∧
    (InvertPermutation Example.fold.LearnPermutation).getD 7 0
      < (InvertPermutation Example.fold.LearnPermutation).getD 4 0 ∧
    (InvertPermutation Example.fold.LearnPermutation).getD 4 0
      < Example.bodyTail.TailFinish ∧
    (Example.fold.AssignCompetitors ([] ++ [{ WinnerId := 4, LoserId := 7, Weight := 1 }])
        (InvertPermutation Example.fold.LearnPermutation) Example.bodyTail).Competitors.getD
        ((InvertPermutation Example.fold.LearnPermutation).getD 7 0) []
      = (Example.fold.AssignCompetitors []
          (InvertPermutation Example.fold.LearnPermutation) Example.bodyTail).Competitors.getD
          ((InvertPermutation Example.fold.LearnPermutation).getD 7 0) []
        ++ (if (InvertPermutation Example.fold.LearnPermutation).getD 7 0
              < Example.bodyTail.BodyFinish then
              [{ Id := (InvertPermutation Example.fold.LearnPermutation).getD 4 0,
                 Weight := -1 }]
            else []) :=
  ⟨by decide, by decide, by decide, by decide,
    (AssignCompetitors_winner_above Example.fold []
      { WinnerId := 4, LoserId := 7, Weight := 1 }
      (InvertPermutation Example.fold.LearnPermutation) Example.bodyTail
      (by decide) (by decide) (by decide) (by decide)).2⟩

/-- The winner of the pair `(4, 7)` stands at position 5 of the reversed permutation and the
loser at position 2; in a body-tail with `BodyFinish = 2` and `TailFinish = 6` both lie in
the tail part, the list of the winner gains the entry for the loser and the list of the
loser stays empty. -/
theorem AssignCompetitors_both_in_tail :
    (InvertPermutation Example.fold.LearnPermutation).getD 4 0 = 5 ∧
    (InvertPermutation Example.fold.LearnPermutation).getD 7 0 = 2 ∧
    (Example.fold.AssignCompetitors [{ WinnerId := 4, LoserId := 7, Weight := 1 }]
        (InvertPermutation Example.fold.LearnPermutation)
        { Example.bodyTail with BodyFinish := 2 }).Competitors
      = [[], [], [], [], [], [{ Id := 2, Weight := 1 }]] := by
  decide

/-! ## Saving and loading the approximations -/

theorem SaveApproxes_eq (self : TFold) (s : IOutputStream) :
    self.SaveApproxes s
      = s ++ TStreamItem.Count self.BodyTailArr.length
          :: self.BodyTailArr.map fun bt => TStreamItem.Approx bt.Approx := by
  have h : ∀ (l : List TFold.TBodyTail) (t : List TStreamItem),
      l.foldl (fun s bt => s ++ [TStreamItem.Approx bt.Approx]) t
        = t ++ l.map fun bt => TStreamItem.Approx bt.Approx := by
    intro l
    induction l with
    | nil => intro t; simp
    | cons a l ih =>
      intro t
      rw [List.foldl_cons, ih, List.map_cons, List.append_assoc]
      rfl
  unfold TFold.SaveApproxes
  simp only
  rw [foldl_range_getD (fun s (bt : TFold.TBodyTail) => Save s (TStreamItem.Approx bt.Approx))
    self.BodyTailArr default]
  unfold Save
  rw [h, List.append_assoc]
  rfl

theorem foldl_set_update_length {α : Type} (d : α) (h : Nat → α → α) (js : List Nat) :
    ∀ arr : List α,
      (js.foldl (fun arr i => arr.set i (h i (arr.getD i d))) arr).length = arr.length := by
  induction js with
  | nil => intro arr; rfl
  | cons j t ih =>
    intro arr
    rw [List.foldl_cons, ih, List.length_set]

theorem LoadApproxes_loop (arrays : List (List (List ℚ))) (rest : IInputStream)
    (self : TFold) :
    ∀ k, k ≤ arrays.length →
      (List.range k).foldl TFold.LoadApproxesStep
          { fold := self, stream := arrays.map TStreamItem.Approx ++ rest, raised := none }
        = { fold := { self with
              BodyTailArr := (List.range k).foldl
                (fun arr i => arr.set i
                  ((fun i (bt : TFold.TBodyTail) => { bt with Approx := arrays.getD i [] }) i
                    (arr.getD i default)))
                self.BodyTailArr },
            stream := (arrays.drop k).map TStreamItem.Approx ++ rest,
            raised := none } := by
  intro k
  induction k with
  | zero => intro _; rfl
  | succ k ih =>
    intro hk
    rw [List.range_succ, List.foldl_append, List.foldl_append, ih (by omega)]
    simp only [List.foldl_cons, List.foldl_nil]
    have hdrop : arrays.drop k = arrays.getD k [] :: arrays.drop (k + 1) := by
      rw [List.getD_eq_getElem arrays [] (by omega)]
      exact List.drop_eq_getElem_cons (by omega)
    unfold TFold.LoadApproxesStep
    simp only [Option.isSome_none, Bool.false_eq_true, if_false]
    rw [hdrop]
    rfl

theorem LoadApproxes_ok (self : TFold) (arrays : List (List (List ℚ))) (rest : IInputStream)
    (h : arrays.length = self.BodyTailArr.length) :
    (self.LoadApproxes
        (TStreamItem.Count arrays.length :: (arrays.map TStreamItem.Approx ++ rest))).raised
      = none ∧
    (self.LoadApproxes
        (TStreamItem.Count arrays.length :: (arrays.map TStreamItem.Approx ++ rest))).stream
      = rest ∧
    (self.LoadApproxes
        (TStreamItem.Count arrays.length :: (arrays.map TStreamItem.Approx ++ rest))).fold
      = { self with
          BodyTailArr := (self.LoadApproxes (TStreamItem.Count arrays.length ::
            (arrays.map TStreamItem.Approx ++ rest))).fold.BodyTailArr } ∧
    (self.LoadApproxes (TStreamItem.Count arrays.length ::
        (arrays.map TStreamItem.Approx ++ rest))).fold.BodyTailArr.length
      = self.BodyTailArr.length ∧
    ∀ i, i < self.BodyTailArr.length →
      (self.LoadApproxes (TStreamItem.Count arrays.length ::
          (arrays.map TStreamItem.Approx ++ rest))).fold.BodyTailArr.getD i default
        = { self.BodyTailArr.getD i default with Approx := arrays.getD i [] } := by
  have hrun : self.LoadApproxes
      (TStreamItem.Count arrays.length :: (arrays.map TStreamItem.Approx ++ rest))
      = (List.range arrays.length).foldl TFold.LoadApproxesStep
          { fold := self, stream := arrays.map TStreamItem.Approx ++ rest, raised := none } := by
    unfold TFold.LoadApproxes LoadCount
    simp only
    rw [if_pos h]
  rw [hrun, LoadApproxes_loop arrays rest self arrays.length (le_refl _)]
  refine ⟨rfl, ?_, rfl, ?_, ?_⟩
  · simp
  · exact foldl_set_update_length default
      (fun i (bt : TFold.TBodyTail) => { bt with Approx := arrays.getD i [] })
      (List.range arrays.length) self.BodyTailArr
  · intro i hi
    have h2 := foldl_set_update default
      (fun i (bt : TFold.TBodyTail) => { bt with Approx := arrays.getD i [] })
      arrays.length self.BodyTailArr i
    rw [if_pos (by omega), List.getElem?_eq_getElem hi] at h2
    rw [List.getD_eq_getElem?_getD]
    refine (congrArg (fun o => Option.getD o default) h2).trans ?_
    rw [List.getD_eq_getElem _ _ hi]
    rfl

theorem map_eq_of_getD {α β : Type} (f : α → β) (l : List α) (m : List β) (d : α) (e : β)
    (hlen : l.length = m.length) (h : ∀ i, i < l.length → f (l.getD i d) = m.getD i e) :
    l.map f = m := by
  apply List.ext_getElem?
  intro i
  rw [List.getElem?_map]
  by_cases hi : i < l.length
  · have h2 := h i hi
    rw [List.getD_eq_getElem l d hi, List.getD_eq_getElem m e (by omega)] at h2
    rw [List.getElem?_eq_getElem hi, List.getElem?_eq_getElem (by omega), Option.map_some',
      h2]
  · rw [List.getElem?_eq_none (by omega), List.getElem?_eq_none (by omega)]
    rfl

theorem LoadApproxesStep_raised (js : List Nat) :
    ∀ st : TLoadState, st.raised.isSome = true →
      js.foldl TFold.LoadApproxesStep st = st := by
  induction js with
  | nil => intro st _; rfl
  | cons j t ih =>
    intro st h
    have hstep : TFold.LoadApproxesStep st j = st := by
      unfold TFold.LoadApproxesStep
      rw [if_pos h]
    rw [List.foldl_cons, hstep]
    exact ih st h

theorem LoadApproxes_decompose (n : Nat) :
    ∀ t : IInputStream, ∃ (arrays : List (List (List ℚ))) (rest : IInputStream),
      t = arrays.map TStreamItem.Approx ++ rest ∧ arrays.length ≤ n ∧
      (arrays.length < n → LoadApprox rest = none) := by
  induction n with
  | zero => intro t; exact ⟨[], t, rfl, le_refl _, fun h => absurd h (by simp)⟩
  | succ n ih =>
    intro t
    cases t with
    | nil => exact ⟨[], [], rfl, Nat.zero_le _, fun _ => rfl⟩
    | cons x t =>
      cases x with
      | Count c => exact ⟨[], TStreamItem.Count c :: t, rfl, Nat.zero_le _, fun _ => rfl⟩
      | Approx a =>
        obtain ⟨arrays, rest, h1, h2, h3⟩ := ih t
        refine ⟨a :: arrays, rest, ?_, ?_, ?_⟩
        · rw [h1]; rfl
        · simp only [List.length_cons]; omega
        · intro h
          simp only [List.length_cons] at h
          exact h3 (by omega)

theorem LoadApproxes_run (self : TFold) (arrays : List (List (List ℚ)))
    (rest : IInputStream) (hle : arrays.length ≤ self.BodyTailArr.length)
    (hend : arrays.length < self.BodyTailArr.length → LoadApprox rest = none) :
    self.LoadApproxes
        (TStreamItem.Count self.BodyTailArr.length :: (arrays.map TStreamItem.Approx ++ rest))
      = { fold := { self with
            BodyTailArr := (List.range arrays.length).foldl
              (fun arr i => arr.set i
                ((fun i (bt : TFold.TBodyTail) => { bt with Approx := arrays.getD i [] }) i
                  (arr.getD i default)))
              self.BodyTailArr },
          stream := rest,
          raised := if arrays.length = self.BodyTailArr.length then none
            else some TLoadError.TLoadEOF } := by
  have hrun : self.LoadApproxes
      (TStreamItem.Count self.BodyTailArr.length :: (arrays.map TStreamItem.Approx ++ rest))
      = (List.range self.BodyTailArr.length).foldl TFold.LoadApproxesStep
          { fold := self, stream := arrays.map TStreamItem.Approx ++ rest, raised := none } := by
    unfold TFold.LoadApproxes LoadCount
    simp only [if_true]
  rw [hrun]
  obtain ⟨m, hm⟩ : ∃ m, self.BodyTailArr.length = arrays.length + m :=
    ⟨self.BodyTailArr.length - arrays.length, by omega⟩
  rw [hm, List.range_add, List.foldl_append,
    LoadApproxes_loop arrays rest self arrays.length (le_refl _), List.drop_length,
    List.map_nil, List.nil_append]
  cases m with
  | zero =>
    simp
  | succ m =>
    rw [List.range_succ_eq_map, List.map_cons, List.foldl_cons]
    have hnone : LoadApprox rest = none := hend (by omega)
    have hstep : TFold.LoadApproxesStep
        { fold := { self with
            BodyTailArr := (List.range arrays.length).foldl
              (fun arr i => arr.set i
                ((fun i (bt : TFold.TBodyTail) => { bt with Approx := arrays.getD i [] }) i
                  (arr.getD i default)))
              self.BodyTailArr },
          stream := rest, raised := none } (arrays.length + 0) =
        { fold := { self with
            BodyTailArr := (List.range arrays.length).foldl
              (fun arr i => arr.set i
                ((fun i (bt : TFold.TBodyTail) => { bt with Approx := arrays.getD i [] }) i
                  (arr.getD i default)))
              self.BodyTailArr },
          stream := rest, raised := some TLoadError.TLoadEOF } := by
      unfold TFold.LoadApproxesStep
      simp only [Option.isSome_none, Bool.false_eq_true, if_false]
      rw [hnone]
    rw [hstep, LoadApproxesStep_raised _ _ (by rfl), if_neg (by omega)]

theorem LoadApproxes_run_getD (self : TFold) (arrays : List (List (List ℚ)))
    (i : Nat) (hi : i < self.BodyTailArr.length) :
    ((List.range arrays.length).foldl
        (fun arr i => arr.set i
          ((fun i (bt : TFold.TBodyTail) => { bt with Approx := arrays.getD i [] }) i
            (arr.getD i default)))
        self.BodyTailArr).getD i default
      = if i < arrays.length then
          { self.BodyTailArr.getD i default with Approx := arrays.getD i [] }
        else self.BodyTailArr.getD i default := by
  have h2 := foldl_set_update default
    (fun i (bt : TFold.TBodyTail) => { bt with Approx := arrays.getD i [] })
    arrays.length self.BodyTailArr i
  rw [List.getElem?_eq_getElem hi] at h2
  rw [List.getD_eq_getElem?_getD]
  refine (congrArg (fun o => Option.getD o default) h2).trans ?_
  rw [List.getD_eq_getElem _ _ hi]
  split <;> rfl

/-- C22. For every stream `s`, `LoadApproxes` ends in one of four ways.  When `s` does not
start with a count, the `::Load` of the count raises and the fold is as it was.  When the
count differs from `BodyTailArr.size()`, `CB_ENSURE` raises a `TCatboostException` and the
fold is as it was; this is the only way a `TCatboostException` is raised.  When the count
equals `BodyTailArr.size()`, the stream behind it is some `arrays` followed by `rest`, with
either as many arrays as body-tails, or fewer and no array at the front of `rest`; the
body-tails below `arrays.length` have their `Approx` replaced by the array of the same index,
all else in the fold is as it was, and the call raises exactly when the arrays are fewer than
the body-tails, from the `::Load` of the missing array, after the replacements.  So the call
succeeds if and only if `s` is the count `BodyTailArr.size()` followed by that many arrays,
and loading what `SaveApproxes` wrote for a fold with as many body-tails succeeds and gives
the `Approx` arrays of that fold in order. -/
theorem LoadApproxes_any_stream (self : TFold) (s : IInputStream) :
    (LoadCount s = none →
      self.LoadApproxes s
        = { fold := self, stream := s, raised := some TLoadError.TLoadEOF }) ∧
    (∀ n t, s = TStreamItem.Count n :: t → n ≠ self.BodyTailArr.length →
      self.LoadApproxes s
        = { fold := self, stream := t, raised := some TLoadError.TCatboostException }) ∧
    (∀ t, s = TStreamItem.Count self.BodyTailArr.length :: t →
      ∃ (arrays : List (List (List ℚ))) (rest : IInputStream),
        t = arrays.map TStreamItem.Approx ++ rest ∧
        arrays.length ≤ self.BodyTailArr.length ∧
        (arrays.length < self.BodyTailArr.length → LoadApprox rest = none)) ∧
    (∀ (arrays : List (List (List ℚ))) (rest : IInputStream),
      s = TStreamItem.Count self.BodyTailArr.length
          :: (arrays.map TStreamItem.Approx ++ rest) →
      arrays.length ≤ self.BodyTailArr.length →
      (arrays.length < self.BodyTailArr.length → LoadApprox rest = none) →
      (self.LoadApproxes s).raised
        = (if arrays.length = self.BodyTailArr.length then none
          else some TLoadError.TLoadEOF) ∧
      (self.LoadApproxes s).stream = rest ∧
      (self.LoadApproxes s).fold
        = { self with BodyTailArr := (self.LoadApproxes s).fold.BodyTailArr } ∧
      (self.LoadApproxes s).fold.BodyTailArr.length = self.BodyTailArr.length ∧
      ∀ i, i < self.BodyTailArr.length →
        (self.LoadApproxes s).fold.BodyTailArr.getD i default
          = if i < arrays.length then
              { self.BodyTailArr.getD i default with Approx := arrays.getD i [] }
            else self.BodyTailArr.getD i default) ∧
    ((self.LoadApproxes s).raised = none ↔
      ∃ (arrays : List (List (List ℚ))) (rest : IInputStream),
        arrays.length = self.BodyTailArr.length ∧
        s = TStreamItem.Count self.BodyTailArr.length
          :: (arrays.map TStreamItem.Approx ++ rest)) ∧
    ((self.LoadApproxes s).raised = some TLoadError.TCatboostException ↔
      ∃ n t, s = TStreamItem.Count n :: t ∧ n ≠ self.BodyTailArr.length) ∧
    ((self.LoadApproxes s).raised = some TLoadError.TCatboostException →
      (self.LoadApproxes s).fold = self) ∧
    (∀ (saved : TFold) (rest : IInputStream), s = saved.SaveApproxes [] ++ rest →
      saved.BodyTailArr.length = self.BodyTailArr.length →
      (self.LoadApproxes s).raised = none ∧
      (self.LoadApproxes s).stream = rest ∧
      (self.LoadApproxes s).fold
        = { self with BodyTailArr := (self.LoadApproxes s).fold.BodyTailArr } ∧
      (self.LoadApproxes s).fold.BodyTailArr.map (fun bt => bt.Approx)
        = saved.BodyTailArr.map fun bt => bt.Approx) := by
  have hmis : ∀ n t, s = TStreamItem.Count n :: t → n ≠ self.BodyTailArr.length →
      self.LoadApproxes s
        = { fold := self, stream := t, raised := some TLoadError.TCatboostException } := by
    intro n t hs hn
    rw [hs]
    unfold TFold.LoadApproxes LoadCount
    simp only
    rw [if_neg hn]
  have hnoc : LoadCount s = none →
      self.LoadApproxes s
        = { fold := self, stream := s, raised := some TLoadError.TLoadEOF } := by
    intro h
    unfold TFold.LoadApproxes
    rw [h]
  have hdec : ∀ t, s = TStreamItem.Count self.BodyTailArr.length :: t →
      ∃ (arrays : List (List (List ℚ))) (rest : IInputStream),
        t = arrays.map TStreamItem.Approx ++ rest ∧
        arrays.length ≤ self.BodyTailArr.length ∧
        (arrays.length < self.BodyTailArr.length → LoadApprox rest = none) :=
    fun t _ => LoadApproxes_decompose self.BodyTailArr.length t
  have heq : ∀ (arrays : List (List (List ℚ))) (rest : IInputStream),
      s = TStreamItem.Count self.BodyTailArr.length
          :: (arrays.map TStreamItem.Approx ++ rest) →
      arrays.length ≤ self.BodyTailArr.length →
      (arrays.length < self.BodyTailArr.length → LoadApprox rest = none) →
      (self.LoadApproxes s).raised
        = (if arrays.length = self.BodyTailArr.length then none
          else some TLoadError.TLoadEOF) ∧
      (self.LoadApproxes s).stream = rest ∧
      (self.LoadApproxes s).fold
        = { self with BodyTailArr := (self.LoadApproxes s).fold.BodyTailArr } ∧
      (self.LoadApproxes s).fold.BodyTailArr.length = self.BodyTailArr.length ∧
      ∀ i, i < self.BodyTailArr.length →
        (self.LoadApproxes s).fold.BodyTailArr.getD i default
          = if i < arrays.length then
              { self.BodyTailArr.getD i default with Approx := arrays.getD i [] }
            else self.BodyTailArr.getD i default := by
    intro arrays rest hs hle hend
    rw [hs, LoadApproxes_run self arrays rest hle hend]
    refine ⟨rfl, rfl, rfl, ?_, ?_⟩
    · exact foldl_set_update_length default
        (fun i (bt : TFold.TBodyTail) => { bt with Approx := arrays.getD i [] })
        (List.range arrays.length) self.BodyTailArr
    · intro i hi
      exact LoadApproxes_run_getD self arrays i hi
  have hsucc : (self.LoadApproxes s).raised = none ↔
      ∃ (arrays : List (List (List ℚ))) (rest : IInputStream),
        arrays.length = self.BodyTailArr.length ∧
        s = TStreamItem.Count self.BodyTailArr.length
          :: (arrays.map TStreamItem.Approx ++ rest) := by
    constructor
    · intro h
      cases hc : LoadCount s with
      | none =>
        rw [hnoc hc] at h
        cases h
      | some p =>
        obtain ⟨n, t⟩ := p
        have hs : s = TStreamItem.Count n :: t := by
          unfold LoadCount at hc
          split at hc
          · cases hc; rfl
          · cases hc
        by_cases hn : n = self.BodyTailArr.length
        · subst hn
          obtain ⟨arrays, rest, ht, hle, hend⟩ := hdec t hs
          subst ht
          have h1 := (heq arrays rest hs hle hend).1
          rw [h] at h1
          by_cases hl : arrays.length = self.BodyTailArr.length
          · exact ⟨arrays, rest, hl, hs⟩
          · rw [if_neg hl] at h1
            cases h1
        · rw [hmis n t hs hn] at h
          cases h
    · rintro ⟨arrays, rest, hl, hs⟩
      have h1 := (heq arrays rest hs (le_of_eq hl) (fun h => absurd h (by omega))).1
      rw [if_pos hl] at h1
      exact h1
  have hexc : (self.LoadApproxes s).raised = some TLoadError.TCatboostException ↔
      ∃ n t, s = TStreamItem.Count n :: t ∧ n ≠ self.BodyTailArr.length := by
    constructor
    · intro h
      cases hc : LoadCount s with
      | none =>
        rw [hnoc hc] at h
        cases h
      | some p =>
        obtain ⟨n, t⟩ := p
        have hs : s = TStreamItem.Count n :: t := by
          unfold LoadCount at hc
          split at hc
          · cases hc; rfl
          · cases hc
        by_cases hn : n = self.BodyTailArr.length
        · subst hn
          obtain ⟨arrays, rest, ht, hle, hend⟩ := hdec t hs
          subst ht
          have h1 := (heq arrays rest hs hle hend).1
          rw [h] at h1
          split at h1 <;> cases h1
        · exact ⟨n, t, hs, hn⟩
    · rintro ⟨n, t, hs, hn⟩
      rw [hmis n t hs hn]
  refine ⟨hnoc, hmis, hdec, heq, hsucc, hexc, ?_, ?_⟩
  · intro h
    obtain ⟨n, t, hs, hn⟩ := hexc.1 h
    rw [hmis n t hs hn]
  · intro saved rest hs hlen
    have hsave : s = TStreamItem.Count self.BodyTailArr.length ::
        ((saved.BodyTailArr.map fun bt => bt.Approx).map TStreamItem.Approx ++ rest) := by
      rw [hs, SaveApproxes_eq, List.nil_append, List.map_map, hlen]
      rfl
    have hl : (saved.BodyTailArr.map fun bt => bt.Approx).length
        = self.BodyTailArr.length := by
      rw [List.length_map]; exact hlen
    obtain ⟨h1, h2, h3, h4, h5⟩ := heq _ rest hsave (le_of_eq hl)
      (fun h => absurd h (by omega))
    rw [if_pos hl] at h1
    refine ⟨h1, h2, h3, ?_⟩
    apply map_eq_of_getD (fun bt : TFold.TBodyTail => bt.Approx) _ _ default []
    · rw [h4, List.length_map, hlen]
    · intro i hi
      rw [h4] at hi
      rw [h5 i hi, if_pos (by omega)]

/-- Loading what `SaveApproxes` wrote for `Example.trained` into the example fold. -/
theorem LoadApproxes_any_stream_witness :
    Example.trained.BodyTailArr.length = Example.fold.BodyTailArr.length ∧
    (Example.fold.LoadApproxes (Example.trained.SaveApproxes [] ++ [])).raised = none ∧
    (Example.fold.LoadApproxes (Example.trained.SaveApproxes [] ++ [])).fold.BodyTailArr.map
        (fun bt => bt.Approx)
      = Example.trained.BodyTailArr.map fun bt => bt.Approx :=
  ⟨rfl,
    ((LoadApproxes_any_stream Example.fold (Example.trained.SaveApproxes [] ++ [])).2.2.2.2.2.2.2
      Example.trained [] rfl rfl).1,
    ((LoadApproxes_any_stream Example.fold (Example.trained.SaveApproxes [] ++ [])).2.2.2.2.2.2.2
      Example.trained [] rfl rfl).2.2.2⟩

/-- The example fold has two body-tails.  A stream that announces two arrays and holds one
makes `LoadApproxes` raise although the count read equals `BodyTailArr.size()`: the check of
the count passes, the first body-tail takes the stored array, and the `::Load` of the second
array raises.  The fold is then not as it was. -/
theorem LoadApproxes_truncated :
    Example.fold.BodyTailArr.length = 2 ∧
    LoadCount [TStreamItem.Count 2, TStreamItem.Approx [[1, 2, 3, 4, 5, 6]]]
      = some (2, [TStreamItem.Approx [[1, 2, 3, 4, 5, 6]]]) ∧
    (Example.fold.LoadApproxes
      [TStreamItem.Count 2, TStreamItem.Approx [[1, 2, 3, 4, 5, 6]]]).raised
      = some TLoadError.TLoadEOF ∧
    (Example.fold.LoadApproxes
      [TStreamItem.Count 2, TStreamItem.Approx [[1, 2, 3, 4, 5, 6]]]).fold ≠ Example.fold ∧
    (Example.fold.BodyTailArr.getD 0 default).Approx = [[0, 0, 0, 0, 0, 0]] ∧
    ((Example.fold.LoadApproxes
      [TStreamItem.Count 2, TStreamItem.Approx [[1, 2, 3, 4, 5, 6]]]).fold.BodyTailArr.getD 0
        default).Approx = [[1, 2, 3, 4, 5, 6]] := by
  decide

/-- Loading the approximations of `Example.trained` into the example fold, and loading a
stream whose count is 1 into it. -/
theorem LoadApproxes_examples :
    (Example.fold.LoadApproxes (Example.trained.SaveApproxes [])).raised = none ∧
    (Example.fold.LoadApproxes (Example.trained.SaveApproxes [])).fold = Example.trained ∧
    (Example.fold.LoadApproxes
      [TStreamItem.Count 1, TStreamItem.Approx [[1, 2, 3, 4, 5, 6]]]).raised
      = some TLoadError.TCatboostException ∧
    (Example.fold.LoadApproxes
      [TStreamItem.Count 1, TStreamItem.Approx [[1, 2, 3, 4, 5, 6]]]).fold = Example.fold := by
  decide

/-! ## The permutation block size -/

theorem BuildFoldPermutation_unshuffled (data : TTrainData) (permuteBlockSize : Nat)
    (rand : TRestorableFastRng64) :
    (BuildFoldPermutation data false permuteBlockSize rand).1.LearnPermutation
      = List.range data.LearnSampleCount ∧
    (BuildFoldPermutation data false permuteBlockSize rand).1.PermutationBlockSize
      = (data.LearnSampleCount : Int) := by
  unfold BuildFoldPermutation
  simp only
  split <;> exact ⟨rfl, rfl⟩

theorem ShuffleData_blockSize (data : TTrainData) (permuteBlockSize : Nat)
    (rand : TRestorableFastRng64) (fold : TFold) :
    (ShuffleData data permuteBlockSize rand fold).1.PermutationBlockSize
      = if permuteBlockSize = 1 ∨ ¬ data.QueryId.isEmpty then 1
        else (permuteBlockSize : Int) := by
  unfold ShuffleData
  split <;> rfl

theorem BuildFoldPermutation_shuffled (data : TTrainData) (permuteBlockSize : Nat)
    (rand : TRestorableFastRng64) :
    (BuildFoldPermutation data true permuteBlockSize rand).1.PermutationBlockSize
      = if permuteBlockSize = 1 ∨ ¬ data.QueryId.isEmpty then 1
        else (permuteBlockSize : Int) := by
  unfold BuildFoldPermutation
  simp only
  split <;> exact ShuffleData_blockSize _ _ _ _

/-- C23. Without shuffling both builders leave `LearnPermutation` the identity on
`[0, LearnSampleCount)` and set `PermutationBlockSize` to `LearnSampleCount`.  With shuffling
`PermutationBlockSize` is 1 when `permuteBlockSize` is 1 or query ids are present, and
`permuteBlockSize` otherwise.  This holds of every fold that `BuildDynamicFold` returns;
`BuildDynamicFold` returns a fold whenever there is a learn document, the multiplier is a
double above one with `N * multiplier` not above the largest `int`, and the query ends lie
inside the learn set. -/
theorem PermutationBlockSize_rule (exp : ℚ → ℚ) (fuel : Nat) (data : TTrainData)
    (shuffle : Bool) (permuteBlockSize approxDimension : Nat) (multiplier : ℚ)
    (storeExpApproxes : Bool) (rand : TRestorableFastRng64) :
    (∀ ff rand2,
      BuildDynamicFold exp fuel data shuffle permuteBlockSize approxDimension multiplier
        storeExpApproxes rand = some (ff, rand2) →
      (shuffle = false →
        ff.LearnPermutation = List.range data.LearnSampleCount ∧
        ff.PermutationBlockSize = (data.LearnSampleCount : Int)) ∧
      (shuffle = true →
        ff.PermutationBlockSize
          = if permuteBlockSize = 1 ∨ ¬ data.QueryId.isEmpty then 1
            else (permuteBlockSize : Int))) ∧
    (1 ≤ data.LearnSampleCount → 1 < multiplier → RoundToDouble multiplier = multiplier →
      (data.LearnSampleCount : ℚ) * multiplier ≤ 2147483647 →
      data.LearnSampleCount ≤ fuel →
      (BuildDynamicFold.queryEndInfo data shuffle
          (BuildFoldPermutation data shuffle permuteBlockSize rand).1 = [] ∨
        ∀ i, i < data.LearnSampleCount →
          i < ((BuildDynamicFold.queryEndInfo data shuffle
            (BuildFoldPermutation data shuffle permuteBlockSize rand).1).getD i
              default).QueryEnd ∧
          ((BuildDynamicFold.queryEndInfo data shuffle
            (BuildFoldPermutation data shuffle permuteBlockSize rand).1).getD i
              default).QueryEnd ≤ data.LearnSampleCount) →
      ∃ ff rand2,
        BuildDynamicFold exp fuel data shuffle permuteBlockSize approxDimension multiplier
          storeExpApproxes rand = some (ff, rand2) ∧
        (shuffle = false →
          ff.LearnPermutation = List.range data.LearnSampleCount ∧
          ff.PermutationBlockSize = (data.LearnSampleCount : Int)) ∧
        (shuffle = true →
          ff.PermutationBlockSize
            = if permuteBlockSize = 1 ∨ ¬ data.QueryId.isEmpty then 1
              else (permuteBlockSize : Int))) ∧
    (shuffle = false →
      (BuildPlainFold exp data shuffle permuteBlockSize approxDimension storeExpApproxes
        rand).1.LearnPermutation = List.range data.LearnSampleCount ∧
      (BuildPlainFold exp data shuffle permuteBlockSize approxDimension storeExpApproxes
        rand).1.PermutationBlockSize = (data.LearnSampleCount : Int)) ∧
    (shuffle = true →
      (BuildPlainFold exp data shuffle permuteBlockSize approxDimension storeExpApproxes
        rand).1.PermutationBlockSize
        = if permuteBlockSize = 1 ∨ ¬ data.QueryId.isEmpty then 1
          else (permuteBlockSize : Int)) := by
  have hsound : ∀ ff rand2,
      BuildDynamicFold exp fuel data shuffle permuteBlockSize approxDimension multiplier
        storeExpApproxes rand = some (ff, rand2) →
      (shuffle = false →
        ff.LearnPermutation = List.range data.LearnSampleCount ∧
        ff.PermutationBlockSize = (data.LearnSampleCount : Int)) ∧
      (shuffle = true →
        ff.PermutationBlockSize
          = if permuteBlockSize = 1 ∨ ¬ data.QueryId.isEmpty then 1
            else (permuteBlockSize : Int)) := by
    intro ff rand2 h
    obtain ⟨Ws, e, -⟩ := BuildDynamicFold_sound exp fuel data shuffle permuteBlockSize
      approxDimension multiplier storeExpApproxes rand ff rand2 h
    rw [e]
    refine ⟨?_, ?_⟩
    · intro hs
      subst hs
      exact BuildFoldPermutation_unshuffled data permuteBlockSize rand
    · intro hs
      subst hs
      exact BuildFoldPermutation_shuffled data permuteBlockSize rand
  refine ⟨hsound, ?_, ?_, ?_⟩
  · intro hN hm hD hR hfuel hq
    obtain ⟨ff, rand2, h⟩ := BuildDynamicFold_returns exp fuel data shuffle permuteBlockSize
      approxDimension multiplier storeExpApproxes rand hN hm hD hR hfuel hq
    exact ⟨ff, rand2, h, hsound ff rand2 h⟩
  · intro hs
    subst hs
    exact BuildFoldPermutation_unshuffled data permuteBlockSize rand
  · intro hs
    subst hs
    exact BuildFoldPermutation_shuffled data permuteBlockSize rand

/-- The block size of the folds of the example data shuffled in blocks of three. -/
theorem PermutationBlockSize_rule_witness :
    (∃ ff rand2,
      BuildDynamicFold id 10 Example.data true 3 1 Example.two false Example.rand
        = some (ff, rand2) ∧
      ff.PermutationBlockSize = 3) ∧
    (BuildPlainFold id Example.data true 3 1 false Example.rand).1.PermutationBlockSize = 3 :=
  ⟨((PermutationBlockSize_rule id 10 Example.data true 3 1 Example.two false
      Example.rand).2.1 (by decide) (by decide) RoundToDouble_two Example.range_two
      (by decide) (Or.inl (queryEndInfo_noQueries Example.data true _ rfl))).imp
      fun _ h => h.imp fun _ h2 => ⟨h2.1, h2.2.2 rfl⟩,
    (PermutationBlockSize_rule id 10 Example.data true 3 1 Example.two false
      Example.rand).2.2.2 rfl⟩

/-! ## The baseline -/

theorem set_getD_self {α : Type} (l : List α) (i : Nat) (d : α) (hi : i < l.length) :
    l.set i (l.getD i d) = l := by
  apply List.ext_getElem?
  intro j
  by_cases h : i = j
  · subst h
    rw [List.getElem?_set_self hi, List.getD_eq_getElem l d hi, List.getElem?_eq_getElem hi]
  · rw [List.getElem?_set_ne h]

theorem getD_set_self_of_lt {α : Type} (l : List α) (i : Nat) (x d : α) (hi : i < l.length) :
    (l.set i x).getD i d = x := by
  rw [List.getD_eq_getElem?_getD, List.getElem?_set_self hi]
  rfl

theorem getD_set_of_ne {α : Type} (l : List α) (i j : Nat) (x d : α) (h : i ≠ j) :
    (l.set i x).getD j d = l.getD j d := by
  rw [List.getD_eq_getElem?_getD, List.getElem?_set_ne h, List.getD_eq_getElem?_getD]

/-- Writing the elements of one row through the matrix is writing them in the row. -/
theorem foldl_row_write {α : Type} (val : Nat → α) (dim : Nat) (docs : List Nat) :
    ∀ approx : List (List α), dim < approx.length →
      docs.foldl (fun approx docId =>
          approx.set dim ((approx.getD dim []).set docId (val docId))) approx
        = approx.set dim
            (docs.foldl (fun row docId => row.set docId (val docId)) (approx.getD dim [])) := by
  induction docs with
  | nil =>
    intro approx h
    exact (set_getD_self approx dim [] h).symm
  | cons d t ih =>
    intro approx h
    rw [List.foldl_cons, List.foldl_cons, ih _ (by rw [List.length_set]; exact h),
      getD_set_self_of_lt _ _ _ _ h, List.set_set]

theorem foldl_set_getD {α : Type} (val : Nat → α) (d : α) (doc : Nat) (docs : List Nat) :
    ∀ row : List α,
      (docs.foldl (fun row docId => row.set docId (val docId)) row).getD doc d
        = if doc ∈ docs ∧ doc < row.length then val doc else row.getD doc d := by
  induction docs with
  | nil =>
    intro row
    simp
  | cons x t ih =>
    intro row
    rw [List.foldl_cons, ih, List.length_set]
    by_cases hx : x = doc
    · subst hx
      by_cases hlt : x < row.length
      · rw [getD_set_self_of_lt _ _ _ _ hlt]
        simp [hlt]
      · rw [List.set_eq_of_length_le (by omega)]
        simp [hlt]
    · rw [getD_set_of_ne _ _ _ _ _ hx]
      have hne : doc ≠ x := fun h => hx h.symm
      simp [hne]

theorem foldl_rows_getD {α : Type} (R : Nat → List α → List α) (dim : Nat) (dims : List Nat) :
    ∀ approx : List (List α), dims.Nodup → (∀ x ∈ dims, x < approx.length) →
      (dims.foldl (fun approx x => approx.set x (R x (approx.getD x []))) approx).getD dim []
        = if dim ∈ dims then R dim (approx.getD dim []) else approx.getD dim [] := by
  induction dims with
  | nil =>
    intro approx _ _
    simp
  | cons x t ih =>
    intro approx hnd hlt
    rw [List.nodup_cons] at hnd
    rw [List.foldl_cons, ih _ hnd.2 (fun y hy => by
      rw [List.length_set]
      exact hlt y (List.mem_cons_of_mem _ hy))]
    by_cases hx : x = dim
    · subst hx
      rw [if_neg hnd.1, if_pos (List.mem_cons_self _ _),
        getD_set_self_of_lt _ _ _ _ (hlt x (List.mem_cons_self _ _))]
    · rw [getD_set_of_ne _ _ _ _ _ hx]
      have hne : dim ≠ x := fun h => hx h.symm
      simp [hne]

theorem foldl_rows_length {α : Type} (F : List (List α) → Nat → List (List α))
    (hF : ∀ a x, (F a x).length = a.length) (dims : List Nat) :
    ∀ approx : List (List α), (dims.foldl F approx).length = approx.length := by
  induction dims with
  | nil => intro approx; rfl
  | cons x t ih =>
    intro approx
    rw [List.foldl_cons, ih, hF]

theorem foldl_congr_mem {α β : Type} (F G : β → α → β) (P : β → Prop) (l : List α)
    (hP : ∀ b x, x ∈ l → P b → P (G b x))
    (hFG : ∀ b x, x ∈ l → P b → F b x = G b x) :
    ∀ b, P b → l.foldl F b = l.foldl G b := by
  induction l with
  | nil => intro b _; rfl
  | cons x t ih =>
    intro b hb
    rw [List.foldl_cons, List.foldl_cons, hFG b x (List.mem_cons_self _ _) hb]
    exact ih (fun b y hy => hP b y (List.mem_cons_of_mem _ hy))
      (fun b y hy => hFG b y (List.mem_cons_of_mem _ hy)) _
      (hP b x (List.mem_cons_self _ _) hb)

theorem foldl_matrix_getD {α : Type} (val : Nat → Nat → α) (d : α) (docs : List Nat)
    (approx : List (List α)) (dim doc : Nat) (hdim : dim < approx.length) :
    (((List.range approx.length).foldl
        (fun approx dim => docs.foldl
          (fun approx docId =>
            approx.set dim ((approx.getD dim []).set docId (val dim docId))) approx)
        approx).getD dim []).getD doc d
      = if doc ∈ docs ∧ doc < (approx.getD dim []).length then val dim doc
        else (approx.getD dim []).getD doc d := by
  have hcongr := foldl_congr_mem
    (fun (approx : List (List α)) dim => docs.foldl
      (fun approx docId =>
        approx.set dim ((approx.getD dim []).set docId (val dim docId))) approx)
    (fun (approx : List (List α)) dim =>
      approx.set dim
        ((fun dim row => docs.foldl (fun row docId => row.set docId (val dim docId)) row)
          dim (approx.getD dim [])))
    (fun a => a.length = approx.length) (List.range approx.length)
    (fun b x _ hb => by
      show (List.set b x _).length = approx.length
      rw [List.length_set]
      exact hb)
    (fun b x hx hb => by
      rw [List.mem_range] at hx
      exact foldl_row_write (val x) x docs b (by omega))
    approx rfl
  rw [hcongr]
  have hrows := foldl_rows_getD
    (fun dim row => docs.foldl (fun row docId => row.set docId (val dim docId)) row)
    dim (List.range approx.length) approx (List.nodup_range _)
    (fun x hx => List.mem_range.mp hx)
  rw [if_pos (List.mem_range.mpr hdim)] at hrows
  rw [hrows]
  exact foldl_set_getD (val dim) d doc docs (approx.getD dim [])

/-- The element `approx[dim][doc]` after `InitFromBaseline`: the (transformed) baseline of the
document at the positions of `[beginIdx, endIdx)`, and the old value elsewhere. -/
theorem InitFromBaseline_getD (exp : ℚ → ℚ) (beginIdx endIdx : Nat) (baseline : List (List ℚ))
    (learnPermutation : List Nat) (storeExpApproxes : Bool) (approx : List (List ℚ))
    (dim doc : Nat) (hdim : dim < approx.length) :
    ((InitFromBaseline exp beginIdx endIdx baseline learnPermutation storeExpApproxes
        approx).getD dim []).getD doc 0
      = if (beginIdx ≤ doc ∧ doc < endIdx) ∧ doc < (approx.getD dim []).length then
          (ExpApproxIf exp storeExpApproxes (baseline.getD dim [])).getD
            (if doc < learnPermutation.length then learnPermutation.getD doc 0 else doc) 0
        else (approx.getD dim []).getD doc 0 := by
  unfold InitFromBaseline
  simp only
  have h := foldl_matrix_getD
    (fun dim docId => (ExpApproxIf exp storeExpApproxes (baseline.getD dim [])).getD
      (if docId < learnPermutation.length then learnPermutation.getD docId 0 else docId) 0)
    0 (List.range' beginIdx (endIdx - beginIdx)) approx dim doc hdim
  simp only at h
  rw [h]
  congr 1
  rw [List.mem_range'_1]
  apply propext
  constructor
  · rintro ⟨⟨h1, h2⟩, h3⟩
    exact ⟨⟨h1, by omega⟩, h3⟩
  · rintro ⟨⟨h1, h2⟩, h3⟩
    exact ⟨⟨h1, by omega⟩, h3⟩

theorem getD_replicate_of_lt {α : Type} (n i : Nat) (x d : α) (h : i < n) :
    (List.replicate n x).getD i d = x := by
  rw [List.getD_eq_getElem?_getD, List.getElem?_replicate, if_pos h]
  rfl

/-- The approximations of the body-tail that starts at `leftPartLen`: with a baseline, the
positions of the tail part `[leftPartLen, TailFinish)` hold the baseline of their documents,
and the positions of the body keep the neutral value. -/
theorem bodyTail_approx (exp : ℚ → ℚ) (data : TTrainData) (approxDimension : Nat)
    (storeExpApproxes : Bool) (invertPermutation : List Nat) (ff : TFold)
    (leftPartLen tailFinish dim doc : Nat)
    (hdim : dim < approxDimension) (hdoc : doc < tailFinish) :
    ((BuildDynamicFold.bodyTail exp data approxDimension storeExpApproxes invertPermutation ff
      leftPartLen tailFinish).Approx.getD dim []).getD doc 0
      = if data.Baseline ≠ [] ∧ leftPartLen ≤ doc then
          (ExpApproxIf exp storeExpApproxes (data.Baseline.getD dim [])).getD
            (if doc < ff.LearnPermutation.length then ff.LearnPermutation.getD doc 0
              else doc) 0
        else GetNeutralApprox storeExpApproxes := by
  have hrow : ((resize ([] : List (List ℚ)) approxDimension
      (List.replicate tailFinish (GetNeutralApprox storeExpApproxes))).getD dim [])
      = List.replicate tailFinish (GetNeutralApprox storeExpApproxes) := by
    rw [resize_nil, getD_replicate_of_lt _ _ _ _ hdim]
  unfold BuildDynamicFold.bodyTail
  simp only
  split
  · rename_i hB
    have hB2 : data.Baseline ≠ [] := by
      intro h
      rw [h] at hB
      exact hB rfl
    show ((InitFromBaseline exp leftPartLen tailFinish data.Baseline
      ff.LearnPermutation storeExpApproxes
      (resize ([] : List (List ℚ)) approxDimension
        (List.replicate tailFinish (GetNeutralApprox storeExpApproxes)))).getD dim []).getD
        doc 0 = _
    rw [InitFromBaseline_getD _ _ _ _ _ _ _ _ _ (by rw [length_resize]; exact hdim), hrow,
      List.length_replicate, getD_replicate_of_lt _ _ _ _ hdoc]
    by_cases hL : leftPartLen ≤ doc
    · rw [if_pos (show (leftPartLen ≤ doc ∧ doc < tailFinish) ∧ doc < tailFinish from
          ⟨⟨hL, hdoc⟩, hdoc⟩),
        if_pos (show data.Baseline ≠ [] ∧ leftPartLen ≤ doc from ⟨hB2, hL⟩)]
    · rw [if_neg (show ¬ ((leftPartLen ≤ doc ∧ doc < tailFinish) ∧ doc < tailFinish) from
          fun h => hL h.1.1),
        if_neg (show ¬ (data.Baseline ≠ [] ∧ leftPartLen ≤ doc) from fun h => hL h.2)]
  · rename_i hB
    have hB2 : ¬ (data.Baseline ≠ [] ∧ leftPartLen ≤ doc) := by
      intro h
      apply hB
      intro he
      apply h.1
      exact List.isEmpty_iff.mp he
    show ((resize ([] : List (List ℚ)) approxDimension
        (List.replicate tailFinish (GetNeutralApprox storeExpApproxes))).getD dim []).getD
        doc 0 = _
    rw [hrow, getD_replicate_of_lt _ _ _ _ hdoc, if_neg hB2]

/-- C24. With a baseline supplied and approximations not stored in exponentiated form,
every body-tail of a fold that `BuildDynamicFold` returns has, for every dimension `dim`,
`Approx[dim][doc] = baseline[dim][LearnPermutation[doc]]` at the positions `doc` of its tail
part `[BodyFinish, TailFinish)`, and the neutral value 0 at the positions `doc < BodyFinish`
of its body: `InitFromBaseline` is called for the range that starts at `leftPartLen`.
`BuildDynamicFold` returns such a fold, given `N` iterations of fuel, for a multiplier that
is a double above one with `N * multiplier` not above the largest `int`. -/
theorem BuildDynamicFold_baseline (exp : ℚ → ℚ) (fuel : Nat) (data : TTrainData)
    (shuffle : Bool) (permuteBlockSize approxDimension : Nat) (multiplier : ℚ)
    (rand : TRestorableFastRng64)
    (hN : 1 ≤ data.LearnSampleCount)
    (hq : BuildDynamicFold.queryEndInfo data shuffle
        (BuildFoldPermutation data shuffle permuteBlockSize rand).1 = [] ∨
      ∀ i, i < data.LearnSampleCount →
        i < ((BuildDynamicFold.queryEndInfo data shuffle
          (BuildFoldPermutation data shuffle permuteBlockSize rand).1).getD i
            default).QueryEnd ∧
        ((BuildDynamicFold.queryEndInfo data shuffle
          (BuildFoldPermutation data shuffle permuteBlockSize rand).1).getD i
            default).QueryEnd ≤ data.LearnSampleCount)
    (hP : 1 ≤ permuteBlockSize) (hB : data.Baseline ≠ []) :
    (∀ ff rand2,
      BuildDynamicFold exp fuel data shuffle permuteBlockSize approxDimension multiplier
        false rand = some (ff, rand2) →
      ∀ bt ∈ ff.BodyTailArr, ∀ dim doc, dim < approxDimension → doc < bt.TailFinish →
        (bt.Approx.getD dim []).getD doc 0
          = if bt.BodyFinish ≤ doc then
              (data.Baseline.getD dim []).getD (ff.LearnPermutation.getD doc 0) 0
            else 0) ∧
    (1 < multiplier → RoundToDouble multiplier = multiplier →
      (data.LearnSampleCount : ℚ) * multiplier ≤ 2147483647 →
      data.LearnSampleCount ≤ fuel →
      ∃ ff rand2,
        BuildDynamicFold exp fuel data shuffle permuteBlockSize approxDimension multiplier
          false rand = some (ff, rand2) ∧
        ∀ bt ∈ ff.BodyTailArr, ∀ dim doc, dim < approxDimension → doc < bt.TailFinish →
          (bt.Approx.getD dim []).getD doc 0
            = if bt.BodyFinish ≤ doc then
                (data.Baseline.getD dim []).getD (ff.LearnPermutation.getD doc 0) 0
              else 0) := by
  have hsound : ∀ ff rand2,
      BuildDynamicFold exp fuel data shuffle permuteBlockSize approxDimension multiplier
        false rand = some (ff, rand2) →
      ∀ bt ∈ ff.BodyTailArr, ∀ dim doc, dim < approxDimension → doc < bt.TailFinish →
        (bt.Approx.getD dim []).getD doc 0
          = if bt.BodyFinish ≤ doc then
              (data.Baseline.getD dim []).getD (ff.LearnPermutation.getD doc 0) 0
            else 0 := by
    intro ff rand2 h
    obtain ⟨Ws, e, -, -, hsel, -⟩ := BuildDynamicFold_sound exp fuel data shuffle
      permuteBlockSize approxDimension multiplier false rand ff rand2 h
    rw [e]
    intro bt hbt dim doc hdim hdoc
    simp only [List.mem_map] at hbt
    obtain ⟨x, hx, rfl⟩ := hbt
    obtain ⟨hBF, hTF⟩ := bodyTail_finish exp data approxDimension false
      (InvertPermutation
        (BuildFoldPermutation data shuffle permuteBlockSize rand).1.LearnPermutation)
      (BuildFoldPermutation data shuffle permuteBlockSize rand).1 x.1 x.2
    rw [hTF] at hdoc
    rw [hBF, bodyTail_approx _ _ _ _ _ _ _ _ _ _ hdim hdoc]
    have hlen : (BuildFoldPermutation data shuffle permuteBlockSize
        rand).1.LearnPermutation.length = data.LearnSampleCount := by
      rw [(BuildFoldPermutation_perm data shuffle permuteBlockSize rand hP).length_eq,
        List.length_range]
    have hb := SelectTailSize_le x.1 data.LearnSampleCount multiplier _ x.2 hN hq (hsel x hx)
    by_cases hxd : x.1 ≤ doc
    · rw [if_pos (show data.Baseline ≠ [] ∧ x.1 ≤ doc from ⟨hB, hxd⟩), if_pos hxd,
        if_pos (by rw [hlen]; omega)]
      rfl
    · rw [if_neg (show ¬ (data.Baseline ≠ [] ∧ x.1 ≤ doc) from fun h => hxd h.2),
        if_neg hxd]
      rfl
  refine ⟨hsound, ?_⟩
  intro hm hD hR hfuel
  obtain ⟨ff, rand2, h⟩ := BuildDynamicFold_returns exp fuel data shuffle permuteBlockSize
    approxDimension multiplier false rand hN hm hD hR hfuel hq
  exact ⟨ff, rand2, h, hsound ff rand2 h⟩

theorem BuildDynamicFold_baseline_witness :
    1 ≤ Example.baselineData.LearnSampleCount ∧ Example.baselineData.Baseline ≠ [] ∧
    1 < Example.two ∧ RoundToDouble Example.two = Example.two ∧
    (Example.baselineData.LearnSampleCount : ℚ) * Example.two ≤ 2147483647 ∧
    Example.baselineData.LearnSampleCount ≤ 10 ∧
    ∃ ff rand2,
      BuildDynamicFold id 10 Example.baselineData false 1 1 Example.two false Example.rand
        = some (ff, rand2) ∧
      ∀ bt ∈ ff.BodyTailArr, ∀ dim doc, dim < 1 → doc < bt.TailFinish →
        (bt.Approx.getD dim []).getD doc 0
          = if bt.BodyFinish ≤ doc then
              (Example.baselineData.Baseline.getD dim []).getD
                (ff.LearnPermutation.getD doc 0) 0
            else 0 :=
  ⟨by decide, by decide, by decide, RoundToDouble_two, Example.range_two, by decide,
    (BuildDynamicFold_baseline id 10 Example.baselineData false 1 1 Example.two Example.rand
      (by decide) (Or.inl (queryEndInfo_noQueries Example.baselineData false _ rfl))
      (by decide) (by decide)).2 (by decide) RoundToDouble_two Example.range_two
      (by decide)⟩

/-- With the baseline `10 + i` for document `i` and no shuffling, the fold that
`BuildDynamicFold` returns has a body-tail whose position 0 lies below `TailFinish` and holds
the neutral value 0, while the baseline of the document at position 0 is 10. -/
theorem BuildDynamicFold_body_keeps_neutral :
    ∃ ff rand2,
      BuildDynamicFold id 10 Example.baselineData false 1 1 Example.two false Example.rand
        = some (ff, rand2) ∧
      ∃ bt ∈ ff.BodyTailArr, 0 < bt.TailFinish ∧
        (bt.Approx.getD 0 []).getD 0 0 = 0 ∧
        (Example.baselineData.Baseline.getD 0 []).getD (ff.LearnPermutation.getD 0 0) 0
          = 10 := by
  have hq : BuildDynamicFold.queryEndInfo Example.baselineData false
      (BuildFoldPermutation Example.baselineData false 1 Example.rand).1 = [] :=
    queryEndInfo_noQueries Example.baselineData false _ rfl
  obtain ⟨ff, rand2, h⟩ := BuildDynamicFold_returns id 10 Example.baselineData false 1 1
    Example.two false Example.rand (by decide) (by decide) RoundToDouble_two
    Example.range_two (by decide) (Or.inl hq)
  refine ⟨ff, rand2, h, ?_⟩
  obtain ⟨Ws, e, -, hne, hsel, hchain, hhead, -⟩ := BuildDynamicFold_sound id 10
    Example.baselineData false 1 1 Example.two false Example.rand ff rand2 h
  obtain ⟨hall, -⟩ := BuildDynamicFold_windows_bounds Example.baselineData Example.two _ Ws
    (by decide) (double_above_one _ RoundToDouble_two (by decide)) (Or.inl hq) hsel hchain
    hhead
  obtain ⟨x, hx⟩ := List.exists_mem_of_ne_nil Ws hne
  obtain ⟨hx1, hx2, hx3⟩ := hall x hx
  obtain ⟨hBF, hTF⟩ := bodyTail_finish id Example.baselineData 1 false
    (InvertPermutation
      (BuildFoldPermutation Example.baselineData false 1 Example.rand).1.LearnPermutation)
    (BuildFoldPermutation Example.baselineData false 1 Example.rand).1 x.1 x.2
  rw [e]
  refine ⟨_, List.mem_map.mpr ⟨x, hx, rfl⟩, ?_, ?_, ?_⟩
  · rw [hTF]
    omega
  · rw [bodyTail_approx _ _ _ _ _ _ _ _ _ _ (by decide) (by omega),
      if_neg (show ¬ (Example.baselineData.Baseline ≠ [] ∧ x.1 ≤ 0) from fun h => by
        omega)]
    rfl
  · show (Example.baselineData.Baseline.getD 0 []).getD
      ((BuildFoldPermutation Example.baselineData false 1
        Example.rand).1.LearnPermutation.getD 0 0) 0 = 10
    rw [(BuildFoldPermutation_unshuffled Example.baselineData 1 Example.rand).1]
    decide

/-! ## The depth bit of the survivors -/

theorem testBit_or_splitWeight (x d : Nat) : (x ||| 1 <<< d).testBit d = true := by
  rw [Nat.testBit_or, Nat.one_shiftLeft, Nat.testBit_two_pow_self, Bool.or_true]

theorem getD_mem_of_lt {α : Type} (l : List α) (d : α) (k : Nat) (hk : k < l.length) :
    l.getD k d ∈ l := by
  rw [List.getD_eq_getElem l d hk]
  exact List.getElem_mem hk

/-- C25. After `SelectSmallestSplitSide` at depth `d`, for every surviving document (slot `k`
of the result, position `j` of the parent): bit `d - 1` of its `Indices` entry is set,
whichever side was selected, because the compaction stores the source code with bit `d - 1`
or-ed in; its source leaf code is at least `2 ^ (d - 1)` exactly when
`SmallestSplitSideValue` is true, because the control mask compares the whole code with
`2 ^ (d - 1)`; and when `1 ≤ d` and that source code is below `2 ^ d`, bit `d - 1` of the
source code equals `SmallestSplitSideValue`.  So the stored bit agrees with the source bit
only when the bit-set side was selected.  Nothing is assumed of the stale slots of the
parent's `Indices`. -/
theorem SelectSmallestSplitSide_survivor_bit (self : TCalcScoreFold) (d : Nat)
    (P : TCalcScoreFold)
    (hI : P.DocCount ≤ self.Indices.length)
    (hD : P.DocCount ≤ P.Indices.length)
    (hC : P.DocCount ≤ self.Control.length) :
    ∀ k, k < (self.SelectSmallestSplitSide d P).DocCount →
      ((self.SelectSmallestSplitSide d P).Indices.getD k 0).testBit (d - 1) = true ∧
      (1 <<< (d - 1) ≤ P.Indices.getD
          ((survivors (self.SelectSmallestSplitSide d P).Control P.DocCount).getD k 0) 0
        ↔ (self.SelectSmallestSplitSide d P).SmallestSplitSideValue = true) ∧
      (1 ≤ d →
        P.Indices.getD
          ((survivors (self.SelectSmallestSplitSide d P).Control P.DocCount).getD k 0) 0
          < 2 ^ d →
        (P.Indices.getD
            ((survivors (self.SelectSmallestSplitSide d P).Control P.DocCount).getD k 0)
            0).testBit (d - 1)
          = (self.SelectSmallestSplitSide d P).SmallestSplitSideValue) := by
  intro k hk
  obtain ⟨hctl, hcnt, -, -, -, hval, -⟩ := SelectSmallestSplitSide_frame self d P
  rw [hcnt] at hk
  have hle := survivors_length_le (self.SelectSmallestSplitSide d P).Control P.DocCount
  have hmem := (SelectSmallestSplitSide_members self d P).1 (by omega)
  have hj := getD_mem_of_lt _ 0 k hk
  refine ⟨?_, ?_⟩
  · rw [getD_of_take_eq_map _ _ _ 0 0 hmem.2 k hk]
    exact testBit_or_splitWeight _ _
  generalize (survivors (self.SelectSmallestSplitSide d P).Control P.DocCount).getD k 0
    = j at hj ⊢
  unfold survivors at hj
  rw [List.mem_filter, List.mem_range] at hj
  obtain ⟨hjlt, hjc⟩ := hj
  have hc := SetSmallestSideControl_control self d P.Indices j
  rw [if_pos (show j < P.Indices.length ∧ j < self.Control.length from
    ⟨by omega, by omega⟩)] at hc
  rw [hctl, List.getD_eq_getElem?_getD, hc, Option.getD_some] at hjc
  rw [hval]
  have hpos : 0 < 1 <<< (d - 1) := by rw [Nat.one_shiftLeft]; exact Nat.two_pow_pos _
  cases hs : (self.SetSmallestSideControl d P.Indices).SmallestSplitSideValue
  · rw [hs] at hjc
    have hlt : P.Indices.getD j 0 < 1 <<< (d - 1) := by simpa using hjc
    refine ⟨⟨fun h => absurd h (Nat.not_le.mpr hlt), fun h => by cases h⟩, ?_⟩
    intro hd hb
    have hb2 : P.Indices.getD j 0 < 2 ^ (d - 1 + 1) := by
      rw [Nat.sub_add_cancel hd]; exact hb
    exact (lt_splitWeight_iff _ _ hb2).1 hlt
  · rw [hs] at hjc
    have hgt : P.Indices.getD j 0 > 1 <<< (d - 1) - 1 := by simpa using hjc
    refine ⟨⟨fun _ => rfl, fun _ => Nat.le_of_pred_lt hgt⟩, ?_⟩
    intro hd hb
    have hb2 : P.Indices.getD j 0 < 2 ^ (d - 1 + 1) := by
      rw [Nat.sub_add_cancel hd]; exact hb
    exact (gt_splitWeight_iff _ _ hb2).1 hgt

theorem SelectSmallestSplitSide_survivor_bit_witness :
    Example.full.DocCount ≤ (Example.created 1).Indices.length ∧
    Example.full.DocCount ≤ Example.full.Indices.length ∧
    Example.full.DocCount ≤ (Example.created 1).Control.length ∧
    0 < ((Example.created 1).SelectSmallestSplitSide 1 Example.full).DocCount ∧
    (((Example.created 1).SelectSmallestSplitSide 1 Example.full).Indices.getD 0 0).testBit
      (1 - 1) = true :=
  ⟨by decide, by decide, by decide, by decide,
    (SelectSmallestSplitSide_survivor_bit (Example.created 1) 1 Example.full (by decide)
      (by decide) (by decide) 0 (by decide)).1⟩

/-- Seven of the ten documents of the parent have bit 0 set, so the three documents 7, 8
and 9 of the bit-unset side survive (`SmallestSplitSideValue` is false): bit 0 is unset in
their source leaf codes and set in their `Indices` entries. -/
theorem SelectSmallestSplitSide_unset_side :
    Example.majority.DocCount = 10 ∧ Example.majority.Indices = Example.rightmost ∧
    ((Example.created 1).SelectSmallestSplitSide 1 Example.majority).SmallestSplitSideValue
      = false ∧
    ((Example.created 1).SelectSmallestSplitSide 1 Example.majority).DocCount = 3 ∧
    ((Example.created 1).SelectSmallestSplitSide 1 Example.majority).IndexInFold.take 3
      = [7, 8, 9] ∧
    (Example.majority.Indices.getD 7 0).testBit (1 - 1) = false ∧
    (((Example.created 1).SelectSmallestSplitSide 1 Example.majority).Indices.getD 0
      0).testBit (1 - 1) = true ∧
    ((Example.created 1).SelectSmallestSplitSide 1 Example.majority).Indices.take 3
      = [1, 1, 1] := by
  decide

/-! ## The smaller side -/

/-- C26. For an index vector whose entries are all below `2 ^ d`, `SetSmallestSideControl`
at depth `d` sets `SmallestSplitSideValue` to true exactly when at most half of the documents
have bit `d - 1` set, and the documents it selects in `Control` are never more than half of
the documents.  The bound on the entries is needed: the count is taken as the sum of the
codes shifted right by `d - 1`. -/
theorem SetSmallestSideControl_minority (self : TCalcScoreFold) (d : Nat)
    (indices : List TIndexType) (hd : 1 ≤ d) (hlt : ∀ x ∈ indices, x < 2 ^ d)
    (hlen : indices.length ≤ self.Control.length) :
    ((self.SetSmallestSideControl d indices).SmallestSplitSideValue = true ↔
      2 * (indices.filter fun x => x.testBit (d - 1)).length ≤ indices.length) ∧
    2 * ((List.range indices.length).filter fun i =>
        (self.SetSmallestSideControl d indices).Control.getD i false).length
      ≤ indices.length := by
  have hlt2 : ∀ x ∈ indices, x < 2 ^ (d - 1 + 1) := by
    intro x hx
    rw [Nat.sub_add_cancel hd]
    exact hlt x hx
  have hv : ((self.SetSmallestSideControl d indices).SmallestSplitSideValue = true ↔
      2 * (indices.filter fun x => x.testBit (d - 1)).length ≤ indices.length) := by
    rw [SetSmallestSideControl_value, sum_shift_eq_count indices (d - 1) hlt2,
      decide_eq_true_iff]
    show (List.filter (fun x : Nat => x.testBit (d - 1)) indices).length * 2 ≤ indices.length ↔
      2 * (List.filter (fun x : Nat => x.testBit (d - 1)) indices).length ≤ indices.length
    omega
  refine ⟨hv, ?_⟩
  have hctl : ((List.range indices.length).filter fun i =>
      (self.SetSmallestSideControl d indices).Control.getD i false)
      = (List.range indices.length).filter fun i =>
        ((indices.getD i 0).testBit (d - 1)
          == (self.SetSmallestSideControl d indices).SmallestSplitSideValue) := by
    apply List.filter_congr
    intro i hi
    rw [List.mem_range] at hi
    exact SetSmallestSideControl_getD self d indices hd hlt hlen i hi
  rw [hctl]
  have hsum := length_filter_add_not (fun x : TIndexType => x.testBit (d - 1)) indices
  cases hs : (self.SetSmallestSideControl d indices).SmallestSplitSideValue
  · have hnot : ¬ (2 * (indices.filter fun x : TIndexType => x.testBit (d - 1)).length
        ≤ indices.length) := by
      intro h
      rw [← hv, hs] at h
      cases h
    have h2 := length_filter_range_getD indices (0 : TIndexType)
      (fun x : TIndexType => !x.testBit (d - 1))
    have h3 : ((List.range indices.length).filter fun i =>
        ((indices.getD i 0).testBit (d - 1) == false))
        = (List.range indices.length).filter fun i =>
          (fun x : TIndexType => !x.testBit (d - 1)) (indices.getD i 0) := by
      apply List.filter_congr
      intro i _
      simp
    rw [h3, h2]
    omega
  · have hyes : 2 * (indices.filter fun x : TIndexType => x.testBit (d - 1)).length
        ≤ indices.length := hv.1 hs
    have h2 := length_filter_range_getD indices (0 : TIndexType)
      (fun x : TIndexType => x.testBit (d - 1))
    have h3 : ((List.range indices.length).filter fun i =>
        ((indices.getD i 0).testBit (d - 1) == true))
        = (List.range indices.length).filter fun i =>
          (fun x : TIndexType => x.testBit (d - 1)) (indices.getD i 0) := by
      apply List.filter_congr
      intro i _
      simp
    rw [h3, h2]
    exact hyes

theorem SetSmallestSideControl_minority_witness :
    1 ≤ 1 ∧ (∀ x ∈ Example.indices, x < 2 ^ 1) ∧
    Example.indices.length ≤ (Example.created 1).Control.length ∧
    2 * ((List.range Example.indices.length).filter fun i =>
        ((Example.created 1).SetSmallestSideControl 1 Example.indices).Control.getD i
          false).length
      ≤ Example.indices.length :=
  ⟨by decide, by decide, by decide,
    (SetSmallestSideControl_minority (Example.created 1) 1 Example.indices (by decide)
      (by decide) (by decide)).2⟩

/-- With the leaf codes `[2, 0, 0]` at depth 1 no document has bit 0 set, yet
`SmallestSplitSideValue` is false (the shifted codes sum to 2, and 2 * 2 > 3) and `Control`
selects the two documents with code 0, more than half of the three. -/
theorem SetSmallestSideControl_unbounded_codes :
    ([2, 0, 0].filter fun x : TIndexType => x.testBit (1 - 1)).length = 0 ∧
    ((Example.created 1).SetSmallestSideControl 1 [2, 0, 0]).SmallestSplitSideValue = false ∧
    ((Example.created 1).SetSmallestSideControl 1 [2, 0, 0]).Control.take 3
      = [false, true, true] := by
  decide

/-- C27. Two parents with the same `DocCount = 4` and the same first four `Indices` entries
`1, 1, 1, 0`, which differ only in the stored entries behind them, get different sides from
`SelectSmallestSplitSide` at depth 1: the bit-set side of three documents for the one whose
stale entries are 0, the bit-unset side of one document for the one whose stale entries are
1. -/
theorem SelectSmallestSplitSide_reads_stale_entries :
    Example.sampled.DocCount = 4 ∧ Example.resampled.DocCount = 4 ∧
    Example.sampled.Indices.take 4 = [1, 1, 1, 0] ∧
    Example.resampled.Indices.take 4 = [1, 1, 1, 0] ∧
    Example.sampled.Indices.drop 4 = [0, 0, 0, 0, 0, 0] ∧
    Example.resampled.Indices.drop 4 = [1, 1, 1, 1, 1, 1] ∧
    ((Example.created Example.half).SelectSmallestSplitSide 1
      Example.sampled).SmallestSplitSideValue = true ∧
    ((Example.created Example.half).SelectSmallestSplitSide 1
      Example.resampled).SmallestSplitSideValue = false ∧
    ((Example.created Example.half).SelectSmallestSplitSide 1 Example.sampled).Control.take 4
      = [true, true, true, false] ∧
    ((Example.created Example.half).SelectSmallestSplitSide 1 Example.resampled).Control.take 4
      = [false, false, false, true] ∧
    ((Example.created Example.half).SelectSmallestSplitSide 1 Example.sampled).DocCount = 3 ∧
    ((Example.created Example.half).SelectSmallestSplitSide 1 Example.resampled).DocCount
      = 1 := by
  decide

/-! ## Compaction of one block by the mask -/

/-- C28. `SetElements` compacts by the control mask.  For a control block and a source block
of the same length, an element function `f`, and a destination block that has room for
exactly the number `t` of true control entries and is shorter than the control block, the
reported count is `t`, the destination block holds `f(s, i)` for exactly the positions `i`
with a true control entry, in increasing order, and the storage around the block is left as
it was. -/
theorem SetElements_compacts {α : Type} [Inhabited α] (srcControlRef : TConstArrayRef Bool)
    (srcRef : TConstArrayRef α) (f : TPtr α → Nat → α) (dstRef : TArrayRef α)
    (hsame : srcRef.size = srcControlRef.size)
    (ht : dstRef.size
      = ((List.range srcControlRef.size).filter fun i => srcControlRef.data.read i).length)
    (hshort : dstRef.size < srcControlRef.size)
    (hroom : dstRef.offset + dstRef.size ≤ dstRef.vec.length) :
    (SetElements srcControlRef srcRef f dstRef).2 = dstRef.size ∧
    ((SetElements srcControlRef srcRef f dstRef).1.vec.drop dstRef.offset).take dstRef.size
      = ((List.range srcControlRef.size).filter fun i => srcControlRef.data.read i).map
          (fun i => f srcRef.data i) ∧
    (SetElements srcControlRef srcRef f dstRef).1.vec.take dstRef.offset
      = dstRef.vec.take dstRef.offset ∧
    (SetElements srcControlRef srcRef f dstRef).1.vec.length = dstRef.vec.length := by
  have hne : ¬ (srcRef.data.isSome ∧ srcControlRef.size = dstRef.size) := by
    intro h
    omega
  have hloop := SetElementsLoop_spec srcControlRef.data srcRef.data f dstRef.size
    srcRef.size 0 0 dstRef
  rw [← List.range_eq_range', hsame, ← ht] at hloop
  obtain ⟨h1, h2, h3⟩ := hloop (by omega)
  have h4 := h3 (by omega)
  unfold SetElements
  simp only
  rw [if_neg hne, hsame]
  rw [Nat.zero_add] at h1 h4
  rw [Nat.add_zero] at h4
  refine ⟨h1, ?_, ?_, h2⟩
  · rw [List.take_drop, h4, List.drop_left']
    rw [List.length_take]
    omega
  · have h5 := congrArg (List.take dstRef.offset) h4
    rw [List.take_take, Nat.min_eq_left (Nat.le_add_right _ _), List.take_left'] at h5
    · exact h5
    · rw [List.length_take]
      omega

theorem SetElements_compacts_witness :
    (3 : Nat) = ((List.range 4).filter fun i =>
      TPtr.read (some [true, false, true, true]) i).length ∧
    (SetElements ⟨some [true, false, true, true], 4⟩ ⟨some [10, 20, 30, 40], 4⟩ GetElement
      (⟨[0, 0, 0, 0, 0], 1, 3⟩ : TArrayRef Nat)).2 = 3 ∧
    (((SetElements ⟨some [true, false, true, true], 4⟩ ⟨some [10, 20, 30, 40], 4⟩ GetElement
      (⟨[0, 0, 0, 0, 0], 1, 3⟩ : TArrayRef Nat)).1.vec.drop 1).take 3
      = ((List.range 4).filter fun i =>
          TPtr.read (some [true, false, true, true]) i).map
          (fun i => GetElement (some [10, 20, 30, 40]) i)) :=
  ⟨by decide,
    (SetElements_compacts ⟨some [true, false, true, true], 4⟩ ⟨some [10, 20, 30, 40], 4⟩
      GetElement (⟨[0, 0, 0, 0, 0], 1, 3⟩ : TArrayRef Nat) rfl (by decide) (by decide)
      (by decide)).1,
    (SetElements_compacts ⟨some [true, false, true, true], 4⟩ ⟨some [10, 20, 30, 40], 4⟩
      GetElement (⟨[0, 0, 0, 0, 0], 1, 3⟩ : TArrayRef Nat) rfl (by decide) (by decide)
      (by decide)).2.1⟩

/-! ## New leaf codes for a sampled partition -/

theorem filter_range'_all_true (control : List Bool) (a m : Nat)
    (h : ∀ j, j < a + m → control.getD j false = true) :
    ((List.range' a m).filter fun j => control.getD j false) = List.range' a m := by
  rw [List.filter_eq_self]
  intro j hj
  rw [List.mem_range'_1] at hj
  exact h j hj.2

theorem CreateByControl_all_true (control : List Bool) (N B : Nat) (hB : 0 < B)
    (h : ∀ j, j < N → control.getD j false = true) :
    TVectorSlicing.CreateByControl ((TExecRangeParams.create 0 N).SetBlockSize B) control
      = TVectorSlicing.Create ((TExecRangeParams.create 0 N).SetBlockSize B) := by
  have hT : (TVectorSlicing.CreateByControl
      ((TExecRangeParams.create 0 N).SetBlockSize B) control).Total
      = (TVectorSlicing.Create ((TExecRangeParams.create 0 N).SetBlockSize B)).Total := by
    rw [CreateByControl_total control N B hB, survivors_all_true control N h,
      List.length_range]
    rfl
  have hS : (TVectorSlicing.CreateByControl
      ((TExecRangeParams.create 0 N).SetBlockSize B) control).Slices
      = (TVectorSlicing.Create ((TExecRangeParams.create 0 N).SetBlockSize B)).Slices := by
    apply List.ext_getElem?
    intro b
    by_cases hb : b < CeilDiv N B
    · have h1 := CreateByControl_slices_getD control N B b hB hb
      have h2 := Create_slices_getD N B b hb
      have hlt := ceilDiv_pred_mul_lt N B b hB hb
      rw [List.getD_eq_getElem?_getD] at h1 h2
      have l1 := CreateByControl_slices_length control N B
      have l2 := Create_slices_length N B
      rw [List.getElem?_eq_getElem (by omega)] at h1 h2 ⊢
      rw [List.getElem?_eq_getElem (by omega)]
      simp only [Option.getD_some] at h1 h2
      rw [h1, h2, survivors_all_true control (b * B) (fun j hj => h j (by omega)),
        filter_range'_all_true control (b * B) (min B (N - b * B))
          (fun j hj => h j (by omega)),
        List.length_range, List.length_range']
    · rw [List.getElem?_eq_none (by rw [CreateByControl_slices_length]; omega),
        List.getElem?_eq_none (by rw [Create_slices_length]; omega)]
  calc TVectorSlicing.CreateByControl ((TExecRangeParams.create 0 N).SetBlockSize B) control
      = { Total := (TVectorSlicing.CreateByControl
            ((TExecRangeParams.create 0 N).SetBlockSize B) control).Total,
          Slices := (TVectorSlicing.CreateByControl
            ((TExecRangeParams.create 0 N).SetBlockSize B) control).Slices } := rfl
    _ = { Total := (TVectorSlicing.Create
            ((TExecRangeParams.create 0 N).SetBlockSize B)).Total,
          Slices := (TVectorSlicing.Create
            ((TExecRangeParams.create 0 N).SetBlockSize B)).Slices } := by rw [hT, hS]
    _ = TVectorSlicing.Create ((TExecRangeParams.create 0 N).SetBlockSize B) := rfl

/-- The block loop of `UpdateIndices` with the destination blocks of the control mask, from
any state `s`. -/
theorem UpdateIndicesBlocks_spec (indices : List TIndexType) (s : TCalcScoreFold)
    (hlen : (survivors s.Control indices.length).length ≤ s.Indices.length) :
    (ExecRange (TCalcScoreFold.UpdateIndicesBlock indices
      (TVectorSlicing.Create ((TExecRangeParams.create 0 indices.length).SetBlockSize 2000))
      (TVectorSlicing.CreateByControl
        ((TExecRangeParams.create 0 indices.length).SetBlockSize 2000) s.Control))
      0 (CeilDiv indices.length 2000) s).Indices.take
        (survivors s.Control indices.length).length
      = (survivors s.Control indices.length).map fun j => indices.getD j default := by
  rw [blocks_member
    (TCalcScoreFold.UpdateIndicesBlock indices
      (TVectorSlicing.Create ((TExecRangeParams.create 0 indices.length).SetBlockSize 2000))
      (TVectorSlicing.CreateByControl
        ((TExecRangeParams.create 0 indices.length).SetBlockSize 2000) s.Control))
    (fun t => t.Indices)
    (fun C _ _ d b => (SetElements
        (((TVectorSlicing.Create
          ((TExecRangeParams.create 0 indices.length).SetBlockSize 2000)).Slices.getD
            b default).GetConstRef C)
        (((TVectorSlicing.Create
          ((TExecRangeParams.create 0 indices.length).SetBlockSize 2000)).Slices.getD
            b default).GetConstRef indices)
        GetElement
        (((TVectorSlicing.CreateByControl
          ((TExecRangeParams.create 0 indices.length).SetBlockSize 2000)
            s.Control).Slices.getD b default).GetRef d)).1.vec)
    (fun _ _ => rfl) (fun _ _ => rfl) (fun _ _ => rfl) (fun _ _ => rfl)]
  exact (compact_plain s.Control indices.length indices s.Indices hlen).2

/-- The `UpdateIndices` of a partition whose control mask is all true when the rate is not
below one. -/
theorem UpdateIndices_members (S : TCalcScoreFold) (indices : List TIndexType)
    (hfull : ¬ S.BernoulliSampleRate < 1 →
      ∀ j, j < indices.length → S.Control.getD j false = true)
    (hI : (survivors S.Control indices.length).length ≤ S.Indices.length) :
    (S.UpdateIndices indices).DocCount = (survivors S.Control indices.length).length ∧
    (S.UpdateIndices indices).Indices.take (survivors S.Control indices.length).length
      = (survivors S.Control indices.length).map fun j => indices.getD j 0 := by
  have hdst : (if S.BernoulliSampleRate < 1 then
        TVectorSlicing.CreateByControl
          ((TExecRangeParams.create 0 indices.length).SetBlockSize 2000) S.Control
      else TVectorSlicing.Create
        ((TExecRangeParams.create 0 indices.length).SetBlockSize 2000))
      = TVectorSlicing.CreateByControl
          ((TExecRangeParams.create 0 indices.length).SetBlockSize 2000) S.Control := by
    split
    · rfl
    · rename_i hr
      exact (CreateByControl_all_true S.Control indices.length 2000 (by decide)
        (hfull hr)).symm
  unfold TCalcScoreFold.UpdateIndices
  simp only
  rw [hdst]
  have hK : ((TExecRangeParams.create 0 indices.length).SetBlockSize 2000).BlockCount
      = CeilDiv indices.length 2000 := by rw [blockParams_fields]
  rw [hK]
  refine ⟨?_, ?_⟩
  · rw [(UpdateIndicesBlock_frame indices _ _ _ _).2.1]
    exact CreateByControl_total S.Control indices.length 2000 (by decide)
  · exact UpdateIndicesBlocks_spec indices
      { S with DocCount := (TVectorSlicing.CreateByControl
          ((TExecRangeParams.create 0 indices.length).SetBlockSize 2000) S.Control).Total } hI

theorem UpdateIndices_aligned_core (S : TCalcScoreFold) (indices2 : List TIndexType) (n : Nat)
    (hn : indices2.length = n)
    (hfull : ¬ S.BernoulliSampleRate < 1 → ∀ j, j < n → S.Control.getD j false = true)
    (hI : (survivors S.Control n).length ≤ S.Indices.length)
    (hD : S.DocCount = (survivors S.Control n).length)
    (hF : S.IndexInFold.take (survivors S.Control n).length = survivors S.Control n) :
    (S.UpdateIndices indices2).DocCount = S.DocCount ∧
    ∀ k, k < S.DocCount →
      (S.UpdateIndices indices2).Indices.getD k 0
        = indices2.getD (S.IndexInFold.getD k 0) 0 := by
  subst hn
  obtain ⟨h1, h2⟩ := UpdateIndices_members S indices2 hfull hI
  refine ⟨h1.trans hD.symm, ?_⟩
  intro k hk
  rw [hD] at hk
  have hF2 : S.IndexInFold.take (survivors S.Control indices2.length).length
      = (survivors S.Control indices2.length).map fun j => j := by
    rw [List.map_id']
    exact hF
  rw [getD_of_take_eq_map _ _ _ 0 0 h2 k hk, getD_of_take_eq_map _ _ _ 0 0 hF2 k hk]

/-- C29. After `Sample(fold, indices, rand)` at a rate of at most one, on an object with room
for the documents, `UpdateIndices(indices2)` with as many leaf codes as `indices` leaves
`DocCount` unchanged and stores at every position `k < DocCount` the new leaf code of the
document that stands there: `Indices[k] = indices2[IndexInFold[k]]`. -/
theorem UpdateIndices_after_Sample (self : TCalcScoreFold) (fold : TFold)
    (indices indices2 : List TIndexType) (rand : TRestorableFastRng64)
    (hrate : self.BernoulliSampleRate ≤ 1)
    (hlen : indices2.length = indices.length)
    (hC : indices.length ≤ self.Control.length)
    (hI : indices.length ≤ self.Indices.length)
    (hF : indices.length ≤ self.IndexInFold.length) :
    ((self.Sample fold indices rand).1.UpdateIndices indices2).DocCount
      = (self.Sample fold indices rand).1.DocCount ∧
    ∀ k, k < (self.Sample fold indices rand).1.DocCount →
      ((self.Sample fold indices rand).1.UpdateIndices indices2).Indices.getD k 0
        = indices2.getD ((self.Sample fold indices rand).1.IndexInFold.getD k 0) 0 := by
  obtain ⟨hctl, hcnt, -, -, hr, -, -, -⟩ := Sample_frame self fold indices rand
  have hle := survivors_length_le (self.Sample fold indices rand).1.Control indices.length
  obtain ⟨mI, mF, -⟩ := Sample_members self fold indices rand
  have hIlen := (mI (by omega)).1
  have hFtake := (mF (by omega)).2
  apply UpdateIndices_aligned_core (self.Sample fold indices rand).1 indices2 indices.length
    hlen ?_ (by omega) hcnt hFtake
  intro hnot j hj
  rw [hr] at hnot
  have h1 : self.BernoulliSampleRate = 1 := le_antisymm hrate (not_lt.mp hnot)
  rw [hctl, SetSampledControl_full self indices.length rand h1]
  simp only
  rw [List.getD_eq_getElem?_getD, List.getElem?_replicate, if_pos (by omega)]
  rfl

theorem UpdateIndices_after_Sample_witness :
    (Example.created Example.half).BernoulliSampleRate ≤ 1 ∧
    Example.rightmost.length = Example.indices.length ∧
    Example.indices.length ≤ (Example.created Example.half).Control.length ∧
    (Example.sampled.UpdateIndices Example.rightmost).DocCount = Example.sampled.DocCount ∧
    ∀ k, k < Example.sampled.DocCount →
      (Example.sampled.UpdateIndices Example.rightmost).Indices.getD k 0
        = Example.rightmost.getD (Example.sampled.IndexInFold.getD k 0) 0 :=
  ⟨by decide, by decide, by decide,
    UpdateIndices_after_Sample (Example.created Example.half) Example.fold Example.indices
      Example.rightmost Example.rand (by decide) (by decide) (by decide) (by decide)
      (by decide)⟩

/-! ## Pairs in the tail part -/

/-- C30. A kept pair whose permuted positions `w` and `l` are distinct and both lie in the
tail part `[BodyFinish, TailFinish)` adds exactly one entry: the entry for the other document
at the end of the list of the greater of the two positions, and nothing to any other list.
Hence after `AssignCompetitors` every entry in the list of a position `d` of the tail part
either was in the list of `d` before the call or names an opponent at a position strictly
below `d`. -/
theorem AssignCompetitors_tail_order (self : TFold) (before pairs : List TPair) (pair : TPair)
    (invertPermutation : List Nat) (bt : TFold.TBodyTail)
    (hw : pair.WinnerId < self.LearnPermutation.length)
    (hl : pair.LoserId < self.LearnPermutation.length)
    (hne : invertPermutation.getD pair.WinnerId 0 ≠ invertPermutation.getD pair.LoserId 0)
    (hwB : bt.BodyFinish ≤ invertPermutation.getD pair.WinnerId 0)
    (hwT : invertPermutation.getD pair.WinnerId 0 < bt.TailFinish)
    (hlB : bt.BodyFinish ≤ invertPermutation.getD pair.LoserId 0)
    (hlT : invertPermutation.getD pair.LoserId 0 < bt.TailFinish) :
    (∀ p,
      (self.AssignCompetitors (before ++ [pair]) invertPermutation bt).Competitors.getD p []
        = (self.AssignCompetitors before invertPermutation bt).Competitors.getD p []
          ++ (if p = max (invertPermutation.getD pair.WinnerId 0)
                (invertPermutation.getD pair.LoserId 0) then
                [if invertPermutation.getD pair.WinnerId 0
                    > invertPermutation.getD pair.LoserId 0 then
                    { Id := invertPermutation.getD pair.LoserId 0, Weight := pair.Weight }
                  else
                    { Id := invertPermutation.getD pair.WinnerId 0, Weight := -pair.Weight }]
              else [])) ∧
    (∀ d, bt.BodyFinish ≤ d → d < bt.TailFinish →
      ∀ c ∈ (self.AssignCompetitors pairs invertPermutation bt).Competitors.getD d [],
        c ∈ (resize bt.Competitors bt.TailFinish []).getD d [] ∨ c.Id < d) := by
  refine ⟨?_, ?_⟩
  · intro p
    obtain ⟨hs, hlen⟩ := AssignCompetitors_snoc self before pair invertPermutation bt
    have h1 : ¬ (pair.WinnerId ≥ self.LearnPermutation.length ∨
        pair.LoserId ≥ self.LearnPermutation.length) := by omega
    have h2 : ¬ (invertPermutation.getD pair.WinnerId 0 ≥ bt.TailFinish ∨
        invertPermutation.getD pair.LoserId 0 ≥ bt.TailFinish) := by omega
    rw [hs, AssignCompetitorsPair_kept _ _ _ _ _ _ _ hlen h1 h2]
    congr 1
    generalize invertPermutation.getD pair.WinnerId 0 = w at hne hwB hwT hlB hlT ⊢
    generalize invertPermutation.getD pair.LoserId 0 = l at hne hwB hwT hlB hlT ⊢
    by_cases hgt : w > l
    · have hmax : max w l = w := by omega
      rw [hmax, if_pos hgt]
      by_cases hp : p = w
      · subst hp
        rw [if_pos ⟨rfl, Or.inr hgt⟩, if_neg (by omega), if_pos rfl, List.append_nil]
      · rw [if_neg (by omega), if_neg (by omega), if_neg hp, List.append_nil]
    · have hmax : max w l = l := by omega
      rw [hmax, if_neg hgt]
      by_cases hp : p = l
      · subst hp
        rw [if_neg (by omega), if_pos ⟨rfl, Or.inr (by omega)⟩, if_pos rfl, List.nil_append]
      · rw [if_neg (by omega), if_neg (by omega), if_neg hp, List.append_nil]
  · intro d hdB hdT c hc
    have hform := (AssignCompetitors_foldl self.LearnPermutation.length bt.BodyFinish
      bt.TailFinish invertPermutation pairs _ d
      (length_resize bt.Competitors bt.TailFinish [])).2
    unfold TFold.AssignCompetitors at hc
    simp only at hc
    rw [hform, List.mem_append] at hc
    rcases hc with hc | hc
    · exact Or.inl hc
    · right
      rw [List.mem_flatMap] at hc
      obtain ⟨q, -, hq⟩ := hc
      split at hq
      · cases hq
      · rw [List.mem_append] at hq
        rcases hq with hq | hq
        · split at hq
          · rename_i hcond
            rw [List.mem_singleton] at hq
            rw [hq]
            simp only
            omega
          · cases hq
        · split at hq
          · rename_i hcond
            rw [List.mem_singleton] at hq
            rw [hq]
            simp only
            omega
          · cases hq

theorem AssignCompetitors_tail_order_witness :
    4 < Example.fold.LearnPermutation.length ∧ 7 < Example.fold.LearnPermutation.length ∧
    (InvertPermutation Example.fold.LearnPermutation).getD 4 0
      ≠ (InvertPermutation Example.fold.LearnPermutation).getD 7 0 ∧
    2 ≤ (InvertPermutation Example.fold.LearnPermutation).getD 7 0 ∧
    (InvertPermutation Example.fold.LearnPermutation).getD 4 0 < 6 ∧
    (∀ d, 2 ≤ d → d < 6 →
      ∀ c ∈ (Example.fold.AssignCompetitors Example.data.Pairs
          (InvertPermutation Example.fold.LearnPermutation)
          { Example.bodyTail with BodyFinish := 2 }).Competitors.getD d [],
        c ∈ (resize ([] : List (List TCompetitor)) 6 []).getD d [] ∨ c.Id < d) :=
  ⟨by decide, by decide, by decide, by decide, by decide,
    (AssignCompetitors_tail_order Example.fold [] Example.data.Pairs
      { WinnerId := 4, LoserId := 7, Weight := 1 }
      (InvertPermutation Example.fold.LearnPermutation)
      { Example.bodyTail with BodyFinish := 2 }
      (by decide) (by decide) (by decide) (by decide) (by decide) (by decide)
      (by decide)).2⟩

/-! ## The block shuffle -/

theorem blocks_flat (B N K : Nat) (hK : N ≤ K * B) (bs : List Nat)
    (hbs : bs.Perm (List.range K)) :
    (bs.foldl
      (fun (st : List Nat × Nat) b =>
        ((List.range' (b * B) (min (b * B + B) N - b * B)).foldl
            (fun p j => p.set (st.2 + j - b * B) j) st.1,
          st.2 + (min (b * B + B) N - b * B)))
      (List.range N, 0)).1
      = bs.flatMap fun b => List.range' (b * B) (min (b * B + B) N - b * B) := by
  have hflat : (bs.flatMap fun b => List.range' (b * B) (min (b * B + B) N - b * B)).Perm
      (List.range N) := by
    have h1 := List.Perm.flatMap_right
      (fun b => List.range' (b * B) (min (b * B + B) N - b * B)) hbs
    have h2 : ((List.range K).flatMap fun b =>
        List.range' (b * B) (min (b * B + B) N - b * B)) = List.range N := by
      have h3 := flatMap_blockRange N B K
      rw [Nat.min_eq_left hK] at h3
      rw [← h3]
      congr 1
      funext b
      rw [Nat.min_comm]
    rw [h2] at h1
    exact h1
  have hlen : (bs.flatMap fun b =>
      List.range' (b * B) (min (b * B + B) N - b * B)).length = N := by
    rw [hflat.length_eq, List.length_range]
  rw [blocks_write B N bs (List.range N) 0 (by rw [hlen, List.length_range]; omega)]
  simp only [List.take_zero, List.nil_append, Nat.zero_add, hlen]
  rw [List.drop_of_length_le (by rw [List.length_range]), List.append_nil]

theorem ShuffleData_blocked_eq (data : TTrainData) (permuteBlockSize : Nat)
    (rand : TRestorableFastRng64) (fold : TFold) (hB : 1 ≤ permuteBlockSize)
    (hbranch : ¬ (permuteBlockSize = 1 ∨ ¬ data.QueryId.isEmpty))
    (hfold : fold.LearnPermutation = List.range data.LearnSampleCount) :
    (ShuffleData data permuteBlockSize rand fold).1.LearnPermutation
      = (Shuffle (List.range
          ((data.LearnSampleCount + permuteBlockSize - 1) / permuteBlockSize)) rand).1.flatMap
          fun b => List.range' (b * permuteBlockSize)
            (min (b * permuteBlockSize + permuteBlockSize) data.LearnSampleCount
              - b * permuteBlockSize) := by
  unfold ShuffleData
  rw [if_neg hbranch]
  simp only
  have hlen : (Shuffle (List.range
      ((data.LearnSampleCount + permuteBlockSize - 1) / permuteBlockSize)) rand).1.length
      = (data.LearnSampleCount + permuteBlockSize - 1) / permuteBlockSize := by
    rw [Shuffle_length, List.length_range]
  have key := foldl_range_getD
    (fun (st : List Nat × Nat) b =>
      ((List.range' (b * permuteBlockSize)
          (min (b * permuteBlockSize + permuteBlockSize) data.LearnSampleCount
            - b * permuteBlockSize)).foldl
          (fun p j => p.set (st.2 + j - b * permuteBlockSize) j) st.1,
        st.2 + (min (b * permuteBlockSize + permuteBlockSize) data.LearnSampleCount
          - b * permuteBlockSize)))
    (Shuffle (List.range
      ((data.LearnSampleCount + permuteBlockSize - 1) / permuteBlockSize)) rand).1 0
    (List.range data.LearnSampleCount, 0)
  rw [hlen] at key
  rw [hfold, key]
  exact blocks_flat permuteBlockSize data.LearnSampleCount
    ((data.LearnSampleCount + permuteBlockSize - 1) / permuteBlockSize)
    (ceilDiv_mul_ge data.LearnSampleCount permuteBlockSize hB) _ (Shuffle_perm _ rand)

/-- C31. In block-shuffle mode (`permuteBlockSize = B > 1`, no query ids), on the identity
permutation of `N` documents, `ShuffleData` sets `PermutationBlockSize` to `B` and makes
`LearnPermutation` the concatenation, in the order of the shuffled block permutation
`blockedPermute`, of the blocks `b * B, ..., min((b + 1) * B, N) - 1`, each in increasing
order.  `blockedPermute` is a rearrangement of the block numbers, so every block `b` occupies
consecutive positions: the permutation is the blocks placed before `b`, then the documents of
`b`, then the blocks placed after `b`. -/
theorem ShuffleData_block_order (data : TTrainData) (B : Nat)
    (rand : TRestorableFastRng64) (fold : TFold) (hB : 1 < B) (hQ : data.QueryId = [])
    (hfold : fold.LearnPermutation = List.range data.LearnSampleCount) :
    (ShuffleData data B rand fold).1.PermutationBlockSize = (B : Int) ∧
    (Shuffle (List.range ((data.LearnSampleCount + B - 1) / B)) rand).1.Perm
      (List.range ((data.LearnSampleCount + B - 1) / B)) ∧
    (ShuffleData data B rand fold).1.LearnPermutation
      = (Shuffle (List.range ((data.LearnSampleCount + B - 1) / B)) rand).1.flatMap
          (fun b => List.range' (b * B) (min (b * B + B) data.LearnSampleCount - b * B)) ∧
    ∀ b, b < (data.LearnSampleCount + B - 1) / B →
      ∃ before after : List Nat,
        (Shuffle (List.range ((data.LearnSampleCount + B - 1) / B)) rand).1
          = before ++ b :: after ∧
        (ShuffleData data B rand fold).1.LearnPermutation
          = (before.flatMap fun c =>
              List.range' (c * B) (min (c * B + B) data.LearnSampleCount - c * B))
            ++ List.range' (b * B) (min (b * B + B) data.LearnSampleCount - b * B)
            ++ after.flatMap fun c =>
              List.range' (c * B) (min (c * B + B) data.LearnSampleCount - c * B) := by
  have hbranch : ¬ (B = 1 ∨ ¬ data.QueryId.isEmpty) := by
    rw [hQ]
    intro h
    rcases h with h | h
    · omega
    · exact h rfl
  have hperm := Shuffle_perm (List.range ((data.LearnSampleCount + B - 1) / B)) rand
  have heq := ShuffleData_blocked_eq data B rand fold (by omega) hbranch hfold
  refine ⟨?_, hperm, heq, ?_⟩
  · rw [ShuffleData_blockSize, if_neg hbranch]
  · intro b hb
    have hmem : b ∈ (Shuffle (List.range ((data.LearnSampleCount + B - 1) / B)) rand).1 :=
      hperm.symm.subset (List.mem_range.mpr hb)
    obtain ⟨before, after, hsplit⟩ := List.append_of_mem hmem
    refine ⟨before, after, hsplit, ?_⟩
    rw [heq, hsplit, List.flatMap_append, List.flatMap_cons, List.append_assoc]

theorem ShuffleData_block_order_witness :
    (1 : Nat) < 3 ∧ Example.data.QueryId = [] ∧
    (ShuffleData Example.data 3 Example.alternate
      { Example.fold with LearnPermutation := List.range 10 }).1.LearnPermutation
      = (Shuffle (List.range ((Example.data.LearnSampleCount + 3 - 1) / 3))
          Example.alternate).1.flatMap
          (fun b => List.range' (b * 3) (min (b * 3 + 3) Example.data.LearnSampleCount
            - b * 3)) :=
  ⟨by decide, rfl,
    (ShuffleData_block_order Example.data 3 Example.alternate
      { Example.fold with LearnPermutation := List.range 10 } (by decide) rfl rfl).2.2.1⟩

/-- The block shuffle of the ten example documents in blocks of three with alternating
draws: the block order is 3, 0, 2, 1, and the short block 3 (the document 9) stands
first. -/
theorem ShuffleData_block_order_example :
    (Shuffle (List.range ((Example.data.LearnSampleCount + 3 - 1) / 3)) Example.alternate).1
      = [3, 0, 2, 1] ∧
    (ShuffleData Example.data 3 Example.alternate
      { Example.fold with LearnPermutation := List.range 10 }).1.LearnPermutation
      = [9, 0, 1, 2, 6, 7, 8, 3, 4, 5] := by
  decide

/-! ## The end of the tail -/

/-- C32. Without query ids, every body-tail of a fold that `BuildDynamicFold` returns, for
any multiplier, has `TailFinish = min(ceil(p), N)`, where `p` is the product
`BodyFinish * multiplier` rounded to a double, as the `double` multiplication of the code
delivers it; the equation is one of integers.  For `N >= 1` learn documents and a multiplier
that is a double above one with `N * multiplier` not above the largest `int`,
`BuildDynamicFold` returns a fold, given `N` iterations of fuel. -/
theorem BuildDynamicFold_tailFinish (exp : ℚ → ℚ) (fuel : Nat) (data : TTrainData)
    (shuffle : Bool) (permuteBlockSize approxDimension : Nat) (multiplier : ℚ)
    (storeExpApproxes : Bool) (rand : TRestorableFastRng64)
    (hN : 1 ≤ data.LearnSampleCount) (hQ : data.QueryId = []) :
    (∀ ff rand2,
      BuildDynamicFold exp fuel data shuffle permuteBlockSize approxDimension multiplier
        storeExpApproxes rand = some (ff, rand2) →
      ∀ bt ∈ ff.BodyTailArr,
        (bt.TailFinish : Int)
          = min (Int.ceil (RoundToDouble ((bt.BodyFinish : ℚ) * multiplier)))
              (data.LearnSampleCount : Int)) ∧
    (1 < multiplier → RoundToDouble multiplier = multiplier →
      (data.LearnSampleCount : ℚ) * multiplier ≤ 2147483647 →
      data.LearnSampleCount ≤ fuel →
      ∃ ff rand2,
        BuildDynamicFold exp fuel data shuffle permuteBlockSize approxDimension multiplier
          storeExpApproxes rand = some (ff, rand2) ∧ ff.BodyTailArr ≠ []) := by
  have hq := queryEndInfo_noQueries data shuffle
    (BuildFoldPermutation data shuffle permuteBlockSize rand).1 hQ
  refine ⟨?_, ?_⟩
  · intro ff rand2 h
    obtain ⟨Ws, e, -, -, hsel, -⟩ := BuildDynamicFold_sound exp fuel data shuffle
      permuteBlockSize approxDimension multiplier storeExpApproxes rand ff rand2 h
    rw [e]
    intro bt hbt
    simp only [List.mem_map] at hbt
    obtain ⟨x, hx, rfl⟩ := hbt
    have hs := hsel x hx
    rw [hq] at hs
    rw [(bodyTail_finish _ _ _ _ _ _ _ _).1, (bodyTail_finish _ _ _ _ _ _ _ _).2]
    exact SelectTailSize_noQueries x.1 data.LearnSampleCount multiplier x.2 hs
  · intro hm hD hR hfuel
    obtain ⟨ff, rand2, h⟩ := BuildDynamicFold_returns exp fuel data shuffle permuteBlockSize
      approxDimension multiplier storeExpApproxes rand hN hm hD hR hfuel (Or.inl hq)
    obtain ⟨Ws, e, -, hne, -⟩ := BuildDynamicFold_sound exp fuel data shuffle
      permuteBlockSize approxDimension multiplier storeExpApproxes rand ff rand2 h
    refine ⟨ff, rand2, h, ?_⟩
    rw [e]
    simp only [ne_eq, List.map_eq_nil_iff]
    exact hne

theorem BuildDynamicFold_tailFinish_witness :
    1 ≤ Example.data.LearnSampleCount ∧ Example.data.QueryId = [] ∧ 1 < Example.two ∧
    RoundToDouble Example.two = Example.two ∧
    (Example.data.LearnSampleCount : ℚ) * Example.two ≤ 2147483647 ∧
    Example.data.LearnSampleCount ≤ 10 ∧
    ∃ ff rand2,
      BuildDynamicFold id 10 Example.data false 1 1 Example.two false Example.rand
        = some (ff, rand2) ∧ ff.BodyTailArr ≠ [] ∧
      ∀ bt ∈ ff.BodyTailArr,
        (bt.TailFinish : Int)
          = min (Int.ceil (RoundToDouble ((bt.BodyFinish : ℚ) * Example.two))) 10 :=
  ⟨by decide, rfl, by decide, RoundToDouble_two, Example.range_two, by decide,
    ((BuildDynamicFold_tailFinish id 10 Example.data false 1 1 Example.two false Example.rand
      (by decide) rfl).2 (by decide) RoundToDouble_two Example.range_two (by decide)).imp
      fun ff h => h.imp fun rand2 h2 =>
        ⟨h2.1, h2.2, fun bt hbt =>
          (BuildDynamicFold_tailFinish id 10 Example.data false 1 1 Example.two false
            Example.rand (by decide) rfl).1 ff rand2 h2.1 bt hbt⟩⟩

/-- The multiplier 1.3 is, as a double, the number `5854679515581645 * 2 ^ (-52)`, a little
above 1.3.  For 510 learn documents the first body-tail of the fold that `BuildDynamicFold`
returns has `BodyFinish = 10` and `TailFinish = 13`: the product of 10 and the multiplier
is rounded to the double 13.  The exact product is above 13, and the `ceil` of it is
14. -/
theorem BuildDynamicFold_tailFinish_rounded :
    1 < Example.thirteenTenths ∧
    RoundToDouble Example.thirteenTenths = Example.thirteenTenths ∧
    Example.wide.LearnSampleCount = 510 ∧ Example.wide.QueryId = [] ∧
    ∃ (ff : TFold) (rand2 : TRestorableFastRng64) (bt : TFold.TBodyTail)
        (rest : List TFold.TBodyTail),
      BuildDynamicFold id 510 Example.wide false 1 1 Example.thirteenTenths false
        Example.rand = some (ff, rand2) ∧
      ff.BodyTailArr = bt :: rest ∧
      bt.BodyFinish = 10 ∧ bt.TailFinish = 13 ∧
      min (Int.ceil ((bt.BodyFinish : ℚ) * Example.thirteenTenths))
        (Example.wide.LearnSampleCount : Int) = 14 := by
  have hm : 1 < Example.thirteenTenths := by
    unfold Example.thirteenTenths
    norm_num
  have hR : (Example.wide.LearnSampleCount : ℚ) * Example.thirteenTenths ≤ 2147483647 := by
    show ((510 : Nat) : ℚ) * Example.thirteenTenths ≤ 2147483647
    unfold Example.thirteenTenths
    norm_num
  have hq : BuildDynamicFold.queryEndInfo Example.wide false
      (BuildFoldPermutation Example.wide false 1 Example.rand).1 = [] :=
    queryEndInfo_noQueries Example.wide false _ rfl
  refine ⟨hm, RoundToDouble_thirteenTenths, rfl, rfl, ?_⟩
  obtain ⟨ff, rand2, h⟩ := BuildDynamicFold_returns id 510 Example.wide false 1 1
    Example.thirteenTenths false Example.rand (by decide) hm RoundToDouble_thirteenTenths
    hR (by decide) (Or.inl hq)
  obtain ⟨Ws, e, -, hne, hsel, -, hhead, -⟩ := BuildDynamicFold_sound id 510 Example.wide
    false 1 1 Example.thirteenTenths false Example.rand ff rand2 h
  cases Ws with
  | nil => exact absurd rfl hne
  | cons w t =>
    have hw1 : w.1 = 10 := by
      rw [hhead w rfl, hq]
      decide
    have hw2 : w.2 = 13 := by
      have hs := hsel w (List.mem_cons_self _ _)
      rw [hw1, hq] at hs
      have h13 : SelectTailSize 10 Example.thirteenTenths [] Example.wide.LearnSampleCount
          = some 13 := SelectTailSize_ten_thirteenTenths
      rw [h13] at hs
      simp only [Option.some.injEq] at hs
      omega
    refine ⟨ff, rand2, _, _, h, by rw [e]; rfl, ?_, ?_, ?_⟩
    · rw [(bodyTail_finish _ _ _ _ _ _ _ _).1]
      exact hw1
    · rw [(bodyTail_finish _ _ _ _ _ _ _ _).2]
      exact hw2
    · rw [(bodyTail_finish _ _ _ _ _ _ _ _).1, hw1]
      have hc : Int.ceil (((10 : Nat) : ℚ) * Example.thirteenTenths) = 14 := by
        rw [Int.ceil_eq_iff]
        unfold Example.thirteenTenths
        norm_num
      rw [hc]
      decide

/-! ## The minimum batch size -/

theorem sum_range_succ_map (len : Nat → Nat) (n : Nat) :
    ((List.range (n + 1)).map len).sum = ((List.range n).map len).sum + len n := by
  rw [List.range_succ, List.map_append, List.sum_append]
  simp

theorem sum_range_mono (len : Nat → Nat) (k n : Nat) (h : k ≤ n) :
    ((List.range k).map len).sum ≤ ((List.range n).map len).sum := by
  induction n with
  | zero =>
    have hk : k = 0 := by omega
    rw [hk]
  | succ n ih =>
    by_cases hk : k = n + 1
    · rw [hk]
    · have := ih (by omega)
      rw [sum_range_succ_map]
      omega

theorem flatMap_replicate_length {α : Type} (len : Nat → Nat) (v : Nat → α) (n : Nat) :
    ((List.range n).flatMap fun j => List.replicate (len j) (v j)).length
      = ((List.range n).map len).sum := by
  induction n with
  | zero => rfl
  | succ n ih =>
    rw [sum_range_succ_map, List.range_succ, List.flatMap_append, List.length_append, ih]
    simp

/-- The element of a concatenation of runs at the position `r` of run `k`. -/
theorem flatMap_replicate_getElem? {α : Type} (len : Nat → Nat) (v : Nat → α) (n k r : Nat)
    (hk : k < n) (hr : r < len k) :
    ((List.range n).flatMap fun j => List.replicate (len j) (v j))[
        ((List.range k).map len).sum + r]? = some (v k) := by
  induction n with
  | zero => omega
  | succ n ih =>
    rw [List.range_succ, List.flatMap_append]
    by_cases hkn : k = n
    · subst hkn
      rw [List.getElem?_append_right (by rw [flatMap_replicate_length]; omega),
        flatMap_replicate_length, Nat.add_sub_cancel_left]
      simp [hr]
    · have hlt : ((List.range k).map len).sum + r
          < ((List.range n).flatMap fun j => List.replicate (len j) (v j)).length := by
        rw [flatMap_replicate_length]
        have h1 := sum_range_mono len (k + 1) n (by omega)
        rw [sum_range_succ_map] at h1
        omega
      rw [List.getElem?_append_left hlt]
      exact ih (by omega)

/-- In query groups that tile the positions from 0 on, a group begins where the lengths of
the groups before it add up to. -/
theorem tiling_begin (queriesInfo : List TQueryInfo)
    (h0 : (queriesInfo.getD 0 default).Begin = 0)
    (hnext : ∀ j, j + 1 < queriesInfo.length →
      (queriesInfo.getD j default).End = (queriesInfo.getD (j + 1) default).Begin)
    (hle : ∀ j, j < queriesInfo.length →
      (queriesInfo.getD j default).Begin ≤ (queriesInfo.getD j default).End) :
    ∀ k, k < queriesInfo.length →
      ((List.range k).map fun j =>
        (queriesInfo.getD j default).End - (queriesInfo.getD j default).Begin).sum
        = (queriesInfo.getD k default).Begin := by
  intro k
  induction k with
  | zero =>
    intro _
    rw [h0]
    rfl
  | succ k ih =>
    intro hk
    rw [sum_range_succ_map, ih (by omega), ← hnext k hk]
    have := hle k (by omega)
    omega

/-- The entry of `GetQueryEndInfo` at a position of the group `k`, for query groups that
tile the positions from 0 on: the end and the index of the group. -/
theorem GetQueryEndInfo_getElem? (queriesInfo : List TQueryInfo) (learnSampleCount : Nat)
    (h0 : (queriesInfo.getD 0 default).Begin = 0)
    (hnext : ∀ j, j + 1 < queriesInfo.length →
      (queriesInfo.getD j default).End = (queriesInfo.getD (j + 1) default).Begin)
    (hle : ∀ j, j < queriesInfo.length →
      (queriesInfo.getD j default).Begin ≤ (queriesInfo.getD j default).End)
    (k p : Nat) (hk : k < queriesInfo.length)
    (hp1 : (queriesInfo.getD k default).Begin ≤ p)
    (hp2 : p < (queriesInfo.getD k default).End) :
    (GetQueryEndInfo queriesInfo learnSampleCount)[p]?
      = some { QueryEnd := (queriesInfo.getD k default).End, QueryIndex := k } := by
  have h := flatMap_replicate_getElem?
    (fun j => (queriesInfo.getD j default).End - (queriesInfo.getD j default).Begin)
    (fun j => ({ QueryEnd := (queriesInfo.getD j default).End, QueryIndex := j } :
      TQueryEndInfo))
    queriesInfo.length k (p - (queriesInfo.getD k default).Begin) hk (by simp only; omega)
  rw [tiling_begin queriesInfo h0 hnext hle k hk, Nat.add_sub_cancel' hp1] at h
  exact h

theorem SelectMinBatchSize_noQueries (N : Nat) (hN : 1 ≤ N) :
    SelectMinBatchSize N [] = (if N > 500 then min 100 (N / 50) else 1) := by
  unfold SelectMinBatchSize
  simp only
  rw [UpdateSize_noQueries]
  split <;> omega

theorem SelectMinBatchSize_queries (N : Nat) (hN : 1 ≤ N) (queryEndInfo : List TQueryEndInfo)
    (hne : queryEndInfo ≠ []) :
    SelectMinBatchSize N queryEndInfo
      = (queryEndInfo.getD ((if N > 500 then min 100 (N / 50) else 1) - 1) default).QueryEnd := by
  unfold SelectMinBatchSize UpdateSize
  simp only
  have he : ¬ queryEndInfo.isEmpty = true := by
    intro h
    exact hne (List.isEmpty_iff.mp h)
  rw [if_pos he]
  have hmin : min (if N > 500 then min 100 (N / 50) else 1) N
      = (if N > 500 then min 100 (N / 50) else 1) := by
    split <;> omega
  rw [hmin]

/-- The first body-tail of a fold that `BuildDynamicFold` returns starts at the minimum
batch size. -/
theorem BuildDynamicFold_first (exp : ℚ → ℚ) (fuel : Nat) (data : TTrainData)
    (shuffle : Bool) (permuteBlockSize approxDimension : Nat) (multiplier : ℚ)
    (storeExpApproxes : Bool) (rand : TRestorableFastRng64) (ff : TFold)
    (rand2 : TRestorableFastRng64)
    (h : BuildDynamicFold exp fuel data shuffle permuteBlockSize approxDimension multiplier
      storeExpApproxes rand = some (ff, rand2)) :
    ∃ (bt : TFold.TBodyTail) (rest : List TFold.TBodyTail),
      ff.BodyTailArr = bt :: rest ∧
      bt.BodyFinish = SelectMinBatchSize data.LearnSampleCount
        (BuildDynamicFold.queryEndInfo data shuffle
          (BuildFoldPermutation data shuffle permuteBlockSize rand).1) := by
  obtain ⟨Ws, e, -, hne, -, -, hhead, -⟩ := BuildDynamicFold_sound exp fuel data shuffle
    permuteBlockSize approxDimension multiplier storeExpApproxes rand ff rand2 h
  cases Ws with
  | nil => exact absurd rfl hne
  | cons w t =>
    refine ⟨_, _, by rw [e]; rfl, ?_⟩
    rw [(bodyTail_finish _ _ _ _ _ _ _ _).1]
    exact hhead w rfl

/-- C33. For `N >= 1` learn documents without query groups the minimum batch size is
`min(100, N / 50)` (integer division) when `N > 500` and 1 otherwise, and it lies in
`[1, N]`.  With query groups that tile the positions from 0 on, it is the end of the group
that holds the position `size - 1`, where `size` is the value without groups.  The first
body-tail of every fold that `BuildDynamicFold` returns has the minimum batch size as its
`BodyFinish`; `BuildDynamicFold` returns a fold, given `N` iterations of fuel, for a
multiplier that is a double above one with `N * multiplier` not above the largest `int`. -/
theorem SelectMinBatchSize_spec (exp : ℚ → ℚ) (fuel : Nat) (data : TTrainData)
    (shuffle : Bool) (permuteBlockSize approxDimension : Nat) (multiplier : ℚ)
    (storeExpApproxes : Bool) (rand : TRestorableFastRng64)
    (hN : 1 ≤ data.LearnSampleCount) :
    SelectMinBatchSize data.LearnSampleCount []
      = (if data.LearnSampleCount > 500 then min 100 (data.LearnSampleCount / 50) else 1) ∧
    1 ≤ SelectMinBatchSize data.LearnSampleCount [] ∧
    SelectMinBatchSize data.LearnSampleCount [] ≤ data.LearnSampleCount ∧
    (∀ (queriesInfo : List TQueryInfo) (k : Nat),
      (queriesInfo.getD 0 default).Begin = 0 →
      (∀ j, j + 1 < queriesInfo.length →
        (queriesInfo.getD j default).End = (queriesInfo.getD (j + 1) default).Begin) →
      (∀ j, j < queriesInfo.length →
        (queriesInfo.getD j default).Begin ≤ (queriesInfo.getD j default).End) →
      k < queriesInfo.length →
      (queriesInfo.getD k default).Begin
        ≤ SelectMinBatchSize data.LearnSampleCount [] - 1 →
      SelectMinBatchSize data.LearnSampleCount [] - 1 < (queriesInfo.getD k default).End →
      SelectMinBatchSize data.LearnSampleCount
          (GetQueryEndInfo queriesInfo data.LearnSampleCount)
        = (queriesInfo.getD k default).End) ∧
    (∀ (ff : TFold) (rand2 : TRestorableFastRng64),
      BuildDynamicFold exp fuel data shuffle permuteBlockSize approxDimension multiplier
        storeExpApproxes rand = some (ff, rand2) →
      ∃ (bt : TFold.TBodyTail) (rest : List TFold.TBodyTail),
        ff.BodyTailArr = bt :: rest ∧
        bt.BodyFinish = SelectMinBatchSize data.LearnSampleCount
          (BuildDynamicFold.queryEndInfo data shuffle
            (BuildFoldPermutation data shuffle permuteBlockSize rand).1)) ∧
    (1 < multiplier → RoundToDouble multiplier = multiplier →
      (data.LearnSampleCount : ℚ) * multiplier ≤ 2147483647 →
      data.LearnSampleCount ≤ fuel →
      (BuildDynamicFold.queryEndInfo data shuffle
          (BuildFoldPermutation data shuffle permuteBlockSize rand).1 = [] ∨
        ∀ i, i < data.LearnSampleCount →
          i < ((BuildDynamicFold.queryEndInfo data shuffle
            (BuildFoldPermutation data shuffle permuteBlockSize rand).1).getD i
              default).QueryEnd ∧
          ((BuildDynamicFold.queryEndInfo data shuffle
            (BuildFoldPermutation data shuffle permuteBlockSize rand).1).getD i
              default).QueryEnd ≤ data.LearnSampleCount) →
      ∃ (ff : TFold) (rand2 : TRestorableFastRng64) (bt : TFold.TBodyTail)
          (rest : List TFold.TBodyTail),
        BuildDynamicFold exp fuel data shuffle permuteBlockSize approxDimension multiplier
          storeExpApproxes rand = some (ff, rand2) ∧
        ff.BodyTailArr = bt :: rest ∧
        bt.BodyFinish = SelectMinBatchSize data.LearnSampleCount
          (BuildDynamicFold.queryEndInfo data shuffle
            (BuildFoldPermutation data shuffle permuteBlockSize rand).1)) := by
  have hv := SelectMinBatchSize_noQueries data.LearnSampleCount hN
  have hb := SelectMinBatchSize_bounds data.LearnSampleCount [] hN (Or.inl rfl)
  refine ⟨hv, hb.1, hb.2, ?_, ?_, ?_⟩
  · intro queriesInfo k h0 hnext hle hk hp1 hp2
    have hget := GetQueryEndInfo_getElem? queriesInfo data.LearnSampleCount h0 hnext hle k
      (SelectMinBatchSize data.LearnSampleCount [] - 1) hk hp1 hp2
    have hne : GetQueryEndInfo queriesInfo data.LearnSampleCount ≠ [] := by
      intro h
      rw [h] at hget
      cases hget
    rw [SelectMinBatchSize_queries data.LearnSampleCount hN _ hne, ← hv,
      List.getD_eq_getElem?_getD, hget]
    rfl
  · intro ff rand2 h
    exact BuildDynamicFold_first exp fuel data shuffle permuteBlockSize approxDimension
      multiplier storeExpApproxes rand ff rand2 h
  · intro hm hD hR hfuel hq
    obtain ⟨ff, rand2, h⟩ := BuildDynamicFold_returns exp fuel data shuffle permuteBlockSize
      approxDimension multiplier storeExpApproxes rand hN hm hD hR hfuel hq
    obtain ⟨bt, rest, h1, h2⟩ := BuildDynamicFold_first exp fuel data shuffle
      permuteBlockSize approxDimension multiplier storeExpApproxes rand ff rand2 h
    exact ⟨ff, rand2, bt, rest, h, h1, h2⟩

theorem SelectMinBatchSize_spec_witness :
    1 ≤ Example.data.LearnSampleCount ∧
    SelectMinBatchSize Example.data.LearnSampleCount []
      = (if Example.data.LearnSampleCount > 500 then
          min 100 (Example.data.LearnSampleCount / 50) else 1) ∧
    1 ≤ SelectMinBatchSize Example.data.LearnSampleCount [] :=
  ⟨by decide,
    (SelectMinBatchSize_spec id 10 Example.data false 1 1 Example.two false Example.rand
      (by decide)).1,
    (SelectMinBatchSize_spec id 10 Example.data false 1 1 Example.two false Example.rand
      (by decide)).2.1⟩

/-- The minimum batch size for 600, 5000 and 6000 documents without query groups, and for
ten documents in the query groups `[0, 4)` and `[4, 10)`. -/
theorem SelectMinBatchSize_examples :
    SelectMinBatchSize 600 [] = 12 ∧ SelectMinBatchSize 5000 [] = 100 ∧
    SelectMinBatchSize 6000 [] = 100 ∧ SelectMinBatchSize 500 [] = 1 ∧
    SelectMinBatchSize 10 (GetQueryEndInfo [⟨0, 4⟩, ⟨4, 10⟩] 10) = 4 := by
  decide

/-! ## The end of the loop -/

theorem length_le_of_increasing (Ls : List Nat) (N : Nat) (hinc : Ls.Pairwise (· < ·))
    (hmem : ∀ x ∈ Ls, 1 ≤ x ∧ x ≤ N) : Ls.length ≤ N := by
  have hnd : Ls.Nodup := hinc.imp (fun h => Nat.ne_of_lt h)
  have hsub : Ls ⊆ List.range' 1 N := by
    intro x hx
    rw [List.mem_range'_1]
    have := hmem x hx
    omega
  have h := (List.subperm_of_subset hnd hsub).length_le
  rw [List.length_range'] at h
  exact h

theorem map_BodyFinish_bodyTail (exp : ℚ → ℚ) (data : TTrainData) (approxDimension : Nat)
    (storeExpApproxes : Bool) (invertPermutation : List Nat) (ff : TFold)
    (Ws : List (Nat × Nat)) :
    (Ws.map fun w => BuildDynamicFold.bodyTail exp data approxDimension storeExpApproxes
      invertPermutation ff w.1 w.2).map TFold.TBodyTail.BodyFinish = Ws.map Prod.fst := by
  rw [List.map_map]
  apply List.map_congr_left
  intro x _
  exact (bodyTail_finish exp data approxDimension storeExpApproxes invertPermutation ff x.1
    x.2).1

/-- An iteration of the loop of `BuildDynamicFold` for which `SelectTailSize` has no
defined result returns no fold. -/
theorem loop_undefined (exp : ℚ → ℚ) (data : TTrainData) (approxDimension : Nat)
    (multiplier : ℚ) (storeExpApproxes : Bool) (queryEndInfo : List TQueryEndInfo)
    (invertPermutation : List Nat) (fuel : Nat) (ff : TFold) (L : Nat)
    (hc : ff.BodyTailArr.isEmpty = true ∨ L < data.LearnSampleCount)
    (hT : SelectTailSize L multiplier queryEndInfo data.LearnSampleCount = none) :
    BuildDynamicFold.loop exp data approxDimension multiplier storeExpApproxes queryEndInfo
      invertPermutation fuel ff L = none := by
  cases fuel with
  | zero =>
    rw [BuildDynamicFold.loop]
    split
    · rfl
    · rename_i h
      exact absurd hc h
  | succ fuel =>
    rw [BuildDynamicFold.loop, if_pos hc, hT]

/-- C34. For `N >= 1` learn documents without query ids and a multiplier that is a double
above one with `N * multiplier` not above the largest `int`, the window-growing loop of
`BuildDynamicFold` ends: there is one fold that `BuildDynamicFold` returns for every amount
of fuel from `N` on.  Its body boundaries `BodyFinish` lie in `[1, N]` and increase strictly
from every body-tail to the next, so it has at least one and at most `N` body-tails. -/
theorem BuildDynamicFold_terminates (exp : ℚ → ℚ) (data : TTrainData)
    (shuffle : Bool) (permuteBlockSize approxDimension : Nat) (multiplier : ℚ)
    (storeExpApproxes : Bool) (rand : TRestorableFastRng64)
    (hN : 1 ≤ data.LearnSampleCount) (hm : 1 < multiplier)
    (hD : RoundToDouble multiplier = multiplier)
    (hR : (data.LearnSampleCount : ℚ) * multiplier ≤ 2147483647)
    (hQ : data.QueryId = []) :
    ∃ (ff : TFold) (rand2 : TRestorableFastRng64),
      (∀ fuel, data.LearnSampleCount ≤ fuel →
        BuildDynamicFold exp fuel data shuffle permuteBlockSize approxDimension multiplier
          storeExpApproxes rand = some (ff, rand2)) ∧
      ff.BodyTailArr ≠ [] ∧
      ff.BodyTailArr.length ≤ data.LearnSampleCount ∧
      (∀ bt ∈ ff.BodyTailArr, 1 ≤ bt.BodyFinish ∧ bt.BodyFinish ≤ data.LearnSampleCount) ∧
      (ff.BodyTailArr.map TFold.TBodyTail.BodyFinish).Pairwise (· < ·) := by
  have hq := queryEndInfo_noQueries data shuffle
    (BuildFoldPermutation data shuffle permuteBlockSize rand).1 hQ
  obtain ⟨ff, rand2, h⟩ := BuildDynamicFold_returns exp data.LearnSampleCount data shuffle
    permuteBlockSize approxDimension multiplier storeExpApproxes rand hN hm hD hR
    (le_refl _) (Or.inl hq)
  obtain ⟨Ws, e, -, hne, hsel, hchain, hhead, -⟩ := BuildDynamicFold_sound exp
    data.LearnSampleCount data shuffle permuteBlockSize approxDimension multiplier
    storeExpApproxes rand ff rand2 h
  obtain ⟨hall, hinc⟩ := BuildDynamicFold_windows_bounds data multiplier _ Ws hN
    (double_above_one multiplier hD hm) (Or.inl hq) hsel hchain hhead
  have hinc1 : (Ws.map Prod.fst).Pairwise (· < ·) := by
    rw [← List.chain'_iff_pairwise, List.chain'_map]
    exact hinc.imp (fun _ _ h => h.1)
  have hmem1 : ∀ x ∈ Ws.map Prod.fst, 1 ≤ x ∧ x ≤ data.LearnSampleCount := by
    intro x hx
    simp only [List.mem_map] at hx
    obtain ⟨w, hw, rfl⟩ := hx
    have := hall w hw
    omega
  refine ⟨ff, rand2, ?_, ?_, ?_, ?_, ?_⟩
  · intro fuel hfuel
    have h2 := BuildDynamicFold_fuel_mono exp data.LearnSampleCount data shuffle
      permuteBlockSize approxDimension multiplier storeExpApproxes rand _ h
      (fuel - data.LearnSampleCount)
    rw [Nat.add_sub_cancel' hfuel] at h2
    exact h2
  · rw [e]
    simp only [ne_eq, List.map_eq_nil_iff]
    exact hne
  · rw [e]
    simp only [List.length_map]
    have := length_le_of_increasing (Ws.map Prod.fst) data.LearnSampleCount hinc1 hmem1
    rw [List.length_map] at this
    exact this
  · rw [e]
    intro bt hbt
    simp only [List.mem_map] at hbt
    obtain ⟨x, hx, rfl⟩ := hbt
    rw [(bodyTail_finish exp data approxDimension storeExpApproxes _ _ x.1 x.2).1]
    have := hall x hx
    omega
  · rw [e]
    simp only
    rw [map_BodyFinish_bodyTail]
    exact hinc1

theorem BuildDynamicFold_terminates_witness :
    1 ≤ Example.data.LearnSampleCount ∧ 1 < Example.two ∧
    RoundToDouble Example.two = Example.two ∧
    (Example.data.LearnSampleCount : ℚ) * Example.two ≤ 2147483647 ∧
    Example.data.QueryId = [] ∧
    ∃ (ff : TFold) (rand2 : TRestorableFastRng64),
      (∀ fuel, 10 ≤ fuel →
        BuildDynamicFold id fuel Example.data false 1 1 Example.two false Example.rand
          = some (ff, rand2)) ∧
      ff.BodyTailArr.length ≤ 10 :=
  ⟨by decide, by decide, RoundToDouble_two, Example.range_two, rfl,
    (BuildDynamicFold_terminates id Example.data false 1 1 Example.two false Example.rand
      (by decide) (by decide) RoundToDouble_two Example.range_two rfl).imp
      fun _ h => h.imp fun _ h2 => ⟨h2.1, h2.2.2.1⟩⟩

/-- The multiplier `2 ^ 31` is a double above one.  For the ten example documents the first
body starts at 1, the product of 1 and the multiplier is `2 ^ 31`, which is not an `int`, so
the conversion `int size = ceil(...)` of `SelectTailSize` has no defined result, and
`BuildDynamicFold` returns no fold, whatever the fuel. -/
theorem BuildDynamicFold_conversion_undefined :
    1 ≤ Example.data.LearnSampleCount ∧ Example.data.QueryId = [] ∧
    1 < Example.huge ∧ RoundToDouble Example.huge = Example.huge ∧
    SelectMinBatchSize Example.data.LearnSampleCount [] = 1 ∧
    Int.ceil (RoundToDouble (((1 : Nat) : ℚ) * Example.huge)) = 2147483648 ∧
    SelectTailSize 1 Example.huge [] Example.data.LearnSampleCount = none ∧
    ∀ fuel, BuildDynamicFold id fuel Example.data false 1 1 Example.huge false Example.rand
      = none := by
  have hm : 1 < Example.huge := by
    unfold Example.huge
    norm_num
  have hq : BuildDynamicFold.queryEndInfo Example.data false
      (BuildFoldPermutation Example.data false 1 Example.rand).1 = [] :=
    queryEndInfo_noQueries Example.data false _ rfl
  have hc : Int.ceil (RoundToDouble (((1 : Nat) : ℚ) * Example.huge)) = 2147483648 := by
    have hx : ((1 : Nat) : ℚ) * Example.huge = ((2147483648 : Nat) : ℚ) := by
      unfold Example.huge
      norm_num
    rw [hx, RoundToDouble_natCast _ (by norm_num)]
    simp
  refine ⟨by decide, rfl, hm, RoundToDouble_huge, by decide, hc,
    SelectTailSize_one_huge _ _, ?_⟩
  intro fuel
  unfold BuildDynamicFold
  simp only
  rw [hq]
  have hS : SelectMinBatchSize Example.data.LearnSampleCount [] = 1 := by decide
  rw [hS, loop_undefined id Example.data 1 Example.huge false [] _ fuel _ 1
    (Or.inl (by rw [BuildFoldPermutation_bodyTails]; rfl)) (SelectTailSize_one_huge _ _)]
  rfl

/-! ## The inverse permutation -/

theorem InvertPermutation_run (f : Nat → Nat) (len : Nat) :
    ∀ n (init : List Nat), init.length = len →
      (∀ i j, i < n → j < n → f i = f j → i = j) → (∀ i, i < n → f i < len) →
      ((List.range n).foldl (fun result i => result.set (f i) i) init).length = len ∧
      ∀ i, i < n →
        ((List.range n).foldl (fun result i => result.set (f i) i) init).getD (f i) 0 = i := by
  intro n
  induction n with
  | zero =>
    intro init hlen _ _
    exact ⟨hlen, fun i hi => absurd hi (Nat.not_lt_zero i)⟩
  | succ n ih =>
    intro init hlen hinj hlt
    obtain ⟨h1, h2⟩ := ih init hlen
      (fun i j hi hj h => hinj i j (by omega) (by omega) h) (fun i hi => hlt i (by omega))
    rw [List.range_succ, List.foldl_append]
    simp only [List.foldl_cons, List.foldl_nil]
    refine ⟨by rw [List.length_set]; exact h1, ?_⟩
    intro i hi
    by_cases hin : i = n
    · subst hin
      exact getD_set_self_of_lt _ _ _ _ (by rw [h1]; exact hlt i (by omega))
    · have hne : f n ≠ f i := fun h => hin (hinj n i (by omega) hi h).symm
      rw [getD_set_of_ne _ _ _ _ _ hne]
      exact h2 i (by omega)

theorem InvertPermutation_getD (p : List Nat)
    (hinj : ∀ i j, i < p.length → j < p.length → p.getD i 0 = p.getD j 0 → i = j)
    (hlt : ∀ i, i < p.length → p.getD i 0 < p.length) :
    (InvertPermutation p).length = p.length ∧
    ∀ i, i < p.length → (InvertPermutation p).getD (p.getD i 0) 0 = i :=
  InvertPermutation_run (fun i => p.getD i 0) p.length p.length
    (List.replicate p.length 0) (List.length_replicate _ _) hinj hlt

theorem perm_range_facts (p : List Nat) (hp : p.Perm (List.range p.length)) :
    (∀ i j, i < p.length → j < p.length → p.getD i 0 = p.getD j 0 → i = j) ∧
    (∀ i, i < p.length → p.getD i 0 < p.length) ∧
    (∀ j, j < p.length → ∃ i, i < p.length ∧ p.getD i 0 = j) := by
  have hnd : p.Nodup := hp.nodup_iff.mpr (List.nodup_range _)
  refine ⟨?_, ?_, ?_⟩
  · intro i j hi hj h
    rw [List.getD_eq_getElem p 0 hi, List.getD_eq_getElem p 0 hj] at h
    exact (List.Nodup.getElem_inj_iff hnd).mp h
  · intro i hi
    rw [List.getD_eq_getElem p 0 hi]
    exact List.mem_range.mp (hp.subset (List.getElem_mem hi))
  · intro j hj
    have hmem : j ∈ p := hp.symm.subset (List.mem_range.mpr hj)
    obtain ⟨i, hi, he⟩ := List.getElem_of_mem hmem
    exact ⟨i, hi, by rw [List.getD_eq_getElem p 0 hi]; exact he⟩

/-- C35. For every bijection `p` on `[0, n)`, given as a list that is a rearrangement of
`0, ..., n - 1`, `InvertPermutation(p)` has `n` elements, `InvertPermutation(p)[p[i]] = i`
and `p[InvertPermutation(p)[j]] = j` for all `i, j < n`, and
`InvertPermutation(InvertPermutation(p)) = p`. -/
theorem InvertPermutation_inverse (p : List Nat) (hp : p.Perm (List.range p.length)) :
    (InvertPermutation p).length = p.length ∧
    (∀ i, i < p.length → (InvertPermutation p).getD (p.getD i 0) 0 = i) ∧
    (∀ j, j < p.length → p.getD ((InvertPermutation p).getD j 0) 0 = j) ∧
    InvertPermutation (InvertPermutation p) = p := by
  obtain ⟨hinj, hlt, hsurj⟩ := perm_range_facts p hp
  obtain ⟨hlen, hleft⟩ := InvertPermutation_getD p hinj hlt
  have hright : ∀ j, j < p.length → p.getD ((InvertPermutation p).getD j 0) 0 = j := by
    intro j hj
    obtain ⟨i, hi, he⟩ := hsurj j hj
    rw [← he, hleft i hi]
  refine ⟨hlen, hleft, hright, ?_⟩
  have hinj2 : ∀ i j, i < (InvertPermutation p).length → j < (InvertPermutation p).length →
      (InvertPermutation p).getD i 0 = (InvertPermutation p).getD j 0 → i = j := by
    intro i j hi hj h
    rw [hlen] at hi hj
    rw [← hright i hi, ← hright j hj, h]
  have hlt2 : ∀ i, i < (InvertPermutation p).length →
      (InvertPermutation p).getD i 0 < (InvertPermutation p).length := by
    intro j hj
    rw [hlen] at hj ⊢
    obtain ⟨i, hi, he⟩ := hsurj j hj
    rw [← he, hleft i hi]
    exact hi
  obtain ⟨hlen2, hleft2⟩ := InvertPermutation_getD (InvertPermutation p) hinj2 hlt2
  apply List.ext_getElem?
  intro i
  by_cases hi : i < p.length
  · have h1 := hleft2 (p.getD i 0) (by rw [hlen]; exact hlt i hi)
    rw [hleft i hi] at h1
    rw [List.getD_eq_getElem _ 0 (by rw [hlen2, hlen]; exact hi)] at h1
    rw [List.getElem?_eq_getElem (by rw [hlen2, hlen]; exact hi),
      List.getElem?_eq_getElem hi, h1, List.getD_eq_getElem p 0 hi]
  · rw [List.getElem?_eq_none (by rw [hlen2, hlen]; omega), List.getElem?_eq_none (by omega)]

theorem InvertPermutation_inverse_witness :
    Example.fold.LearnPermutation.Perm (List.range Example.fold.LearnPermutation.length) ∧
    InvertPermutation (InvertPermutation Example.fold.LearnPermutation)
      = Example.fold.LearnPermutation :=
  ⟨by decide,
    (InvertPermutation_inverse Example.fold.LearnPermutation (by decide)).2.2.2⟩

/-! ## The length of a cached vector -/

theorem getD_append_length {α : Type} (l : List α) (x d : α) :
    (l ++ [x]).getD l.length d = x := by
  rw [List.getD_eq_getElem?_getD, List.getElem?_append_right (le_refl _), Nat.sub_self]
  rfl

/-- C36. The vector `GetStats` returns for a split candidate has the `statsCount` of the call
that allocated it.  On a miss the call reports new statistics and the vector it returns has
exactly `statsCount` elements.  A later call for the same candidate, after any requests that
do not store into that vector, returns the same vector without looking at its own
`laterCount`: the statistics are reported as not new and the vector still has `statsCount`
elements.  On a hit the result does not depend on the `statsCount` argument. -/
theorem GetStats_length (self : TBucketStatsCache) (split : TSplitCandidate)
    (statsCount laterCount : Nat) (requests : List TCacheRequest)
    (habsent : self.Stats.lookup split = none ∨ self.Stats.lookup split = some none)
    (hw : ∀ q ∈ requests, ∀ stats,
      q ≠ TCacheRequest.Write (self.GetStats split statsCount).1.1 stats) :
    (self.GetStats split statsCount).1.2 = true ∧
    ((self.GetStats split statsCount).2.Heap.getD (self.GetStats split statsCount).1.1
      []).length = statsCount ∧
    (((self.GetStats split statsCount).2.ServeAll requests).GetStats split laterCount).1
      = ((self.GetStats split statsCount).1.1, false) ∧
    ((((self.GetStats split statsCount).2.ServeAll requests).GetStats split
      laterCount).2.Heap.getD (self.GetStats split statsCount).1.1 []).length = statsCount ∧
    (∀ (cache : TBucketStatsCache) (splitStats count1 count2 : Nat),
      cache.Stats.lookup split = some (some splitStats) →
      cache.GetStats split count1 = cache.GetStats split count2) := by
  have hmiss := GetStats_miss self split statsCount habsent
  have hlook : (self.GetStats split statsCount).2.Stats.lookup split
      = some (some (self.GetStats split statsCount).1.1) := by
    rw [hmiss]
    simp only [List.lookup_cons, beq_self_eq_true]
  have hlt : (self.GetStats split statsCount).1.1
      < (self.GetStats split statsCount).2.Heap.length := by
    rw [hmiss]
    simp only [List.length_append, List.length_singleton]
    omega
  have hbuf : ((self.GetStats split statsCount).2.Heap.getD
      (self.GetStats split statsCount).1.1 []).length = statsCount := by
    rw [hmiss]
    simp only
    rw [getD_append_length, length_yresize]
  obtain ⟨hk1, hk2⟩ := ServeAll_keeps requests _ split _ hlook hlt
  have hc := ServeAll_contents requests _ split _ hlook hlt hw
  have hhit := GetStats_hit ((self.GetStats split statsCount).2.ServeAll requests) split
    laterCount _ hk1
  refine ⟨?_, hbuf, ?_, ?_, ?_⟩
  · rw [hmiss]
  · rw [hhit]
  · rw [hhit]
    simp only
    rw [hc]
    exact hbuf
  · intro cache splitStats count1 count2 h
    rw [GetStats_hit cache split count1 splitStats h, GetStats_hit cache split count2 splitStats h]

theorem GetStats_length_witness :
    (Example.cache.Stats.lookup ⟨2, 0⟩ = none ∨
      Example.cache.Stats.lookup ⟨2, 0⟩ = some none) ∧
    ((((Example.cache.GetStats ⟨2, 0⟩ 3).2.ServeAll
        [TCacheRequest.GetStats ⟨1, 0⟩ 5, TCacheRequest.GetStats ⟨3, 0⟩ 4]).GetStats ⟨2, 0⟩
      7).2.Heap.getD (Example.cache.GetStats ⟨2, 0⟩ 3).1.1 []).length = 3 :=
  ⟨Or.inl (by decide),
    (GetStats_length Example.cache ⟨2, 0⟩ 3 7
      [TCacheRequest.GetStats ⟨1, 0⟩ 5, TCacheRequest.GetStats ⟨3, 0⟩ 4] (Or.inl (by decide))
      (by
        intro q hq stats h
        rw [h] at hq
        simp at hq)).2.2.2.1⟩

/-! ## The bulk copy and the loop -/

theorem SetElementsLoop_all_true {α : Type} [Inhabited α] (controlData : TPtr Bool)
    (sourceData : TPtr α) (t : Nat) :
    ∀ (remaining i : Nat) (dst : TArrayRef α),
      i + remaining ≤ t → (∀ j, j < i + remaining → controlData.read j = true) →
      SetElementsLoop controlData sourceData GetElement t remaining i i dst
        = ((List.range' i remaining).foldl (fun dst j => dst.write j (sourceData.read j)) dst,
            i + remaining) := by
  intro remaining
  induction remaining with
  | zero =>
    intro i dst _ _
    rfl
  | succ r ih =>
    intro i dst hle hall
    rw [SetElementsLoop, if_pos (by omega), hall i (by omega)]
    have h := ih (i + 1) (dst.write i (GetElement sourceData i)) (by omega)
      (fun j hj => hall j (by omega))
    simp only [Bool.toNat_true]
    rw [h, List.range'_succ, List.foldl_cons]
    congr 1
    omega

/-- C37. The bulk-copy path of `SetElements` agrees with its loop.  When the source is not
empty, the destination block is as long as the control block and is sized by the number of
true control entries, as `CreateByControl` sizes it, and the source block is not longer than
the control block (it may be clipped shorter), then every control entry of the block is true,
`SetElements` takes the bulk-copy path, and the destination and the reported count are
those that the element-by-element loop with `GetElement` yields. -/
theorem SetElements_fast_path_refines {α : Type} [Inhabited α]
    (srcControlRef : TConstArrayRef Bool) (srcRef : TConstArrayRef α) (dstRef : TArrayRef α)
    (hsrc : srcRef.data.isSome = true)
    (hsize : srcControlRef.size = dstRef.size)
    (ht : dstRef.size
      = ((List.range srcControlRef.size).filter fun j => srcControlRef.data.read j).length)
    (hclip : srcRef.size ≤ srcControlRef.size) :
    (∀ j, j < srcControlRef.size → srcControlRef.data.read j = true) ∧
    SetElements srcControlRef srcRef GetElement dstRef
      = (Copy srcRef.data srcRef.size dstRef, srcRef.size) ∧
    SetElements srcControlRef srcRef GetElement dstRef
      = SetElementsLoop srcControlRef.data srcRef.data GetElement dstRef.size srcRef.size 0 0
          dstRef := by
  have hall : ∀ j, j < srcControlRef.size → srcControlRef.data.read j = true := by
    intro j hj
    have hlen : ((List.range srcControlRef.size).filter
        fun j => srcControlRef.data.read j).length = (List.range srcControlRef.size).length := by
      rw [← ht, ← hsize, List.length_range]
    have hself := List.filter_length_eq_length.mp hlen
    exact hself j (List.mem_range.mpr hj)
  have hfast : SetElements srcControlRef srcRef GetElement dstRef
      = (Copy srcRef.data srcRef.size dstRef, srcRef.size) := by
    unfold SetElements
    simp only
    rw [if_pos ⟨hsrc, hsize⟩]
  refine ⟨hall, hfast, ?_⟩
  rw [hfast, SetElementsLoop_all_true srcControlRef.data srcRef.data dstRef.size srcRef.size 0
    dstRef (by omega) (fun j hj => hall j (by omega)), Nat.zero_add]
  unfold Copy
  rw [List.range_eq_range']

theorem SetElements_fast_path_refines_witness :
    (3 : Nat) = ((List.range 3).filter fun j => TPtr.read (some [true, true, true]) j).length ∧
    SetElements ⟨some [true, true, true], 3⟩ ⟨some [10, 20, 30], 2⟩ GetElement
        (⟨[0, 0, 0, 0, 0], 1, 3⟩ : TArrayRef Nat)
      = SetElementsLoop (some [true, true, true]) (some [10, 20, 30]) GetElement 3 2 0 0
          (⟨[0, 0, 0, 0, 0], 1, 3⟩ : TArrayRef Nat) :=
  ⟨by decide,
    (SetElements_fast_path_refines ⟨some [true, true, true], 3⟩ ⟨some [10, 20, 30], 2⟩
      (⟨[0, 0, 0, 0, 0], 1, 3⟩ : TArrayRef Nat) rfl rfl (by decide) (by decide)).2.2⟩

/-- A destination block as long as a control block with a false entry is not sized by the
true entries; there the bulk copy keeps the element of the false position and the loop drops
it. -/
theorem SetElements_fast_path_unsized :
    (SetElements ⟨some [true, false, true], 3⟩ ⟨some [10, 20, 30], 3⟩ GetElement
        (⟨[0, 0, 0], 0, 3⟩ : TArrayRef Nat)).1.vec = [10, 20, 30] ∧
    (SetElementsLoop (some [true, false, true]) (some [10, 20, 30]) GetElement 3 3 0 0
        (⟨[0, 0, 0], 0, 3⟩ : TArrayRef Nat)).1.vec = [10, 30, 0] := by
  decide

end CatBoost
